import Mathlib

/-!
# ncnnoptimize: graph rewriting passes of `tools/ncnnoptimize.cpp`

A shallow embedding of the `NetOptimize` passes.  The network is a list of
layers in load order plus a blob table; every pass is a `for` loop over the
layer indices whose body is embedded as a step function and iterated with
`List.foldl` over `List.range layer_count`.  The eleven forward passes differ
only by the pass name, the producer type, the consumer test and the numeric
block, which are the parameters of `fuse_step`.

Modelling choices:

* Floating point values are taken in an arbitrary field `F` with decidable
  equality (exact arithmetic); the square root used by the BatchNorm fold is a
  parameter `sqrt : F → F`, instantiated with `Real.sqrt` in the numeric
  examples.
* `int` parameters (`channels`, `bias_term`, `weight_data_size`,
  `activation_type`, `Blob::producer`) are integers; layer and blob indices are
  natural numbers.
* `ncnn::Mat` vectors and `std::vector` are lists.  An element read is
  `List.getD`, an element write is `List.set`: an out-of-range read yields the
  default and an out-of-range write does nothing, where the C++ behaviour is
  undefined.  Theorems whose conclusion depends on an access being in range state
  that as a hypothesis.
* The `_checked` variants of the folds and passes make the undefined cases
  explicit: they return `Option`, with `none` when an index is not below the
  size of the vector it is applied to or when a divisor (the integer `channels`
  or the float `sqrt(var + eps)`) is zero.
* A layer is a record holding the base-class fields and the fields of the
  derived classes used by the passes; the pointer casts of the source are
  projections of that record.
* `main` is the composition `optimize` of the twelve passes followed by `save`;
  `save` yields the contents of the two files it writes, the parameter text as a
  `String` and the weight file as the list of records written.
-/

namespace NcnnOptimize

/-! ## Data model -/

/-- Blob of the net (`ncnn::Blob`): a named edge with the index of its
producing layer (`-1` when none was recorded). -/
structure Blob where
  name : String
  producer : Int
  consumers : List Int
deriving DecidableEq

/-- Layer of the net.  The C++ code holds a `ncnn::Layer*` and casts it to the
class named by `type`; the record carries the base-class fields (`type`,
`name`, `bottoms`, `tops`) and the fields of the derived classes that the
passes read or write: `BatchNorm` (`channels`, `eps`, `slope_data`,
`mean_data`, `var_data`, `bias_data`), `Scale` (`scale_data`, `bias_term`,
`bias_data`), the five affine classes `Convolution`, `ConvolutionDepthWise`,
`Deconvolution`, `DeconvolutionDepthWise`, `InnerProduct` (`bias_term`,
`weight_data_size`, `weight_data`, `bias_data`, `activation_type`,
`activation_params`), `ReLU` (`slope`), `Clip` (`min`, `max`) and `Dropout`
(`scale`).  `typeindex` is the base-class field read by `save`; the members of
the derived classes that only `save` reads are kept by member name in
`int_params`, `float_params` (`int` and `float` members) and `mat_params`
(`ncnn::Mat` members). -/
structure Layer (F : Type) where
  type : String
  name : String
  bottoms : List Nat
  tops : List Nat
  channels : Int
  eps : F
  slope_data : List F
  mean_data : List F
  var_data : List F
  bias_data : List F
  scale_data : List F
  bias_term : Int
  weight_data_size : Int
  weight_data : List F
  activation_type : Int
  activation_params : List F
  slope : F
  min : F
  max : F
  scale : F
  typeindex : Int
  int_params : List (String × Int)
  float_params : List (String × F)
  mat_params : List (String × List F)
deriving DecidableEq

/-- State of the optimizer: the layers in load order, the blob table, and the
lines written so far to the diagnostic stream. -/
structure NetOptimize (F : Type) where
  layers : List (Layer F)
  blobs : List Blob
  stderr : List String
deriving DecidableEq

section Defs

variable {F : Type} [Field F] [DecidableEq F]

/-- Layer with every field empty or zero, used where an index is out of range. -/
def Layer.blank : Layer F :=
  { type := "", name := "", bottoms := [], tops := [], channels := 0, eps := 0,
    slope_data := [], mean_data := [], var_data := [], bias_data := [],
    scale_data := [], bias_term := 0, weight_data_size := 0, weight_data := [],
    activation_type := 0, activation_params := [], slope := 0, min := 0, max := 0,
    scale := 0, typeindex := 0, int_params := [], float_params := [], mat_params := [] }

/-- Blob returned by an out-of-range read of the blob table. -/
def Blob.blank : Blob := { name := "", producer := -1, consumers := [] }

/-- The expression `layers[i]`. -/
def layerAt (layers : List (Layer F)) (i : Nat) : Layer F :=
  layers.getD i Layer.blank

/-- The statement `blobs[t].producer = p`. -/
def set_producer (blobs : List Blob) (t : Nat) (p : Int) : List Blob :=
  blobs.set t { blobs.getD t Blob.blank with producer := p }

/-! ## Numeric folds -/

/-- The vector `a` of the BatchNorm fold:
`a[i] = bias_data[i] - slope_data[i] * mean_data[i] / sqrt(var_data[i] + eps)`. -/
def batchnorm_a (sqrt : F → F) (batchnorm : Layer F) : List F :=
  (List.range batchnorm.channels.toNat).map fun i =>
    let sqrt_var := sqrt (batchnorm.var_data.getD i 0 + batchnorm.eps)
    batchnorm.bias_data.getD i 0
      - batchnorm.slope_data.getD i 0 * batchnorm.mean_data.getD i 0 / sqrt_var

/-- The vector `b` of the BatchNorm fold:
`b[i] = slope_data[i] / sqrt(var_data[i] + eps)`. -/
def batchnorm_b (sqrt : F → F) (batchnorm : Layer F) : List F :=
  (List.range batchnorm.channels.toNat).map fun i =>
    let sqrt_var := sqrt (batchnorm.var_data.getD i 0 + batchnorm.eps)
    batchnorm.slope_data.getD i 0 / sqrt_var

/-- The inner loop `for j < weight_per_outch: conv_weight_outch[j] *= b_i`, where
`conv_weight_outch = weight + base`. -/
def scale_outch (weight : List F) (base weight_per_outch : Nat) (b_i : F) : List F :=
  (List.range weight_per_outch).foldl
    (fun w j => w.set (base + j) (w.getD (base + j) 0 * b_i)) weight

/-- The loop over output channels of the BatchNorm fold: scales the weight slice
of channel `i` by `b[i]` and adds `a[i]` to `bias[i]`. -/
def fold_channels (a b : List F) (weight_per_outch channels : Nat)
    (weight bias : List F) : List F × List F :=
  (List.range channels).foldl
    (fun wb i =>
      (scale_outch wb.1 (weight_per_outch * i) weight_per_outch (b.getD i 0),
       wb.2.set i (wb.2.getD i 0 + a.getD i 0)))
    (weight, bias)

/-- The numeric block of the five `fuse_*_batchnorm` passes (lines 192-231 for
`Convolution`), applied to the producer `convolution` and the matched
`batchnorm`. -/
def fold_batchnorm (sqrt : F → F) (convolution batchnorm : Layer F) : Layer F :=
  let channels := batchnorm.channels
  let a := batchnorm_a sqrt batchnorm
  let b := batchnorm_b sqrt batchnorm
  let convolution :=
    if convolution.bias_term = 0 then
      { convolution with bias_term := 1, bias_data := List.replicate channels.toNat 0 }
    else convolution
  let weight_per_outch := Int.tdiv convolution.weight_data_size channels
  let wb := fold_channels a b weight_per_outch.toNat channels.toNat
    convolution.weight_data convolution.bias_data
  { convolution with weight_data := wb.1, bias_data := wb.2 }

/-- The loop over channels of `fuse_batchnorm_scale` (lines 140-147). -/
def scale_channels (scale : Layer F) (channels : Nat) (slope bias : List F) :
    List F × List F :=
  (List.range channels).foldl
    (fun sb q =>
      (sb.1.set q (sb.1.getD q 0 * scale.scale_data.getD q 0),
       if scale.bias_term ≠ 0 then
         sb.2.set q (sb.2.getD q 0 * scale.scale_data.getD q 0 + scale.bias_data.getD q 0)
       else
         sb.2.set q (sb.2.getD q 0 * scale.scale_data.getD q 0)))
    (slope, bias)

/-- The numeric block of `fuse_batchnorm_scale` (lines 131-148). -/
def fold_scale (batchnorm scale : Layer F) : Layer F :=
  let sb := scale_channels scale batchnorm.channels.toNat
    batchnorm.slope_data batchnorm.bias_data
  { batchnorm with slope_data := sb.1, bias_data := sb.2 }

/-- The activation block of the five `fuse_*_activation` passes (lines 607-630
for `Convolution`). -/
def fold_activation (convolution activation : Layer F) : Layer F :=
  if activation.type = "ReLU" then
    if activation.slope = 0 then
      { convolution with activation_type := 1 }
    else
      { convolution with activation_type := 2, activation_params := [activation.slope] }
  else if activation.type = "Clip" then
    { convolution with activation_type := 3,
                       activation_params := [activation.min, activation.max] }
  else convolution

/-! ## The forward passes -/

/-- The scan `for (; j<layer_count; j++)` of a forward pass, started at `j` with
`remaining = layer_count - j` iterations left; the result is the value of `j`
when the loop is left, `layer_count` when no layer matched. -/
def forward_scan (layers : List (Layer F)) (is_consumer : String → Bool)
    (top_blob_index : Nat) : Nat → Nat → Nat
  | 0, j => j
  | remaining + 1, j =>
    if !is_consumer (layerAt layers j).type then
      forward_scan layers is_consumer top_blob_index remaining (j + 1)
    else if (layerAt layers j).bottoms.length ≠ 1 then
      forward_scan layers is_consumer top_blob_index remaining (j + 1)
    else if (layerAt layers j).bottoms.getD 0 0 = top_blob_index then j
    else forward_scan layers is_consumer top_blob_index remaining (j + 1)

/-- The four statements that end every rewrite, for producer `p` and consumer `c`:
`top_blob_index_final = consumer->tops[0]`,
`producer->tops[0] = top_blob_index_final`,
`blobs[top_blob_index_final].producer = p` and `consumer->type = "ncnnfused"`. -/
def reroute (s : NetOptimize F) (p c : Nat) : NetOptimize F :=
  let top_blob_index_final := (layerAt s.layers c).tops.getD 0 0
  let layers := s.layers.set p
    { layerAt s.layers p with tops := (layerAt s.layers p).tops.set 0 top_blob_index_final }
  let blobs := set_producer s.blobs top_blob_index_final p
  let layers := layers.set c { layerAt layers c with type := "ncnnfused" }
  { s with layers := layers, blobs := blobs }

/-- The diagnostic line `fprintf(stderr, "<pass> %s %s\n", first, second)`. -/
def diagnostic (pass_name first second : String) : String :=
  pass_name ++ " " ++ first ++ " " ++ second ++ "\n"

/-- The rewrite done by a forward pass once producer `i` and consumer `j` are
matched: the diagnostic line, the numeric block `fold` mutating layer `i` in
place, then the reroute. -/
def fuse_pair (pass_name : String)
    (fold : Layer F → Layer F → Layer F) (s : NetOptimize F) (i j : Nat) :
    NetOptimize F :=
  let line := diagnostic pass_name (layerAt s.layers i).name (layerAt s.layers j).name
  let s := { s with stderr := s.stderr ++ [line] }
  let folded := fold (layerAt s.layers i) (layerAt s.layers j)
  let s := { s with layers := s.layers.set i folded }
  reroute s i j

/-- The body of the outer loop of a forward pass at index `i`. -/
def fuse_step (pass_name : String) (producer_type : String)
    (is_consumer : String → Bool) (fold : Layer F → Layer F → Layer F)
    (layer_count : Nat) (s : NetOptimize F) (i : Nat) : NetOptimize F :=
  if (layerAt s.layers i).type ≠ producer_type then s
  else
    let top_blob_index := (layerAt s.layers i).tops.getD 0 0
    let j := forward_scan s.layers is_consumer top_blob_index (layer_count - (i + 1)) (i + 1)
    if j = layer_count then s
    else fuse_pair pass_name fold s i j

/-- A forward pass: `for (int i=0; i<layer_count; i++)` over `fuse_step`. -/
def forward_pass (pass_name : String) (producer_type : String)
    (is_consumer : String → Bool) (fold : Layer F → Layer F → Layer F)
    (s : NetOptimize F) : NetOptimize F :=
  (List.range s.layers.length).foldl
    (fuse_step pass_name producer_type is_consumer fold s.layers.length) s

/-- Consumer test of `fuse_batchnorm_scale`: `type == "Scale"`. -/
def is_scale (type : String) : Bool := type == "Scale"

/-- Consumer test of the `fuse_*_batchnorm` passes: `type == "BatchNorm"`. -/
def is_batchnorm (type : String) : Bool := type == "BatchNorm"

/-- Consumer test of the `fuse_*_activation` passes:
`type == "ReLU" || type == "Clip"`. -/
def is_activation (type : String) : Bool := type == "ReLU" || type == "Clip"

/-- `NetOptimize::fuse_batchnorm_scale` (lines 98-157). -/
def fuse_batchnorm_scale (s : NetOptimize F) : NetOptimize F :=
  forward_pass "fuse_batchnorm_scale" "BatchNorm" is_scale fold_scale s

/-- `NetOptimize::fuse_convolution_batchnorm` (lines 159-240). -/
def fuse_convolution_batchnorm (sqrt : F → F) (s : NetOptimize F) : NetOptimize F :=
  forward_pass "fuse_convolution_batchnorm" "Convolution" is_batchnorm (fold_batchnorm sqrt) s

/-- `NetOptimize::fuse_convolutiondepthwise_batchnorm` (lines 242-323). -/
def fuse_convolutiondepthwise_batchnorm (sqrt : F → F) (s : NetOptimize F) : NetOptimize F :=
  forward_pass "fuse_convolutiondepthwise_batchnorm" "ConvolutionDepthWise" is_batchnorm
    (fold_batchnorm sqrt) s

/-- `NetOptimize::fuse_deconvolution_batchnorm` (lines 325-406). -/
def fuse_deconvolution_batchnorm (sqrt : F → F) (s : NetOptimize F) : NetOptimize F :=
  forward_pass "fuse_deconvolution_batchnorm" "Deconvolution" is_batchnorm
    (fold_batchnorm sqrt) s

/-- `NetOptimize::fuse_deconvolutiondepthwise_batchnorm` (lines 408-489). -/
def fuse_deconvolutiondepthwise_batchnorm (sqrt : F → F) (s : NetOptimize F) :
    NetOptimize F :=
  forward_pass "fuse_deconvolutiondepthwise_batchnorm" "DeconvolutionDepthWise" is_batchnorm
    (fold_batchnorm sqrt) s

/-- `NetOptimize::fuse_innerproduct_batchnorm` (lines 491-572). -/
def fuse_innerproduct_batchnorm (sqrt : F → F) (s : NetOptimize F) : NetOptimize F :=
  forward_pass "fuse_innerproduct_batchnorm" "InnerProduct" is_batchnorm
    (fold_batchnorm sqrt) s

/-- `NetOptimize::fuse_convolution_activation` (lines 574-639). -/
def fuse_convolution_activation (s : NetOptimize F) : NetOptimize F :=
  forward_pass "fuse_convolution_activation" "Convolution" is_activation fold_activation s

/-- `NetOptimize::fuse_convolutiondepthwise_activation` (lines 641-706). -/
def fuse_convolutiondepthwise_activation (s : NetOptimize F) : NetOptimize F :=
  forward_pass "fuse_convolutiondepthwise_activation" "ConvolutionDepthWise" is_activation
    fold_activation s

/-- `NetOptimize::fuse_deconvolution_activation` (lines 708-773). -/
def fuse_deconvolution_activation (s : NetOptimize F) : NetOptimize F :=
  forward_pass "fuse_deconvolution_activation" "Deconvolution" is_activation
    fold_activation s

/-- `NetOptimize::fuse_deconvolutiondepthwise_activation` (lines 775-840). -/
def fuse_deconvolutiondepthwise_activation (s : NetOptimize F) : NetOptimize F :=
  forward_pass "fuse_deconvolutiondepthwise_activation" "DeconvolutionDepthWise"
    is_activation fold_activation s

/-- `NetOptimize::fuse_innerproduct_activation` (lines 842-907). -/
def fuse_innerproduct_activation (s : NetOptimize F) : NetOptimize F :=
  forward_pass "fuse_innerproduct_activation" "InnerProduct" is_activation
    fold_activation s

/-! ## Dropout elimination -/

/-- The scan `for (; j>=0; j--)` of `eliminate_dropout`, with `n = j + 1`; the
result is the value of `j` when the loop is left, `-1` when no layer matched. -/
def backward_scan (layers : List (Layer F)) (bottom_blob_index : Nat) : Nat → Int
  | 0 => -1
  | j + 1 =>
    if (layerAt layers j).type = "ncnnfused" then
      backward_scan layers bottom_blob_index j
    else if (layerAt layers j).tops.length ≠ 1 then
      backward_scan layers bottom_blob_index j
    else if (layerAt layers j).tops.getD 0 0 = bottom_blob_index then (j : Int)
    else backward_scan layers bottom_blob_index j

/-- The rewrite of `eliminate_dropout` once the producer `j` of the Dropout `i`
is found (lines 940-947): the diagnostic line, then the reroute. -/
def eliminate_pair (s : NetOptimize F) (i j : Nat) : NetOptimize F :=
  let line := diagnostic "eliminate_dropout" (layerAt s.layers j).name (layerAt s.layers i).name
  let s := { s with stderr := s.stderr ++ [line] }
  reroute s j i

/-- The body of the loop of `eliminate_dropout` at index `i`. -/
def eliminate_step (s : NetOptimize F) (i : Nat) : NetOptimize F :=
  if (layerAt s.layers i).type ≠ "Dropout" then s
  else if (layerAt s.layers i).scale ≠ 1 then s
  else
    let bottom_blob_index := (layerAt s.layers i).bottoms.getD 0 0
    let j := backward_scan s.layers bottom_blob_index i
    if j = -1 then s
    else eliminate_pair s i j.toNat

/-- `NetOptimize::eliminate_dropout` (lines 909-951). -/
def eliminate_dropout (s : NetOptimize F) : NetOptimize F :=
  (List.range s.layers.length).foldl eliminate_step s

/-! ## The pass driver -/

/-- The twelve passes called by `main` (lines 1619-1631). -/
inductive Pass
  | fuse_batchnorm_scale
  | fuse_convolution_batchnorm
  | fuse_convolutiondepthwise_batchnorm
  | fuse_deconvolution_batchnorm
  | fuse_deconvolutiondepthwise_batchnorm
  | fuse_innerproduct_batchnorm
  | fuse_convolution_activation
  | fuse_convolutiondepthwise_activation
  | fuse_deconvolution_activation
  | fuse_deconvolutiondepthwise_activation
  | fuse_innerproduct_activation
  | eliminate_dropout
deriving DecidableEq

/-- Runs one pass of the optimizer. -/
def run_pass (sqrt : F → F) : Pass → NetOptimize F → NetOptimize F
  | .fuse_batchnorm_scale => fuse_batchnorm_scale
  | .fuse_convolution_batchnorm => fuse_convolution_batchnorm sqrt
  | .fuse_convolutiondepthwise_batchnorm => fuse_convolutiondepthwise_batchnorm sqrt
  | .fuse_deconvolution_batchnorm => fuse_deconvolution_batchnorm sqrt
  | .fuse_deconvolutiondepthwise_batchnorm => fuse_deconvolutiondepthwise_batchnorm sqrt
  | .fuse_innerproduct_batchnorm => fuse_innerproduct_batchnorm sqrt
  | .fuse_convolution_activation => fuse_convolution_activation
  | .fuse_convolutiondepthwise_activation => fuse_convolutiondepthwise_activation
  | .fuse_deconvolution_activation => fuse_deconvolution_activation
  | .fuse_deconvolutiondepthwise_activation => fuse_deconvolutiondepthwise_activation
  | .fuse_innerproduct_activation => fuse_innerproduct_activation
  | .eliminate_dropout => eliminate_dropout

/-! ## Graph predicates of the specification -/

/-- The test "layer `j` has the consumer kind, exactly one bottom, and that bottom
is `top_blob_index`" made by the forward scan on each candidate. -/
def is_partner (layers : List (Layer F)) (is_consumer : String → Bool)
    (top_blob_index : Nat) (j : Nat) : Prop :=
  is_consumer (layerAt layers j).type = true ∧ (layerAt layers j).bottoms.length = 1 ∧
    (layerAt layers j).bottoms.getD 0 0 = top_blob_index

/-- The test "layer `j` is not tombstoned, has exactly one top, and that top is
`bottom_blob_index`" made by the backward scan of `eliminate_dropout`. -/
def is_source (layers : List (Layer F)) (bottom_blob_index : Nat) (j : Nat) : Prop :=
  (layerAt layers j).type ≠ "ncnnfused" ∧ (layerAt layers j).tops.length = 1 ∧
    (layerAt layers j).tops.getD 0 0 = bottom_blob_index

/-- Graph invariant 1: for every live layer `L` and every top `t` of `L`,
`blobs[t].producer == index(L)`. -/
def ProducerConsistent (s : NetOptimize F) : Prop :=
  ∀ i, i < s.layers.length → (layerAt s.layers i).type ≠ "ncnnfused" →
    ∀ t ∈ (layerAt s.layers i).tops, (s.blobs.getD t Blob.blank).producer = (i : Int)

/-- All blob indices held by the layers are in range of the blob table. -/
def BlobIndicesInRange (s : NetOptimize F) : Prop :=
  ∀ i, i < s.layers.length →
    (∀ t ∈ (layerAt s.layers i).tops, t < s.blobs.length) ∧
    (∀ b ∈ (layerAt s.layers i).bottoms, b < s.blobs.length)

/-- Every live layer has at least one top, so that `tops[0]` is defined. -/
def LiveLayersHaveTop (s : NetOptimize F) : Prop :=
  ∀ i, i < s.layers.length → (layerAt s.layers i).type ≠ "ncnnfused" →
    (layerAt s.layers i).tops ≠ []

/-- Every bottom of every live layer is a top of some live layer (the inputs of
the graph are the tops of its `Input` layers). -/
def BottomConsistent (s : NetOptimize F) : Prop :=
  ∀ i, i < s.layers.length → (layerAt s.layers i).type ≠ "ncnnfused" →
    ∀ b ∈ (layerAt s.layers i).bottoms,
      ∃ k, k < s.layers.length ∧ (layerAt s.layers k).type ≠ "ncnnfused" ∧
        b ∈ (layerAt s.layers k).tops

/-- No blob is a bottom of two different live layers. -/
def SingleReader (s : NetOptimize F) : Prop :=
  ∀ i, i < s.layers.length → ∀ k, k < s.layers.length →
    ((layerAt s.layers i).type ≠ "ncnnfused" ∧ (layerAt s.layers k).type ≠ "ncnnfused" ∧
      ∃ b ∈ (layerAt s.layers i).bottoms, b ∈ (layerAt s.layers k).bottoms) → i = k

/-- The kinds that a pass can tombstone: Scale, BatchNorm, ReLU, Clip, Dropout. -/
def is_consumer_kind (type : String) : Bool :=
  type == "Scale" || type == "BatchNorm" || type == "ReLU" || type == "Clip"
    || type == "Dropout"

/-- Every layer of a consumer kind has at least one top, so that the
`consumer->tops[0]` read by the rewrites is defined. -/
def ConsumersHaveTop (s : NetOptimize F) : Prop :=
  ∀ i, i < s.layers.length → is_consumer_kind (layerAt s.layers i).type = true →
    (layerAt s.layers i).tops ≠ []

/-- Every layer of a consumer kind has exactly one bottom and exactly one top. -/
def ConsumerShape (s : NetOptimize F) : Prop :=
  ∀ i, i < s.layers.length → is_consumer_kind (layerAt s.layers i).type = true →
    (layerAt s.layers i).bottoms.length = 1 ∧ (layerAt s.layers i).tops.length = 1

/-- Two states have the same shape when they have the same blob table and their
layers agree on type, tops and bottoms. -/
def Similar (s1 s2 : NetOptimize F) : Prop :=
  s1.layers.length = s2.layers.length ∧ s1.blobs = s2.blobs ∧
    ∀ k, (layerAt s1.layers k).type = (layerAt s2.layers k).type ∧
      (layerAt s1.layers k).tops = (layerAt s2.layers k).tops ∧
      (layerAt s1.layers k).bottoms = (layerAt s2.layers k).bottoms

/-- A numeric block leaves the type, tops and bottoms of the producer alone. -/
def FoldFrame (fold : Layer F → Layer F → Layer F) : Prop :=
  ∀ p c, (fold p c).type = p.type ∧ (fold p c).tops = p.tops ∧
    (fold p c).bottoms = p.bottoms

/-- The facts established by a scan before a reroute of producer `p` and consumer
`c`: the producer precedes the consumer and is live, the consumer has a consumer
kind, and the consumer's first bottom is the producer's first top. -/
def RerouteReady (s : NetOptimize F) (p c : Nat) : Prop :=
  p < c ∧ c < s.layers.length ∧ (layerAt s.layers p).type ≠ "ncnnfused" ∧
    is_consumer_kind (layerAt s.layers c).type = true ∧
    (layerAt s.layers c).bottoms.getD 0 0 = (layerAt s.layers p).tops.getD 0 0

/-- A predicate on states that depends only on the graph shape and is kept by
every reroute that follows a successful scan. -/
def PassInvariant (I : NetOptimize F → Prop) : Prop :=
  (∀ s1 s2, Similar s1 s2 → I s1 → I s2) ∧
  (∀ s p c, RerouteReady s p c → I s → I (reroute s p c))

instance (layers : List (Layer F)) (is_consumer : String → Bool) (t j : Nat) :
    Decidable (is_partner layers is_consumer t j) := by
  unfold is_partner; infer_instance

instance (layers : List (Layer F)) (b j : Nat) : Decidable (is_source layers b j) := by
  unfold is_source; infer_instance

instance (s : NetOptimize F) : Decidable (ProducerConsistent s) := by
  unfold ProducerConsistent; infer_instance

instance (s : NetOptimize F) : Decidable (BlobIndicesInRange s) := by
  unfold BlobIndicesInRange; infer_instance

instance (s : NetOptimize F) : Decidable (LiveLayersHaveTop s) := by
  unfold LiveLayersHaveTop; infer_instance

instance (s : NetOptimize F) : Decidable (BottomConsistent s) := by
  unfold BottomConsistent; infer_instance

instance (s : NetOptimize F) : Decidable (SingleReader s) := by
  unfold SingleReader; infer_instance

instance (s : NetOptimize F) : Decidable (ConsumersHaveTop s) := by
  unfold ConsumersHaveTop; infer_instance

instance (s : NetOptimize F) : Decidable (ConsumerShape s) := by
  unfold ConsumerShape; infer_instance

end Defs

section Examples

variable {F : Type} [Field F] [DecidableEq F]

/-- Layer with the given type, name, bottoms and tops and every other field zero. -/
def plain_layer (type name : String) (bottoms tops : List Nat) : Layer F :=
  { (Layer.blank : Layer F) with type := type, name := name, bottoms := bottoms, tops := tops }

/-- Graph `Input -> BatchNorm -> Scale` in which a Sigmoid also reads the
BatchNorm's top (blob 1). -/
def shared_top_net : NetOptimize F :=
  { layers :=
      [plain_layer "Input" "data" [] [0],
       { plain_layer "BatchNorm" "bn" [0] [1] with
         channels := 1, slope_data := [1], mean_data := [0], var_data := [1], bias_data := [0] },
       { plain_layer "Scale" "scale" [1] [2] with scale_data := [2] },
       plain_layer "Sigmoid" "sig" [1] [3]],
    blobs := [⟨"data", 0, [1]⟩, ⟨"bn", 1, [2, 3]⟩, ⟨"scale", 2, []⟩, ⟨"sig", 3, []⟩],
    stderr := [] }

/-- The chain `Input -> Convolution -> BatchNorm -> ReLU -> Dropout`; layer `k`
has the single top `k` and reads blob `k - 1`. -/
def chain_net : NetOptimize F :=
  { layers :=
      [plain_layer "Input" "data" [] [0],
       { plain_layer "Convolution" "conv" [0] [1] with
         weight_data_size := 1, weight_data := [2] },
       { plain_layer "BatchNorm" "bn" [1] [2] with
         channels := 1, eps := 1, slope_data := [3], mean_data := [1], var_data := [3],
         bias_data := [1 / 2] },
       plain_layer "ReLU" "relu" [2] [3],
       { plain_layer "Dropout" "drop" [3] [4] with scale := 1 }],
    blobs := [⟨"data", 0, [1]⟩, ⟨"conv", 1, [2]⟩, ⟨"bn", 2, [3]⟩, ⟨"relu", 3, [4]⟩,
              ⟨"drop", 4, []⟩],
    stderr := [] }


/-- Graph in which a Convolution has two tops (blobs 1 and 2) and a BatchNorm
reads the first of them. -/
def two_top_net : NetOptimize F :=
  { layers :=
      [plain_layer "Input" "data" [] [0],
       { plain_layer "Convolution" "conv" [0] [1, 2] with
         weight_data_size := 1, weight_data := [2] },
       { plain_layer "BatchNorm" "bn" [1] [3] with
         channels := 1, eps := 1, slope_data := [3], mean_data := [1], var_data := [3],
         bias_data := [1 / 2] },
       plain_layer "Sigmoid" "sig" [2] [4]],
    blobs := [⟨"data", 0, [1]⟩, ⟨"conv", 1, [2]⟩, ⟨"conv_aux", 1, [3]⟩, ⟨"bn", 2, []⟩,
              ⟨"sig", 3, []⟩],
    stderr := [] }

end Examples

section ActivationExamples

variable {F : Type} [Field F] [DecidableEq F]

/-- Graph `Input -> Convolution -> ReLU(slope)`. -/
def relu_net (slope : F) : NetOptimize F :=
  { layers :=
      [plain_layer "Input" "data" [] [0],
       plain_layer "Convolution" "conv" [0] [1],
       { plain_layer "ReLU" "relu" [1] [2] with slope := slope }],
    blobs := [⟨"data", 0, [1]⟩, ⟨"conv", 1, [2]⟩, ⟨"relu", 2, []⟩],
    stderr := [] }

/-- Graph `Input -> Convolution -> Clip(min, max)`. -/
def clip_net (min max : F) : NetOptimize F :=
  { layers :=
      [plain_layer "Input" "data" [] [0],
       plain_layer "Convolution" "conv" [0] [1],
       { plain_layer "Clip" "clip" [1] [2] with min := min, max := max }],
    blobs := [⟨"data", 0, [1]⟩, ⟨"conv", 1, [2]⟩, ⟨"clip", 2, []⟩],
    stderr := [] }

/-- Graph `Input -> Convolution -> ReLU(0)` whose Convolution already carries a
fused leaky ReLU (`activation_type = 2`, `activation_params = [1/10]`), as written
by an earlier run of the optimizer. -/
def refused_net : NetOptimize F :=
  { layers :=
      [plain_layer "Input" "data" [] [0],
       { plain_layer "Convolution" "conv" [0] [1] with
         activation_type := 2, activation_params := [1 / 10] },
       { plain_layer "ReLU" "relu" [1] [2] with slope := 0 }],
    blobs := [⟨"data", 0, [1]⟩, ⟨"conv", 1, [2]⟩, ⟨"relu", 2, []⟩],
    stderr := [] }

end ActivationExamples

section DropoutExamples

variable {F : Type} [Field F] [DecidableEq F]

/-- Graph `Input -> InnerProduct -> Dropout(scale)`. -/
def innerproduct_dropout_net (scale : F) : NetOptimize F :=
  { layers :=
      [plain_layer "Input" "data" [] [0],
       plain_layer "InnerProduct" "fc" [0] [1],
       { plain_layer "Dropout" "drop" [1] [2] with scale := scale }],
    blobs := [⟨"data", 0, [1]⟩, ⟨"fc", 1, [2]⟩, ⟨"drop", 2, []⟩],
    stderr := [] }

/-- Graph `Input -> Convolution -> Dropout(scale)`. -/
def convolution_dropout_net (scale : F) : NetOptimize F :=
  { layers :=
      [plain_layer "Input" "data" [] [0],
       plain_layer "Convolution" "conv" [0] [1],
       { plain_layer "Dropout" "drop" [1] [2] with scale := scale }],
    blobs := [⟨"data", 0, [1]⟩, ⟨"conv", 1, [2]⟩, ⟨"drop", 2, []⟩],
    stderr := [] }

/-- Graph `Input -> Convolution -> Dropout(first) -> Dropout(second)`. -/
def two_dropout_net (first second : F) : NetOptimize F :=
  { layers :=
      [plain_layer "Input" "data" [] [0],
       plain_layer "Convolution" "conv" [0] [1],
       { plain_layer "Dropout" "drop1" [1] [2] with scale := first },
       { plain_layer "Dropout" "drop2" [2] [3] with scale := second }],
    blobs := [⟨"data", 0, [1]⟩, ⟨"conv", 1, [2]⟩, ⟨"drop1", 2, [3]⟩, ⟨"drop2", 3, []⟩],
    stderr := [] }

/-- Graph in which two Dropouts of scale 1 (layers 2 and 3) both read the
Convolution's top (blob 1). -/
def shared_dropout_net : NetOptimize F :=
  { layers :=
      [plain_layer "Input" "data" [] [0],
       plain_layer "Convolution" "conv" [0] [1],
       { plain_layer "Dropout" "drop1" [1] [2] with scale := 1 },
       { plain_layer "Dropout" "drop2" [1] [3] with scale := 1 }],
    blobs := [⟨"data", 0, [1]⟩, ⟨"conv", 1, [2, 3]⟩, ⟨"drop1", 2, []⟩, ⟨"drop2", 3, []⟩],
    stderr := [] }

/-- What `eliminate_dropout` never changes in a layer: every field but `type` and
`tops` of `l` is the one of `l0`. -/
def same_but_type_tops (l0 l : Layer F) : Prop :=
  { l with type := l0.type, tops := l0.tops } = l0

end DropoutExamples

section Frames

variable {F : Type} [Field F] [DecidableEq F]

/-- Relation between the state `s0` at the start of `eliminate_dropout` and a
later state `s` of the same run: the layers agree on every field but `type` and
`tops`, and a type differs only where a Dropout of scale 1 was tombstoned. -/
def DropoutFrame (s0 s : NetOptimize F) : Prop :=
  s.layers.length = s0.layers.length ∧
  ∀ k, same_but_type_tops (layerAt s0.layers k) (layerAt s.layers k) ∧
    ((layerAt s.layers k).type = (layerAt s0.layers k).type ∨
      ((layerAt s.layers k).type = "ncnnfused" ∧ (layerAt s0.layers k).type = "Dropout" ∧
        (layerAt s0.layers k).scale = 1))

end Frames

section Numeric

variable {F : Type} [Field F] [DecidableEq F]

/-- The coefficient `b_c = slope_c / sqrt(var_c + eps)` of the specification. -/
def spec_b (sqrt : F → F) (batchnorm : Layer F) (c : Nat) : F :=
  batchnorm.slope_data.getD c 0 / sqrt (batchnorm.var_data.getD c 0 + batchnorm.eps)

/-- The coefficient `a_c = bias_c - slope_c * mean_c / sqrt(var_c + eps)` of the
specification. -/
def spec_a (sqrt : F → F) (batchnorm : Layer F) (c : Nat) : F :=
  batchnorm.bias_data.getD c 0
    - batchnorm.slope_data.getD c 0 * batchnorm.mean_data.getD c 0
      / sqrt (batchnorm.var_data.getD c 0 + batchnorm.eps)

/-- Modelled from the spec: the layer runtime is not part of the optimizer's
source.  Output channel `c` of an affine producer (InnerProduct, or a convolution
kind seen per output channel) with slices of `size` weights on the input `x`:
`y_c = sum_k weight[c*size+k] * x_k + bias_c`, with `bias_c = 0` when
`bias_term = 0`. -/
def affine_forward (l : Layer F) (size : Nat) (x : Nat → F) (c : Nat) : F :=
  ((List.range size).map fun k => l.weight_data.getD (c * size + k) 0 * x k).sum
    + (if l.bias_term = 0 then 0 else l.bias_data.getD c 0)

/-- Modelled from the spec: the layer runtime is not part of the optimizer's
source.  Channel `c` of BatchNorm on the value `y`:
`bn(y)_c = slope_c * (y - mean_c) / sqrt(var_c + eps) + bias_c`. -/
def batchnorm_forward (sqrt : F → F) (batchnorm : Layer F) (c : Nat) (y : F) : F :=
  batchnorm.slope_data.getD c 0 * (y - batchnorm.mean_data.getD c 0)
      / sqrt (batchnorm.var_data.getD c 0 + batchnorm.eps)
    + batchnorm.bias_data.getD c 0

/-- Modelled from the spec: the layer runtime is not part of the optimizer's
source.  Channel `c` of Scale on the value `y`: `y * scale_c + bias_c`, the bias
being present only when `bias_term` is non-zero (the `* s + b` of the comment at
lines 132-133). -/
def scale_forward (scale : Layer F) (c : Nat) (y : F) : F :=
  y * scale.scale_data.getD c 0
    + (if scale.bias_term ≠ 0 then scale.bias_data.getD c 0 else 0)

/-- The bias vector on which the channel loop of the fold starts. -/
def initial_bias (convolution batchnorm : Layer F) : List F :=
  if convolution.bias_term = 0 then List.replicate batchnorm.channels.toNat 0
  else convolution.bias_data

/-- Graph `Input -> Convolution -> BatchNorm` of the numeric example: weight
`[2]`, BatchNorm `(slope 3, bias 1/2, mean 1, var 3, eps 1)`; the Convolution has
the given `bias_term` and bias vector. -/
def conv_bn_net (bias_term : Int) (bias_data : List F) : NetOptimize F :=
  { layers :=
      [plain_layer "Input" "data" [] [0],
       { plain_layer "Convolution" "conv" [0] [1] with
         weight_data_size := 1, weight_data := [2], bias_term := bias_term,
         bias_data := bias_data },
       { plain_layer "BatchNorm" "bn" [1] [2] with
         channels := 1, eps := 1, slope_data := [3], mean_data := [1], var_data := [3],
         bias_data := [1 / 2] }],
    blobs := [⟨"data", 0, [1]⟩, ⟨"conv", 1, [2]⟩, ⟨"bn", 2, []⟩],
    stderr := [] }

/-- Graph `Input -> BatchNorm -> Scale` with a one-channel BatchNorm
`(slope, bias, mean 0, var 0, eps 0)` and a Scale with data `[2]`, bias `[3]` and
the given `bias_term`. -/
def bn_scale_net (slope bias : F) (bias_term : Int) : NetOptimize F :=
  { layers :=
      [plain_layer "Input" "data" [] [0],
       { plain_layer "BatchNorm" "bn" [0] [1] with
         channels := 1, eps := 0, slope_data := [slope], mean_data := [0], var_data := [0],
         bias_data := [bias] },
       { plain_layer "Scale" "scale" [1] [2] with
         scale_data := [2], bias_term := bias_term, bias_data := [3] }],
    blobs := [⟨"data", 0, [1]⟩, ⟨"bn", 1, [2]⟩, ⟨"scale", 2, []⟩],
    stderr := [] }

end Numeric

section BackwardExamples

variable {F : Type} [Field F] [DecidableEq F]

/-- Graph `Input -> Convolution -> BatchNorm -> Dropout(1)` as left by
`fuse_convolution_batchnorm`: the BatchNorm (layer 2) is tombstoned and still
lists blob 2 as its top, which is now also the Convolution's top. -/
def folded_dropout_net : NetOptimize F :=
  { layers :=
      [plain_layer "Input" "data" [] [0],
       plain_layer "Convolution" "conv" [0] [2],
       plain_layer "ncnnfused" "bn" [1] [2],
       { plain_layer "Dropout" "drop" [2] [3] with scale := 1 }],
    blobs := [⟨"data", 0, [1]⟩, ⟨"conv", 1, [2]⟩, ⟨"bn", 1, [3]⟩, ⟨"drop", 3, []⟩],
    stderr := [] }

end BackwardExamples

section Pipeline

variable {F : Type} [Field F] [DecidableEq F]

/-- The number of layers whose type is not "ncnnfused" (the live layers), as
counted by the first loop of `save` (lines 1003-1010). -/
def live_count (s : NetOptimize F) : Nat :=
  s.layers.countP (fun l => decide (l.type ≠ "ncnnfused"))

/-- The twelve pass calls of `main` (lines 1619-1631), in order. -/
def optimize (sqrt : F → F) (s : NetOptimize F) : NetOptimize F :=
  let s := fuse_batchnorm_scale s
  let s := fuse_convolution_batchnorm sqrt s
  let s := fuse_convolutiondepthwise_batchnorm sqrt s
  let s := fuse_deconvolution_batchnorm sqrt s
  let s := fuse_deconvolutiondepthwise_batchnorm sqrt s
  let s := fuse_innerproduct_batchnorm sqrt s
  let s := fuse_convolution_activation s
  let s := fuse_convolutiondepthwise_activation s
  let s := fuse_deconvolution_activation s
  let s := fuse_deconvolutiondepthwise_activation s
  let s := fuse_innerproduct_activation s
  eliminate_dropout s

/-- The passes of `main` as a list, in call order. -/
def pipeline : List Pass :=
  [.fuse_batchnorm_scale, .fuse_convolution_batchnorm, .fuse_convolutiondepthwise_batchnorm,
   .fuse_deconvolution_batchnorm, .fuse_deconvolutiondepthwise_batchnorm,
   .fuse_innerproduct_batchnorm, .fuse_convolution_activation,
   .fuse_convolutiondepthwise_activation, .fuse_deconvolution_activation,
   .fuse_deconvolutiondepthwise_activation, .fuse_innerproduct_activation,
   .eliminate_dropout]

/-- Runs a list of passes from left to right. -/
def run_passes (sqrt : F → F) (ps : List Pass) (s : NetOptimize F) : NetOptimize F :=
  ps.foldl (fun s p => run_pass sqrt p s) s

/-- Relation "`s` is reached from `s0` by rewrites that emitted the diagnostic
lines `lines`, each of them tombstoning one live layer". -/
def Counted (s0 s : NetOptimize F) (lines : List String) : Prop :=
  s.layers.length = s0.layers.length ∧ s.stderr = s0.stderr ++ lines ∧
    live_count s + lines.length = live_count s0

end Pipeline

section TerminalDefs

variable {F : Type} [Field F] [DecidableEq F]

/-- Relation between a state `s` and a later state `s1`: a layer type changes only
to "ncnnfused", and a layer that is tombstoned in `s` is the same layer in `s1`. -/
def Terminal (s s1 : NetOptimize F) : Prop :=
  s1.layers.length = s.layers.length ∧
  ∀ k, ((layerAt s1.layers k).type = (layerAt s.layers k).type ∨
      (layerAt s1.layers k).type = "ncnnfused") ∧
    ((layerAt s.layers k).type = "ncnnfused" → layerAt s1.layers k = layerAt s.layers k)

end TerminalDefs

section ChainDefs

variable {F : Type} [Field F] [DecidableEq F]

/-- The chain `Input(0) -> Convolution(1) -> BatchNorm(2) -> ReLU(3, slope 0) ->
Dropout(4, scale 1)` with arbitrary payloads: layer `k` has the single top `k`,
each later layer has the previous blob as its single bottom, and every other field
is taken from the given layers. -/
def chain (input conv bn relu dropout : Layer F) (b0 b1 b2 b3 b4 : Blob)
    (rest : List Blob) (err : List String) : NetOptimize F :=
  { layers :=
      [{ input with type := "Input", bottoms := [], tops := [0] },
       { conv with type := "Convolution", bottoms := [0], tops := [1] },
       { bn with type := "BatchNorm", bottoms := [1], tops := [2] },
       { relu with type := "ReLU", bottoms := [2], tops := [3], slope := 0 },
       { dropout with type := "Dropout", bottoms := [3], tops := [4], scale := 1 }],
    blobs := b0 :: b1 :: b2 :: b3 :: b4 :: rest,
    stderr := err }

/-- The pass list of `main` with `fuse_convolution_activation` moved in front of
`fuse_convolution_batchnorm`. -/
def swapped_pipeline : List Pass :=
  [.fuse_batchnorm_scale, .fuse_convolution_activation, .fuse_convolution_batchnorm,
   .fuse_convolutiondepthwise_batchnorm, .fuse_deconvolution_batchnorm,
   .fuse_deconvolutiondepthwise_batchnorm, .fuse_innerproduct_batchnorm,
   .fuse_convolutiondepthwise_activation, .fuse_deconvolution_activation,
   .fuse_deconvolutiondepthwise_activation, .fuse_innerproduct_activation,
   .eliminate_dropout]

/-- An instance of `chain` whose Convolution was loaded with `bias_term = 2` and
one bias value. -/
def biased_chain : NetOptimize F :=
  chain (plain_layer "Input" "data" [] [0])
    { plain_layer "Convolution" "conv" [0] [1] with
      bias_term := 2, bias_data := [1], weight_data_size := 1, weight_data := [2] }
    { plain_layer "BatchNorm" "bn" [1] [2] with
      channels := 1, eps := 1, slope_data := [3], mean_data := [1], var_data := [3],
      bias_data := [1 / 2] }
    (plain_layer "ReLU" "relu" [2] [3]) (plain_layer "Dropout" "drop" [3] [4])
    ⟨"data", 0, [1]⟩ ⟨"conv", 1, [2]⟩ ⟨"bn", 2, [3]⟩ ⟨"relu", 3, [4]⟩ ⟨"drop", 4, []⟩ [] []

end ChainDefs

section PartitionDefs

variable {F : Type} [Field F] [DecidableEq F]

/-- Graph `Input -> Convolution -> BatchNorm` whose Convolution has three weights
and whose BatchNorm has two channels: `weight_data_size / channels` is 1 and the
two slices cover the weights 0 and 1 only. -/
def uneven_net : NetOptimize F :=
  { layers :=
      [plain_layer "Input" "data" [] [0],
       { plain_layer "Convolution" "conv" [0] [1] with
         weight_data_size := 3, weight_data := [2, 2, 2] },
       { plain_layer "BatchNorm" "bn" [1] [2] with
         channels := 2, eps := 1, slope_data := [3, 3], mean_data := [1, 1],
         var_data := [3, 3], bias_data := [1 / 2, 1 / 2] }],
    blobs := [⟨"data", 0, [1]⟩, ⟨"conv", 1, [2]⟩, ⟨"bn", 2, []⟩],
    stderr := [] }

/-- Graph `Input -> Convolution -> BatchNorm` whose Convolution has four weights
and whose BatchNorm has two channels with different slopes. -/
def even_net : NetOptimize F :=
  { layers :=
      [plain_layer "Input" "data" [] [0],
       { plain_layer "Convolution" "conv" [0] [1] with
         weight_data_size := 4, weight_data := [2, 2, 2, 2] },
       { plain_layer "BatchNorm" "bn" [1] [2] with
         channels := 2, eps := 1, slope_data := [3, 6], mean_data := [1, 1],
         var_data := [3, 3], bias_data := [1 / 2, 1 / 2] }],
    blobs := [⟨"data", 0, [1]⟩, ⟨"conv", 1, [2]⟩, ⟨"bn", 2, []⟩],
    stderr := [] }

end PartitionDefs

section Serializer

variable {F : Type} [Field F] [DecidableEq F]

/-! ## The serializer

`save` writes two files: the parameter text `pp` and the weight file `bp`.  The
text is a `String`; the weight file is kept as the list of records written, a
4-byte tag or the flattened elements of one `ncnn::Mat`.  `%d` prints an `Int` in
decimal, `%-24s` pads with spaces on the right to 24 characters, and the `%f`
conversion of the C library is the parameter `fmt_f`.  `fprintf_param_int_array`
reads the 32-bit elements of a `Mat` through an `int` pointer; the value it sees
for an element is the parameter `int_bits`.  The registry call
`ncnn::create_layer(typeindex)` followed by `load_param` of an empty `ParamDict`
is the parameter `create_layer`, from a type index to the default instance. -/

/-- Record written to the weight file. -/
inductive BinItem (F : Type) where
  | tag (value : Int)
  | data (elements : List F)
deriving DecidableEq

/-- The two output files of `save`. -/
structure Files (F : Type) where
  pp : String
  bp : List (BinItem F)
deriving DecidableEq

/-- The member `op->field` of type `int`. -/
def Layer.int_field (l : Layer F) (field : String) : Int :=
  if field = "channels" then l.channels
  else if field = "bias_term" then l.bias_term
  else if field = "weight_data_size" then l.weight_data_size
  else if field = "activation_type" then l.activation_type
  else (l.int_params.lookup field).getD 0

/-- The member `op->field` of type `float`. -/
def Layer.float_field (l : Layer F) (field : String) : F :=
  if field = "eps" then l.eps
  else if field = "slope" then l.slope
  else if field = "min" then l.min
  else if field = "max" then l.max
  else if field = "scale" then l.scale
  else (l.float_params.lookup field).getD 0

/-- The member `op->field` of type `ncnn::Mat`. -/
def Layer.mat_field (l : Layer F) (field : String) : List F :=
  if field = "slope_data" then l.slope_data
  else if field = "mean_data" then l.mean_data
  else if field = "var_data" then l.var_data
  else if field = "bias_data" then l.bias_data
  else if field = "scale_data" then l.scale_data
  else if field = "weight_data" then l.weight_data
  else if field = "activation_params" then l.activation_params
  else (l.mat_params.lookup field).getD []

/-- The conversion `%d`. -/
def fmt_d (n : Int) : String := toString n

/-- The conversion `%-24s` (and any `%-Ns`): the string, then spaces up to
`width` characters; a longer string is printed whole. -/
def left_justify (width : Nat) (s : String) : String :=
  s ++ String.mk (List.replicate (width - s.length) ' ')

/-- The call `fprintf(pp, ...)` with the formatted text `text`. -/
def fprintf (out : Files F) (text : String) : Files F :=
  { out with pp := out.pp ++ text }

/-- `NetOptimize::fprintf_param_int_array` (lines 953-965). -/
def fprintf_param_int_array (int_bits : F → Int) (id : Int) (m : List F) (out : Files F) :
    Files F :=
  let count : Int := m.length
  let out := fprintf out (" -" ++ fmt_d (23300 + id) ++ "=" ++ fmt_d count)
  m.foldl (fun out x => fprintf out ("," ++ fmt_d (int_bits x))) out

/-- `NetOptimize::fprintf_param_float_array` (lines 967-979). -/
def fprintf_param_float_array (fmt_f : F → String) (id : Int) (m : List F) (out : Files F) :
    Files F :=
  let count : Int := m.length
  let out := fprintf out (" -" ++ fmt_d (23300 + id) ++ "=" ++ fmt_d count)
  m.foldl (fun out x => fprintf out ("," ++ fmt_f x)) out

/-- `NetOptimize::fwrite_weight_tag` (lines 981-985). -/
def fwrite_weight_tag (tag : Int) (out : Files F) : Files F :=
  { out with bp := out.bp ++ [BinItem.tag tag] }

/-- `NetOptimize::fwrite_weight_data` (lines 987-992). -/
def fwrite_weight_data (data : List F) (out : Files F) : Files F :=
  { out with bp := out.bp ++ [BinItem.data data] }

/-- The statements found in the per-type branches of `save`:

* `value_d id field` is `fprintf_param_value(" id=%d", field)`;
* `value_f id field` is `fprintf_param_value(" id=%f", field)`;
* `differs_d id field other` is
  `{ if (op->field != op->other) fprintf(pp, " id=%d", op->field); }`;
* `int_array id field` is
  `{ if (!op->field.empty()) fprintf_param_int_array(id, op->field, pp); }`;
* `softmax_fix` is `if (op->axis != 0) { int fixbug0 = 1; fprintf(pp, " 1=%d", fixbug0); }`;
* `weight_tag tag` is `fwrite_weight_tag(tag, bp)`;
* `weight_data field` is `fwrite_weight_data(op->field, bp)`. -/
inductive ParamStmt where
  | value_d (id : Nat) (field : String)
  | value_f (id : Nat) (field : String)
  | differs_d (id : Nat) (field other : String)
  | int_array (id : Nat) (field : String)
  | softmax_fix
  | weight_tag (tag : Int)
  | weight_data (field : String)
deriving DecidableEq

/-- The `if (layer->type == ...) ... else if ...` chain of `save` (lines
1062-1590): each type with the statements of its branch, in source order. -/
def save_branches : List (String × List ParamStmt) :=
  [("BatchNorm", [.value_d 0 "channels", .value_f 1 "eps", .weight_data "slope_data",
      .weight_data "mean_data", .weight_data "var_data", .weight_data "bias_data"]),
   ("Bias", [.value_d 0 "bias_data_size", .weight_data "bias_data"]),
   ("BinaryOp", [.value_d 0 "op_type", .value_d 1 "with_scalar", .value_f 2 "b"]),
   ("Clip", [.value_f 0 "min", .value_f 1 "max"]),
   ("Concat", [.value_d 0 "axis"]),
   ("Convolution", [.value_d 0 "num_output", .value_d 1 "kernel_w",
      .differs_d 11 "kernel_h" "kernel_w", .value_d 2 "dilation_w",
      .differs_d 12 "dilation_h" "dilation_w", .value_d 3 "stride_w",
      .differs_d 13 "stride_h" "stride_w", .value_d 4 "pad_w", .differs_d 14 "pad_h" "pad_w",
      .value_d 5 "bias_term", .value_d 6 "weight_data_size", .value_d 8 "int8_scale_term",
      .value_d 9 "activation_type", .int_array 10 "activation_params", .weight_tag 0,
      .weight_data "weight_data", .weight_data "bias_data"]),
   ("ConvolutionDepthWise", [.value_d 0 "num_output", .value_d 1 "kernel_w",
      .differs_d 11 "kernel_h" "kernel_w", .value_d 2 "dilation_w",
      .differs_d 12 "dilation_h" "dilation_w", .value_d 3 "stride_w",
      .differs_d 13 "stride_h" "stride_w", .value_d 4 "pad_w", .differs_d 14 "pad_h" "pad_w",
      .value_d 5 "bias_term", .value_d 6 "weight_data_size", .value_d 7 "group",
      .value_d 8 "int8_scale_term", .value_d 9 "activation_type",
      .int_array 10 "activation_params", .weight_tag 0, .weight_data "weight_data",
      .weight_data "bias_data"]),
   ("Crop", [.value_d 0 "woffset", .value_d 1 "hoffset", .value_d 2 "coffset", .value_d 3 "outw",
      .value_d 4 "outh", .value_d 5 "outc"]),
   ("Deconvolution", [.value_d 0 "num_output", .value_d 1 "kernel_w",
      .differs_d 11 "kernel_h" "kernel_w", .value_d 2 "dilation_w",
      .differs_d 12 "dilation_h" "dilation_w", .value_d 3 "stride_w",
      .differs_d 13 "stride_h" "stride_w", .value_d 4 "pad_w", .differs_d 14 "pad_h" "pad_w",
      .value_d 5 "bias_term", .value_d 6 "weight_data_size", .value_d 9 "activation_type",
      .int_array 10 "activation_params", .weight_tag 0, .weight_data "weight_data",
      .weight_data "bias_data"]),
   ("DeconvolutionDepthWise", [.value_d 0 "num_output", .value_d 1 "kernel_w",
      .differs_d 11 "kernel_h" "kernel_w", .value_d 2 "dilation_w",
      .differs_d 12 "dilation_h" "dilation_w", .value_d 3 "stride_w",
      .differs_d 13 "stride_h" "stride_w", .value_d 4 "pad_w", .differs_d 14 "pad_h" "pad_w",
      .value_d 5 "bias_term", .value_d 6 "weight_data_size", .value_d 7 "group",
      .value_d 9 "activation_type", .int_array 10 "activation_params", .weight_tag 0,
      .weight_data "weight_data", .weight_data "bias_data"]),
   ("DetectionOutput", [.value_d 0 "num_class", .value_f 1 "nms_threshold",
      .value_d 2 "nms_top_k", .value_d 3 "keep_top_k", .value_f 4 "confidence_threshold",
      .value_f 5 "variances[0]", .value_f 6 "variances[1]", .value_f 7 "variances[2]",
      .value_f 8 "variances[3]"]),
   ("Dropout", [.value_f 0 "scale"]),
   ("Eltwise", [.value_d 0 "op_type", .int_array 1 "coeffs"]),
   ("ELU", [.value_f 0 "alpha"]),
   ("Exp", [.value_f 0 "base", .value_f 1 "scale", .value_f 2 "shift"]),
   ("InnerProduct", [.value_d 0 "num_output", .value_d 1 "bias_term",
      .value_d 2 "weight_data_size", .value_d 8 "int8_scale_term", .value_d 9 "activation_type",
      .int_array 10 "activation_params", .weight_tag 0, .weight_data "weight_data",
      .weight_data "bias_data"]),
   ("Input", [.value_d 0 "w", .value_d 1 "h", .value_d 2 "c"]),
   ("InstanceNorm", [.value_d 0 "channels", .value_f 1 "eps"]),
   ("Interp", [.value_d 0 "resize_type", .value_f 1 "height_scale", .value_f 2 "width_scale",
      .value_d 3 "output_height", .value_d 4 "output_width"]),
   ("Log", [.value_f 0 "base", .value_f 1 "scale", .value_f 2 "shift"]),
   ("LRN", [.value_d 0 "region_type", .value_d 1 "local_size", .value_f 2 "alpha",
      .value_f 3 "beta", .value_f 4 "bias"]),
   ("MVN", [.value_d 0 "normalize_variance", .value_d 1 "across_channels", .value_f 2 "eps"]),
   ("Normalize", [.value_d 0 "across_spatial", .value_d 1 "channel_shared", .value_f 2 "eps",
      .value_d 3 "scale_data_size", .value_d 4 "across_channel", .weight_data "scale_data"]),
   ("Padding", [.value_d 0 "top", .value_d 1 "bottom", .value_d 2 "left", .value_d 3 "right",
      .value_d 4 "type", .value_f 5 "value"]),
   ("Permute", [.value_d 0 "order_type"]),
   ("Pooling", [.value_d 0 "pooling_type", .value_d 1 "kernel_w",
      .differs_d 11 "kernel_h" "kernel_w", .value_d 2 "stride_w",
      .differs_d 12 "stride_h" "stride_w", .value_d 3 "pad_left",
      .differs_d 13 "pad_top" "pad_left", .differs_d 14 "pad_right" "pad_left",
      .differs_d 15 "pad_bottom" "pad_top", .value_d 4 "global_pooling", .value_d 5 "pad_mode"]),
   ("Power", [.value_f 0 "power", .value_f 1 "scale", .value_f 2 "shift"]),
   ("PReLU", [.value_d 0 "num_slope", .weight_data "slope_data"]),
   ("PriorBox", [.int_array 0 "min_sizes", .int_array 1 "max_sizes",
      .int_array 2 "aspect_ratios", .value_f 3 "variances[0]", .value_f 4 "variances[1]",
      .value_f 5 "variances[2]", .value_f 6 "variances[3]", .value_d 7 "flip", .value_d 8 "clip",
      .value_d 9 "image_width", .value_d 10 "image_height", .value_f 11 "step_width",
      .value_f 12 "step_height", .value_f 13 "offset"]),
   ("Proposal", [.value_d 0 "feat_stride", .value_d 1 "base_size", .value_d 2 "pre_nms_topN",
      .value_d 3 "after_nms_topN", .value_f 4 "nms_thresh", .value_d 5 "min_size"]),
   ("PSROIPooling", [.value_d 0 "pooled_width", .value_d 1 "pooled_height",
      .value_f 2 "spatial_scale", .value_d 3 "output_dim"]),
   ("Quantize", [.value_f 0 "scale"]),
   ("Reduction", [.value_d 0 "operation", .value_d 1 "dim", .value_f 2 "coeff"]),
   ("ReLU", [.value_f 0 "slope"]),
   ("Reorg", [.value_d 0 "stride"]),
   ("Requantize", [.value_f 0 "scale_in", .value_f 1 "scale_out", .value_d 2 "bias_term",
      .value_d 3 "bias_data_size", .value_d 4 "fusion_relu"]),
   ("Reshape", [.value_d 0 "w", .value_d 1 "h", .value_d 2 "c", .value_d 3 "permute"]),
   ("ROIAlign", [.value_d 0 "pooled_width", .value_d 1 "pooled_height",
      .value_f 2 "spatial_scale"]),
   ("ROIPooling", [.value_d 0 "pooled_width", .value_d 1 "pooled_height",
      .value_f 2 "spatial_scale"]),
   ("Scale", [.value_d 0 "scale_data_size", .value_d 1 "bias_term", .weight_data "scale_data",
      .weight_data "bias_data"]),
   ("ShuffleChannel", [.value_d 0 "group"]),
   ("Slice", [.int_array 0 "slices", .value_d 1 "axis"]),
   ("Softmax", [.value_d 0 "axis", .softmax_fix]),
   ("Threshold", [.value_f 0 "threshold"]),
   ("UnaryOp", [.value_d 0 "op_type"]),
   ("YoloDetectionOutput", [.value_d 0 "num_class", .value_d 1 "num_box",
      .value_f 2 "confidence_threshold", .value_f 3 "nms_threshold", .int_array 4 "biases"]),
   ("Yolov3DetectionOutput", [.value_d 0 "num_class", .value_d 1 "num_box",
      .value_f 2 "confidence_threshold", .value_f 3 "nms_threshold", .int_array 4 "biases",
      .int_array 5 "mask", .int_array 6 "anchors_scale"])]

/-- The statements of the branch taken for a layer type; none when no branch of
the chain matches. -/
def layer_branch (type : String) : List ParamStmt :=
  (save_branches.lookup type).getD []

/-- One statement of a branch, with `op` the layer and `op_default` the default
instance; `fprintf_param_value(format, phase)` is
`{ if (op->phase != op_default->phase) fprintf(pp, format, op->phase); }`. -/
def run_stmt (fmt_f : F → String) (int_bits : F → Int) (op op_default : Layer F)
    (out : Files F) : ParamStmt → Files F
  | .value_d id field =>
    if op.int_field field ≠ op_default.int_field field then
      fprintf out (" " ++ toString id ++ "=" ++ fmt_d (op.int_field field))
    else out
  | .value_f id field =>
    if op.float_field field ≠ op_default.float_field field then
      fprintf out (" " ++ toString id ++ "=" ++ fmt_f (op.float_field field))
    else out
  | .differs_d id field other =>
    if op.int_field field ≠ op.int_field other then
      fprintf out (" " ++ toString id ++ "=" ++ fmt_d (op.int_field field))
    else out
  | .int_array id field =>
    if op.mat_field field ≠ [] then
      fprintf_param_int_array int_bits id (op.mat_field field) out
    else out
  | .softmax_fix =>
    if op.int_field "axis" ≠ 0 then fprintf out (" 1=" ++ fmt_d 1) else out
  | .weight_tag tag => fwrite_weight_tag tag out
  | .weight_data field => fwrite_weight_data (op.mat_field field) out

/-- The insertion `blob_names.insert(name)` into the `std::set`; the set is kept
as a list without repetition. -/
def set_insert (names : List String) (name : String) : List String :=
  if name ∈ names then names else names ++ [name]

/-- The expression `blobs[index].name`. -/
def blob_name (s : NetOptimize F) (index : Nat) : String :=
  (s.blobs.getD index Blob.blank).name

/-- The body of the first loop of `save` (lines 1005-1026) at index `i`, on the
pair `(layer_count_fused, blob_names)`. -/
def count_step (s : NetOptimize F) (acc : Nat × List String) (i : Nat) : Nat × List String :=
  let layer := layerAt s.layers i
  if layer.type = "ncnnfused" then acc
  else
    let layer_count_fused := acc.1 + 1
    let blob_names := layer.bottoms.foldl (fun names b => set_insert names (blob_name s b)) acc.2
    let blob_names := layer.tops.foldl (fun names t => set_insert names (blob_name s t))
      blob_names
    (layer_count_fused, blob_names)

/-- The body of the second loop of `save` (lines 1034-1597) at index `i`. -/
def save_layer (fmt_f : F → String) (int_bits : F → Int) (create_layer : Int → Layer F)
    (s : NetOptimize F) (out : Files F) (i : Nat) : Files F :=
  let layer := layerAt s.layers i
  if layer.type = "ncnnfused" then out
  else
    let bottom_count : Int := layer.bottoms.length
    let top_count : Int := layer.tops.length
    let out := fprintf out (left_justify 24 layer.type ++ " " ++ left_justify 24 layer.name
      ++ " " ++ fmt_d bottom_count ++ " " ++ fmt_d top_count)
    let out := layer.bottoms.foldl (fun out b => fprintf out (" " ++ blob_name s b)) out
    let out := layer.tops.foldl (fun out t => fprintf out (" " ++ blob_name s t)) out
    let layer_default := create_layer layer.typeindex
    let out := (layer_branch layer.type).foldl (run_stmt fmt_f int_bits layer layer_default) out
    fprintf out "\n"

/-- `NetOptimize::save` (lines 994-1603): the contents of the two files. -/
def save (fmt_f : F → String) (int_bits : F → Int) (create_layer : Int → Layer F)
    (s : NetOptimize F) : Files F :=
  let out : Files F := { pp := "", bp := [] }
  let out := fprintf out "7767517\n"
  let layer_count := s.layers.length
  let counts := (List.range layer_count).foldl (count_step s) (0, [])
  let layer_count_fused : Int := counts.1
  let blob_count_fused : Int := counts.2.length
  let out := fprintf out (fmt_d layer_count_fused ++ " " ++ fmt_d blob_count_fused ++ "\n")
  (List.range layer_count).foldl (save_layer fmt_f int_bits create_layer s) out

end Serializer
section SerializerSpec

variable {F : Type} [Field F] [DecidableEq F]

/-- The text written to `pp` by the statements `stmts` of a branch: the parameter
tokens of a layer line. -/
def param_text (fmt_f : F → String) (int_bits : F → Int) (op op_default : Layer F)
    (stmts : List ParamStmt) : String :=
  (stmts.foldl (run_stmt fmt_f int_bits op op_default) { pp := "", bp := [] }).pp

/-- The records written to `bp` by the statements `stmts` of a branch. -/
def param_bin (fmt_f : F → String) (int_bits : F → Int) (op op_default : Layer F)
    (stmts : List ParamStmt) : List (BinItem F) :=
  (stmts.foldl (run_stmt fmt_f int_bits op op_default) { pp := "", bp := [] }).bp

/-- The layer line of the specification: the kind and the name, each
left-justified and padded to 24 characters, the number of bottoms, the number of
tops, ` <name>` for each bottom blob and each top blob in order, the parameter
tokens `params`, and a newline. -/
def spec_layer_line (s : NetOptimize F) (l : Layer F) (params : String) : String :=
  left_justify 24 l.type ++ " " ++ left_justify 24 l.name ++ " "
    ++ toString l.bottoms.length ++ " " ++ toString l.tops.length
    ++ String.join (l.bottoms.map fun b => " " ++ blob_name s b)
    ++ String.join (l.tops.map fun t => " " ++ blob_name s t)
    ++ params ++ "\n"

/-- The live layers of the net, in load order. -/
def live_layers (s : NetOptimize F) : List (Layer F) :=
  s.layers.filter fun l => decide (l.type ≠ "ncnnfused")

/-- The blob names referenced by the bottoms and tops of the live layers, with
repetitions. -/
def referenced_names (s : NetOptimize F) : List String :=
  (live_layers s).flatMap fun l => (l.bottoms ++ l.tops).map (blob_name s)

/-- The hypothesis "the parameter printed by this statement equals the value held
by the default instance": a scalar member equals the default's, a height member
and the width member it is compared with equal the default's, an array member is
empty. -/
def stmt_matches (op op_default : Layer F) : ParamStmt → Prop
  | .value_d _ field => op.int_field field = op_default.int_field field
  | .value_f _ field => op.float_field field = op_default.float_field field
  | .differs_d _ field other =>
    op.int_field field = op_default.int_field field ∧
      op.int_field other = op_default.int_field other
  | .int_array _ field => op.mat_field field = []
  | .softmax_fix => op.int_field "axis" = op_default.int_field "axis"
  | .weight_tag _ => True
  | .weight_data _ => True

/-- The hypothesis "every parameter of the layer equals the value held by the
default instance", over the statements of the layer's branch. -/
def matches_default (op op_default : Layer F) (stmts : List ParamStmt) : Prop :=
  ∀ st ∈ stmts, stmt_matches op op_default st

/-- Property of a default instance at one statement: a member that `save`
compares with another member of the same layer (a height with its width, a pad
with the pad it defaults to) has the same default as that member, and the default
`axis` tested by the Softmax branch is 0. -/
def stmt_consistent (op_default : Layer F) : ParamStmt → Prop
  | .differs_d _ field other => op_default.int_field field = op_default.int_field other
  | .softmax_fix => op_default.int_field "axis" = 0
  | _ => True

/-- Property of a default instance used by the defaults-omission law, over the
statements of a branch. -/
def default_consistent (op_default : Layer F) (stmts : List ParamStmt) : Prop :=
  ∀ st ∈ stmts, stmt_consistent op_default st

instance (op op_default : Layer F) : (st : ParamStmt) → Decidable (stmt_matches op op_default st)
  | .value_d _ field =>
    inferInstanceAs (Decidable (op.int_field field = op_default.int_field field))
  | .value_f _ field =>
    inferInstanceAs (Decidable (op.float_field field = op_default.float_field field))
  | .differs_d _ field other =>
    inferInstanceAs (Decidable (op.int_field field = op_default.int_field field ∧
      op.int_field other = op_default.int_field other))
  | .int_array _ field => inferInstanceAs (Decidable (op.mat_field field = []))
  | .softmax_fix =>
    inferInstanceAs (Decidable (op.int_field "axis" = op_default.int_field "axis"))
  | .weight_tag _ => isTrue trivial
  | .weight_data _ => isTrue trivial

instance (op_default : Layer F) : (st : ParamStmt) → Decidable (stmt_consistent op_default st)
  | .value_d _ _ => isTrue trivial
  | .value_f _ _ => isTrue trivial
  | .differs_d _ field other =>
    inferInstanceAs (Decidable (op_default.int_field field = op_default.int_field other))
  | .int_array _ _ => isTrue trivial
  | .softmax_fix => inferInstanceAs (Decidable (op_default.int_field "axis" = 0))
  | .weight_tag _ => isTrue trivial
  | .weight_data _ => isTrue trivial

instance (op op_default : Layer F) (stmts : List ParamStmt) :
    Decidable (matches_default op op_default stmts) := by
  unfold matches_default; infer_instance

instance (op_default : Layer F) (stmts : List ParamStmt) :
    Decidable (default_consistent op_default stmts) := by
  unfold default_consistent; infer_instance

/-- Net with one layer: a Convolution with one bottom and one top whose members
are all zero. -/
def single_convolution_net : NetOptimize F :=
  { layers := [plain_layer "Convolution" "conv" [0] [1]],
    blobs := [⟨"data", -1, [0]⟩, ⟨"conv", 0, []⟩],
    stderr := [] }

end SerializerSpec

section TokenSpec

variable {F : Type} [Field F] [DecidableEq F]

/-- The token ` <id>=<value>` with the value printed by `%d`, present when
`value` differs from `reference` and absent (empty text) when they are equal.
The reference is the default instance's value for a scalar parameter and the
width member's value for a height member. -/
def int_token (id : Nat) (value reference : Int) : String :=
  if value ≠ reference then " " ++ toString id ++ "=" ++ fmt_d value else ""

/-- The token ` <id>=<value>` with the value printed by `%f`, present when
`value` differs from `reference`. -/
def float_token (fmt_f : F → String) (id : Nat) (value reference : F) : String :=
  if value ≠ reference then " " ++ toString id ++ "=" ++ fmt_f value else ""

/-- The rounding of a non-negative rational to the nearest natural number, ties
to the even one. -/
def round_half_even (q : ℚ) : Nat :=
  let a := q.num.natAbs
  let b := q.den
  let n := a / b
  let r := a % b
  if 2 * r < b then n
  else if b < 2 * r then n + 1
  else if n % 2 = 0 then n else n + 1

/-- The conversion `%f` of the C library on an exactly represented value: an
optional minus sign, the integer part, a point, and six decimals, the value being
rounded to the nearest multiple of `10^-6`. -/
def fmt_f6 (x : ℚ) : String :=
  let n := round_half_even (|x| * 1000000)
  let frac := toString (n % 1000000)
  (if x < 0 then "-" else "") ++ toString (n / 1000000) ++ "."
    ++ String.mk (List.replicate (6 - frac.length) '0') ++ frac

/-- Default instances in which every member is zero but the Dropout `scale`,
which is 1. -/
def unit_scale_defaults : Int → Layer F :=
  fun _ => { (Layer.blank : Layer F) with scale := 1 }

end TokenSpec

section WeightSpec

variable {F : Type} [Field F] [DecidableEq F]

/-- The number of bytes of a record of the weight file:
`fwrite(&tag, sizeof(int), 1, bp)` writes the 4 bytes of an `int`, and
`fwrite(data, elemsize, w, bp)` writes `elemsize` bytes for each of the
`w * h * c` elements of the flattened `Mat`. -/
def BinItem.byte_size (elemsize : Nat) : BinItem F → Nat
  | .tag _ => 4
  | .data elements => elemsize * elements.length

/-- The number of bytes of a list of records. -/
def byte_count (elemsize : Nat) (items : List (BinItem F)) : Nat :=
  (items.map (BinItem.byte_size elemsize)).sum

/-- The records written to the weight file by one statement of a branch. -/
def stmt_records (op : Layer F) : ParamStmt → List (BinItem F)
  | .weight_tag tag => [BinItem.tag tag]
  | .weight_data field => [BinItem.data (op.mat_field field)]
  | _ => []

/-- The test "the statement writes to the weight file". -/
def is_weight_stmt : ParamStmt → Bool
  | .weight_tag _ => true
  | .weight_data _ => true
  | _ => false

/-- The weight records that the specification lists for a layer: slope, mean,
var, bias for BatchNorm; a tag 0, the weights and the bias for the four
convolution kinds and InnerProduct; scale and bias for Scale; scale for Normalize;
slope for PReLU; nothing for any other kind. -/
def listed_weight_records (l : Layer F) : List (BinItem F) :=
  if l.type = "BatchNorm" then
    [.data l.slope_data, .data l.mean_data, .data l.var_data, .data l.bias_data]
  else if l.type = "Convolution" ∨ l.type = "ConvolutionDepthWise" ∨ l.type = "Deconvolution" ∨
      l.type = "DeconvolutionDepthWise" ∨ l.type = "InnerProduct" then
    [.tag 0, .data l.weight_data, .data l.bias_data]
  else if l.type = "Scale" then [.data l.scale_data, .data l.bias_data]
  else if l.type = "Normalize" then [.data l.scale_data]
  else if l.type = "PReLU" then [.data l.slope_data]
  else []

/-- The weight records of a layer: the bias for a Bias layer, and the listed
records for every other kind. -/
def weight_records (l : Layer F) : List (BinItem F) :=
  if l.type = "Bias" then [.data l.bias_data] else listed_weight_records l

/-- Net with one layer, a Bias with one bias value. -/
def single_bias_net : NetOptimize F :=
  { layers := [{ plain_layer "Bias" "bias" [0] [1] with bias_data := [1] }],
    blobs := [⟨"data", -1, [0]⟩, ⟨"bias", 0, []⟩],
    stderr := [] }

end WeightSpec

section PassSpec

variable {F : Type} [Field F] [DecidableEq F]

/-- The name a pass prints in its diagnostic lines. -/
def Pass.pass_name : Pass → String
  | .fuse_batchnorm_scale => "fuse_batchnorm_scale"
  | .fuse_convolution_batchnorm => "fuse_convolution_batchnorm"
  | .fuse_convolutiondepthwise_batchnorm => "fuse_convolutiondepthwise_batchnorm"
  | .fuse_deconvolution_batchnorm => "fuse_deconvolution_batchnorm"
  | .fuse_deconvolutiondepthwise_batchnorm => "fuse_deconvolutiondepthwise_batchnorm"
  | .fuse_innerproduct_batchnorm => "fuse_innerproduct_batchnorm"
  | .fuse_convolution_activation => "fuse_convolution_activation"
  | .fuse_convolutiondepthwise_activation => "fuse_convolutiondepthwise_activation"
  | .fuse_deconvolution_activation => "fuse_deconvolution_activation"
  | .fuse_deconvolutiondepthwise_activation => "fuse_deconvolutiondepthwise_activation"
  | .fuse_innerproduct_activation => "fuse_innerproduct_activation"
  | .eliminate_dropout => "eliminate_dropout"

/-- The layer type on which the outer loop of a pass stops (`layers[i]->type`):
the producer of a forward pass, the Dropout of `eliminate_dropout`. -/
def Pass.producer_kind : Pass → String
  | .fuse_batchnorm_scale => "BatchNorm"
  | .fuse_convolution_batchnorm => "Convolution"
  | .fuse_convolutiondepthwise_batchnorm => "ConvolutionDepthWise"
  | .fuse_deconvolution_batchnorm => "Deconvolution"
  | .fuse_deconvolutiondepthwise_batchnorm => "DeconvolutionDepthWise"
  | .fuse_innerproduct_batchnorm => "InnerProduct"
  | .fuse_convolution_activation => "Convolution"
  | .fuse_convolutiondepthwise_activation => "ConvolutionDepthWise"
  | .fuse_deconvolution_activation => "Deconvolution"
  | .fuse_deconvolutiondepthwise_activation => "DeconvolutionDepthWise"
  | .fuse_innerproduct_activation => "InnerProduct"
  | .eliminate_dropout => "Dropout"

/-- The type test of the inner scan of a forward pass (`layers[j]->type`);
`eliminate_dropout` has no such test. -/
def Pass.consumer_test : Pass → String → Bool
  | .fuse_batchnorm_scale => is_scale
  | .fuse_convolution_batchnorm => is_batchnorm
  | .fuse_convolutiondepthwise_batchnorm => is_batchnorm
  | .fuse_deconvolution_batchnorm => is_batchnorm
  | .fuse_deconvolutiondepthwise_batchnorm => is_batchnorm
  | .fuse_innerproduct_batchnorm => is_batchnorm
  | .fuse_convolution_activation => is_activation
  | .fuse_convolutiondepthwise_activation => is_activation
  | .fuse_deconvolution_activation => is_activation
  | .fuse_deconvolutiondepthwise_activation => is_activation
  | .fuse_innerproduct_activation => is_activation
  | .eliminate_dropout => fun _ => false

/-- The numeric block of a forward pass. -/
def Pass.fold (sqrt : F → F) : Pass → Layer F → Layer F → Layer F
  | .fuse_batchnorm_scale => fold_scale
  | .fuse_convolution_batchnorm => fold_batchnorm sqrt
  | .fuse_convolutiondepthwise_batchnorm => fold_batchnorm sqrt
  | .fuse_deconvolution_batchnorm => fold_batchnorm sqrt
  | .fuse_deconvolutiondepthwise_batchnorm => fold_batchnorm sqrt
  | .fuse_innerproduct_batchnorm => fold_batchnorm sqrt
  | .fuse_convolution_activation => fold_activation
  | .fuse_convolutiondepthwise_activation => fold_activation
  | .fuse_deconvolution_activation => fold_activation
  | .fuse_deconvolutiondepthwise_activation => fold_activation
  | .fuse_innerproduct_activation => fold_activation
  | .eliminate_dropout => fun p _ => p

/-- A pass as the member function of the source: the `int` it returns (every pass
ends with `return 0;` after its loop) and the state it leaves. -/
def call_pass (sqrt : F → F) (p : Pass) (s : NetOptimize F) : Int × NetOptimize F :=
  (0, run_pass sqrt p s)

/-- A matching candidate of a pass in the state `s`: for a forward pass, a layer
`i` of the producer kind and a later layer `j` passing the consumer test whose
single bottom is the first top of `i`; for `eliminate_dropout`, a Dropout `i` of
scale 1 and an earlier live layer `j` whose single top is the first bottom of
`i`. -/
def candidate (p : Pass) (s : NetOptimize F) (i j : Nat) : Prop :=
  if p = .eliminate_dropout then
    (layerAt s.layers i).type = "Dropout" ∧ (layerAt s.layers i).scale = 1 ∧ j < i ∧
      is_source s.layers ((layerAt s.layers i).bottoms.getD 0 0) j
  else
    (layerAt s.layers i).type = p.producer_kind ∧ i < j ∧ j < s.layers.length ∧
      is_partner s.layers p.consumer_test ((layerAt s.layers i).tops.getD 0 0) j

instance (p : Pass) (s : NetOptimize F) (i j : Nat) : Decidable (candidate p s i j) := by
  unfold candidate; infer_instance

end PassSpec

section MainDefs

variable {F : Type} [Field F] [DecidableEq F]

/-- What the two loader calls of `main` leave behind: the values returned by
`optimizer.load_param(inparam)` and `optimizer.load_model(inbin)` (0 on success,
non-zero on a read failure) and the net held by the optimizer afterwards.  The
loader is code of `ncnn::Net`, outside this program. -/
structure Loaded (F : Type) where
  load_param_status : Int
  load_model_status : Int
  net : NetOptimize F

/-- The outcome of a run of `main`: the exit code, the final state of the
optimizer (with the diagnostic stream) and the contents of the two files. -/
structure Outcome (F : Type) where
  exit_code : Int
  net : NetOptimize F
  files : Files F

/-- `main` (lines 1605-1636): the values returned by the two loader calls are not
read, the twelve passes and `save` run in sequence, and `main` returns 0. -/
def main (sqrt : F → F) (fmt_f : F → String) (int_bits : F → Int)
    (create_layer : Int → Layer F) (loaded : Loaded F) : Outcome F :=
  let optimizer := loaded.net
  let optimizer := optimize sqrt optimizer
  let files := save fmt_f int_bits create_layer optimizer
  { exit_code := 0, net := optimizer, files := files }

end MainDefs

section SweepDefs

variable {F : Type} [Field F] [DecidableEq F]

/-- Graph `Input -> Convolution -> Clip(min, max) -> ReLU(0)`: the ReLU reads the
top of the Clip. -/
def clip_relu_net (min max : F) : NetOptimize F :=
  { layers :=
      [plain_layer "Input" "data" [] [0],
       plain_layer "Convolution" "conv" [0] [1],
       { plain_layer "Clip" "clip" [1] [2] with min := min, max := max },
       plain_layer "ReLU" "relu" [2] [3]],
    blobs := [⟨"data", 0, [1]⟩, ⟨"conv", 1, [2]⟩, ⟨"clip", 2, [3]⟩, ⟨"relu", 3, []⟩],
    stderr := [] }

/-- Layers `Input, Convolution, Dropout(1) "late", Dropout(1) "early"` stored out of
order: the Dropout "late" at index 2 reads the top of the Dropout "early" at
index 3, which reads the top of the Convolution. -/
def unordered_dropout_net : NetOptimize F :=
  { layers :=
      [plain_layer "Input" "data" [] [0],
       plain_layer "Convolution" "conv" [0] [1],
       { plain_layer "Dropout" "late" [3] [2] with scale := 1 },
       { plain_layer "Dropout" "early" [1] [3] with scale := 1 }],
    blobs := [⟨"data", 0, [1]⟩, ⟨"conv", 1, [3]⟩, ⟨"late", 2, []⟩, ⟨"early", 3, [2]⟩],
    stderr := [] }

/-- Layer `j` passes the consumer test of the pass `p` and its single bottom is
the first top of another layer `k` that passes the consumer test. -/
def consumer_chain (p : Pass) (s : NetOptimize F) (j k : Nat) : Prop :=
  j ≠ k ∧ p.consumer_test (layerAt s.layers j).type = true ∧
    p.consumer_test (layerAt s.layers k).type = true ∧
    (layerAt s.layers j).bottoms.length = 1 ∧
    (layerAt s.layers j).bottoms.getD 0 0 = (layerAt s.layers k).tops.getD 0 0

/-- The Dropout `i` of scale 1 has as its first bottom the first top of a later
Dropout `k` of scale 1. -/
def dropout_chain (s : NetOptimize F) (i k : Nat) : Prop :=
  i < k ∧ (layerAt s.layers i).type = "Dropout" ∧ (layerAt s.layers i).scale = 1 ∧
    (layerAt s.layers k).type = "Dropout" ∧ (layerAt s.layers k).scale = 1 ∧
    (layerAt s.layers i).bottoms.getD 0 0 = (layerAt s.layers k).tops.getD 0 0

instance (p : Pass) (s : NetOptimize F) (j k : Nat) : Decidable (consumer_chain p s j k) := by
  unfold consumer_chain; infer_instance

instance (s : NetOptimize F) (i k : Nat) : Decidable (dropout_chain s i k) := by
  unfold dropout_chain; infer_instance

/-- The graphs on which one sweep of the pass `p` is enough.  For a forward pass:
every layer of the producer kind has a top (so that `tops[0]` is defined), and no
layer passing the consumer test has as its single bottom the first top of another
layer passing the consumer test.  For `eliminate_dropout`: no Dropout of scale 1
has as its first bottom the first top of a later Dropout of scale 1. -/
def Unchained (p : Pass) (s : NetOptimize F) : Prop :=
  if p = .eliminate_dropout then
    ∀ i, i < s.layers.length → ∀ k, k < s.layers.length → ¬ dropout_chain s i k
  else
    (∀ i, i < s.layers.length → (layerAt s.layers i).type = p.producer_kind →
      (layerAt s.layers i).tops ≠ []) ∧
    ∀ j, j < s.layers.length → ∀ k, k < s.layers.length → ¬ consumer_chain p s j k

instance (p : Pass) (s : NetOptimize F) : Decidable (Unchained p s) := by
  unfold Unchained; infer_instance

end SweepDefs

section OtherConsumerDefs

variable {F : Type} [Field F] [DecidableEq F]

/-- Graph `Input -> BatchNorm -> Scale` with the BatchNorm and the Scale of
`shared_top_net` at the same indices, another Input, and no Sigmoid. -/
def scale_only_net : NetOptimize F :=
  { layers :=
      [plain_layer "Input" "image" [] [0],
       { plain_layer "BatchNorm" "bn" [0] [1] with
         channels := 1, slope_data := [1], mean_data := [0], var_data := [1], bias_data := [0] },
       { plain_layer "Scale" "scale" [1] [2] with scale_data := [2] }],
    blobs := [⟨"image", 0, [1]⟩, ⟨"bn", 1, [2]⟩, ⟨"scale", 2, []⟩],
    stderr := [] }

end OtherConsumerDefs

section FrameDefs

variable {F : Type} [Field F] [DecidableEq F]

/-- The fields of the producer that the numeric block of the pass `p` may change:
`l` is `l0` except for `slope_data` and `bias_data` (`fuse_batchnorm_scale`), for
`weight_data`, `bias_data` and `bias_term` (the five BatchNorm folds), or for
`activation_type` and `activation_params` (the five activation passes);
`eliminate_dropout` has no numeric block. -/
def touched_only (p : Pass) (l0 l : Layer F) : Prop :=
  match p with
  | .fuse_batchnorm_scale =>
    { l with slope_data := l0.slope_data, bias_data := l0.bias_data } = l0
  | .fuse_convolution_batchnorm | .fuse_convolutiondepthwise_batchnorm
  | .fuse_deconvolution_batchnorm | .fuse_deconvolutiondepthwise_batchnorm
  | .fuse_innerproduct_batchnorm =>
    { l with weight_data := l0.weight_data, bias_data := l0.bias_data,
             bias_term := l0.bias_term } = l0
  | .fuse_convolution_activation | .fuse_convolutiondepthwise_activation
  | .fuse_deconvolution_activation | .fuse_deconvolutiondepthwise_activation
  | .fuse_innerproduct_activation =>
    { l with activation_type := l0.activation_type,
             activation_params := l0.activation_params } = l0
  | .eliminate_dropout => l = l0

end FrameDefs

section ConsistencyDefs

variable {F : Type} [Field F] [DecidableEq F]

/-- Every bottom of a live layer is a top of a live layer with a smaller index. -/
def OrderedBottoms (s : NetOptimize F) : Prop :=
  ∀ k, k < s.layers.length → (layerAt s.layers k).type ≠ "ncnnfused" →
    ∀ b ∈ (layerAt s.layers k).bottoms,
      ∃ m, m < k ∧ (layerAt s.layers m).type ≠ "ncnnfused" ∧ b ∈ (layerAt s.layers m).tops

instance (s : NetOptimize F) : Decidable (OrderedBottoms s) := by
  unfold OrderedBottoms; infer_instance

/-- Layers `Input a`, `Input b`, a Convolution reading `b` that has no top, a
BatchNorm reading `a`, and a ReLU reading the BatchNorm. -/
def topless_producer_net : NetOptimize F :=
  { layers :=
      [plain_layer "Input" "a" [] [0],
       plain_layer "Input" "b" [] [1],
       { plain_layer "Convolution" "conv" [1] [] with
         weight_data_size := 1, weight_data := [2] },
       { plain_layer "BatchNorm" "bn" [0] [2] with
         channels := 1, eps := 1, slope_data := [3], mean_data := [1], var_data := [3],
         bias_data := [1 / 2] },
       plain_layer "ReLU" "relu" [2] [3]],
    blobs := [⟨"a", 0, [3]⟩, ⟨"b", 1, [2]⟩, ⟨"bn", 3, [4]⟩, ⟨"relu", 4, []⟩],
    stderr := [] }

end ConsistencyDefs

section CopySources

variable {F : Type} [Field F] [DecidableEq F]

/-- Transcription, statement by statement, of
`NetOptimize::fuse_convolution_batchnorm` (lines 159-240). -/
def fuse_convolution_batchnorm_source (sqrt : F → F) (s : NetOptimize F) :
    NetOptimize F :=
  let layer_count := s.layers.length
  (List.range layer_count).foldl
    (fun s i =>
      if (layerAt s.layers i).type ≠ "Convolution" then s
      else
        let top_blob_index := (layerAt s.layers i).tops.getD 0 0
        let j := forward_scan s.layers (fun type => !(type != "BatchNorm"))
          top_blob_index (layer_count - (i + 1)) (i + 1)
        if j = layer_count then s
        else
          let convolution := layerAt s.layers i
          let batchnorm := layerAt s.layers j
          let stderr := s.stderr ++
            [diagnostic "fuse_convolution_batchnorm"
              convolution.name batchnorm.name]
          let channels := batchnorm.channels
          let eps := batchnorm.eps
          let a := (List.range channels.toNat).map fun i =>
            let sqrt_var := sqrt (batchnorm.var_data.getD i 0 + eps)
            batchnorm.bias_data.getD i 0
              - batchnorm.slope_data.getD i 0 * batchnorm.mean_data.getD i 0 / sqrt_var
          let b := (List.range channels.toNat).map fun i =>
            let sqrt_var := sqrt (batchnorm.var_data.getD i 0 + eps)
            batchnorm.slope_data.getD i 0 / sqrt_var
          let convolution :=
            if convolution.bias_term = 0 then
              { convolution with
                bias_term := 1, bias_data := List.replicate channels.toNat 0 }
            else convolution
          let weight_per_outch := Int.tdiv convolution.weight_data_size channels
          let wb := (List.range channels.toNat).foldl
            (fun wb i =>
              ((List.range weight_per_outch.toNat).foldl
                (fun w j => w.set (weight_per_outch.toNat * i + j)
                  (w.getD (weight_per_outch.toNat * i + j) 0 * b.getD i 0)) wb.1,
               wb.2.set i (wb.2.getD i 0 + a.getD i 0)))
            (convolution.weight_data, convolution.bias_data)
          let convolution :=
            { convolution with weight_data := wb.1, bias_data := wb.2 }
          let top_blob_index_final := batchnorm.tops.getD 0 0
          let convolution :=
            { convolution with
              tops := convolution.tops.set 0 top_blob_index_final }
          let blobs := set_producer s.blobs top_blob_index_final i
          let batchnorm := { batchnorm with type := "ncnnfused" }
          { layers := (s.layers.set i convolution).set j batchnorm, blobs := blobs,
            stderr := stderr })
    s

/-- Transcription, statement by statement, of
`NetOptimize::fuse_convolutiondepthwise_batchnorm` (lines 242-323). -/
def fuse_convolutiondepthwise_batchnorm_source (sqrt : F → F) (s : NetOptimize F) :
    NetOptimize F :=
  let layer_count := s.layers.length
  (List.range layer_count).foldl
    (fun s i =>
      if (layerAt s.layers i).type ≠ "ConvolutionDepthWise" then s
      else
        let top_blob_index := (layerAt s.layers i).tops.getD 0 0
        let j := forward_scan s.layers (fun type => !(type != "BatchNorm"))
          top_blob_index (layer_count - (i + 1)) (i + 1)
        if j = layer_count then s
        else
          let convolutiondepthwise := layerAt s.layers i
          let batchnorm := layerAt s.layers j
          let stderr := s.stderr ++
            [diagnostic "fuse_convolutiondepthwise_batchnorm"
              convolutiondepthwise.name batchnorm.name]
          let channels := batchnorm.channels
          let eps := batchnorm.eps
          let a := (List.range channels.toNat).map fun i =>
            let sqrt_var := sqrt (batchnorm.var_data.getD i 0 + eps)
            batchnorm.bias_data.getD i 0
              - batchnorm.slope_data.getD i 0 * batchnorm.mean_data.getD i 0 / sqrt_var
          let b := (List.range channels.toNat).map fun i =>
            let sqrt_var := sqrt (batchnorm.var_data.getD i 0 + eps)
            batchnorm.slope_data.getD i 0 / sqrt_var
          let convolutiondepthwise :=
            if convolutiondepthwise.bias_term = 0 then
              { convolutiondepthwise with
                bias_term := 1, bias_data := List.replicate channels.toNat 0 }
            else convolutiondepthwise
          let weight_per_outch := Int.tdiv convolutiondepthwise.weight_data_size channels
          let wb := (List.range channels.toNat).foldl
            (fun wb i =>
              ((List.range weight_per_outch.toNat).foldl
                (fun w j => w.set (weight_per_outch.toNat * i + j)
                  (w.getD (weight_per_outch.toNat * i + j) 0 * b.getD i 0)) wb.1,
               wb.2.set i (wb.2.getD i 0 + a.getD i 0)))
            (convolutiondepthwise.weight_data, convolutiondepthwise.bias_data)
          let convolutiondepthwise :=
            { convolutiondepthwise with weight_data := wb.1, bias_data := wb.2 }
          let top_blob_index_final := batchnorm.tops.getD 0 0
          let convolutiondepthwise :=
            { convolutiondepthwise with
              tops := convolutiondepthwise.tops.set 0 top_blob_index_final }
          let blobs := set_producer s.blobs top_blob_index_final i
          let batchnorm := { batchnorm with type := "ncnnfused" }
          { layers := (s.layers.set i convolutiondepthwise).set j batchnorm, blobs := blobs,
            stderr := stderr })
    s

/-- Transcription, statement by statement, of
`NetOptimize::fuse_deconvolution_batchnorm` (lines 325-406). -/
def fuse_deconvolution_batchnorm_source (sqrt : F → F) (s : NetOptimize F) :
    NetOptimize F :=
  let layer_count := s.layers.length
  (List.range layer_count).foldl
    (fun s i =>
      if (layerAt s.layers i).type ≠ "Deconvolution" then s
      else
        let top_blob_index := (layerAt s.layers i).tops.getD 0 0
        let j := forward_scan s.layers (fun type => !(type != "BatchNorm"))
          top_blob_index (layer_count - (i + 1)) (i + 1)
        if j = layer_count then s
        else
          let deconvolution := layerAt s.layers i
          let batchnorm := layerAt s.layers j
          let stderr := s.stderr ++
            [diagnostic "fuse_deconvolution_batchnorm"
              deconvolution.name batchnorm.name]
          let channels := batchnorm.channels
          let eps := batchnorm.eps
          let a := (List.range channels.toNat).map fun i =>
            let sqrt_var := sqrt (batchnorm.var_data.getD i 0 + eps)
            batchnorm.bias_data.getD i 0
              - batchnorm.slope_data.getD i 0 * batchnorm.mean_data.getD i 0 / sqrt_var
          let b := (List.range channels.toNat).map fun i =>
            let sqrt_var := sqrt (batchnorm.var_data.getD i 0 + eps)
            batchnorm.slope_data.getD i 0 / sqrt_var
          let deconvolution :=
            if deconvolution.bias_term = 0 then
              { deconvolution with
                bias_term := 1, bias_data := List.replicate channels.toNat 0 }
            else deconvolution
          let weight_per_outch := Int.tdiv deconvolution.weight_data_size channels
          let wb := (List.range channels.toNat).foldl
            (fun wb i =>
              ((List.range weight_per_outch.toNat).foldl
                (fun w j => w.set (weight_per_outch.toNat * i + j)
                  (w.getD (weight_per_outch.toNat * i + j) 0 * b.getD i 0)) wb.1,
               wb.2.set i (wb.2.getD i 0 + a.getD i 0)))
            (deconvolution.weight_data, deconvolution.bias_data)
          let deconvolution :=
            { deconvolution with weight_data := wb.1, bias_data := wb.2 }
          let top_blob_index_final := batchnorm.tops.getD 0 0
          let deconvolution :=
            { deconvolution with
              tops := deconvolution.tops.set 0 top_blob_index_final }
          let blobs := set_producer s.blobs top_blob_index_final i
          let batchnorm := { batchnorm with type := "ncnnfused" }
          { layers := (s.layers.set i deconvolution).set j batchnorm, blobs := blobs,
            stderr := stderr })
    s

/-- Transcription, statement by statement, of
`NetOptimize::fuse_deconvolutiondepthwise_batchnorm` (lines 408-489). -/
def fuse_deconvolutiondepthwise_batchnorm_source (sqrt : F → F) (s : NetOptimize F) :
    NetOptimize F :=
  let layer_count := s.layers.length
  (List.range layer_count).foldl
    (fun s i =>
      if (layerAt s.layers i).type ≠ "DeconvolutionDepthWise" then s
      else
        let top_blob_index := (layerAt s.layers i).tops.getD 0 0
        let j := forward_scan s.layers (fun type => !(type != "BatchNorm"))
          top_blob_index (layer_count - (i + 1)) (i + 1)
        if j = layer_count then s
        else
          let deconvolutiondepthwise := layerAt s.layers i
          let batchnorm := layerAt s.layers j
          let stderr := s.stderr ++
            [diagnostic "fuse_deconvolutiondepthwise_batchnorm"
              deconvolutiondepthwise.name batchnorm.name]
          let channels := batchnorm.channels
          let eps := batchnorm.eps
          let a := (List.range channels.toNat).map fun i =>
            let sqrt_var := sqrt (batchnorm.var_data.getD i 0 + eps)
            batchnorm.bias_data.getD i 0
              - batchnorm.slope_data.getD i 0 * batchnorm.mean_data.getD i 0 / sqrt_var
          let b := (List.range channels.toNat).map fun i =>
            let sqrt_var := sqrt (batchnorm.var_data.getD i 0 + eps)
            batchnorm.slope_data.getD i 0 / sqrt_var
          let deconvolutiondepthwise :=
            if deconvolutiondepthwise.bias_term = 0 then
              { deconvolutiondepthwise with
                bias_term := 1, bias_data := List.replicate channels.toNat 0 }
            else deconvolutiondepthwise
          let weight_per_outch := Int.tdiv deconvolutiondepthwise.weight_data_size channels
          let wb := (List.range channels.toNat).foldl
            (fun wb i =>
              ((List.range weight_per_outch.toNat).foldl
                (fun w j => w.set (weight_per_outch.toNat * i + j)
                  (w.getD (weight_per_outch.toNat * i + j) 0 * b.getD i 0)) wb.1,
               wb.2.set i (wb.2.getD i 0 + a.getD i 0)))
            (deconvolutiondepthwise.weight_data, deconvolutiondepthwise.bias_data)
          let deconvolutiondepthwise :=
            { deconvolutiondepthwise with weight_data := wb.1, bias_data := wb.2 }
          let top_blob_index_final := batchnorm.tops.getD 0 0
          let deconvolutiondepthwise :=
            { deconvolutiondepthwise with
              tops := deconvolutiondepthwise.tops.set 0 top_blob_index_final }
          let blobs := set_producer s.blobs top_blob_index_final i
          let batchnorm := { batchnorm with type := "ncnnfused" }
          { layers := (s.layers.set i deconvolutiondepthwise).set j batchnorm, blobs := blobs,
            stderr := stderr })
    s

/-- Transcription, statement by statement, of
`NetOptimize::fuse_innerproduct_batchnorm` (lines 491-572). -/
def fuse_innerproduct_batchnorm_source (sqrt : F → F) (s : NetOptimize F) :
    NetOptimize F :=
  let layer_count := s.layers.length
  (List.range layer_count).foldl
    (fun s i =>
      if (layerAt s.layers i).type ≠ "InnerProduct" then s
      else
        let top_blob_index := (layerAt s.layers i).tops.getD 0 0
        let j := forward_scan s.layers (fun type => !(type != "BatchNorm"))
          top_blob_index (layer_count - (i + 1)) (i + 1)
        if j = layer_count then s
        else
          let innerproduct := layerAt s.layers i
          let batchnorm := layerAt s.layers j
          let stderr := s.stderr ++
            [diagnostic "fuse_innerproduct_batchnorm"
              innerproduct.name batchnorm.name]
          let channels := batchnorm.channels
          let eps := batchnorm.eps
          let a := (List.range channels.toNat).map fun i =>
            let sqrt_var := sqrt (batchnorm.var_data.getD i 0 + eps)
            batchnorm.bias_data.getD i 0
              - batchnorm.slope_data.getD i 0 * batchnorm.mean_data.getD i 0 / sqrt_var
          let b := (List.range channels.toNat).map fun i =>
            let sqrt_var := sqrt (batchnorm.var_data.getD i 0 + eps)
            batchnorm.slope_data.getD i 0 / sqrt_var
          let innerproduct :=
            if innerproduct.bias_term = 0 then
              { innerproduct with
                bias_term := 1, bias_data := List.replicate channels.toNat 0 }
            else innerproduct
          let weight_per_outch := Int.tdiv innerproduct.weight_data_size channels
          let wb := (List.range channels.toNat).foldl
            (fun wb i =>
              ((List.range weight_per_outch.toNat).foldl
                (fun w j => w.set (weight_per_outch.toNat * i + j)
                  (w.getD (weight_per_outch.toNat * i + j) 0 * b.getD i 0)) wb.1,
               wb.2.set i (wb.2.getD i 0 + a.getD i 0)))
            (innerproduct.weight_data, innerproduct.bias_data)
          let innerproduct :=
            { innerproduct with weight_data := wb.1, bias_data := wb.2 }
          let top_blob_index_final := batchnorm.tops.getD 0 0
          let innerproduct :=
            { innerproduct with
              tops := innerproduct.tops.set 0 top_blob_index_final }
          let blobs := set_producer s.blobs top_blob_index_final i
          let batchnorm := { batchnorm with type := "ncnnfused" }
          { layers := (s.layers.set i innerproduct).set j batchnorm, blobs := blobs,
            stderr := stderr })
    s

/-- The function `fuse_convolution_batchnorm` (lines 159-240) with the producer kind
name substituted: the text of the function with `kind` for the type name
`Convolution` and `pass_name` for the name printed in the diagnostic line. -/
def batchnorm_pass_for (sqrt : F → F) (pass_name kind : String) (s : NetOptimize F) :
    NetOptimize F :=
  let layer_count := s.layers.length
  (List.range layer_count).foldl
    (fun s i =>
      if (layerAt s.layers i).type ≠ kind then s
      else
        let top_blob_index := (layerAt s.layers i).tops.getD 0 0
        let j := forward_scan s.layers (fun type => !(type != "BatchNorm"))
          top_blob_index (layer_count - (i + 1)) (i + 1)
        if j = layer_count then s
        else
          let convolution := layerAt s.layers i
          let batchnorm := layerAt s.layers j
          let stderr := s.stderr ++
            [diagnostic pass_name
              convolution.name batchnorm.name]
          let channels := batchnorm.channels
          let eps := batchnorm.eps
          let a := (List.range channels.toNat).map fun i =>
            let sqrt_var := sqrt (batchnorm.var_data.getD i 0 + eps)
            batchnorm.bias_data.getD i 0
              - batchnorm.slope_data.getD i 0 * batchnorm.mean_data.getD i 0 / sqrt_var
          let b := (List.range channels.toNat).map fun i =>
            let sqrt_var := sqrt (batchnorm.var_data.getD i 0 + eps)
            batchnorm.slope_data.getD i 0 / sqrt_var
          let convolution :=
            if convolution.bias_term = 0 then
              { convolution with
                bias_term := 1, bias_data := List.replicate channels.toNat 0 }
            else convolution
          let weight_per_outch := Int.tdiv convolution.weight_data_size channels
          let wb := (List.range channels.toNat).foldl
            (fun wb i =>
              ((List.range weight_per_outch.toNat).foldl
                (fun w j => w.set (weight_per_outch.toNat * i + j)
                  (w.getD (weight_per_outch.toNat * i + j) 0 * b.getD i 0)) wb.1,
               wb.2.set i (wb.2.getD i 0 + a.getD i 0)))
            (convolution.weight_data, convolution.bias_data)
          let convolution :=
            { convolution with weight_data := wb.1, bias_data := wb.2 }
          let top_blob_index_final := batchnorm.tops.getD 0 0
          let convolution :=
            { convolution with
              tops := convolution.tops.set 0 top_blob_index_final }
          let blobs := set_producer s.blobs top_blob_index_final i
          let batchnorm := { batchnorm with type := "ncnnfused" }
          { layers := (s.layers.set i convolution).set j batchnorm, blobs := blobs,
            stderr := stderr })
    s

/-- Transcription, statement by statement, of
`NetOptimize::fuse_convolution_activation` (lines 574-639). -/
def fuse_convolution_activation_source (s : NetOptimize F) :
    NetOptimize F :=
  let layer_count := s.layers.length
  (List.range layer_count).foldl
    (fun s i =>
      if (layerAt s.layers i).type ≠ "Convolution" then s
      else
        let top_blob_index := (layerAt s.layers i).tops.getD 0 0
        let j := forward_scan s.layers (fun type => !(type != "ReLU" && type != "Clip"))
          top_blob_index (layer_count - (i + 1)) (i + 1)
        if j = layer_count then s
        else
          let convolution := layerAt s.layers i
          let activation := layerAt s.layers j
          let stderr := s.stderr ++
            [diagnostic "fuse_convolution_activation"
              convolution.name activation.name]
          let convolution :=
            if activation.type = "ReLU" then
              let relu := activation
              if relu.slope = 0 then
                { convolution with activation_type := 1 }
              else
                { convolution with
                  activation_type := 2, activation_params := [relu.slope] }
            else if activation.type = "Clip" then
              let clip := activation
              { convolution with
                activation_type := 3, activation_params := [clip.min, clip.max] }
            else convolution
          let top_blob_index_final := activation.tops.getD 0 0
          let convolution :=
            { convolution with
              tops := convolution.tops.set 0 top_blob_index_final }
          let blobs := set_producer s.blobs top_blob_index_final i
          let activation := { activation with type := "ncnnfused" }
          { layers := (s.layers.set i convolution).set j activation, blobs := blobs,
            stderr := stderr })
    s

/-- Transcription, statement by statement, of
`NetOptimize::fuse_convolutiondepthwise_activation` (lines 641-706). -/
def fuse_convolutiondepthwise_activation_source (s : NetOptimize F) :
    NetOptimize F :=
  let layer_count := s.layers.length
  (List.range layer_count).foldl
    (fun s i =>
      if (layerAt s.layers i).type ≠ "ConvolutionDepthWise" then s
      else
        let top_blob_index := (layerAt s.layers i).tops.getD 0 0
        let j := forward_scan s.layers (fun type => !(type != "ReLU" && type != "Clip"))
          top_blob_index (layer_count - (i + 1)) (i + 1)
        if j = layer_count then s
        else
          let convolutiondepthwise := layerAt s.layers i
          let activation := layerAt s.layers j
          let stderr := s.stderr ++
            [diagnostic "fuse_convolutiondepthwise_activation"
              convolutiondepthwise.name activation.name]
          let convolutiondepthwise :=
            if activation.type = "ReLU" then
              let relu := activation
              if relu.slope = 0 then
                { convolutiondepthwise with activation_type := 1 }
              else
                { convolutiondepthwise with
                  activation_type := 2, activation_params := [relu.slope] }
            else if activation.type = "Clip" then
              let clip := activation
              { convolutiondepthwise with
                activation_type := 3, activation_params := [clip.min, clip.max] }
            else convolutiondepthwise
          let top_blob_index_final := activation.tops.getD 0 0
          let convolutiondepthwise :=
            { convolutiondepthwise with
              tops := convolutiondepthwise.tops.set 0 top_blob_index_final }
          let blobs := set_producer s.blobs top_blob_index_final i
          let activation := { activation with type := "ncnnfused" }
          { layers := (s.layers.set i convolutiondepthwise).set j activation, blobs := blobs,
            stderr := stderr })
    s

/-- Transcription, statement by statement, of
`NetOptimize::fuse_deconvolution_activation` (lines 708-773). -/
def fuse_deconvolution_activation_source (s : NetOptimize F) :
    NetOptimize F :=
  let layer_count := s.layers.length
  (List.range layer_count).foldl
    (fun s i =>
      if (layerAt s.layers i).type ≠ "Deconvolution" then s
      else
        let top_blob_index := (layerAt s.layers i).tops.getD 0 0
        let j := forward_scan s.layers (fun type => !(type != "ReLU" && type != "Clip"))
          top_blob_index (layer_count - (i + 1)) (i + 1)
        if j = layer_count then s
        else
          let deconvolution := layerAt s.layers i
          let activation := layerAt s.layers j
          let stderr := s.stderr ++
            [diagnostic "fuse_deconvolution_activation"
              deconvolution.name activation.name]
          let deconvolution :=
            if activation.type = "ReLU" then
              let relu := activation
              if relu.slope = 0 then
                { deconvolution with activation_type := 1 }
              else
                { deconvolution with
                  activation_type := 2, activation_params := [relu.slope] }
            else if activation.type = "Clip" then
              let clip := activation
              { deconvolution with
                activation_type := 3, activation_params := [clip.min, clip.max] }
            else deconvolution
          let top_blob_index_final := activation.tops.getD 0 0
          let deconvolution :=
            { deconvolution with
              tops := deconvolution.tops.set 0 top_blob_index_final }
          let blobs := set_producer s.blobs top_blob_index_final i
          let activation := { activation with type := "ncnnfused" }
          { layers := (s.layers.set i deconvolution).set j activation, blobs := blobs,
            stderr := stderr })
    s

/-- Transcription, statement by statement, of
`NetOptimize::fuse_deconvolutiondepthwise_activation` (lines 775-840). -/
def fuse_deconvolutiondepthwise_activation_source (s : NetOptimize F) :
    NetOptimize F :=
  let layer_count := s.layers.length
  (List.range layer_count).foldl
    (fun s i =>
      if (layerAt s.layers i).type ≠ "DeconvolutionDepthWise" then s
      else
        let top_blob_index := (layerAt s.layers i).tops.getD 0 0
        let j := forward_scan s.layers (fun type => !(type != "ReLU" && type != "Clip"))
          top_blob_index (layer_count - (i + 1)) (i + 1)
        if j = layer_count then s
        else
          let deconvolutiondepthwise := layerAt s.layers i
          let activation := layerAt s.layers j
          let stderr := s.stderr ++
            [diagnostic "fuse_deconvolutiondepthwise_activation"
              deconvolutiondepthwise.name activation.name]
          let deconvolutiondepthwise :=
            if activation.type = "ReLU" then
              let relu := activation
              if relu.slope = 0 then
                { deconvolutiondepthwise with activation_type := 1 }
              else
                { deconvolutiondepthwise with
                  activation_type := 2, activation_params := [relu.slope] }
            else if activation.type = "Clip" then
              let clip := activation
              { deconvolutiondepthwise with
                activation_type := 3, activation_params := [clip.min, clip.max] }
            else deconvolutiondepthwise
          let top_blob_index_final := activation.tops.getD 0 0
          let deconvolutiondepthwise :=
            { deconvolutiondepthwise with
              tops := deconvolutiondepthwise.tops.set 0 top_blob_index_final }
          let blobs := set_producer s.blobs top_blob_index_final i
          let activation := { activation with type := "ncnnfused" }
          { layers := (s.layers.set i deconvolutiondepthwise).set j activation, blobs := blobs,
            stderr := stderr })
    s

/-- Transcription, statement by statement, of
`NetOptimize::fuse_innerproduct_activation` (lines 842-907). -/
def fuse_innerproduct_activation_source (s : NetOptimize F) :
    NetOptimize F :=
  let layer_count := s.layers.length
  (List.range layer_count).foldl
    (fun s i =>
      if (layerAt s.layers i).type ≠ "InnerProduct" then s
      else
        let top_blob_index := (layerAt s.layers i).tops.getD 0 0
        let j := forward_scan s.layers (fun type => !(type != "ReLU" && type != "Clip"))
          top_blob_index (layer_count - (i + 1)) (i + 1)
        if j = layer_count then s
        else
          let innerproduct := layerAt s.layers i
          let activation := layerAt s.layers j
          let stderr := s.stderr ++
            [diagnostic "fuse_innerproduct_activation"
              innerproduct.name activation.name]
          let innerproduct :=
            if activation.type = "ReLU" then
              let relu := activation
              if relu.slope = 0 then
                { innerproduct with activation_type := 1 }
              else
                { innerproduct with
                  activation_type := 2, activation_params := [relu.slope] }
            else if activation.type = "Clip" then
              let clip := activation
              { innerproduct with
                activation_type := 3, activation_params := [clip.min, clip.max] }
            else innerproduct
          let top_blob_index_final := activation.tops.getD 0 0
          let innerproduct :=
            { innerproduct with
              tops := innerproduct.tops.set 0 top_blob_index_final }
          let blobs := set_producer s.blobs top_blob_index_final i
          let activation := { activation with type := "ncnnfused" }
          { layers := (s.layers.set i innerproduct).set j activation, blobs := blobs,
            stderr := stderr })
    s

/-- The function `fuse_convolution_activation` (lines 574-639) with the producer kind
name substituted: the text of the function with `kind` for the type name
`Convolution` and `pass_name` for the name printed in the diagnostic line. -/
def activation_pass_for (pass_name kind : String) (s : NetOptimize F) :
    NetOptimize F :=
  let layer_count := s.layers.length
  (List.range layer_count).foldl
    (fun s i =>
      if (layerAt s.layers i).type ≠ kind then s
      else
        let top_blob_index := (layerAt s.layers i).tops.getD 0 0
        let j := forward_scan s.layers (fun type => !(type != "ReLU" && type != "Clip"))
          top_blob_index (layer_count - (i + 1)) (i + 1)
        if j = layer_count then s
        else
          let convolution := layerAt s.layers i
          let activation := layerAt s.layers j
          let stderr := s.stderr ++
            [diagnostic pass_name
              convolution.name activation.name]
          let convolution :=
            if activation.type = "ReLU" then
              let relu := activation
              if relu.slope = 0 then
                { convolution with activation_type := 1 }
              else
                { convolution with
                  activation_type := 2, activation_params := [relu.slope] }
            else if activation.type = "Clip" then
              let clip := activation
              { convolution with
                activation_type := 3, activation_params := [clip.min, clip.max] }
            else convolution
          let top_blob_index_final := activation.tops.getD 0 0
          let convolution :=
            { convolution with
              tops := convolution.tops.set 0 top_blob_index_final }
          let blobs := set_producer s.blobs top_blob_index_final i
          let activation := { activation with type := "ncnnfused" }
          { layers := (s.layers.set i convolution).set j activation, blobs := blobs,
            stderr := stderr })
    s

end CopySources

section CollapseDefs

variable {F : Type} [Field F] [DecidableEq F]

/-- The chain `Input -> producer -> BatchNorm -> Scale` with the producer of the
type `kind`: layer `k` has the single top `k` and reads blob `k - 1`; the other
fields of the three layers are those of `producer`, `batchnorm` and `scale`. -/
def collapse_chain (kind : String) (producer batchnorm scale : Layer F) : NetOptimize F :=
  { layers :=
      [plain_layer "Input" "data" [] [0],
       { producer with type := kind, bottoms := [0], tops := [1] },
       { batchnorm with type := "BatchNorm", bottoms := [1], tops := [2] },
       { scale with type := "Scale", bottoms := [2], tops := [3] }],
    blobs := [⟨"data", 0, [1]⟩, ⟨"b1", 1, [2]⟩, ⟨"b2", 2, [3]⟩, ⟨"b3", 3, []⟩],
    stderr := [] }

/-- The BatchNorm of `collapse_chain` after `fuse_batchnorm_scale`. -/
def collapse_batchnorm (batchnorm scale : Layer F) : Layer F :=
  { fold_scale { batchnorm with type := "BatchNorm", bottoms := [1], tops := [2] }
      { scale with type := "Scale", bottoms := [2], tops := [3] } with
    tops := [3] }

/-- The state of `collapse_chain` after `fuse_batchnorm_scale`. -/
def collapse_after_scale (kind : String) (producer batchnorm scale : Layer F) :
    NetOptimize F :=
  { layers :=
      [plain_layer "Input" "data" [] [0],
       { producer with type := kind, bottoms := [0], tops := [1] },
       collapse_batchnorm batchnorm scale,
       { scale with type := "ncnnfused", bottoms := [2], tops := [3] }],
    blobs := [⟨"data", 0, [1]⟩, ⟨"b1", 1, [2]⟩, ⟨"b2", 2, [3]⟩, ⟨"b3", 2, []⟩],
    stderr := ["fuse_batchnorm_scale " ++ batchnorm.name ++ " " ++ scale.name ++ "\n"] }

/-- The producer of `collapse_chain` after the BatchNorm fold that follows
`fuse_batchnorm_scale`. -/
def collapse_producer (sqrt : F → F) (kind : String) (producer batchnorm scale : Layer F) :
    Layer F :=
  { fold_batchnorm sqrt { producer with type := kind, bottoms := [0], tops := [1] }
      (collapse_batchnorm batchnorm scale) with
    tops := (fold_batchnorm sqrt { producer with type := kind, bottoms := [0], tops := [1] }
      (collapse_batchnorm batchnorm scale)).tops.set 0 3 }

/-- The BatchNorm fold of `main` that stops on the producers of the type `kind`. -/
def batchnorm_pass_of (kind : String) : Pass :=
  if kind = "ConvolutionDepthWise" then .fuse_convolutiondepthwise_batchnorm
  else if kind = "Deconvolution" then .fuse_deconvolution_batchnorm
  else if kind = "DeconvolutionDepthWise" then .fuse_deconvolutiondepthwise_batchnorm
  else if kind = "InnerProduct" then .fuse_innerproduct_batchnorm
  else .fuse_convolution_batchnorm

/-- The state of `collapse_chain` after `fuse_batchnorm_scale` and the BatchNorm
fold of the producer kind. -/
def collapse_final (sqrt : F → F) (kind : String) (producer batchnorm scale : Layer F) :
    NetOptimize F :=
  { layers :=
      [plain_layer "Input" "data" [] [0],
       collapse_producer sqrt kind producer batchnorm scale,
       { collapse_batchnorm batchnorm scale with type := "ncnnfused" },
       { scale with type := "ncnnfused", bottoms := [2], tops := [3] }],
    blobs := [⟨"data", 0, [1]⟩, ⟨"b1", 1, [2]⟩, ⟨"b2", 2, [3]⟩, ⟨"b3", 1, []⟩],
    stderr := ["fuse_batchnorm_scale " ++ batchnorm.name ++ " " ++ scale.name ++ "\n",
      (batchnorm_pass_of kind).pass_name ++ " " ++ producer.name ++ " " ++ batchnorm.name
        ++ "\n"] }

end CollapseDefs

section CheckedDefs

variable {F : Type} [Field F] [DecidableEq F]

/-- An indexed read `xs[i]`: `none` when `i` is not below the size of `xs`. -/
def read_at {α : Type} (xs : List α) (i : Nat) : Option α := xs[i]?

/-- An indexed write `xs[i] = v`: `none` when `i` is not below the size of `xs`. -/
def write_at {α : Type} (xs : List α) (i : Nat) (v : α) : Option (List α) :=
  if i < xs.length then some (xs.set i v) else none

/-- The integer division `a / b` of C: `none` when `b` is zero. -/
def int_div (a b : Int) : Option Int :=
  if b = 0 then none else some (Int.tdiv a b)

/-- The division `x / y` of two floats: `none` when `y` is zero. -/
def float_div (x y : F) : Option F :=
  if y = 0 then none else some (x / y)

/-- A `for` loop over the indices `l` whose body may fail: the loop stops with
`none` at the first failure. -/
def for_checked {σ : Type} (l : List Nat) (body : σ → Nat → Option σ) (init : σ) : Option σ :=
  match l with
  | [] => some init
  | i :: t =>
    match body init i with
    | none => none
    | some s => for_checked t body s

/-- The values computed by a `for` loop that fills a vector, element `i` being
`f i`: `none` when the computation of an element fails. -/
def fill_checked {β : Type} (l : List Nat) (f : Nat → Option β) : Option (List β) :=
  match l with
  | [] => some []
  | i :: t =>
    match f i with
    | none => none
    | some v =>
      match fill_checked t f with
      | none => none
      | some vs => some (v :: vs)

/-- The loop of lines 201-206 with every read and division checked: the vectors `a`
and `b` of the BatchNorm fold. -/
def batchnorm_ab_checked (sqrt : F → F) (batchnorm : Layer F) : Option (List F × List F) :=
  match fill_checked (List.range batchnorm.channels.toNat) (fun i =>
      (read_at batchnorm.var_data i).bind fun var_i =>
      let sqrt_var := sqrt (var_i + batchnorm.eps)
      (read_at batchnorm.bias_data i).bind fun bias_i =>
      (read_at batchnorm.slope_data i).bind fun slope_i =>
      (read_at batchnorm.mean_data i).bind fun mean_i =>
      (float_div (slope_i * mean_i) sqrt_var).bind fun q =>
      some (bias_i - q)) with
  | none => none
  | some a =>
    match fill_checked (List.range batchnorm.channels.toNat) (fun i =>
        (read_at batchnorm.var_data i).bind fun var_i =>
        let sqrt_var := sqrt (var_i + batchnorm.eps)
        (read_at batchnorm.slope_data i).bind fun slope_i =>
        float_div slope_i sqrt_var) with
    | none => none
    | some b => some (a, b)

/-- The inner loop `conv_weight_outch[j] *= b_i` with the read and the write
checked. -/
def scale_outch_checked (weight : List F) (base weight_per_outch : Nat) (b_i : F) :
    Option (List F) :=
  for_checked (List.range weight_per_outch)
    (fun w j => (read_at w (base + j)).bind fun v => write_at w (base + j) (v * b_i)) weight

/-- The loop over output channels of the BatchNorm fold with every read and
write checked. -/
def fold_channels_checked (a b : List F) (weight_per_outch channels : Nat)
    (weight bias : List F) : Option (List F × List F) :=
  for_checked (List.range channels)
    (fun wb i =>
      (read_at b i).bind fun b_i =>
      (scale_outch_checked wb.1 (weight_per_outch * i) weight_per_outch b_i).bind fun w =>
      (read_at wb.2 i).bind fun bias_i =>
      (read_at a i).bind fun a_i =>
      (write_at wb.2 i (bias_i + a_i)).bind fun bias => some (w, bias))
    (weight, bias)

/-- The numeric block of the five `fuse_*_batchnorm` passes with every indexed
access and every division checked. -/
def fold_batchnorm_checked (sqrt : F → F) (convolution batchnorm : Layer F) :
    Option (Layer F) :=
  let channels := batchnorm.channels
  (batchnorm_ab_checked sqrt batchnorm).bind fun ab =>
  let convolution :=
    if convolution.bias_term = 0 then
      { convolution with bias_term := 1, bias_data := List.replicate channels.toNat 0 }
    else convolution
  (int_div convolution.weight_data_size channels).bind fun weight_per_outch =>
  (fold_channels_checked ab.1 ab.2 weight_per_outch.toNat channels.toNat
    convolution.weight_data convolution.bias_data).bind fun wb =>
  some { convolution with weight_data := wb.1, bias_data := wb.2 }

/-- The loop over channels of `fuse_batchnorm_scale` with every read and write
checked. -/
def scale_channels_checked (scale : Layer F) (channels : Nat) (slope bias : List F) :
    Option (List F × List F) :=
  for_checked (List.range channels)
    (fun sb q =>
      (read_at sb.1 q).bind fun slope_q =>
      (read_at scale.scale_data q).bind fun scale_q =>
      (write_at sb.1 q (slope_q * scale_q)).bind fun slope =>
      (read_at sb.2 q).bind fun bias_q =>
      if scale.bias_term ≠ 0 then
        (read_at scale.bias_data q).bind fun scale_bias_q =>
        (write_at sb.2 q (bias_q * scale_q + scale_bias_q)).bind fun bias => some (slope, bias)
      else
        (write_at sb.2 q (bias_q * scale_q)).bind fun bias => some (slope, bias))
    (slope, bias)

/-- The numeric block of `fuse_batchnorm_scale` with every read and write
checked. -/
def fold_scale_checked (batchnorm scale : Layer F) : Option (Layer F) :=
  (scale_channels_checked scale batchnorm.channels.toNat
    batchnorm.slope_data batchnorm.bias_data).bind fun sb =>
  some { batchnorm with slope_data := sb.1, bias_data := sb.2 }

/-- The activation block of the five `fuse_*_activation` passes with the writes
`activation_params[0]`, `activation_params[1]` into the new `ncnn::Mat` checked. -/
def fold_activation_checked (convolution activation : Layer F) : Option (Layer F) :=
  if activation.type = "ReLU" then
    if activation.slope = 0 then
      some { convolution with activation_type := 1 }
    else
      (write_at (List.replicate 1 (0 : F)) 0 activation.slope).bind fun params =>
      some { convolution with activation_type := 2, activation_params := params }
  else if activation.type = "Clip" then
    (write_at (List.replicate 2 (0 : F)) 0 activation.min).bind fun params =>
    (write_at params 1 activation.max).bind fun params =>
    some { convolution with activation_type := 3, activation_params := params }
  else some convolution

end CheckedDefs
section CheckedPasses

variable {F : Type} [Field F] [DecidableEq F]

/-- The scan of a forward pass with the reads `layers[j]` and
`layers[j]->bottoms[0]` checked. -/
def forward_scan_checked (layers : List (Layer F)) (is_consumer : String → Bool)
    (top_blob_index : Nat) : Nat → Nat → Option Nat
  | 0, j => some j
  | remaining + 1, j =>
    (read_at layers j).bind fun layer_j =>
    if !is_consumer layer_j.type then
      forward_scan_checked layers is_consumer top_blob_index remaining (j + 1)
    else if layer_j.bottoms.length ≠ 1 then
      forward_scan_checked layers is_consumer top_blob_index remaining (j + 1)
    else
      (read_at layer_j.bottoms 0).bind fun bottom =>
      if bottom = top_blob_index then some j
      else forward_scan_checked layers is_consumer top_blob_index remaining (j + 1)

/-- The four statements that end every rewrite with each indexed access checked:
the read `consumer->tops[0]`, the write `producer->tops[0]`, the access
`blobs[top_blob_index_final]` and the accesses `layers[p]`, `layers[c]`. -/
def reroute_checked (s : NetOptimize F) (p c : Nat) : Option (NetOptimize F) :=
  (read_at s.layers c).bind fun consumer =>
  (read_at consumer.tops 0).bind fun top_blob_index_final =>
  (read_at s.layers p).bind fun producer =>
  (write_at producer.tops 0 top_blob_index_final).bind fun tops =>
  (write_at s.layers p { producer with tops := tops }).bind fun layers =>
  (read_at s.blobs top_blob_index_final).bind fun blob =>
  (write_at s.blobs top_blob_index_final { blob with producer := p }).bind fun blobs =>
  (read_at layers c).bind fun consumer =>
  (write_at layers c { consumer with type := "ncnnfused" }).bind fun layers =>
  some { s with layers := layers, blobs := blobs }

/-- The rewrite of a forward pass with each indexed access checked. -/
def fuse_pair_checked (pass_name : String)
    (fold : Layer F → Layer F → Option (Layer F)) (s : NetOptimize F) (i j : Nat) :
    Option (NetOptimize F) :=
  (read_at s.layers i).bind fun producer =>
  (read_at s.layers j).bind fun consumer =>
  let line := diagnostic pass_name producer.name consumer.name
  let s := { s with stderr := s.stderr ++ [line] }
  (fold producer consumer).bind fun folded =>
  (write_at s.layers i folded).bind fun layers =>
  reroute_checked { s with layers := layers } i j

/-- The body of the outer loop of a forward pass with each indexed access
checked. -/
def fuse_step_checked (pass_name : String) (producer_type : String)
    (is_consumer : String → Bool) (fold : Layer F → Layer F → Option (Layer F))
    (layer_count : Nat) (s : NetOptimize F) (i : Nat) : Option (NetOptimize F) :=
  (read_at s.layers i).bind fun layer_i =>
  if layer_i.type ≠ producer_type then some s
  else
    (read_at layer_i.tops 0).bind fun top_blob_index =>
    (forward_scan_checked s.layers is_consumer top_blob_index
      (layer_count - (i + 1)) (i + 1)).bind fun j =>
    if j = layer_count then some s
    else fuse_pair_checked pass_name fold s i j

/-- A forward pass with each indexed access and each division checked. -/
def forward_pass_checked (pass_name : String) (producer_type : String)
    (is_consumer : String → Bool) (fold : Layer F → Layer F → Option (Layer F))
    (s : NetOptimize F) : Option (NetOptimize F) :=
  for_checked (List.range s.layers.length)
    (fuse_step_checked pass_name producer_type is_consumer fold s.layers.length) s

/-- The scan of `eliminate_dropout` with the reads `layers[j]` and
`layers[j]->tops[0]` checked. -/
def backward_scan_checked (layers : List (Layer F)) (bottom_blob_index : Nat) :
    Nat → Option Int
  | 0 => some (-1)
  | j + 1 =>
    (read_at layers j).bind fun layer_j =>
    if layer_j.type = "ncnnfused" then
      backward_scan_checked layers bottom_blob_index j
    else if layer_j.tops.length ≠ 1 then
      backward_scan_checked layers bottom_blob_index j
    else
      (read_at layer_j.tops 0).bind fun top =>
      if top = bottom_blob_index then some (j : Int)
      else backward_scan_checked layers bottom_blob_index j

/-- The rewrite of `eliminate_dropout` with each indexed access checked. -/
def eliminate_pair_checked (s : NetOptimize F) (i j : Nat) : Option (NetOptimize F) :=
  (read_at s.layers j).bind fun any =>
  (read_at s.layers i).bind fun dropout =>
  let line := diagnostic "eliminate_dropout" any.name dropout.name
  let s := { s with stderr := s.stderr ++ [line] }
  reroute_checked s j i

/-- The body of the loop of `eliminate_dropout` with each indexed access
checked. -/
def eliminate_step_checked (s : NetOptimize F) (i : Nat) : Option (NetOptimize F) :=
  (read_at s.layers i).bind fun layer_i =>
  if layer_i.type ≠ "Dropout" then some s
  else if layer_i.scale ≠ 1 then some s
  else
    (read_at layer_i.bottoms 0).bind fun bottom_blob_index =>
    (backward_scan_checked s.layers bottom_blob_index i).bind fun j =>
    if j = -1 then some s
    else eliminate_pair_checked s i j.toNat

/-- The pass `eliminate_dropout` with each indexed access checked. -/
def eliminate_dropout_checked (s : NetOptimize F) : Option (NetOptimize F) :=
  for_checked (List.range s.layers.length) eliminate_step_checked s

/-- The numeric block of a forward pass with its accesses and divisions
checked. -/
def Pass.fold_checked (sqrt : F → F) : Pass → Layer F → Layer F → Option (Layer F)
  | .fuse_batchnorm_scale => fold_scale_checked
  | .fuse_convolution_batchnorm => fold_batchnorm_checked sqrt
  | .fuse_convolutiondepthwise_batchnorm => fold_batchnorm_checked sqrt
  | .fuse_deconvolution_batchnorm => fold_batchnorm_checked sqrt
  | .fuse_deconvolutiondepthwise_batchnorm => fold_batchnorm_checked sqrt
  | .fuse_innerproduct_batchnorm => fold_batchnorm_checked sqrt
  | .fuse_convolution_activation => fold_activation_checked
  | .fuse_convolutiondepthwise_activation => fold_activation_checked
  | .fuse_deconvolution_activation => fold_activation_checked
  | .fuse_deconvolutiondepthwise_activation => fold_activation_checked
  | .fuse_innerproduct_activation => fold_activation_checked
  | .eliminate_dropout => fun p _ => some p

/-- One pass of the optimizer run with every indexed read and write and every
division checked: `none` when an index is out of bounds or a divisor is zero,
the state left by the pass otherwise. -/
def run_pass_checked (sqrt : F → F) (p : Pass) (s : NetOptimize F) :
    Option (NetOptimize F) :=
  if p = .eliminate_dropout then eliminate_dropout_checked s
  else forward_pass_checked p.pass_name p.producer_kind p.consumer_test
    (p.fold_checked sqrt) s

/-- The tensor sizes the fold of `fuse_batchnorm_scale` relies on: the slope and
bias of the BatchNorm and the scale (and the bias when `bias_term != 0`) of the
Scale have at least `channels` elements. -/
def scale_safe (batchnorm scale : Layer F) : Prop :=
  batchnorm.channels.toNat ≤ batchnorm.slope_data.length ∧
  batchnorm.channels.toNat ≤ batchnorm.bias_data.length ∧
  batchnorm.channels.toNat ≤ scale.scale_data.length ∧
  (scale.bias_term ≠ 0 → batchnorm.channels.toNat ≤ scale.bias_data.length)

/-- The sizes the BatchNorm fold relies on: `channels` is positive, the four
tensors of the BatchNorm have at least `channels` elements, the weight tensor
of the producer has `weight_data_size >= 0` elements and its bias (when
`bias_term != 0`) at least `channels` elements. -/
def batchnorm_safe (convolution batchnorm : Layer F) : Prop :=
  0 < batchnorm.channels ∧
  batchnorm.channels.toNat ≤ batchnorm.slope_data.length ∧
  batchnorm.channels.toNat ≤ batchnorm.mean_data.length ∧
  batchnorm.channels.toNat ≤ batchnorm.var_data.length ∧
  batchnorm.channels.toNat ≤ batchnorm.bias_data.length ∧
  0 ≤ convolution.weight_data_size ∧
  (convolution.weight_data.length : Int) = convolution.weight_data_size ∧
  (convolution.bias_term ≠ 0 → batchnorm.channels.toNat ≤ convolution.bias_data.length)

/-- The size conditions on a producer and a consumer of the pass `p`. -/
def fold_safe : Pass → Layer F → Layer F → Prop
  | .fuse_batchnorm_scale => scale_safe
  | .fuse_convolution_batchnorm => batchnorm_safe
  | .fuse_convolutiondepthwise_batchnorm => batchnorm_safe
  | .fuse_deconvolution_batchnorm => batchnorm_safe
  | .fuse_deconvolutiondepthwise_batchnorm => batchnorm_safe
  | .fuse_innerproduct_batchnorm => batchnorm_safe
  | _ => fun _ _ => True

/-- The divisors of the vectors `a` and `b` of a BatchNorm are non-zero:
`sqrt(var_data[c] + eps) != 0` for every channel `c`. -/
def divisors_nonzero (sqrt : F → F) (batchnorm : Layer F) : Prop :=
  ∀ c, c < batchnorm.channels.toNat →
    sqrt (batchnorm.var_data.getD c 0 + batchnorm.eps) ≠ 0

/-- The passes that fold a BatchNorm into an affine producer. -/
def Pass.folds_batchnorm : Pass → Bool
  | .fuse_convolution_batchnorm => true
  | .fuse_convolutiondepthwise_batchnorm => true
  | .fuse_deconvolution_batchnorm => true
  | .fuse_deconvolutiondepthwise_batchnorm => true
  | .fuse_innerproduct_batchnorm => true
  | _ => false

/-- The preconditions of index safety for the pass `p` on the net `s`: every
layer of the kind the outer loop of the pass stops at (the producer kind of a
forward pass, Dropout for `eliminate_dropout`) has at least one top, every
matched consumer has at least one top and the tensor sizes of `fold_safe` with
its producer, every Dropout has at least one bottom, and all blob indices are
below the blob count. -/
def IndexPreconditions (p : Pass) (s : NetOptimize F) : Prop :=
  (∀ i, i < s.layers.length → (layerAt s.layers i).type = p.producer_kind →
    (layerAt s.layers i).tops ≠ []) ∧
  (∀ i, i < s.layers.length → ∀ j, j < s.layers.length → candidate p s i j →
    (layerAt s.layers j).tops ≠ [] ∧ fold_safe p (layerAt s.layers i) (layerAt s.layers j)) ∧
  (∀ i, i < s.layers.length → (layerAt s.layers i).type = "Dropout" →
    (layerAt s.layers i).bottoms ≠ []) ∧
  BlobIndicesInRange s

/-- Every BatchNorm matched by a BatchNorm fold of the pass `p` has non-zero
divisors. -/
def DivisorsNonzero (sqrt : F → F) (p : Pass) (s : NetOptimize F) : Prop :=
  p.folds_batchnorm = true →
    ∀ i, i < s.layers.length → ∀ j, j < s.layers.length → candidate p s i j →
      divisors_nonzero sqrt (layerAt s.layers j)

/-- A BatchNorm with one channel whose variance and `eps` are both zero, after a
Convolution with one weight: `sqrt(var_data[0] + eps)` is `sqrt(0)`. -/
def zero_variance_net : NetOptimize F :=
  { layers :=
      [plain_layer "Input" "data" [] [0],
       { plain_layer "Convolution" "conv" [0] [1] with
         weight_data_size := 1, weight_data := [2] },
       { plain_layer "BatchNorm" "bn" [1] [2] with
         channels := 1, eps := 0, slope_data := [3], mean_data := [1], var_data := [0],
         bias_data := [1 / 2] }],
    blobs := [⟨"data", 0, [1]⟩, ⟨"conv", 1, [2]⟩, ⟨"bn", 2, []⟩],
    stderr := [] }

instance (batchnorm scale : Layer F) : Decidable (scale_safe batchnorm scale) := by
  unfold scale_safe; infer_instance

instance (convolution batchnorm : Layer F) :
    Decidable (batchnorm_safe convolution batchnorm) := by
  unfold batchnorm_safe; infer_instance

instance (p : Pass) (producer consumer : Layer F) :
    Decidable (fold_safe p producer consumer) := by
  cases p <;> unfold fold_safe <;> infer_instance

instance (p : Pass) (s : NetOptimize F) : Decidable (IndexPreconditions p s) := by
  unfold IndexPreconditions; infer_instance

instance (sqrt : F → F) (batchnorm : Layer F) :
    Decidable (divisors_nonzero sqrt batchnorm) := by
  unfold divisors_nonzero; infer_instance

instance (sqrt : F → F) (p : Pass) (s : NetOptimize F) :
    Decidable (DivisorsNonzero sqrt p s) := by
  unfold DivisorsNonzero; infer_instance

end CheckedPasses

section DefinedRunDefs

variable {F : Type} [Field F] [DecidableEq F]

/-- The read `layers[i]->tops[0]` that opens every iteration of the pass `p` on a
layer of the kind its outer loop stops at is in bounds: every such layer has at
least one top. -/
def ProducerHasTop (p : Pass) (s : NetOptimize F) : Prop :=
  ∀ i, i < s.layers.length → (layerAt s.layers i).type = p.producer_kind →
    (layerAt s.layers i).tops ≠ []

instance (p : Pass) (s : NetOptimize F) : Decidable (ProducerHasTop p s) := by
  unfold ProducerHasTop; infer_instance

end DefinedRunDefs

section Lemmas

set_option linter.unusedSectionVars false

variable {F : Type} [Field F] [DecidableEq F]

/-! ## Reading and writing the layer list -/

theorem layerAt_set_self (layers : List (Layer F)) (i : Nat) (l : Layer F)
    (h : i < layers.length) : layerAt (layers.set i l) i = l := by
  simp [layerAt, List.getD_eq_getElem?_getD, List.getElem?_set, h]

theorem layerAt_set_other (layers : List (Layer F)) (i k : Nat) (l : Layer F)
    (h : i ≠ k) : layerAt (layers.set i l) k = layerAt layers k := by
  simp [layerAt, List.getD_eq_getElem?_getD, List.getElem?_set, h]

theorem set_of_length_le (layers : List (Layer F)) (i : Nat) (l : Layer F)
    (h : layers.length ≤ i) : layers.set i l = layers := by
  apply List.ext_getElem?
  intro k
  rw [List.getElem?_set]
  split_ifs with h1 h2
  · omega
  · subst h1; exact (List.getElem?_eq_none h).symm
  · rfl

theorem getD_zero_mem (l : List Nat) (h : l ≠ []) : l.getD 0 0 ∈ l := by
  cases l with
  | nil => exact absurd rfl h
  | cons a t => simp

theorem mem_set_zero (l : List Nat) (x t : Nat) (h : t ∈ l.set 0 x) : t = x ∨ t ∈ l := by
  cases l with
  | nil => simp at h
  | cons a r =>
    simp only [List.set_cons_zero, List.mem_cons] at h
    rcases h with h | h
    · exact Or.inl h
    · exact Or.inr (List.mem_cons_of_mem _ h)

theorem zero_mem_set_zero (l : List Nat) (x : Nat) (h : l ≠ []) : x ∈ l.set 0 x := by
  cases l with
  | nil => exact absurd rfl h
  | cons a r => simp

theorem mem_set_zero_of_mem (l : List Nat) (x t : Nat) (h : t ∈ l) (ht : t ≠ l.getD 0 0) :
    t ∈ l.set 0 x := by
  cases l with
  | nil => simp at h
  | cons a r =>
    simp only [List.getD_cons_zero] at ht
    simp only [List.mem_cons] at h
    rcases h with h | h
    · exact absurd h ht
    · simp [h]

/-! ## The forward scan -/

theorem forward_scan_ge (layers : List (Layer F)) (ic : String → Bool) (t : Nat) :
    ∀ r j, j ≤ forward_scan layers ic t r j := by
  intro r
  induction r with
  | zero => intro j; simp [forward_scan]
  | succ r ih =>
    intro j
    have := ih (j + 1)
    unfold forward_scan
    split_ifs <;> omega

theorem forward_scan_le (layers : List (Layer F)) (ic : String → Bool) (t : Nat) :
    ∀ r j, forward_scan layers ic t r j ≤ j + r := by
  intro r
  induction r with
  | zero => intro j; simp [forward_scan]
  | succ r ih =>
    intro j
    have := ih (j + 1)
    unfold forward_scan
    split_ifs <;> omega

theorem forward_scan_found (layers : List (Layer F)) (ic : String → Bool) (t : Nat) :
    ∀ r j, forward_scan layers ic t r j ≠ j + r →
      is_partner layers ic t (forward_scan layers ic t r j) := by
  intro r
  induction r with
  | zero => intro j h; simp [forward_scan] at h
  | succ r ih =>
    intro j h
    have := ih (j + 1)
    unfold forward_scan at h ⊢
    split_ifs at h ⊢ with h1 h2 h3
    · exact this (by omega)
    · exact this (by omega)
    · refine ⟨?_, ?_, h3⟩
      · simpa using h1
      · simpa using h2
    · exact this (by omega)

theorem forward_scan_skipped (layers : List (Layer F)) (ic : String → Bool) (t : Nat) :
    ∀ r j k, j ≤ k → k < forward_scan layers ic t r j → ¬ is_partner layers ic t k := by
  intro r
  induction r with
  | zero => intro j k h1 h2; simp [forward_scan] at h2; omega
  | succ r ih =>
    intro j k hjk hk
    have := ih (j + 1) k
    unfold forward_scan at hk
    by_cases hkj : k = j
    · subst hkj
      intro hp
      obtain ⟨p1, p2, p3⟩ := hp
      simp only [p1, p2, p3] at hk
      simp at hk
    · split_ifs at hk with h1 h2 h3
      · exact this (by omega) hk
      · exact this (by omega) hk
      · omega
      · exact this (by omega) hk

/-- The scan returns `j` exactly when `j` is the least partner after `i`. -/
theorem forward_scan_eq_of_least (layers : List (Layer F)) (ic : String → Bool) (t : Nat)
    (r i j : Nat) (hij : i ≤ j) (hj : j < i + r) (hp : is_partner layers ic t j)
    (hleast : ∀ k, i ≤ k → k < j → ¬ is_partner layers ic t k) :
    forward_scan layers ic t r i = j := by
  have hne : forward_scan layers ic t r i ≠ i + r := by
    intro h
    exact forward_scan_skipped layers ic t r i j hij (by omega) hp
  have hf := forward_scan_found layers ic t r i hne
  have hge := forward_scan_ge layers ic t r i
  rcases Nat.lt_trichotomy (forward_scan layers ic t r i) j with h | h | h
  · exact absurd hf (hleast _ hge h)
  · exact h
  · exact absurd hp (forward_scan_skipped layers ic t r i j hij h)

theorem forward_scan_eq_end (layers : List (Layer F)) (ic : String → Bool) (t : Nat)
    (r i : Nat) (hnone : ∀ k, i ≤ k → k < i + r → ¬ is_partner layers ic t k) :
    forward_scan layers ic t r i = i + r := by
  by_contra hne
  have hf := forward_scan_found layers ic t r i hne
  have hge := forward_scan_ge layers ic t r i
  have hle := forward_scan_le layers ic t r i
  exact hnone _ hge (by omega) hf

end Lemmas

section Reroute

set_option linter.unusedSectionVars false

variable {F : Type} [Field F] [DecidableEq F]

/-! ## Effect of the reroute on layers and blobs -/

theorem reroute_length (s : NetOptimize F) (p c : Nat) :
    (reroute s p c).layers.length = s.layers.length := by
  simp [reroute]

theorem reroute_blobs_length (s : NetOptimize F) (p c : Nat) :
    (reroute s p c).blobs.length = s.blobs.length := by
  simp [reroute, set_producer]

theorem reroute_stderr (s : NetOptimize F) (p c : Nat) :
    (reroute s p c).stderr = s.stderr := rfl

theorem reroute_layer_other (s : NetOptimize F) (p c k : Nat) (hp : p ≠ k) (hc : c ≠ k) :
    layerAt (reroute s p c).layers k = layerAt s.layers k := by
  simp only [reroute]
  rw [layerAt_set_other _ _ _ _ hc, layerAt_set_other _ _ _ _ hp]

theorem reroute_layer_consumer (s : NetOptimize F) (p c : Nat) (hpc : p ≠ c)
    (hc : c < s.layers.length) :
    layerAt (reroute s p c).layers c = { layerAt s.layers c with type := "ncnnfused" } := by
  simp only [reroute]
  rw [layerAt_set_self _ _ _ (by simpa using hc), layerAt_set_other _ _ _ _ hpc]

theorem reroute_layer_producer (s : NetOptimize F) (p c : Nat) (hpc : p ≠ c)
    (hp : p < s.layers.length) :
    layerAt (reroute s p c).layers p =
      { layerAt s.layers p with
        tops := (layerAt s.layers p).tops.set 0 ((layerAt s.layers c).tops.getD 0 0) } := by
  simp only [reroute]
  rw [layerAt_set_other _ _ _ _ (Ne.symm hpc), layerAt_set_self _ _ _ hp]

theorem set_producer_getD (blobs : List Blob) (t : Nat) (p : Int) (u : Nat) :
    ((set_producer blobs t p).getD u Blob.blank).producer =
      if u = t ∧ t < blobs.length then p else (blobs.getD u Blob.blank).producer := by
  unfold set_producer
  simp only [List.getD_eq_getElem?_getD, List.getElem?_set]
  by_cases h : t = u
  · subst h
    by_cases hl : t < blobs.length
    · simp [hl]
    · simp [hl, List.getElem?_eq_none (Nat.not_lt.mp hl)]
  · have h2 : ¬ u = t := fun e => h e.symm
    simp [h, h2]

theorem reroute_producer (s : NetOptimize F) (p c u : Nat) :
    ((reroute s p c).blobs.getD u Blob.blank).producer =
      if u = (layerAt s.layers c).tops.getD 0 0 ∧
          (layerAt s.layers c).tops.getD 0 0 < s.blobs.length
      then (p : Int) else (s.blobs.getD u Blob.blank).producer := by
  simp only [reroute]
  exact set_producer_getD _ _ _ _

/-- The type of a layer after a reroute: the consumer is tombstoned, every other
layer keeps its type. -/
theorem reroute_type (s : NetOptimize F) (p c k : Nat) (hpc : p ≠ c)
    (hp : p < s.layers.length) (hc : c < s.layers.length) :
    (layerAt (reroute s p c).layers k).type =
      if k = c then "ncnnfused" else (layerAt s.layers k).type := by
  by_cases h1 : k = c
  · subst h1; rw [reroute_layer_consumer s p k hpc hc, if_pos rfl]
  · rw [if_neg h1]
    by_cases h2 : k = p
    · subst h2; rw [reroute_layer_producer s k c hpc hp]
    · rw [reroute_layer_other s p c k (Ne.symm h2) (Ne.symm h1)]

theorem reroute_bottoms (s : NetOptimize F) (p c k : Nat) (hpc : p ≠ c)
    (hp : p < s.layers.length) (hc : c < s.layers.length) :
    (layerAt (reroute s p c).layers k).bottoms = (layerAt s.layers k).bottoms := by
  by_cases h1 : k = c
  · subst h1; rw [reroute_layer_consumer s p k hpc hc]
  · by_cases h2 : k = p
    · subst h2; rw [reroute_layer_producer s k c hpc hp]
    · rw [reroute_layer_other s p c k (Ne.symm h2) (Ne.symm h1)]

theorem reroute_tops (s : NetOptimize F) (p c k : Nat) (hpc : p ≠ c)
    (hp : p < s.layers.length) (hc : c < s.layers.length) :
    (layerAt (reroute s p c).layers k).tops =
      if k = p then (layerAt s.layers p).tops.set 0 ((layerAt s.layers c).tops.getD 0 0)
      else (layerAt s.layers k).tops := by
  by_cases h2 : k = p
  · subst h2; rw [reroute_layer_producer s k c hpc hp, if_pos rfl]
  · rw [if_neg h2]
    by_cases h1 : k = c
    · subst h1; rw [reroute_layer_consumer s p k hpc hc]
    · rw [reroute_layer_other s p c k (Ne.symm h2) (Ne.symm h1)]

/-! ## Invariants preserved by the reroute -/

theorem reroute_producerConsistent (s : NetOptimize F) (p c : Nat) (hpc : p ≠ c)
    (hp : p < s.layers.length) (hc : c < s.layers.length)
    (hPC : ProducerConsistent s) (hR : BlobIndicesInRange s)
    (hlive : (layerAt s.layers c).type ≠ "ncnnfused")
    (htop : (layerAt s.layers c).tops ≠ []) :
    ProducerConsistent (reroute s p c) := by
  intro k hk hl t ht
  rw [reroute_length] at hk
  rw [reroute_type s p c k hpc hp hc] at hl
  rw [reroute_tops s p c k hpc hp hc] at ht
  rw [reroute_producer]
  have hkc : k ≠ c := by
    intro h; rw [if_pos h] at hl; exact hl rfl
  rw [if_neg hkc] at hl
  have htc_mem := getD_zero_mem _ htop
  have htc_lt := (hR c hc).1 _ htc_mem
  by_cases htc : t = (layerAt s.layers c).tops.getD 0 0
  · rw [if_pos ⟨htc, htc_lt⟩]
    by_cases hkp : k = p
    · rw [hkp]
    · exfalso
      rw [if_neg hkp] at ht
      have e1 := hPC k hk hl t ht
      have e2 := hPC c hc hlive _ htc_mem
      rw [htc] at e1
      rw [e1] at e2
      exact hkc (by exact_mod_cast e2)
  · rw [if_neg (fun h => htc h.1)]
    by_cases hkp : k = p
    · rw [if_pos hkp] at ht
      rcases mem_set_zero _ _ _ ht with h | h
      · exact absurd h htc
      · rw [hkp]; exact hPC p hp (by rw [← hkp]; exact hl) t h
    · rw [if_neg hkp] at ht
      exact hPC k hk hl t ht

theorem reroute_blobIndicesInRange (s : NetOptimize F) (p c : Nat) (hpc : p ≠ c)
    (hp : p < s.layers.length) (hc : c < s.layers.length)
    (hR : BlobIndicesInRange s) (htop : (layerAt s.layers c).tops ≠ []) :
    BlobIndicesInRange (reroute s p c) := by
  intro k hk
  rw [reroute_length] at hk
  rw [reroute_tops s p c k hpc hp hc, reroute_bottoms s p c k hpc hp hc,
    reroute_blobs_length]
  refine ⟨?_, (hR k hk).2⟩
  intro t ht
  by_cases hkp : k = p
  · rw [if_pos hkp] at ht
    rcases mem_set_zero _ _ _ ht with h | h
    · rw [h]; exact (hR c hc).1 _ (getD_zero_mem _ htop)
    · exact (hR p hp).1 t h
  · rw [if_neg hkp] at ht
    exact (hR k hk).1 t ht

theorem reroute_liveLayersHaveTop (s : NetOptimize F) (p c : Nat) (hpc : p ≠ c)
    (hp : p < s.layers.length) (hc : c < s.layers.length)
    (hT : LiveLayersHaveTop s) : LiveLayersHaveTop (reroute s p c) := by
  intro k hk hl
  rw [reroute_length] at hk
  rw [reroute_type s p c k hpc hp hc] at hl
  rw [reroute_tops s p c k hpc hp hc]
  have hkc : k ≠ c := by
    intro h; rw [if_pos h] at hl; exact hl rfl
  rw [if_neg hkc] at hl
  by_cases hkp : k = p
  · rw [if_pos hkp]
    have := hT p hp (by rw [← hkp]; exact hl)
    intro h
    apply this
    have hlen := congrArg List.length h
    simp at hlen
    exact hlen
  · rw [if_neg hkp]; exact hT k hk hl

end Reroute

section RerouteInvariants

set_option linter.unusedSectionVars false

variable {F : Type} [Field F] [DecidableEq F]

theorem reroute_bottomConsistent (s : NetOptimize F) (p c : Nat) (hpc : p ≠ c)
    (hp : p < s.layers.length) (hc : c < s.layers.length)
    (hBC : BottomConsistent s) (hS : SingleReader s)
    (hlp : (layerAt s.layers p).type ≠ "ncnnfused")
    (hlc : (layerAt s.layers c).type ≠ "ncnnfused")
    (hptop : (layerAt s.layers p).tops ≠ [])
    (hctop : (layerAt s.layers c).tops.length = 1)
    (hreads : (layerAt s.layers p).tops.getD 0 0 ∈ (layerAt s.layers c).bottoms) :
    BottomConsistent (reroute s p c) := by
  intro k hk hl b hb
  rw [reroute_length] at hk ⊢
  rw [reroute_type s p c k hpc hp hc] at hl
  rw [reroute_bottoms s p c k hpc hp hc] at hb
  have hkc : k ≠ c := by
    intro h; rw [if_pos h] at hl; exact hl rfl
  rw [if_neg hkc] at hl
  have hp_live : (layerAt (reroute s p c).layers p).type ≠ "ncnnfused" := by
    rw [reroute_type s p c p hpc hp hc, if_neg hpc]; exact hlp
  have hp_tops := reroute_tops s p c p hpc hp hc
  rw [if_pos rfl] at hp_tops
  obtain ⟨m, hm, hml, hmb⟩ := hBC k hk hl b hb
  by_cases hmc : m = c
  · subst hmc
    refine ⟨p, hp, hp_live, ?_⟩
    rw [hp_tops]
    have hb_eq : b = (layerAt s.layers m).tops.getD 0 0 := by
      match hm' : (layerAt s.layers m).tops, hctop, hmb with
      | [x], _, hmb' => simpa using hmb'
    rw [hb_eq]
    exact zero_mem_set_zero _ _ hptop
  · by_cases hmp : m = p
    · subst hmp
      refine ⟨m, hp, hp_live, ?_⟩
      rw [hp_tops]
      apply mem_set_zero_of_mem _ _ _ hmb
      intro hbt
      apply hkc
      exact hS k hk c hc ⟨hl, hlc, b, hb, by rw [hbt]; exact hreads⟩
    · refine ⟨m, hm, ?_, ?_⟩
      · rw [reroute_type s p c m hpc hp hc, if_neg hmc]; exact hml
      · rw [reroute_tops s p c m hpc hp hc, if_neg hmp]; exact hmb

theorem reroute_singleReader (s : NetOptimize F) (p c : Nat) (hpc : p ≠ c)
    (hp : p < s.layers.length) (hc : c < s.layers.length)
    (hS : SingleReader s) : SingleReader (reroute s p c) := by
  intro i hi k hk h
  rw [reroute_length] at hi hk
  rw [reroute_type s p c i hpc hp hc, reroute_type s p c k hpc hp hc,
    reroute_bottoms s p c i hpc hp hc, reroute_bottoms s p c k hpc hp hc] at h
  obtain ⟨h1, h2, h3⟩ := h
  have hic : i ≠ c := by
    intro e; rw [if_pos e] at h1; exact h1 rfl
  have hkc : k ≠ c := by
    intro e; rw [if_pos e] at h2; exact h2 rfl
  rw [if_neg hic] at h1
  rw [if_neg hkc] at h2
  exact hS i hi k hk ⟨h1, h2, h3⟩

theorem is_consumer_kind_fused : is_consumer_kind "ncnnfused" = false := by decide

theorem reroute_consumerShape (s : NetOptimize F) (p c : Nat) (hpc : p ≠ c)
    (hp : p < s.layers.length) (hc : c < s.layers.length)
    (hC : ConsumerShape s) : ConsumerShape (reroute s p c) := by
  intro k hk hkind
  rw [reroute_length] at hk
  rw [reroute_type s p c k hpc hp hc] at hkind
  rw [reroute_bottoms s p c k hpc hp hc, reroute_tops s p c k hpc hp hc]
  have hkc : k ≠ c := by
    intro e; rw [if_pos e, is_consumer_kind_fused] at hkind; exact Bool.noConfusion hkind
  rw [if_neg hkc] at hkind
  refine ⟨(hC k hk hkind).1, ?_⟩
  by_cases hkp : k = p
  · rw [if_pos hkp, List.length_set, ← hkp]; exact (hC k hk hkind).2
  · rw [if_neg hkp]; exact (hC k hk hkind).2

theorem reroute_consumersHaveTop (s : NetOptimize F) (p c : Nat) (hpc : p ≠ c)
    (hp : p < s.layers.length) (hc : c < s.layers.length)
    (hC : ConsumersHaveTop s) : ConsumersHaveTop (reroute s p c) := by
  intro k hk hkind
  rw [reroute_length] at hk
  rw [reroute_type s p c k hpc hp hc] at hkind
  rw [reroute_tops s p c k hpc hp hc]
  have hkc : k ≠ c := by
    intro e; rw [if_pos e, is_consumer_kind_fused] at hkind; exact Bool.noConfusion hkind
  rw [if_neg hkc] at hkind
  by_cases hkp : k = p
  · rw [if_pos hkp]
    intro h
    apply hC p hp (by rw [← hkp]; exact hkind)
    have hlen := congrArg List.length h
    simp at hlen
    exact hlen
  · rw [if_neg hkp]; exact hC k hk hkind

/-! ## States with the same graph shape -/

theorem similar_set (s : NetOptimize F) (i : Nat) (l : Layer F) (err : List String)
    (h : l.type = (layerAt s.layers i).type ∧ l.tops = (layerAt s.layers i).tops ∧
      l.bottoms = (layerAt s.layers i).bottoms) :
    Similar s { layers := s.layers.set i l, blobs := s.blobs, stderr := err } := by
  refine ⟨by simp, rfl, ?_⟩
  intro k
  show (layerAt s.layers k).type = (layerAt (s.layers.set i l) k).type ∧
    (layerAt s.layers k).tops = (layerAt (s.layers.set i l) k).tops ∧
    (layerAt s.layers k).bottoms = (layerAt (s.layers.set i l) k).bottoms
  by_cases hki : i = k
  · subst hki
    by_cases hi : i < s.layers.length
    · rw [layerAt_set_self _ _ _ hi]
      exact ⟨h.1.symm, h.2.1.symm, h.2.2.symm⟩
    · rw [set_of_length_le _ _ _ (Nat.not_lt.mp hi)]
      exact ⟨rfl, rfl, rfl⟩
  · rw [layerAt_set_other _ _ _ _ hki]
    exact ⟨rfl, rfl, rfl⟩

theorem producerConsistent_of_similar (s1 s2 : NetOptimize F) (h : Similar s1 s2)
    (hP : ProducerConsistent s1) : ProducerConsistent s2 := by
  obtain ⟨hlen, hb, hk⟩ := h
  intro k hk1 hl t ht
  rw [← hb]
  rw [← (hk k).1] at hl
  rw [← (hk k).2.1] at ht
  exact hP k (by omega) hl t ht

theorem blobIndicesInRange_of_similar (s1 s2 : NetOptimize F) (h : Similar s1 s2)
    (hP : BlobIndicesInRange s1) : BlobIndicesInRange s2 := by
  obtain ⟨hlen, hb, hk⟩ := h
  intro k hk1
  rw [← hb, ← (hk k).2.1, ← (hk k).2.2]
  exact hP k (by omega)

theorem liveLayersHaveTop_of_similar (s1 s2 : NetOptimize F) (h : Similar s1 s2)
    (hP : LiveLayersHaveTop s1) : LiveLayersHaveTop s2 := by
  obtain ⟨hlen, hb, hk⟩ := h
  intro k hk1 hl
  rw [← (hk k).1] at hl
  rw [← (hk k).2.1]
  exact hP k (by omega) hl

theorem bottomConsistent_of_similar (s1 s2 : NetOptimize F) (h : Similar s1 s2)
    (hP : BottomConsistent s1) : BottomConsistent s2 := by
  obtain ⟨hlen, hb, hk⟩ := h
  intro k hk1 hl b hbm
  rw [← (hk k).1] at hl
  rw [← (hk k).2.2] at hbm
  obtain ⟨m, hm, hml, hmb⟩ := hP k (by omega) hl b hbm
  refine ⟨m, by omega, ?_, ?_⟩
  · rw [← (hk m).1]; exact hml
  · rw [← (hk m).2.1]; exact hmb

theorem singleReader_of_similar (s1 s2 : NetOptimize F) (h : Similar s1 s2)
    (hP : SingleReader s1) : SingleReader s2 := by
  obtain ⟨hlen, hb, hk⟩ := h
  intro i hi k hk1 hh
  rw [← (hk i).1, ← (hk k).1, ← (hk i).2.2, ← (hk k).2.2] at hh
  exact hP i (by omega) k (by omega) hh

theorem consumersHaveTop_of_similar (s1 s2 : NetOptimize F) (h : Similar s1 s2)
    (hP : ConsumersHaveTop s1) : ConsumersHaveTop s2 := by
  obtain ⟨hlen, hb, hk⟩ := h
  intro k hk1 hkind
  rw [← (hk k).1] at hkind
  rw [← (hk k).2.1]
  exact hP k (by omega) hkind

theorem consumerShape_of_similar (s1 s2 : NetOptimize F) (h : Similar s1 s2)
    (hP : ConsumerShape s1) : ConsumerShape s2 := by
  obtain ⟨hlen, hb, hk⟩ := h
  intro k hk1 hkind
  rw [← (hk k).1] at hkind
  rw [← (hk k).2.1, ← (hk k).2.2]
  exact hP k (by omega) hkind

end RerouteInvariants

section Passes

set_option linter.unusedSectionVars false

variable {F : Type} [Field F] [DecidableEq F]

theorem similar_refl_stderr (s : NetOptimize F) (err : List String) :
    Similar s { s with stderr := err } :=
  ⟨rfl, rfl, fun _ => ⟨rfl, rfl, rfl⟩⟩

theorem rerouteReady_of_similar (s1 s2 : NetOptimize F) (h : Similar s1 s2) (p c : Nat)
    (hr : RerouteReady s1 p c) : RerouteReady s2 p c := by
  obtain ⟨hlen, _, hk⟩ := h
  obtain ⟨h1, h2, h3, h4, h5⟩ := hr
  refine ⟨h1, by omega, ?_, ?_, ?_⟩
  · rw [← (hk p).1]; exact h3
  · rw [← (hk c).1]; exact h4
  · rw [← (hk c).2.2, ← (hk p).2.1]; exact h5

theorem fuse_pair_eq (pass_name : String) (fold : Layer F → Layer F → Layer F)
    (s : NetOptimize F) (i j : Nat) :
    fuse_pair pass_name fold s i j =
      reroute { layers := s.layers.set i (fold (layerAt s.layers i) (layerAt s.layers j)),
                blobs := s.blobs,
                stderr := s.stderr ++
                  [diagnostic pass_name (layerAt s.layers i).name (layerAt s.layers j).name] }
        i j := rfl

theorem fuse_pair_length (pass_name : String) (fold : Layer F → Layer F → Layer F)
    (s : NetOptimize F) (i j : Nat) :
    (fuse_pair pass_name fold s i j).layers.length = s.layers.length := by
  rw [fuse_pair_eq, reroute_length]; simp

theorem fuse_step_eq (pass_name pt : String) (ic : String → Bool)
    (fold : Layer F → Layer F → Layer F) (n : Nat) (s : NetOptimize F) (i : Nat) :
    fuse_step pass_name pt ic fold n s i =
      if (layerAt s.layers i).type ≠ pt then s
      else if forward_scan s.layers ic ((layerAt s.layers i).tops.getD 0 0)
          (n - (i + 1)) (i + 1) = n then s
      else fuse_pair pass_name fold s i
        (forward_scan s.layers ic ((layerAt s.layers i).tops.getD 0 0)
          (n - (i + 1)) (i + 1)) := rfl

theorem eliminate_step_eq (s : NetOptimize F) (i : Nat) :
    eliminate_step s i =
      if (layerAt s.layers i).type ≠ "Dropout" then s
      else if (layerAt s.layers i).scale ≠ 1 then s
      else if backward_scan s.layers ((layerAt s.layers i).bottoms.getD 0 0) i = -1 then s
      else eliminate_pair s i
        (backward_scan s.layers ((layerAt s.layers i).bottoms.getD 0 0) i).toNat := rfl

theorem fuse_step_length (pass_name pt : String) (ic : String → Bool)
    (fold : Layer F → Layer F → Layer F) (n : Nat) (s : NetOptimize F) (i : Nat) :
    (fuse_step pass_name pt ic fold n s i).layers.length = s.layers.length := by
  rw [fuse_step_eq]
  split_ifs
  · rfl
  · rfl
  · exact fuse_pair_length _ _ _ _ _

/-- What a successful forward scan establishes about the matched pair. -/
theorem forward_match (pt : String) (ic : String → Bool) (s : NetOptimize F) (i j : Nat)
    (hpt : pt ≠ "ncnnfused") (hic : ∀ ty, ic ty = true → is_consumer_kind ty = true)
    (hi : i < s.layers.length) (htype : (layerAt s.layers i).type = pt)
    (hj : j = forward_scan s.layers ic ((layerAt s.layers i).tops.getD 0 0)
      (s.layers.length - (i + 1)) (i + 1))
    (hne : j ≠ s.layers.length) :
    RerouteReady s i j ∧ is_partner s.layers ic ((layerAt s.layers i).tops.getD 0 0) j := by
  have hge := forward_scan_ge s.layers ic ((layerAt s.layers i).tops.getD 0 0)
    (s.layers.length - (i + 1)) (i + 1)
  have hle := forward_scan_le s.layers ic ((layerAt s.layers i).tops.getD 0 0)
    (s.layers.length - (i + 1)) (i + 1)
  rw [← hj] at hge hle
  have hlt : j < s.layers.length := by omega
  have hfound := forward_scan_found s.layers ic ((layerAt s.layers i).tops.getD 0 0)
    (s.layers.length - (i + 1)) (i + 1) (by rw [← hj]; omega)
  rw [← hj] at hfound
  refine ⟨⟨by omega, hlt, by rw [htype]; exact hpt, hic _ hfound.1, hfound.2.2⟩, hfound⟩

theorem fuse_step_invariant (I : NetOptimize F → Prop) (hI : PassInvariant I)
    (pass_name pt : String) (ic : String → Bool) (fold : Layer F → Layer F → Layer F)
    (hpt : pt ≠ "ncnnfused") (hic : ∀ ty, ic ty = true → is_consumer_kind ty = true)
    (hfold : FoldFrame fold) (s : NetOptimize F) (i : Nat) (hi : i < s.layers.length)
    (h : I s) :
    I (fuse_step pass_name pt ic fold s.layers.length s i) := by
  rw [fuse_step_eq]
  split_ifs with h1 h2
  · exact h
  · exact h
  · have htype : (layerAt s.layers i).type = pt := not_not.mp h1
    obtain ⟨hr, _⟩ := forward_match pt ic s i _ hpt hic hi htype rfl h2
    rw [fuse_pair_eq]
    have hsim := similar_set s i
      (fold (layerAt s.layers i) (layerAt s.layers
        (forward_scan s.layers ic ((layerAt s.layers i).tops.getD 0 0)
          (s.layers.length - (i + 1)) (i + 1))))
      (s.stderr ++ [diagnostic pass_name (layerAt s.layers i).name (layerAt s.layers
        (forward_scan s.layers ic ((layerAt s.layers i).tops.getD 0 0)
          (s.layers.length - (i + 1)) (i + 1))).name]) (hfold _ _)
    exact hI.2 _ _ _ (rerouteReady_of_similar _ _ hsim _ _ hr) (hI.1 _ _ hsim h)

theorem foldl_invariant_mem {σ : Type} (J : σ → Prop) (step : σ → Nat → σ) (l : List Nat)
    (hstep : ∀ s i, i ∈ l → J s → J (step s i)) (s : σ) (h : J s) :
    J (l.foldl step s) := by
  induction l generalizing s with
  | nil => exact h
  | cons a t ih =>
    exact ih (fun s i hi => hstep s i (List.mem_cons_of_mem _ hi)) _
      (hstep s a (List.mem_cons_self _ _) h)

theorem forward_pass_invariant (I : NetOptimize F → Prop) (hI : PassInvariant I)
    (pass_name pt : String) (ic : String → Bool) (fold : Layer F → Layer F → Layer F)
    (hpt : pt ≠ "ncnnfused") (hic : ∀ ty, ic ty = true → is_consumer_kind ty = true)
    (hfold : FoldFrame fold) (s : NetOptimize F) (h : I s) :
    I (forward_pass pass_name pt ic fold s) := by
  unfold forward_pass
  have := foldl_invariant_mem (fun s' => I s' ∧ s'.layers.length = s.layers.length)
    (fuse_step pass_name pt ic fold s.layers.length) (List.range s.layers.length)
    (fun s' i hi hs => by
      refine ⟨?_, ?_⟩
      · have := fuse_step_invariant I hI pass_name pt ic fold hpt hic hfold s' i
          (by rw [hs.2]; exact List.mem_range.mp hi) hs.1
        rw [hs.2] at this
        exact this
      · rw [fuse_step_length]; exact hs.2)
    s ⟨h, rfl⟩
  exact this.1

/-! ## The backward scan -/

theorem backward_scan_found (layers : List (Layer F)) (b : Nat) :
    ∀ i, backward_scan layers b i = -1 ∨
      (0 ≤ backward_scan layers b i ∧ (backward_scan layers b i).toNat < i ∧
        is_source layers b (backward_scan layers b i).toNat) := by
  intro i
  induction i with
  | zero => left; rfl
  | succ i ih =>
    unfold backward_scan
    split_ifs with h1 h2 h3
    · rcases ih with h | ⟨ha, hb, hc⟩
      · exact Or.inl h
      · exact Or.inr ⟨ha, by omega, hc⟩
    · rcases ih with h | ⟨ha, hb, hc⟩
      · exact Or.inl h
      · exact Or.inr ⟨ha, by omega, hc⟩
    · right
      refine ⟨by omega, by simp, ?_⟩
      simp only [Int.toNat_ofNat]
      exact ⟨h1, not_not.mp h2, h3⟩
    · rcases ih with h | ⟨ha, hb, hc⟩
      · exact Or.inl h
      · exact Or.inr ⟨ha, by omega, hc⟩

theorem backward_scan_skipped (layers : List (Layer F)) (b : Nat) :
    ∀ i k, k < i → backward_scan layers b i < (k : Int) → ¬ is_source layers b k := by
  intro i
  induction i with
  | zero => intro k hk; omega
  | succ i ih =>
    intro k hk hlt
    unfold backward_scan at hlt
    by_cases hki : k = i
    · subst hki
      intro hs
      obtain ⟨s1, s2, s3⟩ := hs
      simp only [s1, s2, s3] at hlt
      simp at hlt
    · split_ifs at hlt with h1 h2 h3
      · exact ih k (by omega) hlt
      · exact ih k (by omega) hlt
      · omega
      · exact ih k (by omega) hlt

theorem eliminate_pair_eq (s : NetOptimize F) (i j : Nat) :
    eliminate_pair s i j =
      reroute { s with stderr := s.stderr ++
        [diagnostic "eliminate_dropout" (layerAt s.layers j).name (layerAt s.layers i).name] }
        j i := rfl

theorem eliminate_step_length (s : NetOptimize F) (i : Nat) :
    (eliminate_step s i).layers.length = s.layers.length := by
  rw [eliminate_step_eq]
  split_ifs
  · rfl
  · rfl
  · rfl
  · rw [eliminate_pair_eq, reroute_length]

theorem backward_match (s : NetOptimize F) (i : Nat) (j : Int) (hi : i < s.layers.length)
    (htype : (layerAt s.layers i).type = "Dropout")
    (hj : j = backward_scan s.layers ((layerAt s.layers i).bottoms.getD 0 0) i)
    (hne : j ≠ -1) :
    RerouteReady s j.toNat i ∧
      is_source s.layers ((layerAt s.layers i).bottoms.getD 0 0) j.toNat := by
  rcases backward_scan_found s.layers ((layerAt s.layers i).bottoms.getD 0 0) i with h | h
  · rw [← hj] at h; exact absurd h hne
  · rw [← hj] at h
    obtain ⟨_, h2, h3⟩ := h
    refine ⟨⟨h2, hi, h3.1, by rw [htype]; decide, h3.2.2.symm⟩, h3⟩

theorem eliminate_step_invariant (I : NetOptimize F → Prop) (hI : PassInvariant I)
    (s : NetOptimize F) (i : Nat) (hi : i < s.layers.length) (h : I s) :
    I (eliminate_step s i) := by
  rw [eliminate_step_eq]
  split_ifs with h1 h2 h3
  · exact h
  · exact h
  · exact h
  · have htype : (layerAt s.layers i).type = "Dropout" := not_not.mp h1
    obtain ⟨hr, _⟩ := backward_match s i _ hi htype rfl h3
    rw [eliminate_pair_eq]
    have hsim := similar_refl_stderr s (s.stderr ++
      [diagnostic "eliminate_dropout" (layerAt s.layers (backward_scan s.layers
        ((layerAt s.layers i).bottoms.getD 0 0) i).toNat).name (layerAt s.layers i).name])
    exact hI.2 _ _ _ (rerouteReady_of_similar _ _ hsim _ _ hr) (hI.1 _ _ hsim h)

theorem eliminate_dropout_invariant (I : NetOptimize F → Prop) (hI : PassInvariant I)
    (s : NetOptimize F) (h : I s) : I (eliminate_dropout s) := by
  unfold eliminate_dropout
  have := foldl_invariant_mem (fun s' => I s' ∧ s'.layers.length = s.layers.length)
    eliminate_step (List.range s.layers.length)
    (fun s' i hi hs => by
      refine ⟨?_, ?_⟩
      · exact eliminate_step_invariant I hI s' i (by rw [hs.2]; exact List.mem_range.mp hi) hs.1
      · rw [eliminate_step_length]; exact hs.2)
    s ⟨h, rfl⟩
  exact this.1

end Passes

section Driver

set_option linter.unusedSectionVars false

variable {F : Type} [Field F] [DecidableEq F]

theorem foldFrame_scale : FoldFrame (fold_scale : Layer F → Layer F → Layer F) :=
  fun _ _ => ⟨rfl, rfl, rfl⟩

theorem foldFrame_batchnorm (sqrt : F → F) : FoldFrame (fold_batchnorm sqrt) := by
  intro p c
  by_cases h : p.bias_term = 0
  · simp only [fold_batchnorm, if_pos h, and_self]
  · simp only [fold_batchnorm, if_neg h, and_self]

theorem foldFrame_activation : FoldFrame (fold_activation : Layer F → Layer F → Layer F) := by
  intro p c
  unfold fold_activation
  split_ifs <;> exact ⟨rfl, rfl, rfl⟩

theorem is_scale_kind (ty : String) (h : is_scale ty = true) : is_consumer_kind ty = true := by
  simp only [is_scale, beq_iff_eq] at h
  subst h; decide

theorem is_batchnorm_kind (ty : String) (h : is_batchnorm ty = true) :
    is_consumer_kind ty = true := by
  simp only [is_batchnorm, beq_iff_eq] at h
  subst h; decide

theorem is_activation_kind (ty : String) (h : is_activation ty = true) :
    is_consumer_kind ty = true := by
  simp only [is_activation, Bool.or_eq_true, beq_iff_eq] at h
  rcases h with h | h <;> (subst h; decide)

/-- Every pass keeps every pass invariant. -/
theorem run_pass_invariant (I : NetOptimize F → Prop) (hI : PassInvariant I)
    (sqrt : F → F) (p : Pass) (s : NetOptimize F) (h : I s) : I (run_pass sqrt p s) := by
  cases p
  · exact forward_pass_invariant I hI _ _ _ _ (by decide) is_scale_kind foldFrame_scale s h
  · exact forward_pass_invariant I hI _ _ _ _ (by decide) is_batchnorm_kind
      (foldFrame_batchnorm sqrt) s h
  · exact forward_pass_invariant I hI _ _ _ _ (by decide) is_batchnorm_kind
      (foldFrame_batchnorm sqrt) s h
  · exact forward_pass_invariant I hI _ _ _ _ (by decide) is_batchnorm_kind
      (foldFrame_batchnorm sqrt) s h
  · exact forward_pass_invariant I hI _ _ _ _ (by decide) is_batchnorm_kind
      (foldFrame_batchnorm sqrt) s h
  · exact forward_pass_invariant I hI _ _ _ _ (by decide) is_batchnorm_kind
      (foldFrame_batchnorm sqrt) s h
  · exact forward_pass_invariant I hI _ _ _ _ (by decide) is_activation_kind
      foldFrame_activation s h
  · exact forward_pass_invariant I hI _ _ _ _ (by decide) is_activation_kind
      foldFrame_activation s h
  · exact forward_pass_invariant I hI _ _ _ _ (by decide) is_activation_kind
      foldFrame_activation s h
  · exact forward_pass_invariant I hI _ _ _ _ (by decide) is_activation_kind
      foldFrame_activation s h
  · exact forward_pass_invariant I hI _ _ _ _ (by decide) is_activation_kind
      foldFrame_activation s h
  · exact eliminate_dropout_invariant I hI s h

theorem consumer_kind_live (ty : String) (h : is_consumer_kind ty = true) :
    ty ≠ "ncnnfused" := by
  intro e; subst e; exact absurd h (by decide)

theorem producer_invariant :
    PassInvariant (fun s : NetOptimize F =>
      ProducerConsistent s ∧ BlobIndicesInRange s ∧ ConsumersHaveTop s) := by
  refine ⟨?_, ?_⟩
  · intro s1 s2 hs h
    exact ⟨producerConsistent_of_similar s1 s2 hs h.1,
      blobIndicesInRange_of_similar s1 s2 hs h.2.1,
      consumersHaveTop_of_similar s1 s2 hs h.2.2⟩
  · intro s p c hr h
    obtain ⟨hpc, hc, hlp, hkind, _⟩ := hr
    have hp : p < s.layers.length := by omega
    have hne : p ≠ c := by omega
    have hlc := consumer_kind_live _ hkind
    have htop := h.2.2 c hc hkind
    exact ⟨reroute_producerConsistent s p c hne hp hc h.1 h.2.1 hlc htop,
      reroute_blobIndicesInRange s p c hne hp hc h.2.1 htop,
      reroute_consumersHaveTop s p c hne hp hc h.2.2⟩

theorem bottoms_eq_singleton (l : List Nat) (h : l.length = 1) : l = [l.getD 0 0] := by
  match l, h with
  | [x], _ => rfl

theorem bottom_invariant :
    PassInvariant (fun s : NetOptimize F =>
      BottomConsistent s ∧ SingleReader s ∧ ConsumerShape s ∧ LiveLayersHaveTop s) := by
  refine ⟨?_, ?_⟩
  · intro s1 s2 hs h
    exact ⟨bottomConsistent_of_similar s1 s2 hs h.1,
      singleReader_of_similar s1 s2 hs h.2.1,
      consumerShape_of_similar s1 s2 hs h.2.2.1,
      liveLayersHaveTop_of_similar s1 s2 hs h.2.2.2⟩
  · intro s p c hr h
    obtain ⟨hpc, hc, hlp, hkind, hread⟩ := hr
    have hp : p < s.layers.length := by omega
    have hne : p ≠ c := by omega
    have hlc := consumer_kind_live _ hkind
    have hshape := h.2.2.1 c hc hkind
    have hreads : (layerAt s.layers p).tops.getD 0 0 ∈ (layerAt s.layers c).bottoms := by
      rw [bottoms_eq_singleton _ hshape.1, hread]; simp
    exact ⟨reroute_bottomConsistent s p c hne hp hc h.1 h.2.1 hlp hlc
        (h.2.2.2 p hp hlp) hshape.2 hreads,
      reroute_singleReader s p c hne hp hc h.2.1,
      reroute_consumerShape s p c hne hp hc h.2.2.1,
      reroute_liveLayersHaveTop s p c hne hp hc h.2.2.2⟩

end Driver

section GraphClaims

set_option linter.unusedSectionVars false

variable {F : Type} [Field F] [DecidableEq F]

/-- C6: graph invariant 1 is preserved by every pass.  If every live layer is
recorded as the producer of each of its tops, all blob indices are in range, and
every Scale, BatchNorm, ReLU, Clip or Dropout layer has a top (so that the
`tops[0]` read from a fused layer is defined), then after any of the eleven
fusion passes or `eliminate_dropout` every live layer is again the recorded
producer of each of its tops, and all blob indices are still in range. -/
theorem producer_consistency_preserved (sqrt : F → F) (p : Pass) (s : NetOptimize F)
    (hP : ProducerConsistent s) (hR : BlobIndicesInRange s) (hT : ConsumersHaveTop s) :
    ProducerConsistent (run_pass sqrt p s) ∧ BlobIndicesInRange (run_pass sqrt p s) := by
  have h := run_pass_invariant _ producer_invariant sqrt p s ⟨hP, hR, hT⟩
  exact ⟨h.1, h.2.1⟩

theorem producer_consistency_preserved_witness :
    (ProducerConsistent (chain_net : NetOptimize ℝ) ∧
      BlobIndicesInRange (chain_net : NetOptimize ℝ) ∧
      ConsumersHaveTop (chain_net : NetOptimize ℝ)) ∧
    (ProducerConsistent (run_pass Real.sqrt Pass.fuse_convolution_batchnorm chain_net) ∧
      BlobIndicesInRange (run_pass Real.sqrt Pass.fuse_convolution_batchnorm chain_net)) :=
  ⟨by decide,
   producer_consistency_preserved Real.sqrt Pass.fuse_convolution_batchnorm chain_net
     (by decide) (by decide) (by decide)⟩

/-- C7 (as stated, refuted): in `shared_top_net` every bottom of a live layer is a
top of a live layer, but after `fuse_batchnorm_scale` the Sigmoid still reads
blob 1, which no live layer produces any more. -/
theorem bottom_consistency_counterexample :
    BottomConsistent (shared_top_net : NetOptimize ℚ) ∧
    ¬ BottomConsistent (fuse_batchnorm_scale (shared_top_net : NetOptimize ℚ)) := by
  decide

/-- C7 (amended): bottom consistency is preserved by every pass on graphs in
which no blob is read by two different live layers, every Scale, BatchNorm, ReLU,
Clip or Dropout layer has exactly one bottom and one top, and every live layer
has a top; these side conditions are preserved as well. -/
theorem bottom_consistency_preserved (sqrt : F → F) (p : Pass) (s : NetOptimize F)
    (hB : BottomConsistent s) (hS : SingleReader s) (hC : ConsumerShape s)
    (hT : LiveLayersHaveTop s) :
    BottomConsistent (run_pass sqrt p s) ∧ SingleReader (run_pass sqrt p s) ∧
      ConsumerShape (run_pass sqrt p s) ∧ LiveLayersHaveTop (run_pass sqrt p s) :=
  run_pass_invariant _ bottom_invariant sqrt p s ⟨hB, hS, hC, hT⟩

theorem bottom_consistency_preserved_witness :
    (BottomConsistent (chain_net : NetOptimize ℝ) ∧ SingleReader (chain_net : NetOptimize ℝ) ∧
      ConsumerShape (chain_net : NetOptimize ℝ) ∧ LiveLayersHaveTop (chain_net : NetOptimize ℝ)) ∧
    BottomConsistent (run_pass Real.sqrt Pass.fuse_convolution_batchnorm chain_net) :=
  ⟨by decide,
   (bottom_consistency_preserved Real.sqrt Pass.fuse_convolution_batchnorm chain_net
     (by decide) (by decide) (by decide) (by decide)).1⟩

end GraphClaims

section Effects

set_option linter.unusedSectionVars false

variable {F : Type} [Field F] [DecidableEq F]

/-! ## Effect of a rewrite on the layers -/

theorem fuse_pair_layer_producer (pass_name : String) (fold : Layer F → Layer F → Layer F)
    (s : NetOptimize F) (i j : Nat) (hij : i ≠ j) (hi : i < s.layers.length) :
    layerAt (fuse_pair pass_name fold s i j).layers i =
      { fold (layerAt s.layers i) (layerAt s.layers j) with
        tops := (fold (layerAt s.layers i) (layerAt s.layers j)).tops.set 0
          ((layerAt s.layers j).tops.getD 0 0) } := by
  rw [fuse_pair_eq, reroute_layer_producer _ i j hij (by simpa using hi)]
  simp only [layerAt_set_self _ _ _ hi, layerAt_set_other _ _ _ _ hij]

theorem fuse_pair_layer_consumer (pass_name : String) (fold : Layer F → Layer F → Layer F)
    (s : NetOptimize F) (i j : Nat) (hij : i ≠ j) (hj : j < s.layers.length) :
    layerAt (fuse_pair pass_name fold s i j).layers j =
      { layerAt s.layers j with type := "ncnnfused" } := by
  rw [fuse_pair_eq, reroute_layer_consumer _ i j hij (by simpa using hj)]
  simp only [layerAt_set_other _ _ _ _ hij]

theorem fuse_pair_layer_other (pass_name : String) (fold : Layer F → Layer F → Layer F)
    (s : NetOptimize F) (i j k : Nat) (hi : k ≠ i) (hj : k ≠ j) :
    layerAt (fuse_pair pass_name fold s i j).layers k = layerAt s.layers k := by
  rw [fuse_pair_eq, reroute_layer_other _ i j k (Ne.symm hi) (Ne.symm hj)]
  simp only [layerAt_set_other _ _ _ _ (Ne.symm hi)]

theorem eliminate_pair_layer_source (s : NetOptimize F) (i j : Nat) (hij : j ≠ i)
    (hj : j < s.layers.length) :
    layerAt (eliminate_pair s i j).layers j =
      { layerAt s.layers j with
        tops := (layerAt s.layers j).tops.set 0 ((layerAt s.layers i).tops.getD 0 0) } := by
  rw [eliminate_pair_eq]
  exact reroute_layer_producer _ j i hij (by exact hj)

theorem eliminate_pair_layer_dropout (s : NetOptimize F) (i j : Nat) (hij : j ≠ i)
    (hi : i < s.layers.length) :
    layerAt (eliminate_pair s i j).layers i =
      { layerAt s.layers i with type := "ncnnfused" } := by
  rw [eliminate_pair_eq]
  exact reroute_layer_consumer _ j i hij (by exact hi)

theorem eliminate_pair_layer_other (s : NetOptimize F) (i j k : Nat) (hi : k ≠ i)
    (hj : k ≠ j) : layerAt (eliminate_pair s i j).layers k = layerAt s.layers k := by
  rw [eliminate_pair_eq]
  exact reroute_layer_other _ j i k (Ne.symm hj) (Ne.symm hi)

/-- The producer after the iteration that fuses it with the scan result. -/
theorem fuse_step_producer (pass_name pt : String) (ic : String → Bool)
    (fold : Layer F → Layer F → Layer F) (s : NetOptimize F) (i j : Nat)
    (hi : i < s.layers.length) (htype : (layerAt s.layers i).type = pt)
    (hj : j = forward_scan s.layers ic ((layerAt s.layers i).tops.getD 0 0)
      (s.layers.length - (i + 1)) (i + 1))
    (hne : j ≠ s.layers.length) :
    layerAt (fuse_step pass_name pt ic fold s.layers.length s i).layers i =
      { fold (layerAt s.layers i) (layerAt s.layers j) with
        tops := (fold (layerAt s.layers i) (layerAt s.layers j)).tops.set 0
          ((layerAt s.layers j).tops.getD 0 0) } := by
  have hge := forward_scan_ge s.layers ic ((layerAt s.layers i).tops.getD 0 0)
    (s.layers.length - (i + 1)) (i + 1)
  rw [← hj] at hge
  rw [fuse_step_eq, ← hj, if_neg (not_not.mpr htype), if_neg hne]
  exact fuse_pair_layer_producer _ _ _ _ _ (by omega) hi

/-- The consumer after the iteration that fuses it. -/
theorem fuse_step_consumer (pass_name pt : String) (ic : String → Bool)
    (fold : Layer F → Layer F → Layer F) (s : NetOptimize F) (i j : Nat)
    (hi : i < s.layers.length) (htype : (layerAt s.layers i).type = pt)
    (hj : j = forward_scan s.layers ic ((layerAt s.layers i).tops.getD 0 0)
      (s.layers.length - (i + 1)) (i + 1))
    (hne : j ≠ s.layers.length) :
    layerAt (fuse_step pass_name pt ic fold s.layers.length s i).layers j =
      { layerAt s.layers j with type := "ncnnfused" } := by
  have hge := forward_scan_ge s.layers ic ((layerAt s.layers i).tops.getD 0 0)
    (s.layers.length - (i + 1)) (i + 1)
  have hle := forward_scan_le s.layers ic ((layerAt s.layers i).tops.getD 0 0)
    (s.layers.length - (i + 1)) (i + 1)
  rw [← hj] at hge hle
  rw [fuse_step_eq, ← hj, if_neg (not_not.mpr htype), if_neg hne]
  exact fuse_pair_layer_consumer _ _ _ _ _ (by omega) (by omega)

end Effects

section PartnerClaim

set_option linter.unusedSectionVars false

variable {F : Type} [Field F] [DecidableEq F]

/-- C8: forward partner selection.  At the iteration of a forward pass on an index
`i` whose layer has the producer kind, if `j` is the least index after `i` whose
layer has the consumer kind, exactly one bottom, and that bottom equal to layer
`i`'s first top, then the iteration is the rewrite of the pair `(i, j)`: it
tombstones layer `j` and leaves every layer other than `i` and `j` as it was; if
there is no such index the iteration leaves the whole state unchanged. -/
theorem forward_partner_selection (pass_name pt : String) (ic : String → Bool)
    (fold : Layer F → Layer F → Layer F) (s : NetOptimize F) (i : Nat)
    (hi : i < s.layers.length) (htype : (layerAt s.layers i).type = pt) :
    (∀ j, i < j → j < s.layers.length →
      is_partner s.layers ic ((layerAt s.layers i).tops.getD 0 0) j →
      (∀ k, i < k → k < j →
        ¬ is_partner s.layers ic ((layerAt s.layers i).tops.getD 0 0) k) →
      fuse_step pass_name pt ic fold s.layers.length s i = fuse_pair pass_name fold s i j ∧
      (layerAt (fuse_step pass_name pt ic fold s.layers.length s i).layers j).type
        = "ncnnfused" ∧
      ∀ k, k ≠ i → k ≠ j →
        layerAt (fuse_step pass_name pt ic fold s.layers.length s i).layers k
          = layerAt s.layers k) ∧
    ((∀ j, i < j → j < s.layers.length →
        ¬ is_partner s.layers ic ((layerAt s.layers i).tops.getD 0 0) j) →
      fuse_step pass_name pt ic fold s.layers.length s i = s) := by
  refine ⟨?_, ?_⟩
  · intro j hij hj hp hleast
    have hscan : forward_scan s.layers ic ((layerAt s.layers i).tops.getD 0 0)
        (s.layers.length - (i + 1)) (i + 1) = j :=
      forward_scan_eq_of_least _ _ _ _ _ _ (by omega) (by omega) hp
        (fun k hk1 hk2 => hleast k (by omega) hk2)
    have hstep : fuse_step pass_name pt ic fold s.layers.length s i
        = fuse_pair pass_name fold s i j := by
      rw [fuse_step_eq, hscan, if_neg (not_not.mpr htype), if_neg (by omega)]
    rw [hstep]
    refine ⟨rfl, ?_, ?_⟩
    · rw [fuse_pair_layer_consumer _ _ _ _ _ (by omega) hj]
    · intro k hki hkj
      exact fuse_pair_layer_other _ _ _ _ _ _ hki hkj
  · intro hnone
    have hscan : forward_scan s.layers ic ((layerAt s.layers i).tops.getD 0 0)
        (s.layers.length - (i + 1)) (i + 1) = (i + 1) + (s.layers.length - (i + 1)) :=
      forward_scan_eq_end _ _ _ _ _ (fun k hk1 hk2 => hnone k (by omega) (by omega))
    rw [fuse_step_eq, hscan, if_neg (not_not.mpr htype), if_pos (by omega)]

theorem forward_partner_selection_witness :
    fuse_step "fuse_convolution_batchnorm" "Convolution" is_batchnorm
        (fold_batchnorm Real.sqrt) 5 (chain_net : NetOptimize ℝ) 1
      = fuse_pair "fuse_convolution_batchnorm" (fold_batchnorm Real.sqrt) chain_net 1 2 :=
  ((forward_partner_selection "fuse_convolution_batchnorm" "Convolution" is_batchnorm
      (fold_batchnorm Real.sqrt) (chain_net : NetOptimize ℝ) 1 (by decide) (by decide)).1
    2 (by decide) (by decide) (by decide) (fun k h1 h2 => absurd h2 (by omega))).1

end PartnerClaim

section Settled
set_option linter.unusedSectionVars false

variable {F : Type} [Field F] [DecidableEq F]

/-! ## A producer is settled once its iteration is over -/

theorem fuse_step_layer_before (pass_name pt : String) (ic : String → Bool)
    (fold : Layer F → Layer F → Layer F) (n : Nat) (s : NetOptimize F) (i k : Nat)
    (hk : k < i) :
    layerAt (fuse_step pass_name pt ic fold n s i).layers k = layerAt s.layers k := by
  rw [fuse_step_eq]
  split_ifs with h1 h2
  · rfl
  · rfl
  · have hge := forward_scan_ge s.layers ic ((layerAt s.layers i).tops.getD 0 0)
      (n - (i + 1)) (i + 1)
    exact fuse_pair_layer_other _ _ _ _ _ _ (by omega) (by omega)

theorem fuse_foldl_layer_before (pass_name pt : String) (ic : String → Bool)
    (fold : Layer F → Layer F → Layer F) (n : Nat) (k : Nat) (l : List Nat)
    (hl : ∀ i ∈ l, k < i) (s : NetOptimize F) :
    layerAt (l.foldl (fuse_step pass_name pt ic fold n) s).layers k = layerAt s.layers k := by
  induction l generalizing s with
  | nil => rfl
  | cons a t ih =>
    rw [List.foldl_cons, ih (fun i hi => hl i (List.mem_cons_of_mem _ hi)),
      fuse_step_layer_before _ _ _ _ _ _ _ _ (hl a (List.mem_cons_self _ _))]

theorem fuse_foldl_length (pass_name pt : String) (ic : String → Bool)
    (fold : Layer F → Layer F → Layer F) (n : Nat) (l : List Nat) (s : NetOptimize F) :
    (l.foldl (fuse_step pass_name pt ic fold n) s).layers.length = s.layers.length := by
  induction l generalizing s with
  | nil => rfl
  | cons a t ih => rw [List.foldl_cons, ih, fuse_step_length]

/-- The layer at index `i` at the end of a forward pass is the one left by the
iteration on `i`: later iterations rewrite only layers of greater index. -/
theorem forward_pass_settled (pass_name pt : String) (ic : String → Bool)
    (fold : Layer F → Layer F → Layer F) (s0 : NetOptimize F) (i : Nat)
    (hi : i < s0.layers.length) :
    layerAt (forward_pass pass_name pt ic fold s0).layers i =
      layerAt (fuse_step pass_name pt ic fold s0.layers.length
        ((List.range i).foldl (fuse_step pass_name pt ic fold s0.layers.length) s0) i).layers
        i := by
  unfold forward_pass
  have hn : s0.layers.length = (i + 1) + (s0.layers.length - (i + 1)) := by omega
  conv_lhs =>
    rw [hn, List.range_add, List.foldl_append, List.range_succ, List.foldl_append]
  rw [fuse_foldl_layer_before]
  · simp only [List.foldl_cons, List.foldl_nil]
    rw [← hn]
  · intro k hk
    obtain ⟨m, _, rfl⟩ := List.mem_map.mp hk
    omega

/-- The producer at the end of a forward pass, when the scan of its iteration
found the consumer `j` in the state `s` reached at the start of that iteration. -/
theorem forward_pass_producer (pass_name pt : String) (ic : String → Bool)
    (fold : Layer F → Layer F → Layer F) (s0 s : NetOptimize F) (i j : Nat)
    (hi : i < s0.layers.length)
    (hs : s = (List.range i).foldl (fuse_step pass_name pt ic fold s0.layers.length) s0)
    (htype : (layerAt s.layers i).type = pt)
    (hj : j = forward_scan s.layers ic ((layerAt s.layers i).tops.getD 0 0)
      (s.layers.length - (i + 1)) (i + 1))
    (hne : j ≠ s.layers.length) :
    layerAt (forward_pass pass_name pt ic fold s0).layers i =
      { fold (layerAt s.layers i) (layerAt s.layers j) with
        tops := (fold (layerAt s.layers i) (layerAt s.layers j)).tops.set 0
          ((layerAt s.layers j).tops.getD 0 0) } := by
  have hlen : s.layers.length = s0.layers.length := by
    rw [hs]; exact fuse_foldl_length _ _ _ _ _ _ _
  rw [forward_pass_settled pass_name pt ic fold s0 i hi, ← hs, ← hlen]
  exact fuse_step_producer pass_name pt ic fold s i j (by omega) htype hj hne

end Settled

section ActivationClaims

set_option linter.unusedSectionVars false

variable {F : Type} [Field F] [DecidableEq F]

/-- C5 (as stated, refuted): in `refused_net` the Convolution holds activation
params `[1/10]` before the fusion with a ReLU of slope 0; after
`fuse_convolution_activation` it has `activation_type = 1` but its activation
params are still there. -/
theorem relu_zero_params_counterexample :
    (layerAt (refused_net : NetOptimize ℚ).layers 2).type = "ReLU" ∧
    (layerAt (refused_net : NetOptimize ℚ).layers 2).slope = 0 ∧
    (layerAt (fuse_convolution_activation (refused_net : NetOptimize ℚ)).layers 2).type
      = "ncnnfused" ∧
    (layerAt (fuse_convolution_activation (refused_net : NetOptimize ℚ)).layers 1).activation_type
      = 1 ∧
    (layerAt (fuse_convolution_activation (refused_net : NetOptimize ℚ)).layers 1).activation_params
      ≠ [] := by
  decide

/-- C5 (amended): let `s` be the state reached by an activation pass (any
producer kind) when its iteration on `i` starts, and let the scan of that
iteration match producer `i` with a ReLU `j` of slope 0.  Then the producer ends
the pass with `activation_type = 1` and with the activation params it had before
the fusion (none when it had none). -/
theorem relu_zero_encoding (pass_name pt : String) (s0 s : NetOptimize F) (i j : Nat)
    (hi : i < s0.layers.length)
    (hs : s = (List.range i).foldl
      (fuse_step pass_name pt is_activation fold_activation s0.layers.length) s0)
    (htype : (layerAt s.layers i).type = pt)
    (hj : j = forward_scan s.layers is_activation ((layerAt s.layers i).tops.getD 0 0)
      (s.layers.length - (i + 1)) (i + 1))
    (hne : j ≠ s.layers.length)
    (hrelu : (layerAt s.layers j).type = "ReLU") (hslope : (layerAt s.layers j).slope = 0) :
    (layerAt (forward_pass pass_name pt is_activation fold_activation s0).layers
      i).activation_type = 1 ∧
    (layerAt (forward_pass pass_name pt is_activation fold_activation s0).layers
      i).activation_params = (layerAt s.layers i).activation_params := by
  rw [forward_pass_producer pass_name pt is_activation fold_activation s0 s i j hi hs htype
    hj hne]
  simp only [fold_activation, if_pos hrelu, if_pos hslope, and_self]

theorem relu_zero_encoding_witness :
    (layerAt (fuse_convolution_activation (relu_net (0 : ℚ))).layers 1).activation_type = 1 ∧
    (layerAt (fuse_convolution_activation (relu_net (0 : ℚ))).layers 1).activation_params
      = [] :=
  relu_zero_encoding "fuse_convolution_activation" "Convolution" (relu_net (0 : ℚ))
    (relu_net (0 : ℚ)) 1 2 (by decide) rfl (by decide) (by decide) (by decide) (by decide)
    (by decide)

end ActivationClaims

section FirstTopClaim

set_option linter.unusedSectionVars false

variable {F : Type} [Field F] [DecidableEq F]

/-- C9 (as stated, refuted): in `two_top_net` the Convolution has two tops and a
BatchNorm reads the first; `fuse_convolution_batchnorm` does not skip it: the
Convolution's first top is rerouted and the BatchNorm is tombstoned. -/
theorem multi_top_producer_counterexample :
    (layerAt (two_top_net : NetOptimize ℝ).layers 1).type = "Convolution" ∧
    (layerAt (two_top_net : NetOptimize ℝ).layers 1).tops = [1, 2] ∧
    (layerAt (fuse_convolution_batchnorm Real.sqrt two_top_net).layers 1).tops = [3, 2] ∧
    (layerAt (fuse_convolution_batchnorm Real.sqrt two_top_net).layers 2).type
      = "ncnnfused" := by
  decide

/-- C9 (amended): a forward pass looks only at the first top of a producer.  At
the iteration on a layer `i` of the producer kind whose tops are `t :: rest`
(`rest` may be non-empty), if the scan finds a consumer `j` reading `t` then the
producer's tops become `tops[0] of j :: rest` and `j` is tombstoned; if the scan
finds none the state is left unchanged. -/
theorem forward_fusion_first_top_only (pass_name pt : String) (ic : String → Bool)
    (fold : Layer F → Layer F → Layer F) (hfold : FoldFrame fold)
    (s : NetOptimize F) (i j t : Nat) (rest : List Nat)
    (hi : i < s.layers.length) (htype : (layerAt s.layers i).type = pt)
    (htops : (layerAt s.layers i).tops = t :: rest)
    (hj : j = forward_scan s.layers ic t (s.layers.length - (i + 1)) (i + 1)) :
    (j ≠ s.layers.length →
      (layerAt (fuse_step pass_name pt ic fold s.layers.length s i).layers i).tops
        = (layerAt s.layers j).tops.getD 0 0 :: rest ∧
      (layerAt (fuse_step pass_name pt ic fold s.layers.length s i).layers j).type
        = "ncnnfused") ∧
    (j = s.layers.length → fuse_step pass_name pt ic fold s.layers.length s i = s) := by
  have ht : (layerAt s.layers i).tops.getD 0 0 = t := by rw [htops]; rfl
  rw [← ht] at hj
  refine ⟨?_, ?_⟩
  · intro hne
    rw [fuse_step_producer pass_name pt ic fold s i j hi htype hj hne,
      fuse_step_consumer pass_name pt ic fold s i j hi htype hj hne]
    refine ⟨?_, rfl⟩
    show (fold (layerAt s.layers i) (layerAt s.layers j)).tops.set 0 _ = _
    rw [(hfold _ _).2.1, htops]
    rfl
  · intro he
    rw [fuse_step_eq, ← hj, if_neg (not_not.mpr htype), if_pos he]

theorem forward_fusion_first_top_only_witness :
    (layerAt (fuse_step "fuse_convolution_batchnorm" "Convolution" is_batchnorm
        (fold_batchnorm Real.sqrt) 4 (two_top_net : NetOptimize ℝ) 1).layers 1).tops
      = [3, 2] ∧
    (layerAt (fuse_step "fuse_convolution_batchnorm" "Convolution" is_batchnorm
        (fold_batchnorm Real.sqrt) 4 (two_top_net : NetOptimize ℝ) 1).layers 2).type
      = "ncnnfused" :=
  (forward_fusion_first_top_only "fuse_convolution_batchnorm" "Convolution" is_batchnorm
    (fold_batchnorm Real.sqrt) (foldFrame_batchnorm Real.sqrt)
    (two_top_net : NetOptimize ℝ) 1 2 1 [2] (by decide) (by decide) (by decide)
    (by decide)).1 (by decide)

end FirstTopClaim

section Dropout

set_option linter.unusedSectionVars false

variable {F : Type} [Field F] [DecidableEq F]

/-! ## Dropout elimination -/

theorem eliminate_step_skip (s : NetOptimize F) (i : Nat)
    (h : (layerAt s.layers i).type = "Dropout" → (layerAt s.layers i).scale ≠ 1) :
    eliminate_step s i = s := by
  rw [eliminate_step_eq]
  by_cases h1 : (layerAt s.layers i).type = "Dropout"
  · rw [if_neg (not_not.mpr h1), if_pos (h h1)]
  · rw [if_pos h1]

theorem foldl_fixed {σ : Type} (step : σ → Nat → σ) (s : σ) (l : List Nat)
    (h : ∀ i ∈ l, step s i = s) : l.foldl step s = s := by
  induction l with
  | nil => rfl
  | cons a t ih =>
    rw [List.foldl_cons, h a (List.mem_cons_self _ _)]
    exact ih (fun i hi => h i (List.mem_cons_of_mem _ hi))

theorem dropoutFrame_refl (s : NetOptimize F) : DropoutFrame s s :=
  ⟨rfl, fun _ => ⟨rfl, Or.inl rfl⟩⟩

theorem dropoutFrame_step (s0 s : NetOptimize F) (i : Nat) (hi : i < s.layers.length)
    (h : DropoutFrame s0 s) : DropoutFrame s0 (eliminate_step s i) := by
  rw [eliminate_step_eq]
  split_ifs with h1 h2 h3
  · exact h
  · exact h
  · exact h
  · have htype : (layerAt s.layers i).type = "Dropout" := not_not.mp h1
    have hscale : (layerAt s.layers i).scale = 1 := not_not.mp h2
    obtain ⟨hr, _⟩ := backward_match s i _ hi htype rfl h3
    obtain ⟨hji, _, _, _, _⟩ := hr
    have hne : (backward_scan s.layers ((layerAt s.layers i).bottoms.getD 0 0) i).toNat ≠ i :=
      by omega
    refine ⟨?_, ?_⟩
    · rw [eliminate_pair_eq, reroute_length]; exact h.1
    · intro k
      obtain ⟨hsame, hty⟩ := h.2 k
      by_cases hki : k = i
      · subst hki
        rw [eliminate_pair_layer_dropout s k _ hne hi]
        refine ⟨hsame, Or.inr ⟨rfl, ?_, ?_⟩⟩
        · rcases hty with e | ⟨e, _, _⟩
          · rw [← e]; exact htype
          · rw [htype] at e; exact absurd e (by decide)
        · have : (layerAt s.layers k).scale = (layerAt s0.layers k).scale := by
            unfold same_but_type_tops at hsame
            have e := congrArg Layer.scale hsame
            exact e
          rw [← this]; exact hscale
      · by_cases hkj : k = (backward_scan s.layers
            ((layerAt s.layers i).bottoms.getD 0 0) i).toNat
        · rw [hkj, eliminate_pair_layer_source s i _ hne (by omega)]
          rw [hkj] at hsame hty
          exact ⟨hsame, hty⟩
        · rw [eliminate_pair_layer_other s i _ k hki hkj]
          exact ⟨hsame, hty⟩

theorem dropoutFrame_foldl (s0 : NetOptimize F) (l : List Nat)
    (hl : ∀ i ∈ l, i < s0.layers.length) (s : NetOptimize F) (h : DropoutFrame s0 s) :
    DropoutFrame s0 (l.foldl eliminate_step s) :=
  foldl_invariant_mem (DropoutFrame s0) eliminate_step l
    (fun s' i hi hs => dropoutFrame_step s0 s' i (by rw [hs.1]; exact hl i hi) hs) s h

theorem eliminate_step_keeps_fused (s : NetOptimize F) (i k : Nat)
    (hi : i < s.layers.length) (hk : (layerAt s.layers k).type = "ncnnfused") :
    (layerAt (eliminate_step s i).layers k).type = "ncnnfused" := by
  rw [eliminate_step_eq]
  split_ifs with h1 h2 h3
  · exact hk
  · exact hk
  · exact hk
  · have htype : (layerAt s.layers i).type = "Dropout" := not_not.mp h1
    obtain ⟨hr, _⟩ := backward_match s i _ hi htype rfl h3
    obtain ⟨hji, _, _, _, _⟩ := hr
    rw [eliminate_pair_eq]
    have := reroute_type { s with stderr := s.stderr ++
      [diagnostic "eliminate_dropout" (layerAt s.layers (backward_scan s.layers
        ((layerAt s.layers i).bottoms.getD 0 0) i).toNat).name (layerAt s.layers i).name] }
      (backward_scan s.layers ((layerAt s.layers i).bottoms.getD 0 0) i).toNat i k
      (by omega) (by show _ < s.layers.length; omega) hi
    rw [this]
    split_ifs
    · rfl
    · exact hk

theorem eliminate_foldl_keeps_fused (l : List Nat) (k : Nat) :
    ∀ s : NetOptimize F, (∀ i ∈ l, i < s.layers.length) →
      (layerAt s.layers k).type = "ncnnfused" →
      (layerAt (l.foldl eliminate_step s).layers k).type = "ncnnfused" := by
  induction l with
  | nil => intro s _ h; exact h
  | cons a t ih =>
    intro s hl h
    rw [List.foldl_cons]
    apply ih
    · intro i hi
      rw [eliminate_step_length]
      exact hl i (List.mem_cons_of_mem _ hi)
    · exact eliminate_step_keeps_fused s a k (hl a (List.mem_cons_self _ _)) h

/-- The state of `eliminate_dropout` when the iteration on index `i` starts. -/
theorem eliminate_dropout_split (s : NetOptimize F) (i : Nat) (hi : i < s.layers.length) :
    eliminate_dropout s =
      (List.map (fun k => i + 1 + k) (List.range (s.layers.length - (i + 1)))).foldl
        eliminate_step (eliminate_step ((List.range i).foldl eliminate_step s) i) := by
  unfold eliminate_dropout
  have hn : s.layers.length = (i + 1) + (s.layers.length - (i + 1)) := by omega
  conv_lhs => rw [hn, List.range_add, List.foldl_append, List.range_succ, List.foldl_append]
  rfl

end Dropout

section DropoutClaim

set_option linter.unusedSectionVars false

variable {F : Type} [Field F] [DecidableEq F]

theorem same_but_scale (l0 l : Layer F) (h : same_but_type_tops l0 l) :
    l.scale = l0.scale := by
  unfold same_but_type_tops at h
  have e := congrArg Layer.scale h
  exact e

theorem same_but_bottoms (l0 l : Layer F) (h : same_but_type_tops l0 l) :
    l.bottoms = l0.bottoms := by
  unfold same_but_type_tops at h
  have e := congrArg Layer.bottoms h
  exact e

/-- C10 (as stated, refuted): in `Input -> Convolution -> Dropout(1/2) ->
Dropout(1)` the first Dropout has scale `1/2`, yet `eliminate_dropout` changes it:
it inherits the top (blob 3) of the second Dropout.  And in `shared_dropout_net`
the second Dropout of scale 1 stays live although a preceding live layer with
exactly one top equal to its first bottom exists in the graph given to the pass:
that layer's top has been rerouted by the time the second Dropout is visited. -/
theorem dropout_unchanged_counterexample :
    ((layerAt (two_dropout_net (1 / 2 : ℚ) 1).layers 2).type = "Dropout" ∧
      (layerAt (two_dropout_net (1 / 2 : ℚ) 1).layers 2).scale ≠ 1 ∧
      (layerAt (two_dropout_net (1 / 2 : ℚ) 1).layers 2).tops = [2] ∧
      (layerAt (eliminate_dropout (two_dropout_net (1 / 2 : ℚ) 1)).layers 2).tops = [3] ∧
      layerAt (eliminate_dropout (two_dropout_net (1 / 2 : ℚ) 1)).layers 2
        ≠ layerAt (two_dropout_net (1 / 2 : ℚ) 1).layers 2) ∧
    ((layerAt (shared_dropout_net : NetOptimize ℚ).layers 3).type = "Dropout" ∧
      (layerAt (shared_dropout_net : NetOptimize ℚ).layers 3).scale = 1 ∧
      is_source (shared_dropout_net : NetOptimize ℚ).layers
        ((layerAt (shared_dropout_net : NetOptimize ℚ).layers 3).bottoms.getD 0 0) 1 ∧
      (layerAt (eliminate_dropout (shared_dropout_net : NetOptimize ℚ)).layers 3).type
        = "Dropout") := by
  decide!

/-- C10 (amended): dropout elimination gating.  `eliminate_dropout` leaves every
Dropout whose scale is not 1 live, with every field but its tops unchanged; a
graph whose Dropouts all have a scale other than 1 is returned unchanged; and a
Dropout of scale 1 is tombstoned whenever, in the state reached when its
iteration starts, some preceding live layer has exactly one top and that top is
the Dropout's first bottom. -/
theorem dropout_gating (s : NetOptimize F) :
    (∀ k, k < s.layers.length → (layerAt s.layers k).type = "Dropout" →
      (layerAt s.layers k).scale ≠ 1 →
      (layerAt (eliminate_dropout s).layers k).type = "Dropout" ∧
      same_but_type_tops (layerAt s.layers k) (layerAt (eliminate_dropout s).layers k)) ∧
    ((∀ k, k < s.layers.length → (layerAt s.layers k).type = "Dropout" →
        (layerAt s.layers k).scale ≠ 1) →
      eliminate_dropout s = s) ∧
    (∀ i, i < s.layers.length → (layerAt s.layers i).type = "Dropout" →
      (layerAt s.layers i).scale = 1 →
      (∃ j, j < i ∧ is_source ((List.range i).foldl eliminate_step s).layers
        ((layerAt s.layers i).bottoms.getD 0 0) j) →
      (layerAt (eliminate_dropout s).layers i).type = "ncnnfused") := by
  refine ⟨?_, ?_, ?_⟩
  · intro k _ htype hscale
    have hframe := dropoutFrame_foldl s (List.range s.layers.length)
      (fun i hi => List.mem_range.mp hi) s (dropoutFrame_refl s)
    obtain ⟨hsame, hty⟩ := hframe.2 k
    refine ⟨?_, hsame⟩
    rcases hty with e | ⟨_, _, e⟩
    · exact e.trans htype
    · exact absurd e hscale
  · intro h
    unfold eliminate_dropout
    apply foldl_fixed
    intro i hi
    exact eliminate_step_skip s i (h i (List.mem_range.mp hi))
  · intro i hi htype hscale hsrc
    have hframe := dropoutFrame_foldl s (List.range i)
      (fun k hk => by have := List.mem_range.mp hk; omega) s (dropoutFrame_refl s)
    obtain ⟨hlen, hk⟩ := hframe
    obtain ⟨hsame, hty⟩ := hk i
    have hi2 : i < ((List.range i).foldl eliminate_step s).layers.length := by
      rw [hlen]; exact hi
    rw [eliminate_dropout_split s i hi]
    apply eliminate_foldl_keeps_fused
    · intro k hk
      rw [eliminate_step_length, hlen]
      obtain ⟨m, hm, rfl⟩ := List.mem_map.mp hk
      have := List.mem_range.mp hm
      omega
    · rcases hty with e | ⟨e, _, _⟩
      · have htype2 : (layerAt ((List.range i).foldl eliminate_step s).layers i).type
            = "Dropout" := e.trans htype
        have hscale2 : (layerAt ((List.range i).foldl eliminate_step s).layers i).scale = 1 := by
          rw [← hscale]; exact same_but_scale _ _ hsame
        have hbot : (layerAt ((List.range i).foldl eliminate_step s).layers i).bottoms
            = (layerAt s.layers i).bottoms := same_but_bottoms _ _ hsame
        obtain ⟨j, hji, hsj⟩ := hsrc
        rw [← hbot] at hsj
        have hfound : backward_scan ((List.range i).foldl eliminate_step s).layers
            ((layerAt ((List.range i).foldl eliminate_step s).layers i).bottoms.getD 0 0) i
            ≠ -1 := by
          intro hneg
          exact backward_scan_skipped _ _ i j hji (by rw [hneg]; omega) hsj
        obtain ⟨hr, _⟩ := backward_match _ i _ hi2 htype2 rfl hfound
        rw [eliminate_step_eq, if_neg (not_not.mpr htype2), if_neg (not_not.mpr hscale2),
          if_neg hfound, eliminate_pair_layer_dropout _ i _ (by have := hr.1; omega) hi2]
      · exact eliminate_step_keeps_fused _ i i hi2 e

theorem dropout_gating_witness :
    (layerAt (eliminate_dropout (innerproduct_dropout_net (1 : ℚ))).layers 2).type
      = "ncnnfused" ∧
    eliminate_dropout (convolution_dropout_net (1 / 2 : ℚ))
      = convolution_dropout_net (1 / 2 : ℚ) :=
  ⟨(dropout_gating (innerproduct_dropout_net (1 : ℚ))).2.2 2 (by decide) (by decide)
      (by decide) ⟨1, by decide, by decide⟩,
   (dropout_gating (convolution_dropout_net (1 / 2 : ℚ))).2.1
      (fun k hk htype => by
        have hk3 : k < 3 := hk
        interval_cases k
        · exact absurd htype (by decide)
        · exact absurd htype (by decide)
        · show (1 / 2 : ℚ) ≠ 1
          norm_num)⟩

end DropoutClaim

section MatLemmas

set_option linter.unusedSectionVars false

variable {F : Type} [Field F] [DecidableEq F]

/-! ## Reading and writing weight vectors -/

theorem mat_getD_set (w : List F) (k idx : Nat) (v : F) :
    (w.set k v).getD idx 0 = if k = idx then (if k < w.length then v else 0) else w.getD idx 0 := by
  simp only [List.getD_eq_getElem?_getD, List.getElem?_set]
  by_cases h : k = idx
  · subst h
    by_cases hk : k < w.length
    · simp [hk]
    · simp [hk]
  · simp [h]

theorem mat_getD_of_length_le (w : List F) (k : Nat) (h : w.length ≤ k) : w.getD k 0 = 0 := by
  simp [List.getD_eq_getElem?_getD, List.getElem?_eq_none h]

theorem mat_getD_set_mul (w : List F) (k idx : Nat) (b : F) :
    (w.set k (w.getD k 0 * b)).getD idx 0
      = if idx = k then w.getD idx 0 * b else w.getD idx 0 := by
  rw [mat_getD_set]
  by_cases h : k = idx
  · subst h
    by_cases hk : k < w.length
    · rw [if_pos rfl, if_pos hk, if_pos rfl]
    · rw [if_pos rfl, if_neg hk, if_pos rfl, mat_getD_of_length_le w k (not_lt.mp hk), zero_mul]
  · rw [if_neg h, if_neg (fun e => h e.symm)]

theorem scale_outch_getD (w : List F) (base n : Nat) (b : F) (idx : Nat) :
    (scale_outch w base n b).getD idx 0
      = if base ≤ idx ∧ idx < base + n then w.getD idx 0 * b else w.getD idx 0 := by
  induction n with
  | zero => rw [if_neg (by omega)]; rfl
  | succ n ih =>
    unfold scale_outch at ih ⊢
    rw [List.range_succ, List.foldl_append]
    simp only [List.foldl_cons, List.foldl_nil]
    rw [mat_getD_set_mul, ih]
    by_cases h1 : idx = base + n
    · subst h1
      rw [if_pos rfl, if_neg (by omega), if_pos (by omega)]
    · rw [if_neg h1]
      by_cases h2 : base ≤ idx ∧ idx < base + n
      · rw [if_pos h2, if_pos ⟨h2.1, by omega⟩]
      · rw [if_neg h2, if_neg (fun h => h2 ⟨h.1, by omega⟩)]

theorem fold_channels_snoc (a b : List F) (s n : Nat) (w bias : List F) :
    fold_channels a b s (n + 1) w bias =
      (scale_outch (fold_channels a b s n w bias).1 (s * n) s (b.getD n 0),
       (fold_channels a b s n w bias).2.set n
         ((fold_channels a b s n w bias).2.getD n 0 + a.getD n 0)) := by
  unfold fold_channels
  rw [List.range_succ, List.foldl_append]
  rfl

theorem fold_channels_weight (a b : List F) (s n : Nat) (w bias : List F) (idx : Nat) :
    (fold_channels a b s n w bias).1.getD idx 0
      = if idx < s * n then w.getD idx 0 * b.getD (idx / s) 0 else w.getD idx 0 := by
  induction n with
  | zero => rw [if_neg (by omega)]; rfl
  | succ n ih =>
    rw [fold_channels_snoc]
    show (scale_outch _ _ _ _).getD idx 0 = _
    rw [scale_outch_getD, ih]
    by_cases h1 : s * n ≤ idx ∧ idx < s * n + s
    · have hs : 0 < s := by omega
      have hq : idx / s = n := by
        apply Nat.div_eq_of_lt_le
        · rw [Nat.mul_comm]; exact h1.1
        · rw [Nat.succ_mul, Nat.mul_comm]; exact h1.2
      rw [if_pos h1, if_neg (by omega), if_pos (by rw [Nat.mul_succ]; omega), hq]
    · rw [if_neg h1]
      by_cases h2 : idx < s * n
      · rw [if_pos h2, if_pos (by rw [Nat.mul_succ]; omega)]
      · rw [if_neg h2, if_neg (by rw [Nat.mul_succ]; omega)]

theorem fold_channels_bias_length (a b : List F) (s n : Nat) (w bias : List F) :
    (fold_channels a b s n w bias).2.length = bias.length := by
  induction n with
  | zero => rfl
  | succ n ih => rw [fold_channels_snoc]; simp [ih]

theorem fold_channels_bias (a b : List F) (s n : Nat) (w bias : List F) (c : Nat)
    (hc : c < bias.length) :
    (fold_channels a b s n w bias).2.getD c 0
      = if c < n then bias.getD c 0 + a.getD c 0 else bias.getD c 0 := by
  induction n with
  | zero => rw [if_neg (by omega)]; rfl
  | succ n ih =>
    rw [fold_channels_snoc]
    show (List.set _ _ _).getD c 0 = _
    rw [mat_getD_set, fold_channels_bias_length]
    by_cases h1 : n = c
    · subst h1
      rw [if_pos rfl, if_pos hc, ih, if_neg (by omega), if_pos (by omega)]
    · rw [if_neg h1, ih]
      by_cases h2 : c < n
      · rw [if_pos h2, if_pos (by omega)]
      · rw [if_neg h2, if_neg (by omega)]

end MatLemmas

section FoldLemmas

set_option linter.unusedSectionVars false

variable {F : Type} [Field F] [DecidableEq F]

/-! ## The BatchNorm fold -/

theorem batchnorm_b_getD (sqrt : F → F) (bn : Layer F) (c : Nat) (hc : c < bn.channels.toNat) :
    (batchnorm_b sqrt bn).getD c 0 = spec_b sqrt bn c := by
  unfold batchnorm_b spec_b
  rw [List.getD_eq_getElem?_getD, List.getElem?_map, List.getElem?_range hc]
  rfl

theorem batchnorm_a_getD (sqrt : F → F) (bn : Layer F) (c : Nat) (hc : c < bn.channels.toNat) :
    (batchnorm_a sqrt bn).getD c 0 = spec_a sqrt bn c := by
  unfold batchnorm_a spec_a
  rw [List.getD_eq_getElem?_getD, List.getElem?_map, List.getElem?_range hc]
  rfl

theorem fold_batchnorm_weight (sqrt : F → F) (p c : Layer F) :
    (fold_batchnorm sqrt p c).weight_data =
      (fold_channels (batchnorm_a sqrt c) (batchnorm_b sqrt c)
        (Int.tdiv p.weight_data_size c.channels).toNat c.channels.toNat
        p.weight_data (initial_bias p c)).1 := by
  unfold initial_bias
  by_cases h : p.bias_term = 0
  · simp only [fold_batchnorm, if_pos h]
  · simp only [fold_batchnorm, if_neg h]

theorem fold_batchnorm_bias (sqrt : F → F) (p c : Layer F) :
    (fold_batchnorm sqrt p c).bias_data =
      (fold_channels (batchnorm_a sqrt c) (batchnorm_b sqrt c)
        (Int.tdiv p.weight_data_size c.channels).toNat c.channels.toNat
        p.weight_data (initial_bias p c)).2 := by
  unfold initial_bias
  by_cases h : p.bias_term = 0
  · simp only [fold_batchnorm, if_pos h]
  · simp only [fold_batchnorm, if_neg h]

theorem fold_batchnorm_bias_term (sqrt : F → F) (p c : Layer F) :
    (fold_batchnorm sqrt p c).bias_term = if p.bias_term = 0 then 1 else p.bias_term := by
  by_cases h : p.bias_term = 0
  · simp only [fold_batchnorm, if_pos h]
  · simp only [fold_batchnorm, if_neg h]

theorem fold_batchnorm_weight_data_size (sqrt : F → F) (p c : Layer F) :
    (fold_batchnorm sqrt p c).weight_data_size = p.weight_data_size := by
  by_cases h : p.bias_term = 0
  · simp only [fold_batchnorm, if_pos h]
  · simp only [fold_batchnorm, if_neg h]

theorem initial_bias_getD (p c : Layer F) (k : Nat) :
    (initial_bias p c).getD k 0 = if p.bias_term = 0 then 0 else p.bias_data.getD k 0 := by
  unfold initial_bias
  by_cases h : p.bias_term = 0
  · rw [if_pos h, if_pos h, List.getD_eq_getElem?_getD, List.getElem?_replicate]
    split_ifs <;> rfl
  · rw [if_neg h, if_neg h]

theorem initial_bias_length (p c : Layer F)
    (h : p.bias_term ≠ 0 → c.channels.toNat ≤ p.bias_data.length) :
    c.channels.toNat ≤ (initial_bias p c).length := by
  unfold initial_bias
  by_cases h0 : p.bias_term = 0
  · rw [if_pos h0, List.length_replicate]
  · rw [if_neg h0]; exact h h0

/-- The weights after the fold: slice `c` is scaled by `b_c`. -/
theorem fold_batchnorm_weight_getD (sqrt : F → F) (p bn : Layer F) (c k : Nat)
    (hc : c < bn.channels.toNat)
    (hk : k < (Int.tdiv p.weight_data_size bn.channels).toNat) :
    (fold_batchnorm sqrt p bn).weight_data.getD
        (c * (Int.tdiv p.weight_data_size bn.channels).toNat + k) 0
      = p.weight_data.getD (c * (Int.tdiv p.weight_data_size bn.channels).toNat + k) 0
        * spec_b sqrt bn c := by
  rw [fold_batchnorm_weight, fold_channels_weight]
  generalize (Int.tdiv p.weight_data_size bn.channels).toNat = size at hk ⊢
  have hlt : c * size + k < size * bn.channels.toNat := by
    have h1 : size * (c + 1) ≤ size * bn.channels.toNat := Nat.mul_le_mul_left _ hc
    rw [Nat.mul_succ, Nat.mul_comm size c] at h1
    omega
  have hdiv : (c * size + k) / size = c := by
    rw [Nat.mul_comm c size, Nat.mul_add_div (by omega), Nat.div_eq_of_lt hk, Nat.add_zero]
  rw [if_pos hlt, hdiv, batchnorm_b_getD sqrt bn c hc]

/-- The bias after the fold: `a_c` is added to the bias of channel `c`. -/
theorem fold_batchnorm_bias_getD (sqrt : F → F) (p bn : Layer F) (c : Nat)
    (hc : c < bn.channels.toNat)
    (hbias : p.bias_term ≠ 0 → bn.channels.toNat ≤ p.bias_data.length) :
    (fold_batchnorm sqrt p bn).bias_data.getD c 0
      = (if p.bias_term = 0 then 0 else p.bias_data.getD c 0) + spec_a sqrt bn c := by
  rw [fold_batchnorm_bias, fold_channels_bias _ _ _ _ _ _ _
    (by have := initial_bias_length p bn hbias; omega),
    if_pos hc, initial_bias_getD, batchnorm_a_getD sqrt bn c hc]

theorem int_lt_toNat (c : Nat) (z : Int) (h : (c : Int) < z) : c < z.toNat := by
  omega

theorem sum_map_mul_right (l : List Nat) (f : Nat → F) (b : F) :
    (l.map fun k => f k * b).sum = (l.map f).sum * b := by
  induction l with
  | nil => simp
  | cons a t ih => simp only [List.map_cons, List.sum_cons, ih, add_mul]

/-- What the folded producer computes, compared with `bn(y)` where `y` is what
the producer computed before: the two differ by `bias_c * (1 - b_c)`, the old
bias having been left unscaled by the statement `bias[i] += a[i]`. -/
theorem fold_batchnorm_forward (sqrt : F → F) (p bn : Layer F) (x : Nat → F) (c : Nat)
    (hc : c < bn.channels.toNat)
    (hbias : p.bias_term ≠ 0 → bn.channels.toNat ≤ p.bias_data.length) :
    affine_forward (fold_batchnorm sqrt p bn)
        (Int.tdiv p.weight_data_size bn.channels).toNat x c
      = batchnorm_forward sqrt bn c
          (affine_forward p (Int.tdiv p.weight_data_size bn.channels).toNat x c)
        + (if p.bias_term = 0 then 0 else p.bias_data.getD c 0) * (1 - spec_b sqrt bn c) := by
  unfold affine_forward
  have hterm : (fold_batchnorm sqrt p bn).bias_term ≠ 0 := by
    rw [fold_batchnorm_bias_term]
    split_ifs with h
    · exact one_ne_zero
    · exact h
  rw [if_neg hterm, fold_batchnorm_bias_getD sqrt p bn c hc hbias]
  have hsum : ((List.range (Int.tdiv p.weight_data_size bn.channels).toNat).map fun k =>
        (fold_batchnorm sqrt p bn).weight_data.getD
          (c * (Int.tdiv p.weight_data_size bn.channels).toNat + k) 0 * x k).sum
      = ((List.range (Int.tdiv p.weight_data_size bn.channels).toNat).map fun k =>
        p.weight_data.getD
          (c * (Int.tdiv p.weight_data_size bn.channels).toNat + k) 0 * x k).sum
        * spec_b sqrt bn c := by
    rw [← sum_map_mul_right]
    congr 1
    apply List.map_congr_left
    intro k hk
    rw [fold_batchnorm_weight_getD sqrt p bn c k hc (List.mem_range.mp hk)]
    ring
  rw [hsum]
  unfold batchnorm_forward spec_a spec_b
  simp only [div_eq_mul_inv]
  ring

/-- For a producer without bias the fold preserves the computed function. -/
theorem fold_batchnorm_forward_bias_free (sqrt : F → F) (p bn : Layer F) (x : Nat → F)
    (c : Nat) (hc : c < bn.channels.toNat) (hfree : p.bias_term = 0) :
    affine_forward (fold_batchnorm sqrt p bn)
        (Int.tdiv p.weight_data_size bn.channels).toNat x c
      = batchnorm_forward sqrt bn c
          (affine_forward p (Int.tdiv p.weight_data_size bn.channels).toNat x c) := by
  rw [fold_batchnorm_forward sqrt p bn x c hc (fun h => absurd hfree h), if_pos hfree,
    zero_mul, add_zero]

/-! ## The Scale fold -/

theorem scale_channels_snoc (scale : Layer F) (n : Nat) (slope bias : List F) :
    scale_channels scale (n + 1) slope bias =
      ((scale_channels scale n slope bias).1.set n
          ((scale_channels scale n slope bias).1.getD n 0 * scale.scale_data.getD n 0),
       if scale.bias_term ≠ 0 then
         (scale_channels scale n slope bias).2.set n
           ((scale_channels scale n slope bias).2.getD n 0 * scale.scale_data.getD n 0
             + scale.bias_data.getD n 0)
       else
         (scale_channels scale n slope bias).2.set n
           ((scale_channels scale n slope bias).2.getD n 0 * scale.scale_data.getD n 0)) := by
  unfold scale_channels
  rw [List.range_succ, List.foldl_append]
  rfl

theorem scale_channels_slope (scale : Layer F) (n : Nat) (slope bias : List F) (c : Nat) :
    (scale_channels scale n slope bias).1.getD c 0
      = if c < n then slope.getD c 0 * scale.scale_data.getD c 0 else slope.getD c 0 := by
  induction n with
  | zero => rw [if_neg (by omega)]; rfl
  | succ n ih =>
    rw [scale_channels_snoc]
    show (List.set _ _ _).getD c 0 = _
    rw [mat_getD_set_mul, ih]
    by_cases h1 : c = n
    · subst h1
      rw [if_pos rfl, if_neg (by omega), if_pos (by omega)]
    · rw [if_neg h1]
      by_cases h2 : c < n
      · rw [if_pos h2, if_pos (by omega)]
      · rw [if_neg h2, if_neg (by omega)]

theorem scale_channels_bias_length (scale : Layer F) (n : Nat) (slope bias : List F) :
    (scale_channels scale n slope bias).2.length = bias.length := by
  induction n with
  | zero => rfl
  | succ n ih =>
    rw [scale_channels_snoc]
    by_cases h : scale.bias_term ≠ 0
    · simp only [if_pos h, List.length_set, ih]
    · simp only [if_neg h, List.length_set, ih]

theorem scale_channels_bias (scale : Layer F) (n : Nat) (slope bias : List F) (c : Nat)
    (hc : c < bias.length) :
    (scale_channels scale n slope bias).2.getD c 0
      = if c < n then
          (if scale.bias_term ≠ 0
            then bias.getD c 0 * scale.scale_data.getD c 0 + scale.bias_data.getD c 0
            else bias.getD c 0 * scale.scale_data.getD c 0)
        else bias.getD c 0 := by
  induction n with
  | zero => rw [if_neg (by omega)]; rfl
  | succ n ih =>
    rw [scale_channels_snoc]
    by_cases h : scale.bias_term ≠ 0
    · simp only [if_pos h] at ih ⊢
      rw [mat_getD_set, scale_channels_bias_length]
      by_cases h1 : n = c
      · subst h1
        rw [if_pos rfl, if_pos hc, ih, if_neg (by omega), if_pos (by omega)]
      · rw [if_neg h1, ih]
        by_cases h2 : c < n
        · rw [if_pos h2, if_pos (by omega)]
        · rw [if_neg h2, if_neg (by omega)]
    · simp only [if_neg h] at ih ⊢
      rw [mat_getD_set, scale_channels_bias_length]
      by_cases h1 : n = c
      · subst h1
        rw [if_pos rfl, if_pos hc, ih, if_neg (by omega), if_pos (by omega)]
      · rw [if_neg h1, ih]
        by_cases h2 : c < n
        · rw [if_pos h2, if_pos (by omega)]
        · rw [if_neg h2, if_neg (by omega)]

end FoldLemmas

section BatchNormClaims

set_option linter.unusedSectionVars false

variable {F : Type} [Field F] [DecidableEq F]

theorem real_sqrt_four : Real.sqrt (3 + 1) = 2 := by
  rw [show (3 + 1 : ℝ) = 2 ^ 2 by norm_num]
  exact Real.sqrt_sq (by norm_num)

/-- C1 (as stated, refuted): a Convolution loaded with `bias_term = 2` (any
non-zero value means "has a bias") is matched with the BatchNorm and folded by
`fuse_convolution_batchnorm`, and its `bias_term` is still 2 afterwards, not 1. -/
theorem batchnorm_fold_bias_term_counterexample :
    (layerAt (conv_bn_net 2 [1] : NetOptimize ℝ).layers 1).type = "Convolution" ∧
    (layerAt (fuse_convolution_batchnorm Real.sqrt (conv_bn_net 2 [1])).layers 2).type
      = "ncnnfused" ∧
    (layerAt (fuse_convolution_batchnorm Real.sqrt (conv_bn_net 2 [1])).layers 1).bias_term
      ≠ 1 := by
  decide

/-- C1 (amended): the BatchNorm fold transform.  Let `s` be the state reached by a
`fuse_*_batchnorm` pass (any producer kind) when its iteration on `i` starts, and
let the scan of that iteration match producer `i` with BatchNorm `j`.  With
`channels` the BatchNorm's channel count and `size = weight_data_size / channels`,
at the end of the pass: for every `c < channels` and `k < size` the weight at
index `c*size+k` is its old value times `b_c`; the bias of channel `c` is the old
one (0 when `bias_term` was 0) plus `a_c`; and `bias_term` is 1 when it was 0 and
is left as it was otherwise.  The old bias vector is assumed to hold `channels`
elements when `bias_term` is non-zero. -/
theorem batchnorm_fold_transform (sqrt : F → F) (pass_name pt : String)
    (s0 s : NetOptimize F) (i j : Nat)
    (hi : i < s0.layers.length)
    (hs : s = (List.range i).foldl
      (fuse_step pass_name pt is_batchnorm (fold_batchnorm sqrt) s0.layers.length) s0)
    (htype : (layerAt s.layers i).type = pt)
    (hj : j = forward_scan s.layers is_batchnorm ((layerAt s.layers i).tops.getD 0 0)
      (s.layers.length - (i + 1)) (i + 1))
    (hne : j ≠ s.layers.length)
    (hbias : (layerAt s.layers i).bias_term ≠ 0 →
      (layerAt s.layers j).channels.toNat ≤ (layerAt s.layers i).bias_data.length) :
    (∀ c k : Nat, (c : Int) < (layerAt s.layers j).channels →
      (k : Int) < Int.tdiv (layerAt s.layers i).weight_data_size (layerAt s.layers j).channels →
      (layerAt (forward_pass pass_name pt is_batchnorm (fold_batchnorm sqrt) s0).layers i).weight_data.getD
        (c * (Int.tdiv (layerAt s.layers i).weight_data_size
          (layerAt s.layers j).channels).toNat + k) 0
      = (layerAt s.layers i).weight_data.getD
          (c * (Int.tdiv (layerAt s.layers i).weight_data_size
            (layerAt s.layers j).channels).toNat + k) 0
        * spec_b sqrt (layerAt s.layers j) c) ∧
    (∀ c : Nat, (c : Int) < (layerAt s.layers j).channels →
      (layerAt (forward_pass pass_name pt is_batchnorm (fold_batchnorm sqrt) s0).layers i).bias_data.getD c 0
      = (if (layerAt s.layers i).bias_term = 0 then 0
          else (layerAt s.layers i).bias_data.getD c 0)
        + spec_a sqrt (layerAt s.layers j) c) ∧
    (layerAt (forward_pass pass_name pt is_batchnorm (fold_batchnorm sqrt) s0).layers i).bias_term
      = (if (layerAt s.layers i).bias_term = 0 then 1 else (layerAt s.layers i).bias_term) := by
  rw [forward_pass_producer pass_name pt is_batchnorm (fold_batchnorm sqrt) s0 s i j hi hs
    htype hj hne]
  refine ⟨?_, ?_, ?_⟩
  · intro c k hc hk
    exact fold_batchnorm_weight_getD sqrt _ _ c k (int_lt_toNat _ _ hc) (int_lt_toNat _ _ hk)
  · intro c hc
    exact fold_batchnorm_bias_getD sqrt _ _ c (int_lt_toNat _ _ hc) hbias
  · exact fold_batchnorm_bias_term sqrt _ _

theorem batchnorm_fold_transform_witness :
    (layerAt (fuse_convolution_batchnorm Real.sqrt (conv_bn_net 0 [])).layers 1
      ).weight_data.getD 0 0 = 3 ∧
    (layerAt (fuse_convolution_batchnorm Real.sqrt (conv_bn_net 0 [])).layers 1
      ).bias_data.getD 0 0 = -1 ∧
    (layerAt (fuse_convolution_batchnorm Real.sqrt (conv_bn_net 0 [])).layers 1
      ).bias_term = 1 := by
  have h := batchnorm_fold_transform Real.sqrt "fuse_convolution_batchnorm" "Convolution"
    (conv_bn_net 0 [] : NetOptimize ℝ) (conv_bn_net 0 []) 1 2 (by decide) rfl (by decide)
    (by decide) (by decide) (fun h0 => absurd rfl h0)
  refine ⟨?_, ?_, h.2.2⟩
  · have hw := h.1 0 0 (by decide) (by decide)
    have e : (layerAt (conv_bn_net 0 [] : NetOptimize ℝ).layers 1).weight_data.getD
        (0 * (Int.tdiv (layerAt (conv_bn_net 0 [] : NetOptimize ℝ).layers 1).weight_data_size
          (layerAt (conv_bn_net 0 [] : NetOptimize ℝ).layers 2).channels).toNat + 0) 0
        * spec_b Real.sqrt (layerAt (conv_bn_net 0 [] : NetOptimize ℝ).layers 2) 0 = 3 := by
      show (2 : ℝ) * (3 / Real.sqrt (3 + 1)) = 3
      rw [real_sqrt_four]; norm_num
    exact hw.trans e
  · have hb := h.2.1 0 (by decide)
    have e : (if (layerAt (conv_bn_net 0 [] : NetOptimize ℝ).layers 1).bias_term = 0 then 0
          else (layerAt (conv_bn_net 0 [] : NetOptimize ℝ).layers 1).bias_data.getD 0 0)
        + spec_a Real.sqrt (layerAt (conv_bn_net 0 [] : NetOptimize ℝ).layers 2) 0 = -1 := by
      show (0 : ℝ) + (1 / 2 - 3 * 1 / Real.sqrt (3 + 1)) = -1
      rw [real_sqrt_four]; norm_num
    exact hb.trans e

/-- C2 (the code departs from the claim): for the Convolution with weight `[2]`,
`bias_term = 1` and bias `[1]` followed by BatchNorm `(slope 3, bias 1/2, mean 1,
var 3, eps 1)`, on the input `x = 1` the original pair computes
`bn(2*1 + 1) = 7/2`, while the Convolution left by `fuse_convolution_batchnorm`
computes `3`: the old bias was not scaled by `b`. -/
theorem batchnorm_fold_biased_divergence :
    batchnorm_forward Real.sqrt (layerAt (conv_bn_net 1 [1] : NetOptimize ℝ).layers 2) 0
        (affine_forward (layerAt (conv_bn_net 1 [1] : NetOptimize ℝ).layers 1) 1
          (fun _ => 1) 0) = 7 / 2 ∧
    affine_forward
        (layerAt (fuse_convolution_batchnorm Real.sqrt (conv_bn_net 1 [1])).layers 1) 1
        (fun _ => 1) 0 = 3 := by
  have hstep : fuse_convolution_batchnorm Real.sqrt (conv_bn_net 1 [1])
      = fuse_step "fuse_convolution_batchnorm" "Convolution" is_batchnorm
          (fold_batchnorm Real.sqrt) (conv_bn_net 1 [1] : NetOptimize ℝ).layers.length
          (conv_bn_net 1 [1]) 1 := rfl
  have hprod := fuse_step_producer "fuse_convolution_batchnorm" "Convolution" is_batchnorm
    (fold_batchnorm Real.sqrt) (conv_bn_net 1 [1] : NetOptimize ℝ) 1 2
    (by decide) (by decide) (by decide) (by decide)
  have hold : affine_forward (layerAt (conv_bn_net 1 [1] : NetOptimize ℝ).layers 1) 1
      (fun _ => 1) 0 = 3 := by
    show ((2 : ℝ) * 1 + 0) + 1 = 3
    norm_num
  have hbn : batchnorm_forward Real.sqrt (layerAt (conv_bn_net 1 [1] : NetOptimize ℝ).layers 2)
      0 3 = 7 / 2 := by
    show (3 : ℝ) * (3 - 1) / Real.sqrt (3 + 1) + 1 / 2 = 7 / 2
    rw [real_sqrt_four]; norm_num
  refine ⟨by rw [hold, hbn], ?_⟩
  rw [hstep, hprod]
  have hfw := fold_batchnorm_forward Real.sqrt
    (layerAt (conv_bn_net 1 [1] : NetOptimize ℝ).layers 1)
    (layerAt (conv_bn_net 1 [1] : NetOptimize ℝ).layers 2) (fun _ => 1) 0
    (by decide) (fun _ => by decide)
  have hb : spec_b Real.sqrt (layerAt (conv_bn_net 1 [1] : NetOptimize ℝ).layers 2) 0
      = 3 / 2 := by
    show (3 : ℝ) / Real.sqrt (3 + 1) = 3 / 2
    rw [real_sqrt_four]
  have hfw2 : affine_forward (fold_batchnorm Real.sqrt
      (layerAt (conv_bn_net 1 [1] : NetOptimize ℝ).layers 1)
      (layerAt (conv_bn_net 1 [1] : NetOptimize ℝ).layers 2)) 1 (fun _ => 1) 0 = 3 := by
    have e := hfw
    rw [hb] at e
    have e2 : affine_forward (fold_batchnorm Real.sqrt
        (layerAt (conv_bn_net 1 [1] : NetOptimize ℝ).layers 1)
        (layerAt (conv_bn_net 1 [1] : NetOptimize ℝ).layers 2)) 1 (fun _ => 1) 0
        = batchnorm_forward Real.sqrt (layerAt (conv_bn_net 1 [1] : NetOptimize ℝ).layers 2) 0
            (affine_forward (layerAt (conv_bn_net 1 [1] : NetOptimize ℝ).layers 1) 1
              (fun _ => 1) 0) + 1 * (1 - 3 / 2) := e
    rw [e2, hold, hbn]; norm_num
  exact hfw2

end BatchNormClaims

section ScaleClaim

set_option linter.unusedSectionVars false

variable {F : Type} [Field F] [DecidableEq F]

/-- C3: the BatchNorm-Scale merge.  Let `s` be the state reached by
`fuse_batchnorm_scale` when its iteration on `i` starts, and let the scan of that
iteration match BatchNorm `i` with Scale `j` (the BatchNorm's bias vector holding
at least `channels` elements).  Then at the end of the pass, for every channel
`c < channels`, the new slope is `slope_c * scale_c`, the new bias is
`bias_c * scale_c + scale_bias_c` when the Scale's `bias_term` is non-zero and
`bias_c * scale_c` otherwise, and the merged BatchNorm computes
`Scale(BatchNorm(x))` for every `x`; `mean`, `var` and `eps` are unchanged. -/
theorem batchnorm_scale_merge (sqrt : F → F) (pass_name pt : String)
    (s0 s : NetOptimize F) (i j : Nat)
    (hi : i < s0.layers.length)
    (hs : s = (List.range i).foldl
      (fuse_step pass_name pt is_scale fold_scale s0.layers.length) s0)
    (htype : (layerAt s.layers i).type = pt)
    (hj : j = forward_scan s.layers is_scale ((layerAt s.layers i).tops.getD 0 0)
      (s.layers.length - (i + 1)) (i + 1))
    (hne : j ≠ s.layers.length)
    (hlen : (layerAt s.layers i).channels.toNat ≤ (layerAt s.layers i).bias_data.length) :
    (∀ c : Nat, (c : Int) < (layerAt s.layers i).channels →
      (layerAt (forward_pass pass_name pt is_scale fold_scale s0).layers i).slope_data.getD c 0
        = (layerAt s.layers i).slope_data.getD c 0 * (layerAt s.layers j).scale_data.getD c 0 ∧
      (layerAt (forward_pass pass_name pt is_scale fold_scale s0).layers i).bias_data.getD c 0
        = (if (layerAt s.layers j).bias_term ≠ 0 then
            (layerAt s.layers i).bias_data.getD c 0 * (layerAt s.layers j).scale_data.getD c 0
              + (layerAt s.layers j).bias_data.getD c 0
          else
            (layerAt s.layers i).bias_data.getD c 0
              * (layerAt s.layers j).scale_data.getD c 0) ∧
      ∀ x : F,
        batchnorm_forward sqrt (layerAt (forward_pass pass_name pt is_scale fold_scale s0).layers i) c x
        = scale_forward (layerAt s.layers j) c
            (batchnorm_forward sqrt (layerAt s.layers i) c x)) ∧
    (layerAt (forward_pass pass_name pt is_scale fold_scale s0).layers i).mean_data = (layerAt s.layers i).mean_data ∧
    (layerAt (forward_pass pass_name pt is_scale fold_scale s0).layers i).var_data = (layerAt s.layers i).var_data ∧
    (layerAt (forward_pass pass_name pt is_scale fold_scale s0).layers i).eps = (layerAt s.layers i).eps := by
  rw [forward_pass_producer pass_name pt is_scale fold_scale s0 s i j hi hs htype hj hne]
  refine ⟨?_, rfl, rfl, rfl⟩
  intro c hc
  have hc2 := int_lt_toNat _ _ hc
  have hslope : (fold_scale (layerAt s.layers i) (layerAt s.layers j)).slope_data.getD c 0
      = (layerAt s.layers i).slope_data.getD c 0
        * (layerAt s.layers j).scale_data.getD c 0 := by
    show (scale_channels _ _ _ _).1.getD c 0 = _
    rw [scale_channels_slope, if_pos hc2]
  have hbias : (fold_scale (layerAt s.layers i) (layerAt s.layers j)).bias_data.getD c 0
      = (if (layerAt s.layers j).bias_term ≠ 0 then
          (layerAt s.layers i).bias_data.getD c 0 * (layerAt s.layers j).scale_data.getD c 0
            + (layerAt s.layers j).bias_data.getD c 0
        else
          (layerAt s.layers i).bias_data.getD c 0
            * (layerAt s.layers j).scale_data.getD c 0) := by
    show (scale_channels _ _ _ _).2.getD c 0 = _
    rw [scale_channels_bias _ _ _ _ _ (by omega), if_pos hc2]
  refine ⟨hslope, hbias, ?_⟩
  intro x
  unfold batchnorm_forward scale_forward
  show (fold_scale (layerAt s.layers i) (layerAt s.layers j)).slope_data.getD c 0
        * (x - (layerAt s.layers i).mean_data.getD c 0)
        / sqrt ((layerAt s.layers i).var_data.getD c 0 + (layerAt s.layers i).eps)
      + (fold_scale (layerAt s.layers i) (layerAt s.layers j)).bias_data.getD c 0 = _
  rw [hslope, hbias]
  by_cases hb : (layerAt s.layers j).bias_term ≠ 0
  · rw [if_pos hb, if_pos hb]
    simp only [div_eq_mul_inv]
    ring
  · rw [if_neg hb, if_neg hb]
    simp only [div_eq_mul_inv]
    ring

theorem batchnorm_scale_merge_witness :
    (layerAt (fuse_batchnorm_scale (bn_scale_net 1 (1 / 2) 1 : NetOptimize ℝ)).layers 1
      ).slope_data.getD 0 0 = 2 ∧
    (layerAt (fuse_batchnorm_scale (bn_scale_net 1 (1 / 2) 1 : NetOptimize ℝ)).layers 1
      ).bias_data.getD 0 0 = 4 := by
  have h := (batchnorm_scale_merge Real.sqrt "fuse_batchnorm_scale" "BatchNorm"
    (bn_scale_net 1 (1 / 2) 1 : NetOptimize ℝ) (bn_scale_net 1 (1 / 2) 1) 1 2 (by decide) rfl
    (by decide) (by decide) (by decide) (by decide)).1 0 (by decide)
  refine ⟨?_, ?_⟩
  · have e : (layerAt (bn_scale_net 1 (1 / 2) 1 : NetOptimize ℝ).layers 1).slope_data.getD 0 0
        * (layerAt (bn_scale_net 1 (1 / 2) 1 : NetOptimize ℝ).layers 2).scale_data.getD 0 0
        = 2 := by
      show (1 : ℝ) * 2 = 2
      norm_num
    exact h.1.trans e
  · have e : (if (layerAt (bn_scale_net 1 (1 / 2) 1 : NetOptimize ℝ).layers 2).bias_term ≠ 0
        then (layerAt (bn_scale_net 1 (1 / 2) 1 : NetOptimize ℝ).layers 1).bias_data.getD 0 0
            * (layerAt (bn_scale_net 1 (1 / 2) 1 : NetOptimize ℝ).layers 2).scale_data.getD 0 0
          + (layerAt (bn_scale_net 1 (1 / 2) 1 : NetOptimize ℝ).layers 2).bias_data.getD 0 0
        else (layerAt (bn_scale_net 1 (1 / 2) 1 : NetOptimize ℝ).layers 1).bias_data.getD 0 0
            * (layerAt (bn_scale_net 1 (1 / 2) 1 : NetOptimize ℝ).layers 2).scale_data.getD 0 0)
        = 4 := by
      show (1 / 2 : ℝ) * 2 + 3 = 4
      norm_num
    exact h.2.1.trans e

end ScaleClaim

section BackwardSearchClaim

set_option linter.unusedSectionVars false

variable {F : Type} [Field F] [DecidableEq F]

/-! ## The backward search of `eliminate_dropout` -/

theorem backward_scan_eq_of_greatest (layers : List (Layer F)) (b i j : Nat) (hj : j < i)
    (hs : is_source layers b j) (hgt : ∀ k, j < k → k < i → ¬ is_source layers b k) :
    backward_scan layers b i = (j : Int) := by
  rcases backward_scan_found layers b i with h | ⟨h0, h1, h2⟩
  · exact absurd hs (backward_scan_skipped layers b i j hj (by rw [h]; omega))
  · by_cases hlt : (backward_scan layers b i).toNat < j
    · exact absurd hs (backward_scan_skipped layers b i j hj (by omega))
    · by_cases hgt2 : j < (backward_scan layers b i).toNat
      · exact absurd h2 (hgt _ hgt2 h1)
      · omega

theorem backward_scan_none (layers : List (Layer F)) (b i : Nat)
    (h : ∀ j, j < i → ¬ is_source layers b j) : backward_scan layers b i = -1 := by
  rcases backward_scan_found layers b i with h0 | ⟨_, h1, h2⟩
  · exact h0
  · exact absurd h2 (h _ h1)

theorem eliminate_step_layer_after (s : NetOptimize F) (i k : Nat) (hi : i < s.layers.length)
    (hk : i < k) : layerAt (eliminate_step s i).layers k = layerAt s.layers k := by
  rw [eliminate_step_eq]
  split_ifs with h1 h2 h3
  · rfl
  · rfl
  · rfl
  · have htype : (layerAt s.layers i).type = "Dropout" := not_not.mp h1
    obtain ⟨hr, _⟩ := backward_match s i _ hi htype rfl h3
    obtain ⟨hji, _, _, _, _⟩ := hr
    exact eliminate_pair_layer_other s i _ k (by omega) (by omega)

theorem eliminate_foldl_layer_after (l : List Nat) (k : Nat) :
    ∀ s : NetOptimize F, (∀ i ∈ l, i < s.layers.length ∧ i < k) →
      layerAt (l.foldl eliminate_step s).layers k = layerAt s.layers k := by
  induction l with
  | nil => intro s _; rfl
  | cons a t ih =>
    intro s hl
    rw [List.foldl_cons, ih]
    · exact eliminate_step_layer_after s a k (hl a (List.mem_cons_self _ _)).1
        (hl a (List.mem_cons_self _ _)).2
    · intro i hi
      rw [eliminate_step_length]
      exact hl i (List.mem_cons_of_mem _ hi)

theorem eliminate_step_type_other (s : NetOptimize F) (i k : Nat) (hi : i < s.layers.length)
    (hk : k ≠ i) : (layerAt (eliminate_step s i).layers k).type = (layerAt s.layers k).type := by
  rw [eliminate_step_eq]
  split_ifs with h1 h2 h3
  · rfl
  · rfl
  · rfl
  · have htype : (layerAt s.layers i).type = "Dropout" := not_not.mp h1
    obtain ⟨hr, _⟩ := backward_match s i _ hi htype rfl h3
    obtain ⟨hji, _, _, _, _⟩ := hr
    rw [eliminate_pair_eq]
    have := reroute_type { s with stderr := s.stderr ++
      [diagnostic "eliminate_dropout" (layerAt s.layers (backward_scan s.layers
        ((layerAt s.layers i).bottoms.getD 0 0) i).toNat).name (layerAt s.layers i).name] }
      (backward_scan s.layers ((layerAt s.layers i).bottoms.getD 0 0) i).toNat i k
      (by omega) (by show _ < s.layers.length; omega) hi
    rw [this, if_neg hk]

theorem eliminate_foldl_type_other (l : List Nat) (k : Nat) :
    ∀ s : NetOptimize F, (∀ i ∈ l, i < s.layers.length ∧ i ≠ k) →
      (layerAt (l.foldl eliminate_step s).layers k).type = (layerAt s.layers k).type := by
  induction l with
  | nil => intro s _; rfl
  | cons a t ih =>
    intro s hl
    rw [List.foldl_cons, ih]
    · exact eliminate_step_type_other s a k (hl a (List.mem_cons_self _ _)).1
        (Ne.symm (hl a (List.mem_cons_self _ _)).2)
    · intro i hi
      rw [eliminate_step_length]
      exact hl i (List.mem_cons_of_mem _ hi)

theorem eliminate_foldl_length (l : List Nat) :
    ∀ s : NetOptimize F, (l.foldl eliminate_step s).layers.length = s.layers.length := by
  induction l with
  | nil => intro s; rfl
  | cons a t ih => intro s; rw [List.foldl_cons, ih, eliminate_step_length]

/-- The type of layer `i` at the end of `eliminate_dropout` is the one it has
right after the iteration on index `i`. -/
theorem eliminate_dropout_type_settled (s0 : NetOptimize F) (i : Nat)
    (hi : i < s0.layers.length) :
    (layerAt (eliminate_dropout s0).layers i).type =
      (layerAt (eliminate_step ((List.range i).foldl eliminate_step s0) i).layers i).type := by
  rw [eliminate_dropout_split s0 i hi]
  apply eliminate_foldl_type_other
  intro k hk
  obtain ⟨a, ha, rfl⟩ := List.mem_map.mp hk
  have := List.mem_range.mp ha
  rw [eliminate_step_length, eliminate_foldl_length]
  omega

/-- C11 (Dropout backward search). Let `s` be the state of `eliminate_dropout`
when the iteration on a Dropout `i` of scale 1 starts, `b` its first bottom and
`t` its first top. If `j` is the greatest index below `i` whose layer is not
tombstoned, has exactly one top, and that top is `b`, the iteration rewrites the
pair `(j, i)`: the tops of layer `j` become `[t]`, `blobs[t].producer` becomes
`j`, and the Dropout is tombstoned, also at the end of the pass. If no index below
`i` passes the test, the iteration changes nothing and the Dropout is still a
Dropout at the end of the pass. A tombstoned layer is never the result of the
backward scan. -/
theorem dropout_backward_search (s0 s : NetOptimize F) (i : Nat)
    (hi : i < s0.layers.length)
    (hs : s = (List.range i).foldl eliminate_step s0)
    (htype : (layerAt s0.layers i).type = "Dropout")
    (hscale : (layerAt s0.layers i).scale = 1) :
    (∀ j, j < i → is_source s.layers ((layerAt s0.layers i).bottoms.getD 0 0) j →
      (∀ k, j < k → k < i →
        ¬ is_source s.layers ((layerAt s0.layers i).bottoms.getD 0 0) k) →
      eliminate_step s i = eliminate_pair s i j ∧
      (layerAt (eliminate_step s i).layers j).tops = [(layerAt s0.layers i).tops.getD 0 0] ∧
      ((layerAt s0.layers i).tops.getD 0 0 < s.blobs.length →
        ((eliminate_step s i).blobs.getD ((layerAt s0.layers i).tops.getD 0 0)
          Blob.blank).producer = (j : Int)) ∧
      (layerAt (eliminate_step s i).layers i).type = "ncnnfused" ∧
      (layerAt (eliminate_dropout s0).layers i).type = "ncnnfused") ∧
    ((∀ j, j < i → ¬ is_source s.layers ((layerAt s0.layers i).bottoms.getD 0 0) j) →
      eliminate_step s i = s ∧ (layerAt (eliminate_dropout s0).layers i).type = "Dropout") ∧
    (∀ k, (layerAt s.layers k).type = "ncnnfused" →
      backward_scan s.layers ((layerAt s0.layers i).bottoms.getD 0 0) i ≠ (k : Int)) := by
  have hlen : s.layers.length = s0.layers.length := by rw [hs, eliminate_foldl_length]
  have hlayer : layerAt s.layers i = layerAt s0.layers i := by
    rw [hs]
    apply eliminate_foldl_layer_after
    intro k hk
    have := List.mem_range.mp hk
    exact ⟨by omega, this⟩
  have hi2 : i < s.layers.length := by omega
  refine ⟨?_, ?_, ?_⟩
  · intro j hj hsrc hgt
    have hscan := backward_scan_eq_of_greatest s.layers _ i j hj hsrc hgt
    have hstep : eliminate_step s i = eliminate_pair s i j := by
      rw [eliminate_step_eq, hlayer, if_neg (not_not.mpr htype), if_neg (not_not.mpr hscale),
        hscan, if_neg (by omega)]
      rfl
    have hdrop : (layerAt (eliminate_step s i).layers i).type = "ncnnfused" := by
      rw [hstep, eliminate_pair_layer_dropout s i j (by omega) hi2]
    refine ⟨hstep, ?_, ?_, hdrop, ?_⟩
    · rw [hstep, eliminate_pair_layer_source s i j (by omega) (by omega), hlayer]
      obtain ⟨_, h1, _⟩ := hsrc
      match htops : (layerAt s.layers j).tops, h1 with
      | [x], _ => rfl
    · intro ht
      rw [← hlayer] at ht ⊢
      rw [hstep, eliminate_pair_eq, reroute_producer]
      exact if_pos ⟨rfl, ht⟩
    · rw [eliminate_dropout_type_settled s0 i hi, ← hs]
      exact hdrop
  · intro hnone
    have hscan := backward_scan_none s.layers _ i hnone
    have hstep : eliminate_step s i = s := by
      rw [eliminate_step_eq, hlayer, if_neg (not_not.mpr htype), if_neg (not_not.mpr hscale),
        hscan, if_pos rfl]
    refine ⟨hstep, ?_⟩
    rw [eliminate_dropout_type_settled s0 i hi, ← hs, hstep, hlayer]
    exact htype
  · intro k hk hscan
    rcases backward_scan_found s.layers ((layerAt s0.layers i).bottoms.getD 0 0) i with h | h
    · rw [hscan] at h; omega
    · rw [hscan] at h
      exact h.2.2.1 hk

theorem dropout_backward_search_witness :
    (layerAt (eliminate_step (folded_dropout_net : NetOptimize ℚ) 3).layers 1).tops = [3] ∧
    ((eliminate_step (folded_dropout_net : NetOptimize ℚ) 3).blobs.getD 3 Blob.blank).producer
      = 1 ∧
    (layerAt (eliminate_dropout (folded_dropout_net : NetOptimize ℚ)).layers 3).type
      = "ncnnfused" ∧
    backward_scan (folded_dropout_net : NetOptimize ℚ).layers 2 3 ≠ 2 := by
  have h := dropout_backward_search (folded_dropout_net : NetOptimize ℚ) folded_dropout_net 3
    (by decide) (by decide) (by decide) (by decide)
  have h1 := h.1 1 (by decide) (by decide)
    (fun k h1 h2 => by
      have hk : k = 2 := by omega
      subst hk
      decide)
  exact ⟨h1.2.1, h1.2.2.1 (by decide), h1.2.2.2.2, h.2.2 2 (by decide)⟩

end BackwardSearchClaim

section Counting

set_option linter.unusedSectionVars false

variable {F : Type} [Field F] [DecidableEq F]

/-! ## Counting live layers -/

theorem optimize_eq_run_passes (sqrt : F → F) (s : NetOptimize F) :
    optimize sqrt s = run_passes sqrt pipeline s := by
  simp only [optimize, run_passes, pipeline, List.foldl_cons, List.foldl_nil, run_pass]

theorem live_count_eq_types (s : NetOptimize F) :
    live_count s = (s.layers.map Layer.type).countP (fun t => decide (t ≠ "ncnnfused")) := by
  unfold live_count
  rw [List.countP_map]
  rfl

theorem layerAt_type (layers : List (Layer F)) (k : Nat) :
    (layerAt layers k).type = (layers.map Layer.type).getD k "" := by
  unfold layerAt
  by_cases h : k < layers.length
  · simp [List.getD_eq_getElem?_getD, h]
  · simp [List.getD_eq_getElem?_getD, List.getElem?_eq_none (not_lt.mp h)]
    rfl

/-- Tombstoning one live layer and keeping every other type lowers the live count
by one. -/
theorem live_count_tombstone (s s1 : NetOptimize F) (c : Nat) (hc : c < s.layers.length)
    (hlen : s1.layers.length = s.layers.length)
    (hlive : (layerAt s.layers c).type ≠ "ncnnfused")
    (htypes : ∀ k, (layerAt s1.layers k).type =
      if k = c then "ncnnfused" else (layerAt s.layers k).type) :
    live_count s1 + 1 = live_count s := by
  have hT : s1.layers.map Layer.type = (s.layers.map Layer.type).set c "ncnnfused" := by
    apply List.ext_getElem
    · simp [hlen]
    · intro k h1 h2
      have hk := htypes k
      rw [layerAt_type, layerAt_type] at hk
      have e1 : (s1.layers.map Layer.type).getD k "" = (s1.layers.map Layer.type)[k] := by
        simp [List.getD_eq_getElem?_getD, List.getElem?_eq_getElem h1]
      rw [e1] at hk
      rw [hk, List.getElem_set]
      by_cases hkc : k = c
      · rw [if_pos hkc, if_pos hkc.symm]
      · rw [if_neg hkc, if_neg (Ne.symm hkc)]
        have h3 : k < (s.layers.map Layer.type).length := by simpa using h2
        simp [List.getD_eq_getElem?_getD, List.getElem?_eq_getElem h3]
  have hc2 : c < (s.layers.map Layer.type).length := by simpa using hc
  have hlive2 : (s.layers.map Layer.type)[c] ≠ "ncnnfused" := by
    rw [layerAt_type] at hlive
    simpa [List.getD_eq_getElem?_getD, List.getElem?_eq_getElem hc2] using hlive
  rw [live_count_eq_types, live_count_eq_types, hT, List.countP_set _ _ _ _ hc2]
  have hpos : 0 < (s.layers.map Layer.type).countP (fun t => decide (t ≠ "ncnnfused")) := by
    apply List.countP_pos_iff.mpr
    exact ⟨_, List.getElem_mem hc2, by simpa using hlive2⟩
  have h1 : (fun t : String => decide (t ≠ "ncnnfused")) ((s.layers.map Layer.type)[c]) = true :=
    by simpa using hlive2
  have h2 : ¬ (fun t : String => decide (t ≠ "ncnnfused")) "ncnnfused" = true := by simp
  rw [if_pos h1, if_neg h2]
  omega

theorem live_count_of_similar (s1 s2 : NetOptimize F) (h : Similar s1 s2) :
    live_count s1 = live_count s2 := by
  obtain ⟨hlen, _, hk⟩ := h
  have hT : s1.layers.map Layer.type = s2.layers.map Layer.type := by
    apply List.ext_getElem
    · simp [hlen]
    · intro k h1 h2
      have e := (hk k).1
      rw [layerAt_type, layerAt_type] at e
      simpa [List.getD_eq_getElem?_getD, List.getElem?_eq_getElem h1,
        List.getElem?_eq_getElem h2] using e
  rw [live_count_eq_types, live_count_eq_types, hT]

theorem live_count_reroute (s : NetOptimize F) (p c : Nat) (h : RerouteReady s p c) :
    live_count (reroute s p c) + 1 = live_count s := by
  obtain ⟨h1, h2, _, h4, _⟩ := h
  apply live_count_tombstone s _ c h2 (reroute_length s p c) (consumer_kind_live _ h4)
  intro k
  exact reroute_type s p c k (by omega) (by omega) h2

theorem counted_refl (s : NetOptimize F) : Counted s s [] :=
  ⟨rfl, by simp, rfl⟩

theorem counted_trans (s0 s1 s2 : NetOptimize F) (l1 l2 : List String)
    (h1 : Counted s0 s1 l1) (h2 : Counted s1 s2 l2) : Counted s0 s2 (l1 ++ l2) := by
  obtain ⟨a1, a2, a3⟩ := h1
  obtain ⟨b1, b2, b3⟩ := h2
  refine ⟨by omega, by rw [b2, a2, List.append_assoc], ?_⟩
  rw [List.length_append]
  omega

/-- A rewrite that appends one diagnostic line, changes shape-irrelevant data and
reroutes a ready pair emits one line and tombstones one live layer. -/
theorem counted_rewrite (s s1 : NetOptimize F) (line : String) (p c : Nat)
    (hsim : Similar s s1) (herr : s1.stderr = s.stderr ++ [line])
    (hr : RerouteReady s p c) : Counted s (reroute s1 p c) [line] := by
  have hr1 := rerouteReady_of_similar _ _ hsim _ _ hr
  refine ⟨?_, ?_, ?_⟩
  · rw [reroute_length]; exact hsim.1.symm
  · rw [reroute_stderr]; exact herr
  · have := live_count_reroute s1 p c hr1
    rw [live_count_of_similar s s1 hsim]
    simpa using this

theorem fuse_step_counted (pass_name pt : String) (ic : String → Bool)
    (fold : Layer F → Layer F → Layer F)
    (hpt : pt ≠ "ncnnfused") (hic : ∀ ty, ic ty = true → is_consumer_kind ty = true)
    (hfold : FoldFrame fold) (s : NetOptimize F) (i : Nat) (hi : i < s.layers.length) :
    ∃ lines, Counted s (fuse_step pass_name pt ic fold s.layers.length s i) lines := by
  rw [fuse_step_eq]
  split_ifs with h1 h2
  · exact ⟨[], counted_refl s⟩
  · exact ⟨[], counted_refl s⟩
  · have htype : (layerAt s.layers i).type = pt := not_not.mp h1
    obtain ⟨hr, _⟩ := forward_match pt ic s i _ hpt hic hi htype rfl h2
    rw [fuse_pair_eq]
    have hsim := similar_set s i
      (fold (layerAt s.layers i) (layerAt s.layers
        (forward_scan s.layers ic ((layerAt s.layers i).tops.getD 0 0)
          (s.layers.length - (i + 1)) (i + 1))))
      (s.stderr ++ [diagnostic pass_name (layerAt s.layers i).name (layerAt s.layers
        (forward_scan s.layers ic ((layerAt s.layers i).tops.getD 0 0)
          (s.layers.length - (i + 1)) (i + 1))).name]) (hfold _ _)
    exact ⟨_, counted_rewrite s _ _ _ _ hsim rfl hr⟩

theorem eliminate_step_counted (s : NetOptimize F) (i : Nat) (hi : i < s.layers.length) :
    ∃ lines, Counted s (eliminate_step s i) lines := by
  rw [eliminate_step_eq]
  split_ifs with h1 h2 h3
  · exact ⟨[], counted_refl s⟩
  · exact ⟨[], counted_refl s⟩
  · exact ⟨[], counted_refl s⟩
  · have htype : (layerAt s.layers i).type = "Dropout" := not_not.mp h1
    obtain ⟨hr, _⟩ := backward_match s i _ hi htype rfl h3
    rw [eliminate_pair_eq]
    have hsim := similar_refl_stderr s (s.stderr ++
      [diagnostic "eliminate_dropout" (layerAt s.layers (backward_scan s.layers
        ((layerAt s.layers i).bottoms.getD 0 0) i).toNat).name (layerAt s.layers i).name])
    exact ⟨_, counted_rewrite s _ _ _ _ hsim rfl hr⟩

theorem foldl_counted (step : NetOptimize F → Nat → NetOptimize F) (l : List Nat)
    (s0 : NetOptimize F)
    (hstep : ∀ s i, i ∈ l → s.layers.length = s0.layers.length →
      ∃ lines, Counted s (step s i) lines) :
    ∃ lines, Counted s0 (l.foldl step s0) lines :=
  foldl_invariant_mem (fun s => ∃ lines, Counted s0 s lines) step l
    (fun s i hi ⟨l1, h1⟩ => by
      obtain ⟨l2, h2⟩ := hstep s i hi h1.1
      exact ⟨l1 ++ l2, counted_trans _ _ _ _ _ h1 h2⟩)
    s0 ⟨[], counted_refl s0⟩

theorem forward_pass_counted (pass_name pt : String) (ic : String → Bool)
    (fold : Layer F → Layer F → Layer F)
    (hpt : pt ≠ "ncnnfused") (hic : ∀ ty, ic ty = true → is_consumer_kind ty = true)
    (hfold : FoldFrame fold) (s : NetOptimize F) :
    ∃ lines, Counted s (forward_pass pass_name pt ic fold s) lines := by
  unfold forward_pass
  apply foldl_counted
  intro s1 i hi hlen
  have := fuse_step_counted pass_name pt ic fold hpt hic hfold s1 i
    (by rw [hlen]; exact List.mem_range.mp hi)
  rw [hlen] at this
  exact this

theorem eliminate_dropout_counted (s : NetOptimize F) :
    ∃ lines, Counted s (eliminate_dropout s) lines := by
  unfold eliminate_dropout
  apply foldl_counted
  intro s1 i hi hlen
  exact eliminate_step_counted s1 i (by rw [hlen]; exact List.mem_range.mp hi)

theorem run_pass_counted (sqrt : F → F) (p : Pass) (s : NetOptimize F) :
    ∃ lines, Counted s (run_pass sqrt p s) lines := by
  cases p
  · exact forward_pass_counted _ _ _ _ (by decide) is_scale_kind foldFrame_scale s
  · exact forward_pass_counted _ _ _ _ (by decide) is_batchnorm_kind (foldFrame_batchnorm sqrt) s
  · exact forward_pass_counted _ _ _ _ (by decide) is_batchnorm_kind (foldFrame_batchnorm sqrt) s
  · exact forward_pass_counted _ _ _ _ (by decide) is_batchnorm_kind (foldFrame_batchnorm sqrt) s
  · exact forward_pass_counted _ _ _ _ (by decide) is_batchnorm_kind (foldFrame_batchnorm sqrt) s
  · exact forward_pass_counted _ _ _ _ (by decide) is_batchnorm_kind (foldFrame_batchnorm sqrt) s
  · exact forward_pass_counted _ _ _ _ (by decide) is_activation_kind foldFrame_activation s
  · exact forward_pass_counted _ _ _ _ (by decide) is_activation_kind foldFrame_activation s
  · exact forward_pass_counted _ _ _ _ (by decide) is_activation_kind foldFrame_activation s
  · exact forward_pass_counted _ _ _ _ (by decide) is_activation_kind foldFrame_activation s
  · exact forward_pass_counted _ _ _ _ (by decide) is_activation_kind foldFrame_activation s
  · exact eliminate_dropout_counted s

theorem run_passes_counted (sqrt : F → F) (ps : List Pass) :
    ∀ s : NetOptimize F, ∃ lines, Counted s (run_passes sqrt ps s) lines := by
  induction ps with
  | nil => intro s; exact ⟨[], counted_refl s⟩
  | cons p t ih =>
    intro s
    obtain ⟨l1, h1⟩ := run_pass_counted sqrt p s
    obtain ⟨l2, h2⟩ := ih (run_pass sqrt p s)
    exact ⟨l1 ++ l2, counted_trans _ _ _ _ _ h1 h2⟩

/-- C12 (fusion count). Every pass appends some diagnostic lines to the error
stream and lowers the number of live layers by the number of lines it appends, so
it never raises that number; and the twelve pass calls of `main` together append
lines `lines` with `live_count` after the pipeline equal to `live_count` before it
minus the number of those lines. -/
theorem fusion_count (sqrt : F → F) (s : NetOptimize F) :
    (∀ p : Pass, live_count (run_pass sqrt p s) ≤ live_count s ∧
      ∃ lines, (run_pass sqrt p s).stderr = s.stderr ++ lines ∧
        live_count (run_pass sqrt p s) + lines.length = live_count s) ∧
    ∃ lines, (optimize sqrt s).stderr = s.stderr ++ lines ∧
      live_count (optimize sqrt s) = live_count s - lines.length ∧
      lines.length ≤ live_count s := by
  refine ⟨?_, ?_⟩
  · intro p
    obtain ⟨lines, _, h2, h3⟩ := run_pass_counted sqrt p s
    exact ⟨by omega, lines, h2, h3⟩
  · rw [optimize_eq_run_passes]
    obtain ⟨lines, _, h2, h3⟩ := run_passes_counted sqrt pipeline s
    exact ⟨lines, h2, by omega, by omega⟩

end Counting

section TerminalClaim

set_option linter.unusedSectionVars false

variable {F : Type} [Field F] [DecidableEq F]

/-! ## Tombstones are terminal -/

theorem terminal_refl (s : NetOptimize F) : Terminal s s :=
  ⟨rfl, fun _ => ⟨Or.inl rfl, fun _ => rfl⟩⟩

theorem terminal_trans (s0 s1 s2 : NetOptimize F) (h1 : Terminal s0 s1)
    (h2 : Terminal s1 s2) : Terminal s0 s2 := by
  refine ⟨by rw [h2.1, h1.1], ?_⟩
  intro k
  obtain ⟨a1, a2⟩ := h1.2 k
  obtain ⟨b1, b2⟩ := h2.2 k
  refine ⟨?_, ?_⟩
  · rcases b1 with b | b
    · rw [b]; exact a1
    · exact Or.inr b
  · intro hk
    have e := a2 hk
    rw [b2 (by rw [e]; exact hk), e]

theorem fuse_step_terminal (pass_name pt : String) (ic : String → Bool)
    (fold : Layer F → Layer F → Layer F)
    (hpt : pt ≠ "ncnnfused") (hic : ∀ ty, ic ty = true → is_consumer_kind ty = true)
    (hfold : FoldFrame fold) (s : NetOptimize F) (i : Nat) (hi : i < s.layers.length) :
    Terminal s (fuse_step pass_name pt ic fold s.layers.length s i) := by
  rw [fuse_step_eq]
  split_ifs with h1 h2
  · exact terminal_refl s
  · exact terminal_refl s
  · have htype : (layerAt s.layers i).type = pt := not_not.mp h1
    obtain ⟨⟨hij, hj, hlive, hkind, _⟩, _⟩ := forward_match pt ic s i _ hpt hic hi htype rfl h2
    refine ⟨fuse_pair_length _ _ _ _ _, ?_⟩
    intro k
    by_cases hkj : k = forward_scan s.layers ic ((layerAt s.layers i).tops.getD 0 0)
        (s.layers.length - (i + 1)) (i + 1)
    · rw [← hkj] at hij hj hkind ⊢
      rw [fuse_pair_layer_consumer _ _ _ _ _ (by omega) hj]
      exact ⟨Or.inr rfl, fun hk => absurd hk (consumer_kind_live _ hkind)⟩
    · by_cases hki : k = i
      · rw [hki, fuse_pair_layer_producer _ _ _ _ _ (by omega) hi]
        exact ⟨Or.inl (hfold _ _).1, fun hk => absurd hk hlive⟩
      · rw [fuse_pair_layer_other _ _ _ _ _ _ hki hkj]
        exact ⟨Or.inl rfl, fun _ => rfl⟩

theorem eliminate_step_terminal (s : NetOptimize F) (i : Nat) (hi : i < s.layers.length) :
    Terminal s (eliminate_step s i) := by
  rw [eliminate_step_eq]
  split_ifs with h1 h2 h3
  · exact terminal_refl s
  · exact terminal_refl s
  · exact terminal_refl s
  · have htype : (layerAt s.layers i).type = "Dropout" := not_not.mp h1
    obtain ⟨⟨hji, _, hlive, _, _⟩, _⟩ := backward_match s i _ hi htype rfl h3
    refine ⟨by rw [eliminate_pair_eq, reroute_length], ?_⟩
    intro k
    by_cases hki : k = i
    · rw [hki, eliminate_pair_layer_dropout s i _ (by omega) hi]
      exact ⟨Or.inr rfl, fun hk => absurd hk (by rw [htype]; decide)⟩
    · by_cases hkj : k = (backward_scan s.layers
          ((layerAt s.layers i).bottoms.getD 0 0) i).toNat
      · rw [hkj, eliminate_pair_layer_source s i _ (by omega) (by omega)]
        exact ⟨Or.inl rfl, fun hk => absurd hk hlive⟩
      · rw [eliminate_pair_layer_other s i _ k hki hkj]
        exact ⟨Or.inl rfl, fun _ => rfl⟩

theorem foldl_terminal (step : NetOptimize F → Nat → NetOptimize F) (l : List Nat)
    (s0 : NetOptimize F)
    (hstep : ∀ s i, i ∈ l → s.layers.length = s0.layers.length → Terminal s (step s i)) :
    Terminal s0 (l.foldl step s0) :=
  foldl_invariant_mem (fun s => Terminal s0 s) step l
    (fun s i hi h1 => terminal_trans _ _ _ h1 (hstep s i hi h1.1)) s0 (terminal_refl s0)

theorem forward_pass_terminal (pass_name pt : String) (ic : String → Bool)
    (fold : Layer F → Layer F → Layer F)
    (hpt : pt ≠ "ncnnfused") (hic : ∀ ty, ic ty = true → is_consumer_kind ty = true)
    (hfold : FoldFrame fold) (s : NetOptimize F) :
    Terminal s (forward_pass pass_name pt ic fold s) := by
  unfold forward_pass
  apply foldl_terminal
  intro s1 i hi hlen
  have := fuse_step_terminal pass_name pt ic fold hpt hic hfold s1 i
    (by rw [hlen]; exact List.mem_range.mp hi)
  rw [hlen] at this
  exact this

theorem eliminate_dropout_terminal (s : NetOptimize F) :
    Terminal s (eliminate_dropout s) := by
  unfold eliminate_dropout
  apply foldl_terminal
  intro s1 i hi hlen
  exact eliminate_step_terminal s1 i (by rw [hlen]; exact List.mem_range.mp hi)

theorem run_pass_terminal (sqrt : F → F) (p : Pass) (s : NetOptimize F) :
    Terminal s (run_pass sqrt p s) := by
  cases p
  · exact forward_pass_terminal _ _ _ _ (by decide) is_scale_kind foldFrame_scale s
  · exact forward_pass_terminal _ _ _ _ (by decide) is_batchnorm_kind (foldFrame_batchnorm sqrt) s
  · exact forward_pass_terminal _ _ _ _ (by decide) is_batchnorm_kind (foldFrame_batchnorm sqrt) s
  · exact forward_pass_terminal _ _ _ _ (by decide) is_batchnorm_kind (foldFrame_batchnorm sqrt) s
  · exact forward_pass_terminal _ _ _ _ (by decide) is_batchnorm_kind (foldFrame_batchnorm sqrt) s
  · exact forward_pass_terminal _ _ _ _ (by decide) is_batchnorm_kind (foldFrame_batchnorm sqrt) s
  · exact forward_pass_terminal _ _ _ _ (by decide) is_activation_kind foldFrame_activation s
  · exact forward_pass_terminal _ _ _ _ (by decide) is_activation_kind foldFrame_activation s
  · exact forward_pass_terminal _ _ _ _ (by decide) is_activation_kind foldFrame_activation s
  · exact forward_pass_terminal _ _ _ _ (by decide) is_activation_kind foldFrame_activation s
  · exact forward_pass_terminal _ _ _ _ (by decide) is_activation_kind foldFrame_activation s
  · exact eliminate_dropout_terminal s

theorem run_passes_terminal (sqrt : F → F) (ps : List Pass) :
    ∀ s : NetOptimize F, Terminal s (run_passes sqrt ps s) := by
  induction ps with
  | nil => intro s; exact terminal_refl s
  | cons p t ih =>
    intro s
    exact terminal_trans _ _ _ (run_pass_terminal sqrt p s) (ih (run_pass sqrt p s))

theorem run_passes_append (sqrt : F → F) (ps1 ps2 : List Pass) (s : NetOptimize F) :
    run_passes sqrt (ps1 ++ ps2) s = run_passes sqrt ps2 (run_passes sqrt ps1 s) := by
  unfold run_passes
  rw [List.foldl_append]

theorem fused_in_range (layers : List (Layer F)) (k : Nat)
    (h : (layerAt layers k).type = "ncnnfused") : k < layers.length := by
  by_contra hk
  unfold layerAt at h
  rw [List.getD_eq_getElem?_getD, List.getElem?_eq_none (not_lt.mp hk)] at h
  have h2 : ("" : String) = "ncnnfused" := h
  exact absurd h2 (by decide)

/-- C13 (tombstone is terminal). For every state `s`, layer index `k` and pass:
the type of layer `k` after the pass is its type before or "ncnnfused"; if layer
`k` is tombstoned before the pass, it is the same layer after it. A tombstoned
layer `k` is not selected by a forward pass whose producer kind is not
"ncnnfused" and whose consumer test rejects "ncnnfused" (the iteration on index
`k` changes nothing, and no forward scan stops at `k`), and no backward scan of
`eliminate_dropout` stops at `k`. Along any sequence of passes, once layer `k` is
tombstoned it stays the same tombstoned layer through all later passes, and its
type only ever changes to "ncnnfused". The three consumer tests of the source
reject "ncnnfused". -/
theorem tombstone_terminal (sqrt : F → F) (s : NetOptimize F) (k : Nat) :
    (∀ p : Pass, (layerAt (run_pass sqrt p s).layers k).type = (layerAt s.layers k).type ∨
      (layerAt (run_pass sqrt p s).layers k).type = "ncnnfused") ∧
    (∀ p : Pass, (layerAt s.layers k).type = "ncnnfused" →
      layerAt (run_pass sqrt p s).layers k = layerAt s.layers k) ∧
    (∀ (pass_name pt : String) (ic : String → Bool) (fold : Layer F → Layer F → Layer F),
      pt ≠ "ncnnfused" → ic "ncnnfused" = false → (layerAt s.layers k).type = "ncnnfused" →
      fuse_step pass_name pt ic fold s.layers.length s k = s ∧
      ∀ i, forward_scan s.layers ic ((layerAt s.layers i).tops.getD 0 0)
        (s.layers.length - (i + 1)) (i + 1) ≠ k) ∧
    ((layerAt s.layers k).type = "ncnnfused" →
      eliminate_step s k = s ∧ ∀ i b, backward_scan s.layers b i ≠ (k : Int)) ∧
    (∀ ps1 ps2 : List Pass,
      (layerAt (run_passes sqrt ps1 s).layers k).type = "ncnnfused" →
      layerAt (run_passes sqrt (ps1 ++ ps2) s).layers k
        = layerAt (run_passes sqrt ps1 s).layers k) ∧
    (∀ ps : List Pass,
      (layerAt (run_passes sqrt ps s).layers k).type = (layerAt s.layers k).type ∨
      (layerAt (run_passes sqrt ps s).layers k).type = "ncnnfused") ∧
    (is_scale "ncnnfused" = false ∧ is_batchnorm "ncnnfused" = false ∧
      is_activation "ncnnfused" = false) := by
  refine ⟨?_, ?_, ?_, ?_, ?_, ?_, by decide⟩
  · intro p
    exact ((run_pass_terminal sqrt p s).2 k).1
  · intro p hk
    exact ((run_pass_terminal sqrt p s).2 k).2 hk
  · intro pass_name pt ic fold hpt hic hk
    refine ⟨?_, ?_⟩
    · rw [fuse_step_eq, if_pos (by rw [hk]; exact Ne.symm hpt)]
    · intro i hscan
      have hklt := fused_in_range s.layers k hk
      have hfound := forward_scan_found s.layers ic ((layerAt s.layers i).tops.getD 0 0)
        (s.layers.length - (i + 1)) (i + 1) (by rw [hscan]; omega)
      rw [hscan] at hfound
      have := hfound.1
      rw [hk, hic] at this
      exact absurd this (by decide)
  · intro hk
    refine ⟨?_, ?_⟩
    · rw [eliminate_step_eq, if_pos (by rw [hk]; decide)]
    · intro i b hscan
      rcases backward_scan_found s.layers b i with h | h
      · rw [hscan] at h; omega
      · rw [hscan] at h
        exact h.2.2.1 hk
  · intro ps1 ps2 hk
    rw [run_passes_append]
    exact ((run_passes_terminal sqrt ps2 (run_passes sqrt ps1 s)).2 k).2 hk
  · intro ps
    exact ((run_passes_terminal sqrt ps s).2 k).1

theorem tombstone_terminal_witness :
    layerAt (run_pass Real.sqrt Pass.fuse_convolution_batchnorm
        (folded_dropout_net : NetOptimize ℝ)).layers 2
      = layerAt (folded_dropout_net : NetOptimize ℝ).layers 2 ∧
    forward_scan (folded_dropout_net : NetOptimize ℝ).layers is_batchnorm
      ((layerAt (folded_dropout_net : NetOptimize ℝ).layers 1).tops.getD 0 0)
      ((folded_dropout_net : NetOptimize ℝ).layers.length - (1 + 1)) (1 + 1) ≠ 2 :=
  ⟨(tombstone_terminal Real.sqrt (folded_dropout_net : NetOptimize ℝ) 2).2.1
      Pass.fuse_convolution_batchnorm (by decide),
   ((tombstone_terminal Real.sqrt (folded_dropout_net : NetOptimize ℝ) 2).2.2.1
      "fuse_convolution_batchnorm" "Convolution" is_batchnorm (fold_batchnorm Real.sqrt)
      (by decide) (by decide) (by decide)).2 1⟩

end TerminalClaim

section ChainClaim

set_option linter.unusedSectionVars false

variable {F : Type} [Field F] [DecidableEq F]

/-! ## The pipeline on the chain -/

/-- The BatchNorm fold changes only `bias_term`, `bias_data` and `weight_data`. -/
theorem fold_batchnorm_canon (sqrt : F → F) (c b : Layer F) :
    fold_batchnorm sqrt c b =
      { c with bias_term := (fold_batchnorm sqrt c b).bias_term,
               bias_data := (fold_batchnorm sqrt c b).bias_data,
               weight_data := (fold_batchnorm sqrt c b).weight_data } := by
  unfold fold_batchnorm
  by_cases h : c.bias_term = 0
  · simp only [if_pos h]
  · simp only [if_neg h]

theorem chain_batchnorm_pass (sqrt : F → F) (input conv bn relu dropout : Layer F)
    (b0 b1 b2 b3 b4 : Blob) (rest : List Blob) (err : List String) (x : Layer F)
    (hx : x = fold_batchnorm sqrt { conv with type := "Convolution", bottoms := [0], tops := [1] }
      { bn with type := "BatchNorm", bottoms := [1], tops := [2] }) :
    fuse_convolution_batchnorm sqrt (chain input conv bn relu dropout b0 b1 b2 b3 b4 rest err) =
      { layers :=
          [{ input with type := "Input", bottoms := [], tops := [0] },
           { x with type := "Convolution", bottoms := [0], tops := [2] },
           { bn with type := "ncnnfused", bottoms := [1], tops := [2] },
           { relu with type := "ReLU", bottoms := [2], tops := [3], slope := 0 },
           { dropout with type := "Dropout", bottoms := [3], tops := [4], scale := 1 }],
        blobs := b0 :: b1 :: { b2 with producer := 1 } :: b3 :: b4 :: rest,
        stderr := err ++ [diagnostic "fuse_convolution_batchnorm" conv.name bn.name] } := by
  have h1 : fuse_convolution_batchnorm sqrt
      (chain input conv bn relu dropout b0 b1 b2 b3 b4 rest err) =
      { layers :=
          [{ input with type := "Input", bottoms := [], tops := [0] },
           { x with tops := x.tops.set 0 2 },
           { bn with type := "ncnnfused", bottoms := [1], tops := [2] },
           { relu with type := "ReLU", bottoms := [2], tops := [3], slope := 0 },
           { dropout with type := "Dropout", bottoms := [3], tops := [4], scale := 1 }],
        blobs := b0 :: b1 :: { b2 with producer := 1 } :: b3 :: b4 :: rest,
        stderr := err ++ [diagnostic "fuse_convolution_batchnorm" conv.name bn.name] } := by
    rw [hx]; rfl
  have h2 : { x with tops := x.tops.set 0 2 }
      = { x with type := "Convolution", bottoms := [0], tops := [2] } := by
    rw [hx, fold_batchnorm_canon]
    rfl
  rw [h1, h2]

theorem fold_activation_relu_zero (c r : Layer F) (h1 : r.type = "ReLU") (h2 : r.slope = 0) :
    fold_activation c r = { c with activation_type := 1 } := by
  simp only [fold_activation, h1, h2, if_true]

theorem chain_activation_pass (input x bn relu dropout : Layer F)
    (b0 b1 b2 b3 b4 : Blob) (rest : List Blob) (err : List String) :
    fuse_convolution_activation
      ({ layers :=
           [{ input with type := "Input", bottoms := [], tops := [0] },
            { x with type := "Convolution", bottoms := [0], tops := [2] },
            { bn with type := "ncnnfused", bottoms := [1], tops := [2] },
            { relu with type := "ReLU", bottoms := [2], tops := [3], slope := 0 },
            { dropout with type := "Dropout", bottoms := [3], tops := [4], scale := 1 }],
         blobs := b0 :: b1 :: b2 :: b3 :: b4 :: rest,
         stderr := err } : NetOptimize F) =
      { layers :=
          [{ input with type := "Input", bottoms := [], tops := [0] },
           { x with type := "Convolution", bottoms := [0], tops := [3], activation_type := 1 },
           { bn with type := "ncnnfused", bottoms := [1], tops := [2] },
           { relu with type := "ncnnfused", bottoms := [2], tops := [3], slope := 0 },
           { dropout with type := "Dropout", bottoms := [3], tops := [4], scale := 1 }],
        blobs := b0 :: b1 :: b2 :: { b3 with producer := 1 } :: b4 :: rest,
        stderr := err ++ [diagnostic "fuse_convolution_activation" x.name relu.name] } := by
  have h1 : fuse_convolution_activation
      ({ layers :=
           [{ input with type := "Input", bottoms := [], tops := [0] },
            { x with type := "Convolution", bottoms := [0], tops := [2] },
            { bn with type := "ncnnfused", bottoms := [1], tops := [2] },
            { relu with type := "ReLU", bottoms := [2], tops := [3], slope := 0 },
            { dropout with type := "Dropout", bottoms := [3], tops := [4], scale := 1 }],
         blobs := b0 :: b1 :: b2 :: b3 :: b4 :: rest,
         stderr := err } : NetOptimize F) =
      { layers :=
          [{ input with type := "Input", bottoms := [], tops := [0] },
           { fold_activation { x with type := "Convolution", bottoms := [0], tops := [2] }
               { relu with type := "ReLU", bottoms := [2], tops := [3], slope := 0 } with
             tops := (fold_activation { x with type := "Convolution", bottoms := [0], tops := [2] }
               { relu with type := "ReLU", bottoms := [2], tops := [3], slope := 0 }).tops.set 0 3 },
           { bn with type := "ncnnfused", bottoms := [1], tops := [2] },
           { relu with type := "ncnnfused", bottoms := [2], tops := [3], slope := 0 },
           { dropout with type := "Dropout", bottoms := [3], tops := [4], scale := 1 }],
        blobs := b0 :: b1 :: b2 :: { b3 with producer := 1 } :: b4 :: rest,
        stderr := err ++ [diagnostic "fuse_convolution_activation" x.name relu.name] } := rfl
  rw [h1, fold_activation_relu_zero _ _ rfl rfl]
  rfl

theorem eliminate_dropout_five (s : NetOptimize F) (hlen : s.layers.length = 5)
    (h0 : (layerAt s.layers 0).type ≠ "Dropout") (h1 : (layerAt s.layers 1).type ≠ "Dropout")
    (h2 : (layerAt s.layers 2).type ≠ "Dropout") (h3 : (layerAt s.layers 3).type ≠ "Dropout") :
    eliminate_dropout s = eliminate_step s 4 := by
  unfold eliminate_dropout
  rw [hlen]
  simp only [List.range_succ, List.range_zero, List.nil_append, List.cons_append,
    List.foldl_cons, List.foldl_nil]
  rw [eliminate_step_eq s 0, if_pos h0, eliminate_step_eq s 1, if_pos h1,
    eliminate_step_eq s 2, if_pos h2, eliminate_step_eq s 3, if_pos h3]

theorem eliminate_step_fire (s : NetOptimize F) (i j : Nat)
    (htype : (layerAt s.layers i).type = "Dropout") (hscale : (layerAt s.layers i).scale = 1)
    (hscan : backward_scan s.layers ((layerAt s.layers i).bottoms.getD 0 0) i = (j : Int)) :
    eliminate_step s i = eliminate_pair s i j := by
  rw [eliminate_step_eq, if_neg (not_not.mpr htype), if_neg (not_not.mpr hscale), hscan,
    if_neg (by omega)]
  rfl

theorem chain_dropout_pass (input x bn relu dropout : Layer F)
    (b0 b1 b2 b3 b4 : Blob) (rest : List Blob) (err : List String) :
    eliminate_dropout
      ({ layers :=
           [{ input with type := "Input", bottoms := [], tops := [0] },
            { x with type := "Convolution", bottoms := [0], tops := [3], activation_type := 1 },
            { bn with type := "ncnnfused", bottoms := [1], tops := [2] },
            { relu with type := "ncnnfused", bottoms := [2], tops := [3], slope := 0 },
            { dropout with type := "Dropout", bottoms := [3], tops := [4], scale := 1 }],
         blobs := b0 :: b1 :: b2 :: b3 :: b4 :: rest,
         stderr := err } : NetOptimize F) =
      { layers :=
          [{ input with type := "Input", bottoms := [], tops := [0] },
           { x with type := "Convolution", bottoms := [0], tops := [4], activation_type := 1 },
           { bn with type := "ncnnfused", bottoms := [1], tops := [2] },
           { relu with type := "ncnnfused", bottoms := [2], tops := [3], slope := 0 },
           { dropout with type := "ncnnfused", bottoms := [3], tops := [4], scale := 1 }],
        blobs := b0 :: b1 :: b2 :: b3 :: { b4 with producer := 1 } :: rest,
        stderr := err ++ [diagnostic "eliminate_dropout" x.name dropout.name] } := by
  refine Eq.trans (eliminate_dropout_five _ ?_ ?_ ?_ ?_ ?_) ?_
  · rfl
  · show "Input" ≠ "Dropout"; decide
  · show "Convolution" ≠ "Dropout"; decide
  · show "ncnnfused" ≠ "Dropout"; decide
  · show "ncnnfused" ≠ "Dropout"; decide
  · refine Eq.trans (eliminate_step_fire _ 4 1 (by rfl) (by rfl) (by rfl)) ?_
    rfl

theorem forward_pass_idle (pass_name pt : String) (ic : String → Bool)
    (fold : Layer F → Layer F → Layer F) (s : NetOptimize F)
    (h : ∀ i, i < s.layers.length → (layerAt s.layers i).type ≠ pt) :
    forward_pass pass_name pt ic fold s = s := by
  unfold forward_pass
  apply foldl_fixed
  intro i hi
  rw [fuse_step_eq, if_pos (h i (List.mem_range.mp hi))]

theorem five_types (l0 l1 l2 l3 l4 : Layer F) (blobs : List Blob) (err : List String)
    (pt : String) (h0 : l0.type ≠ pt) (h1 : l1.type ≠ pt) (h2 : l2.type ≠ pt)
    (h3 : l3.type ≠ pt) (h4 : l4.type ≠ pt) :
    ∀ i, i < ({ layers := [l0, l1, l2, l3, l4], blobs := blobs, stderr := err } :
      NetOptimize F).layers.length →
      (layerAt ({ layers := [l0, l1, l2, l3, l4], blobs := blobs, stderr := err } :
        NetOptimize F).layers i).type ≠ pt := by
  intro i hi
  have hi5 : i < 5 := hi
  interval_cases i
  · exact h0
  · exact h1
  · exact h2
  · exact h3
  · exact h4

theorem chain_idle_batchnorm_passes (sqrt : F → F) (input x bn relu dropout : Layer F)
    (b0 b1 b2 b3 b4 : Blob) (rest : List Blob) (err : List String) :
    fuse_innerproduct_batchnorm sqrt (fuse_deconvolutiondepthwise_batchnorm sqrt
      (fuse_deconvolution_batchnorm sqrt (fuse_convolutiondepthwise_batchnorm sqrt
        ({ layers :=
             [{ input with type := "Input", bottoms := [], tops := [0] },
              { x with type := "Convolution", bottoms := [0], tops := [2] },
              { bn with type := "ncnnfused", bottoms := [1], tops := [2] },
              { relu with type := "ReLU", bottoms := [2], tops := [3], slope := 0 },
              { dropout with type := "Dropout", bottoms := [3], tops := [4], scale := 1 }],
           blobs := b0 :: b1 :: b2 :: b3 :: b4 :: rest,
           stderr := err } : NetOptimize F)))) =
      { layers :=
          [{ input with type := "Input", bottoms := [], tops := [0] },
           { x with type := "Convolution", bottoms := [0], tops := [2] },
           { bn with type := "ncnnfused", bottoms := [1], tops := [2] },
           { relu with type := "ReLU", bottoms := [2], tops := [3], slope := 0 },
           { dropout with type := "Dropout", bottoms := [3], tops := [4], scale := 1 }],
        blobs := b0 :: b1 :: b2 :: b3 :: b4 :: rest,
        stderr := err } := by
  simp only [fuse_convolutiondepthwise_batchnorm, fuse_deconvolution_batchnorm, fuse_deconvolutiondepthwise_batchnorm, fuse_innerproduct_batchnorm]
  rw [forward_pass_idle _ _ _ _ _
    (five_types _ _ _ _ _ _ _ "ConvolutionDepthWise"
      (by show "Input" ≠ "ConvolutionDepthWise"; decide)
      (by show "Convolution" ≠ "ConvolutionDepthWise"; decide)
      (by show "ncnnfused" ≠ "ConvolutionDepthWise"; decide)
      (by show "ReLU" ≠ "ConvolutionDepthWise"; decide)
      (by show "Dropout" ≠ "ConvolutionDepthWise"; decide)),
    forward_pass_idle _ _ _ _ _
    (five_types _ _ _ _ _ _ _ "Deconvolution"
      (by show "Input" ≠ "Deconvolution"; decide)
      (by show "Convolution" ≠ "Deconvolution"; decide)
      (by show "ncnnfused" ≠ "Deconvolution"; decide)
      (by show "ReLU" ≠ "Deconvolution"; decide)
      (by show "Dropout" ≠ "Deconvolution"; decide)),
    forward_pass_idle _ _ _ _ _
    (five_types _ _ _ _ _ _ _ "DeconvolutionDepthWise"
      (by show "Input" ≠ "DeconvolutionDepthWise"; decide)
      (by show "Convolution" ≠ "DeconvolutionDepthWise"; decide)
      (by show "ncnnfused" ≠ "DeconvolutionDepthWise"; decide)
      (by show "ReLU" ≠ "DeconvolutionDepthWise"; decide)
      (by show "Dropout" ≠ "DeconvolutionDepthWise"; decide)),
    forward_pass_idle _ _ _ _ _
    (five_types _ _ _ _ _ _ _ "InnerProduct"
      (by show "Input" ≠ "InnerProduct"; decide)
      (by show "Convolution" ≠ "InnerProduct"; decide)
      (by show "ncnnfused" ≠ "InnerProduct"; decide)
      (by show "ReLU" ≠ "InnerProduct"; decide)
      (by show "Dropout" ≠ "InnerProduct"; decide))]

theorem chain_idle_activation_passes (input x bn relu dropout : Layer F)
    (b0 b1 b2 b3 b4 : Blob) (rest : List Blob) (err : List String) :
    fuse_innerproduct_activation (fuse_deconvolutiondepthwise_activation
      (fuse_deconvolution_activation (fuse_convolutiondepthwise_activation
        ({ layers :=
             [{ input with type := "Input", bottoms := [], tops := [0] },
              { x with type := "Convolution", bottoms := [0], tops := [3], activation_type := 1 },
              { bn with type := "ncnnfused", bottoms := [1], tops := [2] },
              { relu with type := "ncnnfused", bottoms := [2], tops := [3], slope := 0 },
              { dropout with type := "Dropout", bottoms := [3], tops := [4], scale := 1 }],
           blobs := b0 :: b1 :: b2 :: b3 :: b4 :: rest,
           stderr := err } : NetOptimize F)))) =
      { layers :=
          [{ input with type := "Input", bottoms := [], tops := [0] },
           { x with type := "Convolution", bottoms := [0], tops := [3], activation_type := 1 },
           { bn with type := "ncnnfused", bottoms := [1], tops := [2] },
           { relu with type := "ncnnfused", bottoms := [2], tops := [3], slope := 0 },
           { dropout with type := "Dropout", bottoms := [3], tops := [4], scale := 1 }],
        blobs := b0 :: b1 :: b2 :: b3 :: b4 :: rest,
        stderr := err } := by
  simp only [fuse_convolutiondepthwise_activation, fuse_deconvolution_activation, fuse_deconvolutiondepthwise_activation, fuse_innerproduct_activation]
  rw [forward_pass_idle _ _ _ _ _
    (five_types _ _ _ _ _ _ _ "ConvolutionDepthWise"
      (by show "Input" ≠ "ConvolutionDepthWise"; decide)
      (by show "Convolution" ≠ "ConvolutionDepthWise"; decide)
      (by show "ncnnfused" ≠ "ConvolutionDepthWise"; decide)
      (by show "ncnnfused" ≠ "ConvolutionDepthWise"; decide)
      (by show "Dropout" ≠ "ConvolutionDepthWise"; decide)),
    forward_pass_idle _ _ _ _ _
    (five_types _ _ _ _ _ _ _ "Deconvolution"
      (by show "Input" ≠ "Deconvolution"; decide)
      (by show "Convolution" ≠ "Deconvolution"; decide)
      (by show "ncnnfused" ≠ "Deconvolution"; decide)
      (by show "ncnnfused" ≠ "Deconvolution"; decide)
      (by show "Dropout" ≠ "Deconvolution"; decide)),
    forward_pass_idle _ _ _ _ _
    (five_types _ _ _ _ _ _ _ "DeconvolutionDepthWise"
      (by show "Input" ≠ "DeconvolutionDepthWise"; decide)
      (by show "Convolution" ≠ "DeconvolutionDepthWise"; decide)
      (by show "ncnnfused" ≠ "DeconvolutionDepthWise"; decide)
      (by show "ncnnfused" ≠ "DeconvolutionDepthWise"; decide)
      (by show "Dropout" ≠ "DeconvolutionDepthWise"; decide)),
    forward_pass_idle _ _ _ _ _
    (five_types _ _ _ _ _ _ _ "InnerProduct"
      (by show "Input" ≠ "InnerProduct"; decide)
      (by show "Convolution" ≠ "InnerProduct"; decide)
      (by show "ncnnfused" ≠ "InnerProduct"; decide)
      (by show "ncnnfused" ≠ "InnerProduct"; decide)
      (by show "Dropout" ≠ "InnerProduct"; decide))]

theorem chain_idle_activation_passes_swapped (input x bn relu dropout : Layer F)
    (b0 b1 b2 b3 b4 : Blob) (rest : List Blob) (err : List String) :
    fuse_innerproduct_activation (fuse_deconvolutiondepthwise_activation
      (fuse_deconvolution_activation (fuse_convolutiondepthwise_activation
        ({ layers :=
             [{ input with type := "Input", bottoms := [], tops := [0] },
              { x with type := "Convolution", bottoms := [0], tops := [2] },
              { bn with type := "ncnnfused", bottoms := [1], tops := [2] },
              { relu with type := "ReLU", bottoms := [2], tops := [3], slope := 0 },
              { dropout with type := "Dropout", bottoms := [3], tops := [4], scale := 1 }],
           blobs := b0 :: b1 :: b2 :: b3 :: b4 :: rest,
           stderr := err } : NetOptimize F)))) =
      { layers :=
          [{ input with type := "Input", bottoms := [], tops := [0] },
           { x with type := "Convolution", bottoms := [0], tops := [2] },
           { bn with type := "ncnnfused", bottoms := [1], tops := [2] },
           { relu with type := "ReLU", bottoms := [2], tops := [3], slope := 0 },
           { dropout with type := "Dropout", bottoms := [3], tops := [4], scale := 1 }],
        blobs := b0 :: b1 :: b2 :: b3 :: b4 :: rest,
        stderr := err } := by
  simp only [fuse_convolutiondepthwise_activation, fuse_deconvolution_activation, fuse_deconvolutiondepthwise_activation, fuse_innerproduct_activation]
  rw [forward_pass_idle _ _ _ _ _
    (five_types _ _ _ _ _ _ _ "ConvolutionDepthWise"
      (by show "Input" ≠ "ConvolutionDepthWise"; decide)
      (by show "Convolution" ≠ "ConvolutionDepthWise"; decide)
      (by show "ncnnfused" ≠ "ConvolutionDepthWise"; decide)
      (by show "ReLU" ≠ "ConvolutionDepthWise"; decide)
      (by show "Dropout" ≠ "ConvolutionDepthWise"; decide)),
    forward_pass_idle _ _ _ _ _
    (five_types _ _ _ _ _ _ _ "Deconvolution"
      (by show "Input" ≠ "Deconvolution"; decide)
      (by show "Convolution" ≠ "Deconvolution"; decide)
      (by show "ncnnfused" ≠ "Deconvolution"; decide)
      (by show "ReLU" ≠ "Deconvolution"; decide)
      (by show "Dropout" ≠ "Deconvolution"; decide)),
    forward_pass_idle _ _ _ _ _
    (five_types _ _ _ _ _ _ _ "DeconvolutionDepthWise"
      (by show "Input" ≠ "DeconvolutionDepthWise"; decide)
      (by show "Convolution" ≠ "DeconvolutionDepthWise"; decide)
      (by show "ncnnfused" ≠ "DeconvolutionDepthWise"; decide)
      (by show "ReLU" ≠ "DeconvolutionDepthWise"; decide)
      (by show "Dropout" ≠ "DeconvolutionDepthWise"; decide)),
    forward_pass_idle _ _ _ _ _
    (five_types _ _ _ _ _ _ _ "InnerProduct"
      (by show "Input" ≠ "InnerProduct"; decide)
      (by show "Convolution" ≠ "InnerProduct"; decide)
      (by show "ncnnfused" ≠ "InnerProduct"; decide)
      (by show "ReLU" ≠ "InnerProduct"; decide)
      (by show "Dropout" ≠ "InnerProduct"; decide))]

theorem chain_swapped_activation_pass (input conv bn relu dropout : Layer F)
    (b0 b1 b2 b3 b4 : Blob) (rest : List Blob) (err : List String) :
    fuse_convolution_activation (chain input conv bn relu dropout b0 b1 b2 b3 b4 rest err) =
      chain input conv bn relu dropout b0 b1 b2 b3 b4 rest err := rfl

theorem chain_swapped_dropout_pass (input x bn relu dropout : Layer F)
    (b0 b1 b2 b3 b4 : Blob) (rest : List Blob) (err : List String) :
    eliminate_dropout
      ({ layers :=
           [{ input with type := "Input", bottoms := [], tops := [0] },
            { x with type := "Convolution", bottoms := [0], tops := [2] },
            { bn with type := "ncnnfused", bottoms := [1], tops := [2] },
            { relu with type := "ReLU", bottoms := [2], tops := [3], slope := 0 },
            { dropout with type := "Dropout", bottoms := [3], tops := [4], scale := 1 }],
         blobs := b0 :: b1 :: b2 :: b3 :: b4 :: rest,
         stderr := err } : NetOptimize F) =
      { layers :=
          [{ input with type := "Input", bottoms := [], tops := [0] },
           { x with type := "Convolution", bottoms := [0], tops := [2] },
           { bn with type := "ncnnfused", bottoms := [1], tops := [2] },
           { relu with type := "ReLU", bottoms := [2], tops := [4], slope := 0 },
           { dropout with type := "ncnnfused", bottoms := [3], tops := [4], scale := 1 }],
        blobs := b0 :: b1 :: b2 :: b3 :: { b4 with producer := 3 } :: rest,
        stderr := err ++ [diagnostic "eliminate_dropout" relu.name dropout.name] } := by
  refine Eq.trans (eliminate_dropout_five _ ?_ ?_ ?_ ?_ ?_) ?_
  · rfl
  · show "Input" ≠ "Dropout"; decide
  · show "Convolution" ≠ "Dropout"; decide
  · show "ncnnfused" ≠ "Dropout"; decide
  · show "ReLU" ≠ "Dropout"; decide
  · refine Eq.trans (eliminate_step_fire _ 4 3 (by rfl) (by rfl) (by rfl)) ?_
    rfl

/-- The state left by the twelve passes of `main` on the chain. -/
theorem optimize_chain (sqrt : F → F) (input conv bn relu dropout : Layer F)
    (b0 b1 b2 b3 b4 : Blob) (rest : List Blob) (err : List String) :
    optimize sqrt (chain input conv bn relu dropout b0 b1 b2 b3 b4 rest err) =
      { layers :=
          [{ input with type := "Input", bottoms := [], tops := [0] },
           { (fold_batchnorm sqrt { conv with type := "Convolution", bottoms := [0], tops := [1] }
              { bn with type := "BatchNorm", bottoms := [1], tops := [2] }) with type := "Convolution", bottoms := [0], tops := [4], activation_type := 1 },
           { bn with type := "ncnnfused", bottoms := [1], tops := [2] },
           { relu with type := "ncnnfused", bottoms := [2], tops := [3], slope := 0 },
           { dropout with type := "ncnnfused", bottoms := [3], tops := [4], scale := 1 }],
        blobs := b0 :: b1 :: { b2 with producer := 1 } :: { b3 with producer := 1 } :: { b4 with producer := 1 } :: rest,
        stderr := err ++ [diagnostic "fuse_convolution_batchnorm" conv.name bn.name,
          diagnostic "fuse_convolution_activation" conv.name relu.name,
          diagnostic "eliminate_dropout" conv.name dropout.name] } := by
  have e1 : fuse_batchnorm_scale (chain input conv bn relu dropout b0 b1 b2 b3 b4 rest err) =
      chain input conv bn relu dropout b0 b1 b2 b3 b4 rest err := rfl
  simp only [optimize]
  rw [e1, chain_batchnorm_pass sqrt input conv bn relu dropout b0 b1 b2 b3 b4 rest err _ rfl,
    chain_idle_batchnorm_passes, chain_activation_pass, chain_idle_activation_passes,
    chain_dropout_pass]
  have hn : (fold_batchnorm sqrt { conv with type := "Convolution", bottoms := [0], tops := [1] }
      { bn with type := "BatchNorm", bottoms := [1], tops := [2] }).name = conv.name := by
    rw [fold_batchnorm_canon]
  simp only [hn, List.append_assoc, List.cons_append, List.nil_append]

/-- The state left on the chain when `fuse_convolution_activation` runs before
`fuse_convolution_batchnorm`. -/
theorem swapped_chain (sqrt : F → F) (input conv bn relu dropout : Layer F)
    (b0 b1 b2 b3 b4 : Blob) (rest : List Blob) (err : List String) :
    run_passes sqrt swapped_pipeline
        (chain input conv bn relu dropout b0 b1 b2 b3 b4 rest err) =
      { layers :=
          [{ input with type := "Input", bottoms := [], tops := [0] },
           { (fold_batchnorm sqrt { conv with type := "Convolution", bottoms := [0], tops := [1] }
              { bn with type := "BatchNorm", bottoms := [1], tops := [2] }) with type := "Convolution", bottoms := [0], tops := [2] },
           { bn with type := "ncnnfused", bottoms := [1], tops := [2] },
           { relu with type := "ReLU", bottoms := [2], tops := [4], slope := 0 },
           { dropout with type := "ncnnfused", bottoms := [3], tops := [4], scale := 1 }],
        blobs := b0 :: b1 :: { b2 with producer := 1 } :: b3 :: { b4 with producer := 3 } :: rest,
        stderr := err ++ [diagnostic "fuse_convolution_batchnorm" conv.name bn.name,
          diagnostic "eliminate_dropout" relu.name dropout.name] } := by
  have e1 : fuse_batchnorm_scale (chain input conv bn relu dropout b0 b1 b2 b3 b4 rest err) =
      chain input conv bn relu dropout b0 b1 b2 b3 b4 rest err := rfl
  simp only [run_passes, swapped_pipeline, List.foldl_cons, List.foldl_nil, run_pass]
  rw [e1, chain_swapped_activation_pass,
    chain_batchnorm_pass sqrt input conv bn relu dropout b0 b1 b2 b3 b4 rest err _ rfl,
    chain_idle_batchnorm_passes, chain_idle_activation_passes_swapped,
    chain_swapped_dropout_pass]
  have hn : (fold_batchnorm sqrt { conv with type := "Convolution", bottoms := [0], tops := [1] }
      { bn with type := "BatchNorm", bottoms := [1], tops := [2] }).name = conv.name := by
    rw [fold_batchnorm_canon]
  simp only [hn, List.append_assoc, List.cons_append, List.nil_append]

/-- C14 (as stated, refuted): on the chain whose Convolution was loaded with
`bias_term = 2`, the twelve passes of `main` leave the Convolution with
`bias_term = 2`, not 1. -/
theorem pipeline_bias_term_counterexample :
    (layerAt (biased_chain : NetOptimize ℝ).layers 1).type = "Convolution" ∧
    (layerAt (optimize Real.sqrt (biased_chain : NetOptimize ℝ)).layers 1).bias_term = 2 ∧
    (layerAt (optimize Real.sqrt (biased_chain : NetOptimize ℝ)).layers 1).bias_term ≠ 1 := by
  have h : (layerAt (optimize Real.sqrt (biased_chain : NetOptimize ℝ)).layers 1).bias_term
      = 2 := by
    unfold biased_chain
    rw [optimize_chain]
    show (fold_batchnorm Real.sqrt _ _).bias_term = 2
    rw [fold_batchnorm_bias_term]
    rfl
  refine ⟨rfl, h, ?_⟩
  rw [h]
  decide

/-- C14 (amended): pipeline composition in the order of `main`. For the chain
`Input(0) -> Convolution(1) -> BatchNorm(2) -> ReLU(3, slope 0) -> Dropout(4,
scale 1)` with arbitrary payloads, the twelve passes of `main` leave the layer
types `Input, Convolution, ncnnfused, ncnnfused, ncnnfused`, the Convolution's
tops equal to `[4]`, `blobs[4].producer = 1`, `activation_type = 1`, the
Convolution's weights and bias equal to those of the BatchNorm fold of the
original pair, and `bias_term` equal to 1 when it was 0 and unchanged otherwise.
With `fuse_convolution_activation` run before `fuse_convolution_batchnorm`
instead, layer 3 is still a ReLU at the end and the Convolution keeps the
`activation_type` it had. -/
theorem pipeline_composition (sqrt : F → F) (input conv bn relu dropout : Layer F)
    (b0 b1 b2 b3 b4 : Blob) (rest : List Blob) (err : List String) :
    (optimize sqrt (chain input conv bn relu dropout b0 b1 b2 b3 b4 rest err)).layers.map
        Layer.type = ["Input", "Convolution", "ncnnfused", "ncnnfused", "ncnnfused"] ∧
    (layerAt (optimize sqrt
      (chain input conv bn relu dropout b0 b1 b2 b3 b4 rest err)).layers 1).tops = [4] ∧
    ((optimize sqrt (chain input conv bn relu dropout b0 b1 b2 b3 b4 rest err)).blobs.getD 4
      Blob.blank).producer = 1 ∧
    (layerAt (optimize sqrt
      (chain input conv bn relu dropout b0 b1 b2 b3 b4 rest err)).layers 1).activation_type
        = 1 ∧
    (layerAt (optimize sqrt
      (chain input conv bn relu dropout b0 b1 b2 b3 b4 rest err)).layers 1).bias_term
        = (if conv.bias_term = 0 then 1 else conv.bias_term) ∧
    (layerAt (optimize sqrt
      (chain input conv bn relu dropout b0 b1 b2 b3 b4 rest err)).layers 1).weight_data
        = (fold_batchnorm sqrt
            (layerAt (chain input conv bn relu dropout b0 b1 b2 b3 b4 rest err).layers 1)
            (layerAt (chain input conv bn relu dropout b0 b1 b2 b3 b4 rest err).layers 2)
          ).weight_data ∧
    (layerAt (optimize sqrt
      (chain input conv bn relu dropout b0 b1 b2 b3 b4 rest err)).layers 1).bias_data
        = (fold_batchnorm sqrt
            (layerAt (chain input conv bn relu dropout b0 b1 b2 b3 b4 rest err).layers 1)
            (layerAt (chain input conv bn relu dropout b0 b1 b2 b3 b4 rest err).layers 2)
          ).bias_data ∧
    (layerAt (run_passes sqrt swapped_pipeline
      (chain input conv bn relu dropout b0 b1 b2 b3 b4 rest err)).layers 3).type = "ReLU" ∧
    (layerAt (run_passes sqrt swapped_pipeline
      (chain input conv bn relu dropout b0 b1 b2 b3 b4 rest err)).layers 1).activation_type
        = conv.activation_type := by
  rw [optimize_chain, swapped_chain]
  refine ⟨rfl, rfl, rfl, rfl, ?_, rfl, rfl, rfl, ?_⟩
  · exact fold_batchnorm_bias_term sqrt _ _
  · show (fold_batchnorm sqrt _ _).activation_type = conv.activation_type
    rw [fold_batchnorm_canon]

end ChainClaim

section PartitionClaim

set_option linter.unusedSectionVars false

variable {F : Type} [Field F] [DecidableEq F]

/-! ## The weight slices of the BatchNorm fold -/

/-- When `channels` is positive and divides `weight_data_size`, the `channels`
slices of size `weight_data_size / channels` cover exactly the indices below
`weight_data_size`. -/
theorem slices_cover (wds channels : Int) (hch : 0 < channels) (hdiv : channels ∣ wds)
    (hpos : 0 ≤ wds) :
    (Int.tdiv wds channels).toNat * channels.toNat = wds.toNat := by
  obtain ⟨q, rfl⟩ := hdiv
  have hq : 0 ≤ q := by
    by_contra h
    have : channels * q < 0 := Int.mul_neg_of_pos_of_neg hch (by omega)
    omega
  rw [Int.tdiv_eq_ediv (by positivity) (by omega), Int.mul_ediv_cancel_left _ (by omega)]
  obtain ⟨a, rfl⟩ := Int.eq_ofNat_of_zero_le hq
  obtain ⟨b, rfl⟩ := Int.eq_ofNat_of_zero_le (le_of_lt hch)
  rw [← Int.natCast_mul, Int.toNat_ofNat, Int.toNat_ofNat, Int.toNat_ofNat, Nat.mul_comm]

/-- The weights after the fold, when the slices cover the whole tensor. -/
theorem fold_batchnorm_weight_whole (sqrt : F → F) (p bn : Layer F) (k : Nat)
    (hch : 0 < bn.channels) (hdiv : bn.channels ∣ p.weight_data_size)
    (hk : (k : Int) < p.weight_data_size) :
    (fold_batchnorm sqrt p bn).weight_data.getD k 0
      = p.weight_data.getD k 0
        * spec_b sqrt bn (k / (Int.tdiv p.weight_data_size bn.channels).toNat) := by
  have hcover := slices_cover p.weight_data_size bn.channels hch hdiv (by omega)
  have hk2 : k < (Int.tdiv p.weight_data_size bn.channels).toNat * bn.channels.toNat := by
    rw [hcover]; omega
  rw [fold_batchnorm_weight, fold_channels_weight, if_pos hk2]
  have hsize : 0 < (Int.tdiv p.weight_data_size bn.channels).toNat := by
    rcases Nat.eq_zero_or_pos (Int.tdiv p.weight_data_size bn.channels).toNat with h | h
    · rw [h] at hk2; omega
    · exact h
  rw [batchnorm_b_getD sqrt bn _ ((Nat.div_lt_iff_lt_mul hsize).mpr (by
    rw [Nat.mul_comm]; exact hk2))]

/-- C15 (as stated, refuted): `fuse_convolution_batchnorm` matches the
Convolution (three weights) and the BatchNorm (two channels) of `uneven_net`; the
slices have size `3 / 2 = 1`, and the weight at index 2, below
`weight_data_size = 3`, is left as it was. -/
theorem weight_partition_counterexample :
    (layerAt (fuse_convolution_batchnorm Real.sqrt (uneven_net : NetOptimize ℝ)).layers 2).type
      = "ncnnfused" ∧
    (layerAt (uneven_net : NetOptimize ℝ).layers 1).weight_data_size = 3 ∧
    (layerAt (fuse_convolution_batchnorm Real.sqrt (uneven_net : NetOptimize ℝ)).layers 1
      ).weight_data.getD 2 0
      = (layerAt (uneven_net : NetOptimize ℝ).layers 1).weight_data.getD 2 0 ∧
    (layerAt (uneven_net : NetOptimize ℝ).layers 1).weight_data.getD 2 0 = 2 := by
  have hstep : fuse_convolution_batchnorm Real.sqrt (uneven_net : NetOptimize ℝ)
      = fuse_step "fuse_convolution_batchnorm" "Convolution" is_batchnorm
          (fold_batchnorm Real.sqrt) (uneven_net : NetOptimize ℝ).layers.length
          uneven_net 1 := rfl
  have hprod := fuse_step_producer "fuse_convolution_batchnorm" "Convolution" is_batchnorm
    (fold_batchnorm Real.sqrt) (uneven_net : NetOptimize ℝ) 1 2
    (by decide) (by decide) (by decide) (by decide)
  have hcons := fuse_step_consumer "fuse_convolution_batchnorm" "Convolution" is_batchnorm
    (fold_batchnorm Real.sqrt) (uneven_net : NetOptimize ℝ) 1 2
    (by decide) (by decide) (by decide) (by decide)
  refine ⟨by rw [hstep, hcons], rfl, ?_, rfl⟩
  rw [hstep, hprod]
  show (fold_batchnorm Real.sqrt _ _).weight_data.getD 2 0 = _
  rw [fold_batchnorm_weight, fold_channels_weight, if_neg (by decide)]

/-- C15 (amended): the weight slices of a BatchNorm fold. Let `s` be the state
reached by a `fuse_*_batchnorm` pass (any producer kind) when its iteration on `i`
starts, and let the scan of that iteration match producer `i` with BatchNorm `j`.
If the BatchNorm's `channels` is positive and divides the producer's
`weight_data_size`, then with `size = weight_data_size / channels` every index
`k < weight_data_size` lies in exactly one slice `c < channels`
(`c * size <= k < (c + 1) * size`), namely `c = k / size`, and at the end of the
pass the weight at `k` is its old value times `b_c`. -/
theorem weight_slices_partition (sqrt : F → F) (pass_name pt : String)
    (s0 s : NetOptimize F) (i j : Nat)
    (hi : i < s0.layers.length)
    (hs : s = (List.range i).foldl
      (fuse_step pass_name pt is_batchnorm (fold_batchnorm sqrt) s0.layers.length) s0)
    (htype : (layerAt s.layers i).type = pt)
    (hj : j = forward_scan s.layers is_batchnorm ((layerAt s.layers i).tops.getD 0 0)
      (s.layers.length - (i + 1)) (i + 1))
    (hne : j ≠ s.layers.length)
    (hch : 0 < (layerAt s.layers j).channels)
    (hdiv : (layerAt s.layers j).channels ∣ (layerAt s.layers i).weight_data_size) :
    ∀ k : Nat, (k : Int) < (layerAt s.layers i).weight_data_size →
      (∀ c : Nat,
        (c * (Int.tdiv (layerAt s.layers i).weight_data_size
            (layerAt s.layers j).channels).toNat ≤ k ∧
          k < (c + 1) * (Int.tdiv (layerAt s.layers i).weight_data_size
            (layerAt s.layers j).channels).toNat) ↔
        c = k / (Int.tdiv (layerAt s.layers i).weight_data_size
            (layerAt s.layers j).channels).toNat) ∧
      ((k / (Int.tdiv (layerAt s.layers i).weight_data_size
            (layerAt s.layers j).channels).toNat : Nat) : Int) < (layerAt s.layers j).channels ∧
      (layerAt (forward_pass pass_name pt is_batchnorm (fold_batchnorm sqrt) s0).layers i
        ).weight_data.getD k 0
        = (layerAt s.layers i).weight_data.getD k 0
          * spec_b sqrt (layerAt s.layers j)
            (k / (Int.tdiv (layerAt s.layers i).weight_data_size
              (layerAt s.layers j).channels).toNat) := by
  intro k hk
  have hcover := slices_cover _ _ hch hdiv (by omega)
  have hk2 : k < (Int.tdiv (layerAt s.layers i).weight_data_size
      (layerAt s.layers j).channels).toNat * (layerAt s.layers j).channels.toNat := by
    rw [hcover]; omega
  generalize hsz : (Int.tdiv (layerAt s.layers i).weight_data_size
      (layerAt s.layers j).channels).toNat = size at hk2
  have hsize : 0 < size := by
    rcases Nat.eq_zero_or_pos size with h | h
    · rw [h] at hk2; omega
    · exact h
  refine ⟨?_, ?_, ?_⟩
  · intro c
    constructor
    · rintro ⟨h1, h2⟩
      exact (Nat.div_eq_of_lt_le h1 h2).symm
    · intro hc
      subst hc
      refine ⟨Nat.div_mul_le_self k size, ?_⟩
      have h1 := Nat.div_add_mod k size
      have h2 := Nat.mod_lt k hsize
      rw [Nat.add_mul, Nat.one_mul, Nat.mul_comm]
      omega
  · have : k / size < (layerAt s.layers j).channels.toNat :=
      (Nat.div_lt_iff_lt_mul hsize).mpr (by rw [Nat.mul_comm]; exact hk2)
    omega
  · rw [forward_pass_producer pass_name pt is_batchnorm (fold_batchnorm sqrt) s0 s i j hi hs
      htype hj hne]
    have := fold_batchnorm_weight_whole sqrt (layerAt s.layers i) (layerAt s.layers j) k
      hch hdiv hk
    rw [hsz] at this
    exact this

theorem weight_slices_partition_witness :
    (layerAt (fuse_convolution_batchnorm Real.sqrt (even_net : NetOptimize ℝ)).layers 1
      ).weight_data.getD 3 0
      = (layerAt (even_net : NetOptimize ℝ).layers 1).weight_data.getD 3 0
        * spec_b Real.sqrt (layerAt (even_net : NetOptimize ℝ).layers 2)
          (3 / (Int.tdiv (layerAt (even_net : NetOptimize ℝ).layers 1).weight_data_size
            (layerAt (even_net : NetOptimize ℝ).layers 2).channels).toNat) :=
  (weight_slices_partition Real.sqrt "fuse_convolution_batchnorm" "Convolution"
    (even_net : NetOptimize ℝ) even_net 1 2 (by decide) rfl (by decide) (by decide)
    (by decide) (by decide) (by decide) 3 (by decide)).2.2

end PartitionClaim

section ScaleExampleClaims

set_option linter.unusedSectionVars false

variable {F : Type} [Field F] [DecidableEq F]

/-! ## The BatchNorm-Scale fold on the example values -/

/-- C16 (as stated, refuted): for the BatchNorm `(slope 1, bias 0)` followed by the
Scale `(scale 2, bias 3)` with `bias_term = 0`, `fuse_batchnorm_scale` matches the
pair and leaves slope 2 and bias 0, not bias 3. -/
theorem scale_fold_bias_term_counterexample :
    (layerAt (fuse_batchnorm_scale (bn_scale_net 1 0 0 : NetOptimize ℝ)).layers 2).type
      = "ncnnfused" ∧
    (layerAt (fuse_batchnorm_scale (bn_scale_net 1 0 0 : NetOptimize ℝ)).layers 1).slope_data
      = [2] ∧
    (layerAt (fuse_batchnorm_scale (bn_scale_net 1 0 0 : NetOptimize ℝ)).layers 1).bias_data
      = [0] ∧
    (layerAt (fuse_batchnorm_scale (bn_scale_net 1 0 0 : NetOptimize ℝ)).layers 1).bias_data
      ≠ [3] := by
  have hs : (layerAt (fuse_batchnorm_scale (bn_scale_net 1 0 0 : NetOptimize ℝ)).layers
      1).slope_data = [(1 : ℝ) * 2] := rfl
  have hb : (layerAt (fuse_batchnorm_scale (bn_scale_net 1 0 0 : NetOptimize ℝ)).layers
      1).bias_data = [(0 : ℝ) * 2] := rfl
  refine ⟨rfl, ?_, ?_, ?_⟩
  · rw [hs]; norm_num
  · rw [hb]; norm_num
  · rw [hb]; norm_num

/-- C16 (amended): the BatchNorm-Scale fold of `fuse_batchnorm_scale` on the
example values. For a channel `c` of a BatchNorm with slope 1 and bias 0 and a
Scale with scale data 2 and bias data 3, the fold leaves slope 2, and bias 3 when
the Scale's `bias_term` is non-zero but bias 0 when it is 0. -/
theorem scale_fold_example (bn scale : Layer F) (c : Nat)
    (hc : (c : Int) < bn.channels) (hlen : bn.channels.toNat ≤ bn.bias_data.length)
    (hslope : bn.slope_data.getD c 0 = 1) (hbias : bn.bias_data.getD c 0 = 0)
    (hscale : scale.scale_data.getD c 0 = 2) (hsb : scale.bias_data.getD c 0 = 3) :
    (fold_scale bn scale).slope_data.getD c 0 = 2 ∧
    (fold_scale bn scale).bias_data.getD c 0 = (if scale.bias_term ≠ 0 then 3 else 0) := by
  have hc2 := int_lt_toNat _ _ hc
  refine ⟨?_, ?_⟩
  · show (scale_channels _ _ _ _).1.getD c 0 = _
    rw [scale_channels_slope, if_pos hc2, hslope, hscale, one_mul]
  · show (scale_channels _ _ _ _).2.getD c 0 = _
    rw [scale_channels_bias _ _ _ _ _ (by omega), if_pos hc2, hbias, hscale, hsb, zero_mul,
      zero_add]

theorem scale_fold_example_witness :
    (fold_scale (layerAt (bn_scale_net 1 0 1 : NetOptimize ℝ).layers 1)
      (layerAt (bn_scale_net 1 0 1 : NetOptimize ℝ).layers 2)).slope_data.getD 0 0 = 2 ∧
    (fold_scale (layerAt (bn_scale_net 1 0 1 : NetOptimize ℝ).layers 1)
      (layerAt (bn_scale_net 1 0 1 : NetOptimize ℝ).layers 2)).bias_data.getD 0 0 = 3 :=
  scale_fold_example (layerAt (bn_scale_net 1 0 1 : NetOptimize ℝ).layers 1)
    (layerAt (bn_scale_net 1 0 1 : NetOptimize ℝ).layers 2) 0 (by decide) (by decide)
    rfl rfl rfl rfl

end ScaleExampleClaims

section ScenarioFive

set_option linter.unusedSectionVars false

variable {F : Type} [Field F] [DecidableEq F]

/-! ## The pipeline on a graph without affine layers -/

theorem eliminate_dropout_idle (s : NetOptimize F)
    (h : ∀ i, i < s.layers.length → (layerAt s.layers i).type ≠ "Dropout") :
    eliminate_dropout s = s := by
  unfold eliminate_dropout
  apply foldl_fixed
  intro i hi
  exact eliminate_step_skip s i (fun ht => absurd ht (h i (List.mem_range.mp hi)))

/-- When `fuse_batchnorm_scale` leaves no Convolution, ConvolutionDepthWise,
Deconvolution, DeconvolutionDepthWise, InnerProduct or Dropout layer, the other
eleven passes of `main` change nothing. -/
theorem optimize_of_no_affine (sqrt : F → F) (s : NetOptimize F)
    (h : ∀ i, i < (fuse_batchnorm_scale s).layers.length →
      (layerAt (fuse_batchnorm_scale s).layers i).type ≠ "Convolution" ∧
      (layerAt (fuse_batchnorm_scale s).layers i).type ≠ "ConvolutionDepthWise" ∧
      (layerAt (fuse_batchnorm_scale s).layers i).type ≠ "Deconvolution" ∧
      (layerAt (fuse_batchnorm_scale s).layers i).type ≠ "DeconvolutionDepthWise" ∧
      (layerAt (fuse_batchnorm_scale s).layers i).type ≠ "InnerProduct" ∧
      (layerAt (fuse_batchnorm_scale s).layers i).type ≠ "Dropout") :
    optimize sqrt s = fuse_batchnorm_scale s := by
  simp only [optimize, fuse_convolution_batchnorm, fuse_convolutiondepthwise_batchnorm,
    fuse_deconvolution_batchnorm, fuse_deconvolutiondepthwise_batchnorm,
    fuse_innerproduct_batchnorm, fuse_convolution_activation,
    fuse_convolutiondepthwise_activation, fuse_deconvolution_activation,
    fuse_deconvolutiondepthwise_activation, fuse_innerproduct_activation]
  rw [forward_pass_idle _ "Convolution" _ _ _ (fun i hi => (h i hi).1),
    forward_pass_idle _ "ConvolutionDepthWise" _ _ _ (fun i hi => (h i hi).2.1),
    forward_pass_idle _ "Deconvolution" _ _ _ (fun i hi => (h i hi).2.2.1),
    forward_pass_idle _ "DeconvolutionDepthWise" _ _ _ (fun i hi => (h i hi).2.2.2.1),
    forward_pass_idle _ "InnerProduct" _ _ _ (fun i hi => (h i hi).2.2.2.2.1),
    forward_pass_idle _ "Convolution" _ _ _ (fun i hi => (h i hi).1),
    forward_pass_idle _ "ConvolutionDepthWise" _ _ _ (fun i hi => (h i hi).2.1),
    forward_pass_idle _ "Deconvolution" _ _ _ (fun i hi => (h i hi).2.2.1),
    forward_pass_idle _ "DeconvolutionDepthWise" _ _ _ (fun i hi => (h i hi).2.2.2.1),
    forward_pass_idle _ "InnerProduct" _ _ _ (fun i hi => (h i hi).2.2.2.2.1),
    eliminate_dropout_idle _ (fun i hi => (h i hi).2.2.2.2.2)]

theorem optimize_scenario_five :
    optimize Real.sqrt (bn_scale_net 1 (1 / 2) 1 : NetOptimize ℝ)
      = fuse_batchnorm_scale (bn_scale_net 1 (1 / 2) 1) :=
  optimize_of_no_affine Real.sqrt _ (by decide)

/-- C17 (as stated, refuted): on scenario 5 the pipeline leaves the BatchNorm with
bias `[4]` (`0.5 * 2 + 3`), not `[3.5]`. -/
theorem scenario_five_counterexample :
    (layerAt (optimize Real.sqrt (bn_scale_net 1 (1 / 2) 1 : NetOptimize ℝ)).layers 1).bias_data
      ≠ [7 / 2] := by
  rw [optimize_scenario_five]
  have hb : (layerAt (fuse_batchnorm_scale (bn_scale_net 1 (1 / 2) 1 : NetOptimize ℝ)).layers
      1).bias_data = [(1 / 2 : ℝ) * 2 + 3] := rfl
  rw [hb]
  norm_num

/-- C17 (amended): end-to-end scenario 5. For the graph `Input -> BatchNorm ->
Scale` with Scale `(bias_term = 1, scale = [2], bias = [3])` and BatchNorm `(slope
= [1], bias = [0.5], mean = [0], var = [0], eps = 0)`, the twelve passes of `main`
leave the layer types `Input, BatchNorm, ncnnfused` (the Scale tombstoned), the
BatchNorm's tops equal to the Scale's tops `[2]` with `blobs[2].producer = 1`,
slope `[2]` and bias `[4]`, and emit one diagnostic line. -/
theorem scenario_five :
    (optimize Real.sqrt (bn_scale_net 1 (1 / 2) 1 : NetOptimize ℝ)).layers.map Layer.type
      = ["Input", "BatchNorm", "ncnnfused"] ∧
    (layerAt (optimize Real.sqrt (bn_scale_net 1 (1 / 2) 1 : NetOptimize ℝ)).layers 1).tops
      = (layerAt (bn_scale_net 1 (1 / 2) 1 : NetOptimize ℝ).layers 2).tops ∧
    ((optimize Real.sqrt (bn_scale_net 1 (1 / 2) 1 : NetOptimize ℝ)).blobs.getD 2
      Blob.blank).producer = 1 ∧
    (layerAt (optimize Real.sqrt (bn_scale_net 1 (1 / 2) 1 : NetOptimize ℝ)).layers 1).slope_data
      = [2] ∧
    (layerAt (optimize Real.sqrt (bn_scale_net 1 (1 / 2) 1 : NetOptimize ℝ)).layers 1).bias_data
      = [4] ∧
    (optimize Real.sqrt (bn_scale_net 1 (1 / 2) 1 : NetOptimize ℝ)).stderr
      = ["fuse_batchnorm_scale bn scale\n"] := by
  rw [optimize_scenario_five]
  have hs : (layerAt (fuse_batchnorm_scale (bn_scale_net 1 (1 / 2) 1 : NetOptimize ℝ)).layers
      1).slope_data = [(1 : ℝ) * 2] := rfl
  have hb : (layerAt (fuse_batchnorm_scale (bn_scale_net 1 (1 / 2) 1 : NetOptimize ℝ)).layers
      1).bias_data = [(1 / 2 : ℝ) * 2 + 3] := rfl
  refine ⟨rfl, rfl, rfl, ?_, ?_, by decide⟩
  · rw [hs]; norm_num
  · rw [hb]; norm_num

end ScenarioFive

section SaveLemmas

set_option linter.unusedSectionVars false

variable {F : Type} [Field F] [DecidableEq F]

/-! ## The text written by `save` -/

theorem join_cons (a : String) (l : List String) :
    String.join (a :: l) = a ++ String.join l := by
  apply String.ext
  simp [String.data_join]

theorem join_append (l1 l2 : List String) :
    String.join (l1 ++ l2) = String.join l1 ++ String.join l2 := by
  apply String.ext
  simp [String.data_join]

theorem join_nil : String.join [] = "" := rfl

theorem fprintf_fprintf (out : Files F) (a b : String) :
    fprintf (fprintf out a) b = fprintf out (a ++ b) := by
  simp only [fprintf, String.append_assoc]

theorem fprintf_empty (out : Files F) : fprintf out "" = out := by
  simp only [fprintf, String.append_empty]

theorem fprintf_foldl {α : Type} (f : α → String) (l : List α) :
    ∀ out : Files F, l.foldl (fun out x => fprintf out (f x)) out
      = fprintf out (String.join (l.map f)) := by
  induction l with
  | nil => intro out; rw [List.foldl_nil, List.map_nil, join_nil, fprintf_empty]
  | cons a t ih =>
    intro out
    rw [List.foldl_cons, ih, List.map_cons, join_cons, fprintf_fprintf]

theorem foldl_range_layerAt {σ : Type} (step : σ → Nat → σ) (g : σ → Layer F → σ)
    (layers : List (Layer F)) (hstep : ∀ acc i, step acc i = g acc (layerAt layers i))
    (init : σ) :
    (List.range layers.length).foldl step init = layers.foldl g init := by
  have h : layers = (List.range layers.length).map (layerAt layers) := by
    apply List.ext_getElem
    · simp
    · intro i h1 h2
      simp [layerAt, List.getD_eq_getElem?_getD, List.getElem?_eq_getElem h1]
  have hs : step = fun acc i => g acc (layerAt layers i) := by
    funext acc i
    exact hstep acc i
  conv_rhs => rw [h, List.foldl_map]
  rw [hs]

/-- Each statement of a branch appends to the two files. -/
theorem run_stmt_append (fmt_f : F → String) (int_bits : F → Int) (op op_default : Layer F)
    (st : ParamStmt) (out : Files F) :
    run_stmt fmt_f int_bits op op_default out st =
      { pp := out.pp ++ (run_stmt fmt_f int_bits op op_default { pp := "", bp := [] } st).pp,
        bp := out.bp ++ (run_stmt fmt_f int_bits op op_default { pp := "", bp := [] } st).bp } := by
  cases st with
  | value_d id field =>
    by_cases h : op.int_field field = op_default.int_field field <;>
      simp [run_stmt, fprintf, h]
  | value_f id field =>
    by_cases h : op.float_field field = op_default.float_field field <;>
      simp [run_stmt, fprintf, h]
  | differs_d id field other =>
    by_cases h : op.int_field field = op.int_field other <;>
      simp [run_stmt, fprintf, h]
  | int_array id field =>
    by_cases h : op.mat_field field = []
    · simp [run_stmt, h]
    · simp only [run_stmt, ne_eq, h, not_false_eq_true, if_true, fprintf_param_int_array,
        fprintf_foldl, fprintf_fprintf]
      simp [fprintf]
  | softmax_fix =>
    by_cases h : op.int_field "axis" = 0 <;>
      simp [run_stmt, fprintf, h]
  | weight_tag tag => simp [run_stmt, fwrite_weight_tag]
  | weight_data field => simp [run_stmt, fwrite_weight_data]

theorem run_stmts_append (fmt_f : F → String) (int_bits : F → Int) (op op_default : Layer F)
    (stmts : List ParamStmt) :
    ∀ out : Files F, stmts.foldl (run_stmt fmt_f int_bits op op_default) out =
      { pp := out.pp ++ param_text fmt_f int_bits op op_default stmts,
        bp := out.bp ++ param_bin fmt_f int_bits op op_default stmts } := by
  induction stmts with
  | nil => intro out; simp [param_text, param_bin]
  | cons a t ih =>
    intro out
    have h1 := ih (run_stmt fmt_f int_bits op op_default out a)
    have h2 := ih (run_stmt fmt_f int_bits op op_default { pp := "", bp := [] } a)
    have h3 := run_stmt_append fmt_f int_bits op op_default a out
    rw [List.foldl_cons, h1]
    have e1 : param_text fmt_f int_bits op op_default (a :: t)
        = (run_stmt fmt_f int_bits op op_default { pp := "", bp := [] } a).pp
          ++ param_text fmt_f int_bits op op_default t := by
      unfold param_text
      rw [List.foldl_cons, h2]
      simp only [String.empty_append, param_text]
    have e2 : param_bin fmt_f int_bits op op_default (a :: t)
        = (run_stmt fmt_f int_bits op op_default { pp := "", bp := [] } a).bp
          ++ param_bin fmt_f int_bits op op_default t := by
      unfold param_bin
      rw [List.foldl_cons, h2]
      simp only [List.nil_append, param_bin]
    rw [e1, e2, h3]
    simp only [String.append_assoc, List.append_assoc]

/-- The second loop body of `save`: a tombstoned layer writes nothing, a live layer
appends its line to `pp` and the records of its branch to `bp`. -/
theorem save_layer_eq (fmt_f : F → String) (int_bits : F → Int) (create_layer : Int → Layer F)
    (s : NetOptimize F) (out : Files F) (i : Nat) :
    save_layer fmt_f int_bits create_layer s out i =
      if (layerAt s.layers i).type = "ncnnfused" then out
      else
        { pp := out.pp ++ spec_layer_line s (layerAt s.layers i)
            (param_text fmt_f int_bits (layerAt s.layers i)
              (create_layer (layerAt s.layers i).typeindex)
              (layer_branch (layerAt s.layers i).type)),
          bp := out.bp ++ param_bin fmt_f int_bits (layerAt s.layers i)
              (create_layer (layerAt s.layers i).typeindex)
              (layer_branch (layerAt s.layers i).type) } := by
  unfold save_layer
  by_cases h : (layerAt s.layers i).type = "ncnnfused"
  · simp only [if_pos h]
  · simp only [if_neg h, fprintf_foldl, fprintf_fprintf, run_stmts_append]
    simp only [fprintf, spec_layer_line, fmt_d, String.append_assoc, List.append_assoc]
    rfl

/-- The text and the records that the second loop of `save` writes for one layer. -/
theorem save_layers_foldl (fmt_f : F → String) (int_bits : F → Int)
    (create_layer : Int → Layer F) (s : NetOptimize F) (layers : List (Layer F)) :
    ∀ out : Files F,
      layers.foldl (fun out l =>
        if l.type = "ncnnfused" then out
        else
          { pp := out.pp ++ spec_layer_line s l
              (param_text fmt_f int_bits l (create_layer l.typeindex) (layer_branch l.type)),
            bp := out.bp ++ param_bin fmt_f int_bits l (create_layer l.typeindex)
              (layer_branch l.type) }) out =
      { pp := out.pp ++ String.join
          ((layers.filter fun l => decide (l.type ≠ "ncnnfused")).map fun l =>
            spec_layer_line s l
              (param_text fmt_f int_bits l (create_layer l.typeindex) (layer_branch l.type))),
        bp := out.bp ++
          ((layers.filter fun l => decide (l.type ≠ "ncnnfused")).map fun l =>
            param_bin fmt_f int_bits l (create_layer l.typeindex)
              (layer_branch l.type)).flatten } := by
  induction layers with
  | nil => intro out; simp [join_nil]
  | cons a t ih =>
    intro out
    rw [List.foldl_cons, ih]
    by_cases h : a.type = "ncnnfused"
    · simp [h]
    · simp [h, join_cons, String.append_assoc]

/-! ## The counts of the header -/

theorem set_insert_foldl_mem (names : List String) :
    ∀ (acc : List String) (x : String),
      x ∈ names.foldl set_insert acc ↔ x ∈ acc ∨ x ∈ names := by
  induction names with
  | nil => intro acc x; simp
  | cons a t ih =>
    intro acc x
    rw [List.foldl_cons, ih]
    unfold set_insert
    by_cases h : a ∈ acc
    · rw [if_pos h]
      constructor
      · rintro (h1 | h1)
        · exact Or.inl h1
        · exact Or.inr (List.mem_cons_of_mem _ h1)
      · rintro (h1 | h1)
        · exact Or.inl h1
        · rcases List.mem_cons.mp h1 with h2 | h2
          · left; rw [h2]; exact h
          · exact Or.inr h2
    · rw [if_neg h]
      simp only [List.mem_append, List.mem_singleton, List.mem_cons]
      tauto

theorem set_insert_foldl_nodup (names : List String) :
    ∀ acc : List String, acc.Nodup → (names.foldl set_insert acc).Nodup := by
  induction names with
  | nil => intro acc h; exact h
  | cons a t ih =>
    intro acc h
    rw [List.foldl_cons]
    apply ih
    unfold set_insert
    by_cases h1 : a ∈ acc
    · rw [if_pos h1]; exact h
    · rw [if_neg h1]
      exact List.Nodup.append h (List.nodup_singleton a) (by
        intro x hx hx2
        rw [List.mem_singleton] at hx2
        subst hx2
        exact h1 hx)

/-- The size of the set built by inserting `names` one by one is the number of
distinct strings among `names`. -/
theorem set_insert_foldl_card (names : List String) :
    (names.foldl set_insert []).length = names.toFinset.card := by
  have hnd := set_insert_foldl_nodup names [] List.nodup_nil
  rw [← List.toFinset_card_of_nodup hnd]
  congr 1
  ext x
  simp [set_insert_foldl_mem]

theorem count_step_eq (s : NetOptimize F) (acc : Nat × List String) (i : Nat) :
    count_step s acc i =
      if (layerAt s.layers i).type = "ncnnfused" then acc
      else (acc.1 + 1,
        (((layerAt s.layers i).bottoms ++ (layerAt s.layers i).tops).map (blob_name s)).foldl
          set_insert acc.2) := by
  unfold count_step
  by_cases h : (layerAt s.layers i).type = "ncnnfused"
  · simp only [if_pos h]
  · simp only [if_neg h, List.map_append, List.foldl_append, List.foldl_map]

theorem count_layers_foldl (s : NetOptimize F) (layers : List (Layer F)) :
    ∀ acc : Nat × List String,
      layers.foldl (fun acc l =>
        if l.type = "ncnnfused" then acc
        else (acc.1 + 1, ((l.bottoms ++ l.tops).map (blob_name s)).foldl set_insert acc.2)) acc =
      (acc.1 + (layers.filter fun l => decide (l.type ≠ "ncnnfused")).length,
        ((layers.filter fun l => decide (l.type ≠ "ncnnfused")).flatMap fun l =>
          (l.bottoms ++ l.tops).map (blob_name s)).foldl set_insert acc.2) := by
  induction layers with
  | nil => intro acc; simp
  | cons a t ih =>
    intro acc
    rw [List.foldl_cons, ih]
    by_cases h : a.type = "ncnnfused"
    · simp [h]
    · simp [h, List.foldl_append]
      omega

/-- The two numbers of the header line: the live layers and the distinct blob
names they reference. -/
theorem save_counts (s : NetOptimize F) :
    (List.range s.layers.length).foldl (count_step s) (0, []) =
      (live_count s, (referenced_names s).foldl set_insert []) := by
  rw [foldl_range_layerAt (count_step s)
    (fun acc (l : Layer F) =>
      if l.type = "ncnnfused" then acc
      else (acc.1 + 1, ((l.bottoms ++ l.tops).map (blob_name s)).foldl set_insert acc.2))
    s.layers (fun acc i => count_step_eq s acc i), count_layers_foldl]
  simp only [Nat.zero_add, live_count, List.countP_eq_length_filter, referenced_names,
    live_layers]

/-- The parameter text written by `save`: the magic line, the header line, and the
lines of the live layers in load order. -/
theorem save_pp (fmt_f : F → String) (int_bits : F → Int) (create_layer : Int → Layer F)
    (s : NetOptimize F) :
    (save fmt_f int_bits create_layer s).pp =
      "7767517\n"
        ++ (toString (live_count s) ++ " " ++ toString (referenced_names s).toFinset.card
          ++ "\n")
        ++ String.join ((live_layers s).map fun l =>
            spec_layer_line s l
              (param_text fmt_f int_bits l (create_layer l.typeindex) (layer_branch l.type))) := by
  unfold save
  rw [foldl_range_layerAt (save_layer fmt_f int_bits create_layer s)
    (fun out (l : Layer F) =>
      if l.type = "ncnnfused" then out
      else
        { pp := out.pp ++ spec_layer_line s l
            (param_text fmt_f int_bits l (create_layer l.typeindex) (layer_branch l.type)),
          bp := out.bp ++ param_bin fmt_f int_bits l (create_layer l.typeindex)
            (layer_branch l.type) })
    s.layers (fun out i => save_layer_eq fmt_f int_bits create_layer s out i),
    save_layers_foldl, save_counts, set_insert_foldl_card]
  simp only [fprintf, fmt_d, live_layers, String.empty_append, String.append_assoc]
  rfl

end SaveLemmas

section SaveClaims

set_option linter.unusedSectionVars false

variable {F : Type} [Field F] [DecidableEq F]

/-- C18 (topology header). The text written by `save` is the line `7767517`, then
the line `<L> <B>` with `L` the number of layers whose type is not "ncnnfused" and
`B` the number of distinct blob names referenced by the bottoms and tops of those
layers, then one newline-terminated line per live layer, `L` lines in all. -/
theorem topology_header (fmt_f : F → String) (int_bits : F → Int)
    (create_layer : Int → Layer F) (s : NetOptimize F) :
    ∃ line : Layer F → String,
      (save fmt_f int_bits create_layer s).pp =
        "7767517\n"
          ++ (toString (live_count s) ++ " "
            ++ toString (referenced_names s).toFinset.card ++ "\n")
          ++ String.join ((live_layers s).map line) ∧
      (∀ l, ∃ body : String, line l = body ++ "\n") ∧
      ((live_layers s).map line).length = live_count s ∧
      live_count s = (s.layers.filter fun l => decide (l.type ≠ "ncnnfused")).length ∧
      referenced_names s = (s.layers.filter fun l => decide (l.type ≠ "ncnnfused")).flatMap
        fun l => (l.bottoms ++ l.tops).map fun b => (s.blobs.getD b Blob.blank).name := by
  refine ⟨fun l => spec_layer_line s l
    (param_text fmt_f int_bits l (create_layer l.typeindex) (layer_branch l.type)),
    save_pp fmt_f int_bits create_layer s, ?_, ?_, ?_, rfl⟩
  · intro l
    exact ⟨_, rfl⟩
  · rw [List.length_map, live_layers, live_count, List.countP_eq_length_filter]
  · rw [live_count, List.countP_eq_length_filter]

theorem left_justify_length (width : Nat) (str : String) :
    (left_justify width str).length = max width str.length := by
  unfold left_justify
  rw [String.length_append]
  show str.length + (List.replicate (width - str.length) ' ').length = _
  rw [List.length_replicate]
  omega

/-- C19 (layer line grammar). The text written by `save` after the two header
lines is the concatenation, over the live layers in load order (tombstoned layers
skipped), of one line per layer made of: the type left-justified, a space, the
name left-justified, a space, the number of bottoms, a space, the number of tops,
` <name>` for each bottom blob in order, ` <name>` for each top blob in order, the
parameter tokens written by the layer's branch, and a newline. A left-justified
string is the string itself followed by spaces only, and has at least 24
characters. -/
theorem layer_line_grammar (fmt_f : F → String) (int_bits : F → Int)
    (create_layer : Int → Layer F) (s : NetOptimize F) :
    (save fmt_f int_bits create_layer s).pp =
      "7767517\n"
        ++ (toString (live_count s) ++ " "
          ++ toString (referenced_names s).toFinset.card ++ "\n")
        ++ String.join ((s.layers.filter fun l => decide (l.type ≠ "ncnnfused")).map fun l =>
          left_justify 24 l.type ++ " " ++ left_justify 24 l.name ++ " "
            ++ toString l.bottoms.length ++ " " ++ toString l.tops.length
            ++ String.join (l.bottoms.map fun b => " " ++ (s.blobs.getD b Blob.blank).name)
            ++ String.join (l.tops.map fun t => " " ++ (s.blobs.getD t Blob.blank).name)
            ++ param_text fmt_f int_bits l (create_layer l.typeindex) (layer_branch l.type)
            ++ "\n") ∧
    ∀ str : String,
      (∃ n : Nat, left_justify 24 str = str ++ String.mk (List.replicate n ' ')) ∧
      24 ≤ (left_justify 24 str).length ∧
      str.length ≤ (left_justify 24 str).length ∧
      (24 ≤ str.length → left_justify 24 str = str) := by
  refine ⟨save_pp fmt_f int_bits create_layer s, ?_⟩
  intro str
  refine ⟨⟨_, rfl⟩, ?_, ?_, ?_⟩
  · rw [left_justify_length]; omega
  · rw [left_justify_length]; omega
  · intro h
    unfold left_justify
    rw [Nat.sub_eq_zero_of_le h]
    exact String.append_empty str

theorem param_text_cons (fmt_f : F → String) (int_bits : F → Int) (op op_default : Layer F)
    (a : ParamStmt) (t : List ParamStmt) :
    param_text fmt_f int_bits op op_default (a :: t)
      = (run_stmt fmt_f int_bits op op_default { pp := "", bp := [] } a).pp
        ++ param_text fmt_f int_bits op op_default t := by
  unfold param_text
  rw [List.foldl_cons, run_stmts_append]
  simp only [param_text]

/-- A layer that matches a consistent default instance prints no parameter token. -/
theorem param_text_default (fmt_f : F → String) (int_bits : F → Int) (op op_default : Layer F)
    (stmts : List ParamStmt) (hdef : matches_default op op_default stmts)
    (hcons : default_consistent op_default stmts) :
    param_text fmt_f int_bits op op_default stmts = "" := by
  induction stmts with
  | nil => rfl
  | cons a t ih =>
    rw [param_text_cons, ih (fun st hst => hdef st (List.mem_cons_of_mem _ hst))
      (fun st hst => hcons st (List.mem_cons_of_mem _ hst)), String.append_empty]
    have h1 := hdef a (List.mem_cons_self _ _)
    have h2 := hcons a (List.mem_cons_self _ _)
    cases a with
    | value_d id field =>
      have h3 : op.int_field field = op_default.int_field field := h1
      simp only [run_stmt, ne_eq, h3, not_true_eq_false, if_false]
    | value_f id field =>
      have h3 : op.float_field field = op_default.float_field field := h1
      simp only [run_stmt, ne_eq, h3, not_true_eq_false, if_false]
    | differs_d id field other =>
      have h3 : op.int_field field = op_default.int_field field ∧
          op.int_field other = op_default.int_field other := h1
      have h4 : op_default.int_field field = op_default.int_field other := h2
      have h5 : op.int_field field = op.int_field other := by
        rw [h3.1, h3.2]; exact h4
      simp only [run_stmt, ne_eq, h5, not_true_eq_false, if_false]
    | int_array id field =>
      have h3 : op.mat_field field = [] := h1
      simp only [run_stmt, ne_eq, h3, not_true_eq_false, if_false]
    | softmax_fix =>
      have h3 : op.int_field "axis" = op_default.int_field "axis" := h1
      have h4 : op_default.int_field "axis" = 0 := h2
      have h5 : op.int_field "axis" = 0 := by
        rw [h3]; exact h4
      simp only [run_stmt, ne_eq, h5, not_true_eq_false, if_false]
    | weight_tag tag => rfl
    | weight_data field => rfl

/-- C20 (defaults omission). Let `i` be a live layer and let `create_layer
typeindex` be the default instance of its kind. If every parameter printed by the
layer's branch equals the value held by the default instance (scalars equal, array
parameters empty), and in the default instance each height member equals the
width member it is compared with and the Softmax `axis` is 0, then the branch
writes no parameter token, and the text that `save` appends for the layer is the
line made of type, name, bottom count, top count and blob names only. -/
theorem defaults_omission (fmt_f : F → String) (int_bits : F → Int)
    (create_layer : Int → Layer F) (s : NetOptimize F) (out : Files F) (i : Nat)
    (hlive : (layerAt s.layers i).type ≠ "ncnnfused")
    (hdef : matches_default (layerAt s.layers i)
      (create_layer (layerAt s.layers i).typeindex) (layer_branch (layerAt s.layers i).type))
    (hcons : default_consistent (create_layer (layerAt s.layers i).typeindex)
      (layer_branch (layerAt s.layers i).type)) :
    param_text fmt_f int_bits (layerAt s.layers i)
      (create_layer (layerAt s.layers i).typeindex)
      (layer_branch (layerAt s.layers i).type) = "" ∧
    (save_layer fmt_f int_bits create_layer s out i).pp =
      out.pp ++ (left_justify 24 (layerAt s.layers i).type ++ " "
        ++ left_justify 24 (layerAt s.layers i).name ++ " "
        ++ toString (layerAt s.layers i).bottoms.length ++ " "
        ++ toString (layerAt s.layers i).tops.length
        ++ String.join ((layerAt s.layers i).bottoms.map fun b =>
            " " ++ (s.blobs.getD b Blob.blank).name)
        ++ String.join ((layerAt s.layers i).tops.map fun t =>
            " " ++ (s.blobs.getD t Blob.blank).name)
        ++ "\n") := by
  have h := param_text_default fmt_f int_bits _ _ _ hdef hcons
  refine ⟨h, ?_⟩
  rw [save_layer_eq, if_neg hlive, h]
  simp only [spec_layer_line, String.append_empty, blob_name]

theorem defaults_omission_witness :
    (save_layer (fun _ : ℚ => "") (fun _ => 0) (fun _ => Layer.blank)
        single_convolution_net { pp := "", bp := [] } 0).pp
      = "Convolution              conv                     1 1 data conv\n" := by
  have h := (defaults_omission (fun _ : ℚ => "") (fun _ => 0) (fun _ => Layer.blank)
    single_convolution_net { pp := "", bp := [] } 0 (by decide) (by decide) (by decide)).2
  rw [h]
  decide

end SaveClaims

section TokenLemmas

set_option linter.unusedSectionVars false

variable {F : Type} [Field F] [DecidableEq F]

/-! ## The parameter tokens of a branch -/

theorem param_text_nil (fmt_f : F → String) (int_bits : F → Int) (op op_default : Layer F) :
    param_text fmt_f int_bits op op_default [] = "" := rfl

theorem param_text_append (fmt_f : F → String) (int_bits : F → Int) (op op_default : Layer F)
    (pre post : List ParamStmt) :
    param_text fmt_f int_bits op op_default (pre ++ post)
      = param_text fmt_f int_bits op op_default pre
        ++ param_text fmt_f int_bits op op_default post := by
  induction pre with
  | nil => rw [List.nil_append, param_text_nil, String.empty_append]
  | cons a t ih => rw [List.cons_append, param_text_cons, param_text_cons, ih, String.append_assoc]

theorem run_stmt_value_d (fmt_f : F → String) (int_bits : F → Int) (op op_default : Layer F)
    (id : Nat) (field : String) :
    (run_stmt fmt_f int_bits op op_default { pp := "", bp := [] } (.value_d id field)).pp
      = int_token id (op.int_field field) (op_default.int_field field) := by
  by_cases h : op.int_field field = op_default.int_field field <;>
    simp [run_stmt, int_token, fprintf, h]

theorem run_stmt_value_f (fmt_f : F → String) (int_bits : F → Int) (op op_default : Layer F)
    (id : Nat) (field : String) :
    (run_stmt fmt_f int_bits op op_default { pp := "", bp := [] } (.value_f id field)).pp
      = float_token fmt_f id (op.float_field field) (op_default.float_field field) := by
  by_cases h : op.float_field field = op_default.float_field field <;>
    simp [run_stmt, float_token, fprintf, h]

theorem run_stmt_differs_d (fmt_f : F → String) (int_bits : F → Int) (op op_default : Layer F)
    (id : Nat) (field other : String) :
    (run_stmt fmt_f int_bits op op_default { pp := "", bp := [] }
      (.differs_d id field other)).pp
      = int_token id (op.int_field field) (op.int_field other) := by
  by_cases h : op.int_field field = op.int_field other <;>
    simp [run_stmt, int_token, fprintf, h]

theorem run_stmt_softmax_fix (fmt_f : F → String) (int_bits : F → Int)
    (op op_default : Layer F) :
    (run_stmt fmt_f int_bits op op_default { pp := "", bp := [] } .softmax_fix).pp
      = if op.int_field "axis" ≠ 0 then " 1=1" else "" := by
  by_cases h : op.int_field "axis" = 0
  · simp [run_stmt, h]
  · simp only [run_stmt, ne_eq, h, not_false_eq_true, if_true, fprintf, String.empty_append]
    rfl

theorem int_token_ne (id : Nat) (value reference : Int) (h : value ≠ reference) :
    int_token id value reference = " " ++ toString id ++ "=" ++ toString value := by
  unfold int_token
  rw [if_pos h]
  rfl

theorem int_token_eq (id : Nat) (value : Int) : int_token id value value = "" := by
  unfold int_token
  rw [if_neg (not_not.mpr rfl)]

end TokenLemmas

section ScalarClaim

set_option linter.unusedSectionVars false

variable {F : Type} [Field F] [DecidableEq F]

/-- C21 (scalar parameter emission). In the text written by the statements of a
branch, a statement `fprintf_param_value(" id=%d", field)` contributes, at its
position, the token ` <id>=<value>` (value printed by `%d`) when the layer's value
differs from the default instance's value and nothing when they are equal; a
statement with `%f` does the same with the value printed by `%f`. The branch of a
Dropout writes ` 0=<scale>` exactly when `scale` differs from the default scale,
and for a live Dropout with scale `1/2`, a default scale other than `1/2` and a
`%f` conversion printing `1/2` as `0.500000`, the line that `save` appends ends in
the token ` 0=0.500000`. -/
theorem scalar_parameter_emission (fmt_f : F → String) (int_bits : F → Int)
    (op op_default : Layer F) :
    (∀ (pre post : List ParamStmt) (id : Nat) (field : String),
      param_text fmt_f int_bits op op_default (pre ++ .value_d id field :: post)
        = param_text fmt_f int_bits op op_default pre
          ++ int_token id (op.int_field field) (op_default.int_field field)
          ++ param_text fmt_f int_bits op op_default post) ∧
    (∀ (pre post : List ParamStmt) (id : Nat) (field : String),
      param_text fmt_f int_bits op op_default (pre ++ .value_f id field :: post)
        = param_text fmt_f int_bits op op_default pre
          ++ float_token fmt_f id (op.float_field field) (op_default.float_field field)
          ++ param_text fmt_f int_bits op op_default post) ∧
    (∀ (id : Nat) (value reference : Int),
      (value ≠ reference →
        int_token id value reference = " " ++ toString id ++ "=" ++ toString value) ∧
      (value = reference → int_token id value reference = "")) ∧
    (∀ (id : Nat) (value reference : F),
      (value ≠ reference →
        float_token fmt_f id value reference = " " ++ toString id ++ "=" ++ fmt_f value) ∧
      (value = reference → float_token fmt_f id value reference = "")) ∧
    param_text fmt_f int_bits op op_default (layer_branch "Dropout")
      = float_token fmt_f 0 op.scale op_default.scale ∧
    (∀ (create_layer : Int → Layer F) (s : NetOptimize F) (out : Files F) (i : Nat),
      (layerAt s.layers i).type = "Dropout" → (layerAt s.layers i).scale = 1 / 2 →
      (create_layer (layerAt s.layers i).typeindex).scale ≠ 1 / 2 →
      fmt_f (1 / 2) = "0.500000" →
      (save_layer fmt_f int_bits create_layer s out i).pp
        = out.pp ++ spec_layer_line s (layerAt s.layers i) " 0=0.500000") := by
  have hdrop : ∀ o d : Layer F, param_text fmt_f int_bits o d (layer_branch "Dropout")
      = float_token fmt_f 0 o.scale d.scale := by
    intro o d
    have hb : layer_branch "Dropout" = [.value_f 0 "scale"] := by decide
    rw [hb, param_text_cons, run_stmt_value_f, param_text_nil, String.append_empty]
    rfl
  refine ⟨?_, ?_, ?_, ?_, hdrop op op_default, ?_⟩
  · intro pre post id field
    rw [param_text_append, param_text_cons, run_stmt_value_d, String.append_assoc]
  · intro pre post id field
    rw [param_text_append, param_text_cons, run_stmt_value_f, String.append_assoc]
  · intro id value reference
    exact ⟨int_token_ne id value reference, fun h => by rw [h]; exact int_token_eq id reference⟩
  · intro id value reference
    refine ⟨fun h => ?_, fun h => ?_⟩
    · unfold float_token; rw [if_pos h]
    · unfold float_token; rw [if_neg (not_not.mpr h)]
  · intro create_layer s out i htype hscale hdef hfmt
    rw [save_layer_eq, if_neg (by rw [htype]; decide), htype, hdrop]
    unfold float_token
    rw [hscale, if_pos (Ne.symm hdef), hfmt]
    rfl

theorem scalar_parameter_emission_witness :
    (save_layer fmt_f6 (fun _ => 0) unit_scale_defaults
        (convolution_dropout_net (1 / 2) : NetOptimize ℚ) { pp := "", bp := [] } 2).pp
      = "Dropout                  drop                     1 1 conv drop 0=0.500000\n" := by
  have h := (scalar_parameter_emission fmt_f6 (fun _ => 0)
    (layerAt (convolution_dropout_net (1 / 2) : NetOptimize ℚ).layers 2)
    (unit_scale_defaults 0)).2.2.2.2.2 unit_scale_defaults
    (convolution_dropout_net (1 / 2) : NetOptimize ℚ) { pp := "", bp := [] } 2
    (by decide) (by decide!) (by decide!) (by decide!)
  rw [h]
  decide

end ScalarClaim

section HeightClaims

set_option linter.unusedSectionVars false

variable {F : Type} [Field F] [DecidableEq F]

/-- The first nine statements of the four convolution branches. -/
theorem conv_like_prefix (fmt_f : F → String) (int_bits : F → Int) (op op_default : Layer F)
    (rest : List ParamStmt) :
    param_text fmt_f int_bits op op_default
        (.value_d 0 "num_output" :: .value_d 1 "kernel_w"
          :: .differs_d 11 "kernel_h" "kernel_w" :: .value_d 2 "dilation_w"
          :: .differs_d 12 "dilation_h" "dilation_w" :: .value_d 3 "stride_w"
          :: .differs_d 13 "stride_h" "stride_w" :: .value_d 4 "pad_w"
          :: .differs_d 14 "pad_h" "pad_w" :: rest)
      = int_token 0 (op.int_field "num_output") (op_default.int_field "num_output")
        ++ int_token 1 (op.int_field "kernel_w") (op_default.int_field "kernel_w")
        ++ int_token 11 (op.int_field "kernel_h") (op.int_field "kernel_w")
        ++ int_token 2 (op.int_field "dilation_w") (op_default.int_field "dilation_w")
        ++ int_token 12 (op.int_field "dilation_h") (op.int_field "dilation_w")
        ++ int_token 3 (op.int_field "stride_w") (op_default.int_field "stride_w")
        ++ int_token 13 (op.int_field "stride_h") (op.int_field "stride_w")
        ++ int_token 4 (op.int_field "pad_w") (op_default.int_field "pad_w")
        ++ int_token 14 (op.int_field "pad_h") (op.int_field "pad_w")
        ++ param_text fmt_f int_bits op op_default rest := by
  simp only [param_text_cons, run_stmt_value_d, run_stmt_differs_d, String.append_assoc]

/-- C22 (height-variant rule). For each of Convolution, ConvolutionDepthWise,
Deconvolution and DeconvolutionDepthWise, the branch starts with the statements
for `num_output`, `kernel_w`, `kernel_h`, `dilation_w`, `dilation_h`, `stride_w`,
`stride_h`, `pad_w`, `pad_h`, and the text it writes is: the `num_output` token;
then for kernel, dilation, stride and pad (width ids 1, 2, 3, 4) the width token,
present iff the width differs from the default instance's, immediately followed by
the height token under the width id plus 10, present iff the height differs from
the width of the same layer; then the tokens of the remaining statements. -/
theorem height_variant_rule (fmt_f : F → String) (int_bits : F → Int)
    (op op_default : Layer F) (kind : String)
    (hkind : kind = "Convolution" ∨ kind = "ConvolutionDepthWise" ∨ kind = "Deconvolution" ∨
      kind = "DeconvolutionDepthWise") :
    layer_branch kind =
      [.value_d 0 "num_output", .value_d 1 "kernel_w", .differs_d (1 + 10) "kernel_h" "kernel_w",
        .value_d 2 "dilation_w", .differs_d (2 + 10) "dilation_h" "dilation_w",
        .value_d 3 "stride_w", .differs_d (3 + 10) "stride_h" "stride_w",
        .value_d 4 "pad_w", .differs_d (4 + 10) "pad_h" "pad_w"]
      ++ (layer_branch kind).drop 9 ∧
    param_text fmt_f int_bits op op_default (layer_branch kind)
      = int_token 0 (op.int_field "num_output") (op_default.int_field "num_output")
        ++ int_token 1 (op.int_field "kernel_w") (op_default.int_field "kernel_w")
        ++ int_token 11 (op.int_field "kernel_h") (op.int_field "kernel_w")
        ++ int_token 2 (op.int_field "dilation_w") (op_default.int_field "dilation_w")
        ++ int_token 12 (op.int_field "dilation_h") (op.int_field "dilation_w")
        ++ int_token 3 (op.int_field "stride_w") (op_default.int_field "stride_w")
        ++ int_token 13 (op.int_field "stride_h") (op.int_field "stride_w")
        ++ int_token 4 (op.int_field "pad_w") (op_default.int_field "pad_w")
        ++ int_token 14 (op.int_field "pad_h") (op.int_field "pad_w")
        ++ param_text fmt_f int_bits op op_default ((layer_branch kind).drop 9) := by
  have key : ∀ k : String, layer_branch k =
      [.value_d 0 "num_output", .value_d 1 "kernel_w", .differs_d 11 "kernel_h" "kernel_w",
        .value_d 2 "dilation_w", .differs_d 12 "dilation_h" "dilation_w",
        .value_d 3 "stride_w", .differs_d 13 "stride_h" "stride_w",
        .value_d 4 "pad_w", .differs_d 14 "pad_h" "pad_w"]
      ++ (layer_branch k).drop 9 →
      param_text fmt_f int_bits op op_default (layer_branch k)
      = int_token 0 (op.int_field "num_output") (op_default.int_field "num_output")
        ++ int_token 1 (op.int_field "kernel_w") (op_default.int_field "kernel_w")
        ++ int_token 11 (op.int_field "kernel_h") (op.int_field "kernel_w")
        ++ int_token 2 (op.int_field "dilation_w") (op_default.int_field "dilation_w")
        ++ int_token 12 (op.int_field "dilation_h") (op.int_field "dilation_w")
        ++ int_token 3 (op.int_field "stride_w") (op_default.int_field "stride_w")
        ++ int_token 13 (op.int_field "stride_h") (op.int_field "stride_w")
        ++ int_token 4 (op.int_field "pad_w") (op_default.int_field "pad_w")
        ++ int_token 14 (op.int_field "pad_h") (op.int_field "pad_w")
        ++ param_text fmt_f int_bits op op_default ((layer_branch k).drop 9) := by
    intro k hk
    conv_lhs => rw [hk]
    exact conv_like_prefix fmt_f int_bits op op_default _
  have hb : layer_branch kind =
      [.value_d 0 "num_output", .value_d 1 "kernel_w", .differs_d 11 "kernel_h" "kernel_w",
        .value_d 2 "dilation_w", .differs_d 12 "dilation_h" "dilation_w",
        .value_d 3 "stride_w", .differs_d 13 "stride_h" "stride_w",
        .value_d 4 "pad_w", .differs_d 14 "pad_h" "pad_w"]
      ++ (layer_branch kind).drop 9 := by
    rcases hkind with h | h | h | h <;> (subst h; decide)
  exact ⟨hb, key kind hb⟩

theorem height_variant_rule_witness :
    param_text fmt_f6 (fun _ => 0)
        { (Layer.blank : Layer ℚ) with
          int_params := [("kernel_w", 3), ("kernel_h", 5), ("pad_w", 1), ("pad_h", 1)] }
        Layer.blank (layer_branch "Deconvolution")
      = " 1=3 11=5 4=1" := by
  have h := (height_variant_rule fmt_f6 (fun _ => 0)
    { (Layer.blank : Layer ℚ) with
      int_params := [("kernel_w", 3), ("kernel_h", 5), ("pad_w", 1), ("pad_h", 1)] }
    Layer.blank "Deconvolution" (by decide)).2
  rw [h]
  decide

/-- C25 (Softmax compatibility flag). The text written by the Softmax branch is
the token ` 0=<axis>`, present iff `axis` differs from the default instance's
`axis`, followed by the token ` 1=1`, present iff `axis` is not 0. When the
default `axis` is 0, a Softmax with `axis = 0` writes neither token. -/
theorem softmax_flag (fmt_f : F → String) (int_bits : F → Int) (op op_default : Layer F) :
    param_text fmt_f int_bits op op_default (layer_branch "Softmax")
      = int_token 0 (op.int_field "axis") (op_default.int_field "axis")
        ++ (if op.int_field "axis" ≠ 0 then " 1=1" else "") ∧
    (op.int_field "axis" ≠ 0 →
      param_text fmt_f int_bits op op_default (layer_branch "Softmax")
        = int_token 0 (op.int_field "axis") (op_default.int_field "axis") ++ " 1=1") ∧
    (op.int_field "axis" = 0 → op_default.int_field "axis" = 0 →
      param_text fmt_f int_bits op op_default (layer_branch "Softmax") = "") := by
  have hb : layer_branch "Softmax" = [.value_d 0 "axis", .softmax_fix] := by decide
  have h : param_text fmt_f int_bits op op_default (layer_branch "Softmax")
      = int_token 0 (op.int_field "axis") (op_default.int_field "axis")
        ++ (if op.int_field "axis" ≠ 0 then " 1=1" else "") := by
    rw [hb]
    simp only [param_text_cons, param_text_nil, run_stmt_value_d, run_stmt_softmax_fix,
      String.append_empty]
  refine ⟨h, ?_, ?_⟩
  · intro hne
    rw [h, if_pos hne]
  · intro h0 hd
    rw [h, h0, hd, int_token_eq, if_neg (not_not.mpr rfl)]
    rfl

theorem softmax_flag_witness :
    param_text fmt_f6 (fun _ => 0)
        { (Layer.blank : Layer ℚ) with int_params := [("axis", 1)] }
        Layer.blank (layer_branch "Softmax") = " 0=1 1=1" ∧
    param_text fmt_f6 (fun _ => 0) (Layer.blank : Layer ℚ) Layer.blank
        (layer_branch "Softmax") = "" := by
  have h := softmax_flag fmt_f6 (fun _ => 0)
    { (Layer.blank : Layer ℚ) with int_params := [("axis", 1)] } Layer.blank
  have h2 := softmax_flag fmt_f6 (fun _ => 0) (Layer.blank : Layer ℚ) Layer.blank
  refine ⟨?_, h2.2.2 (by decide) (by decide)⟩
  rw [h.2.1 (by decide)]
  decide

end HeightClaims

section ArrayClaim

set_option linter.unusedSectionVars false

variable {F : Type} [Field F] [DecidableEq F]

theorem run_stmt_int_array (fmt_f : F → String) (int_bits : F → Int) (op op_default : Layer F)
    (id : Nat) (field : String) :
    (run_stmt fmt_f int_bits op op_default { pp := "", bp := [] } (.int_array id field)).pp
      = if op.mat_field field ≠ [] then
          " -" ++ toString (23300 + (id : Int)) ++ "="
            ++ toString ((op.mat_field field).length : Int)
            ++ String.join ((op.mat_field field).map fun x => "," ++ toString (int_bits x))
        else "" := by
  by_cases h : op.mat_field field = []
  · simp [run_stmt, h]
  · simp only [run_stmt, ne_eq, h, not_false_eq_true, if_true, fprintf_param_int_array,
      fprintf_foldl, fprintf_fprintf]
    simp only [fprintf, String.empty_append, fmt_d, String.append_assoc]

/-- C24 (array parameter encoding). `fprintf_param_int_array(id, m)` appends the
text ` -`, the decimal of `23300 + id`, `=`, the decimal of the number of elements
of `m`, and for each element in order `,` followed by the element printed by `%d`;
`fprintf_param_float_array` appends the same with the elements printed by `%f`.
In `save`, an array statement calls `fprintf_param_int_array` when the array is
not empty and writes nothing when it is empty, and its text stands at the
statement's position among the tokens of the branch. -/
theorem array_parameter_encoding (fmt_f : F → String) (int_bits : F → Int)
    (op op_default : Layer F) :
    (∀ (id : Int) (m : List F) (out : Files F),
      fprintf_param_int_array int_bits id m out
        = { pp := out.pp ++ (" -" ++ toString (23300 + id) ++ "=" ++ toString (m.length : Int)
              ++ String.join (m.map fun x => "," ++ toString (int_bits x))),
            bp := out.bp }) ∧
    (∀ (id : Int) (m : List F) (out : Files F),
      fprintf_param_float_array fmt_f id m out
        = { pp := out.pp ++ (" -" ++ toString (23300 + id) ++ "=" ++ toString (m.length : Int)
              ++ String.join (m.map fun x => "," ++ fmt_f x)),
            bp := out.bp }) ∧
    (∀ (id : Nat) (field : String) (out : Files F),
      (op.mat_field field ≠ [] →
        run_stmt fmt_f int_bits op op_default out (.int_array id field)
          = fprintf_param_int_array int_bits id (op.mat_field field) out) ∧
      (op.mat_field field = [] →
        run_stmt fmt_f int_bits op op_default out (.int_array id field) = out)) ∧
    (∀ (pre post : List ParamStmt) (id : Nat) (field : String),
      param_text fmt_f int_bits op op_default (pre ++ .int_array id field :: post)
        = param_text fmt_f int_bits op op_default pre
          ++ (if op.mat_field field ≠ [] then
              " -" ++ toString (23300 + (id : Int)) ++ "="
                ++ toString ((op.mat_field field).length : Int)
                ++ String.join ((op.mat_field field).map fun x => "," ++ toString (int_bits x))
            else "")
          ++ param_text fmt_f int_bits op op_default post) := by
  refine ⟨?_, ?_, ?_, ?_⟩
  · intro id m out
    simp only [fprintf_param_int_array, fprintf_foldl, fprintf_fprintf]
    simp only [fprintf, fmt_d, String.append_assoc]
  · intro id m out
    simp only [fprintf_param_float_array, fprintf_foldl, fprintf_fprintf]
    simp only [fprintf, fmt_d, String.append_assoc]
  · intro id field out
    refine ⟨fun h => ?_, fun h => ?_⟩
    · simp only [run_stmt, ne_eq, h, not_false_eq_true, if_true]
    · simp only [run_stmt, ne_eq, h, not_true_eq_false, if_false]
  · intro pre post id field
    rw [param_text_append, param_text_cons, run_stmt_int_array]
    simp only [String.append_assoc]

theorem array_parameter_encoding_witness :
    (run_stmt fmt_f6 (fun x => x.num)
        { (Layer.blank : Layer ℚ) with activation_params := [1, 2] } Layer.blank
        { pp := "", bp := [] } (.int_array 10 "activation_params")).pp = " -23310=2,1,2" := by
  rw [((array_parameter_encoding fmt_f6 (fun x => x.num)
    { (Layer.blank : Layer ℚ) with activation_params := [1, 2] } Layer.blank).2.2.1
    10 "activation_params" { pp := "", bp := [] }).1 (by decide)]
  decide!

end ArrayClaim

section WeightLemmas

set_option linter.unusedSectionVars false

variable {F : Type} [Field F] [DecidableEq F]

/-! ## The weight file written by `save` -/

theorem lookup_mem {β : Type} (k : String) (l : List (String × β)) (v : β)
    (h : l.lookup k = some v) : (k, v) ∈ l := by
  induction l with
  | nil => simp at h
  | cons a t ih =>
    obtain ⟨a1, a2⟩ := a
    by_cases hk : k = a1
    · subst hk
      rw [List.lookup_cons, beq_self_eq_true] at h
      simp only [Option.some.injEq] at h
      subst h
      exact List.mem_cons_self _ _
    · rw [List.lookup_cons] at h
      have hb : (k == a1) = false := by simpa using hk
      rw [hb] at h
      exact List.mem_cons_of_mem _ (ih h)

theorem lookup_none {β : Type} (k : String) (l : List (String × β))
    (h : k ∉ l.map Prod.fst) : l.lookup k = none := by
  induction l with
  | nil => rfl
  | cons a t ih =>
    obtain ⟨a1, a2⟩ := a
    rw [List.map_cons, List.mem_cons, not_or] at h
    rw [List.lookup_cons]
    have hb : (k == a1) = false := by simpa using h.1
    rw [hb]
    exact ih h.2

/-- A property of the branch taken for a layer type holds for every type when it
holds for every entry of the chain and for the empty branch of the other types. -/
theorem layer_branch_cases (P : String → List ParamStmt → Prop)
    (h1 : ∀ e ∈ save_branches, P e.1 e.2)
    (h2 : ∀ ty, ty ∉ save_branches.map Prod.fst → P ty []) :
    ∀ ty, P ty (layer_branch ty) := by
  intro ty
  unfold layer_branch
  cases hl : save_branches.lookup ty with
  | none =>
    apply h2
    intro hmem
    obtain ⟨e, he, hty⟩ := List.mem_map.mp hmem
    rw [List.lookup_eq_none_iff] at hl
    have h3 := hl e he
    rw [hty] at h3
    simp at h3
  | some v => exact h1 (ty, v) (lookup_mem ty save_branches v hl)

theorem param_bin_nil (fmt_f : F → String) (int_bits : F → Int) (op op_default : Layer F) :
    param_bin fmt_f int_bits op op_default [] = [] := rfl

theorem param_bin_cons (fmt_f : F → String) (int_bits : F → Int) (op op_default : Layer F)
    (a : ParamStmt) (t : List ParamStmt) :
    param_bin fmt_f int_bits op op_default (a :: t)
      = (run_stmt fmt_f int_bits op op_default { pp := "", bp := [] } a).bp
        ++ param_bin fmt_f int_bits op op_default t := by
  unfold param_bin
  rw [List.foldl_cons, run_stmts_append]
  simp only [param_bin]

theorem run_stmt_bp (fmt_f : F → String) (int_bits : F → Int) (op op_default : Layer F)
    (st : ParamStmt) :
    (run_stmt fmt_f int_bits op op_default { pp := "", bp := [] } st).bp
      = stmt_records op st := by
  cases st with
  | value_d id field =>
    by_cases h : op.int_field field = op_default.int_field field <;>
      simp [run_stmt, fprintf, stmt_records, h]
  | value_f id field =>
    by_cases h : op.float_field field = op_default.float_field field <;>
      simp [run_stmt, fprintf, stmt_records, h]
  | differs_d id field other =>
    by_cases h : op.int_field field = op.int_field other <;>
      simp [run_stmt, fprintf, stmt_records, h]
  | int_array id field =>
    by_cases h : op.mat_field field = []
    · simp [run_stmt, stmt_records, h]
    · simp only [run_stmt, ne_eq, h, not_false_eq_true, if_true, fprintf_param_int_array,
        fprintf_foldl, fprintf_fprintf]
      rfl
  | softmax_fix =>
    by_cases h : op.int_field "axis" = 0 <;>
      simp [run_stmt, fprintf, stmt_records, h]
  | weight_tag tag => rfl
  | weight_data field => rfl

/-- The records written by a branch are those of its weight statements, in order. -/
theorem param_bin_eq (fmt_f : F → String) (int_bits : F → Int) (op op_default : Layer F)
    (stmts : List ParamStmt) :
    param_bin fmt_f int_bits op op_default stmts
      = (stmts.filter is_weight_stmt).flatMap (stmt_records op) := by
  induction stmts with
  | nil => rfl
  | cons a t ih =>
    rw [param_bin_cons, run_stmt_bp, ih]
    cases a <;> simp [List.filter_cons, is_weight_stmt, stmt_records]

/-- The weight file written by `save`: the records of the branches of the live
layers, in load order. -/
theorem save_bp (fmt_f : F → String) (int_bits : F → Int) (create_layer : Int → Layer F)
    (s : NetOptimize F) :
    (save fmt_f int_bits create_layer s).bp =
      (live_layers s).flatMap fun l =>
        param_bin fmt_f int_bits l (create_layer l.typeindex) (layer_branch l.type) := by
  unfold save
  rw [foldl_range_layerAt (save_layer fmt_f int_bits create_layer s)
    (fun out (l : Layer F) =>
      if l.type = "ncnnfused" then out
      else
        { pp := out.pp ++ spec_layer_line s l
            (param_text fmt_f int_bits l (create_layer l.typeindex) (layer_branch l.type)),
          bp := out.bp ++ param_bin fmt_f int_bits l (create_layer l.typeindex)
            (layer_branch l.type) })
    s.layers (fun out i => save_layer_eq fmt_f int_bits create_layer s out i),
    save_layers_foldl]
  simp only [fprintf, live_layers, List.nil_append, List.flatMap]

/-- The weight statements of each branch of `save`. -/
theorem branch_weight_stmts (ty : String) :
    (layer_branch ty).filter is_weight_stmt =
      if ty = "Bias" then [.weight_data "bias_data"]
      else if ty = "BatchNorm" then
        [.weight_data "slope_data", .weight_data "mean_data", .weight_data "var_data",
          .weight_data "bias_data"]
      else if ty = "Convolution" ∨ ty = "ConvolutionDepthWise" ∨ ty = "Deconvolution" ∨
          ty = "DeconvolutionDepthWise" ∨ ty = "InnerProduct" then
        [.weight_tag 0, .weight_data "weight_data", .weight_data "bias_data"]
      else if ty = "Scale" then [.weight_data "scale_data", .weight_data "bias_data"]
      else if ty = "Normalize" then [.weight_data "scale_data"]
      else if ty = "PReLU" then [.weight_data "slope_data"]
      else [] := by
  revert ty
  refine layer_branch_cases (fun ty stmts => stmts.filter is_weight_stmt =
      if ty = "Bias" then [.weight_data "bias_data"]
      else if ty = "BatchNorm" then
        [.weight_data "slope_data", .weight_data "mean_data", .weight_data "var_data",
          .weight_data "bias_data"]
      else if ty = "Convolution" ∨ ty = "ConvolutionDepthWise" ∨ ty = "Deconvolution" ∨
          ty = "DeconvolutionDepthWise" ∨ ty = "InnerProduct" then
        [.weight_tag 0, .weight_data "weight_data", .weight_data "bias_data"]
      else if ty = "Scale" then [.weight_data "scale_data", .weight_data "bias_data"]
      else if ty = "Normalize" then [.weight_data "scale_data"]
      else if ty = "PReLU" then [.weight_data "slope_data"]
      else []) (by decide) ?_
  · intro ty h
    show ([] : List ParamStmt) = _
    have k : ∀ name : String, name ∈ save_branches.map Prod.fst → ty ≠ name :=
      fun name hn e => h (e ▸ hn)
    rw [if_neg (k "Bias" (by decide)), if_neg (k "BatchNorm" (by decide)),
      if_neg (by
        rintro (e | e | e | e | e)
        · exact k "Convolution" (by decide) e
        · exact k "ConvolutionDepthWise" (by decide) e
        · exact k "Deconvolution" (by decide) e
        · exact k "DeconvolutionDepthWise" (by decide) e
        · exact k "InnerProduct" (by decide) e),
      if_neg (k "Scale" (by decide)), if_neg (k "Normalize" (by decide)),
      if_neg (k "PReLU" (by decide))]

/-- The records written by the branch of a layer are its weight records. -/
theorem param_bin_layer (fmt_f : F → String) (int_bits : F → Int) (l op_default : Layer F) :
    param_bin fmt_f int_bits l op_default (layer_branch l.type) = weight_records l := by
  rw [param_bin_eq, branch_weight_stmts]
  unfold weight_records listed_weight_records
  by_cases h1 : l.type = "Bias"
  · rw [if_pos h1, if_pos h1]; rfl
  · rw [if_neg h1, if_neg h1]
    by_cases h2 : l.type = "BatchNorm"
    · rw [if_pos h2, if_pos h2]; rfl
    · rw [if_neg h2, if_neg h2]
      by_cases h3 : l.type = "Convolution" ∨ l.type = "ConvolutionDepthWise" ∨
          l.type = "Deconvolution" ∨ l.type = "DeconvolutionDepthWise" ∨
          l.type = "InnerProduct"
      · rw [if_pos h3, if_pos h3]; rfl
      · rw [if_neg h3, if_neg h3]
        by_cases h4 : l.type = "Scale"
        · rw [if_pos h4, if_pos h4]; rfl
        · rw [if_neg h4, if_neg h4]
          by_cases h5 : l.type = "Normalize"
          · rw [if_pos h5, if_pos h5]; rfl
          · rw [if_neg h5, if_neg h5]
            by_cases h6 : l.type = "PReLU"
            · rw [if_pos h6, if_pos h6]; rfl
            · rw [if_neg h6, if_neg h6]; rfl

end WeightLemmas

section WeightClaims

set_option linter.unusedSectionVars false

variable {F : Type} [Field F] [DecidableEq F]

theorem byte_count_append (elemsize : Nat) (a b : List (BinItem F)) :
    byte_count elemsize (a ++ b) = byte_count elemsize a + byte_count elemsize b := by
  unfold byte_count
  rw [List.map_append, List.sum_append]

theorem byte_count_flatMap (elemsize : Nat) (f : Layer F → List (BinItem F))
    (layers : List (Layer F)) :
    byte_count elemsize (layers.flatMap f)
      = (layers.map fun l => byte_count elemsize (f l)).sum := by
  induction layers with
  | nil => rfl
  | cons a t ih =>
    rw [List.flatMap_cons, byte_count_append, ih, List.map_cons, List.sum_cons]

/-- C26 (as stated, refuted): for a net whose only layer is a live Bias with one
bias value, `save` writes that value to the weight file, while the records listed
by the claim for the live layers are none. -/
theorem weights_stream_counterexample :
    (save fmt_f6 (fun _ => 0) (fun _ => Layer.blank) (single_bias_net : NetOptimize ℚ)).bp
      = [.data [1]] ∧
    (live_layers (single_bias_net : NetOptimize ℚ)).flatMap listed_weight_records = [] ∧
    (save fmt_f6 (fun _ => 0) (fun _ => Layer.blank) (single_bias_net : NetOptimize ℚ)).bp
      ≠ (live_layers (single_bias_net : NetOptimize ℚ)).flatMap listed_weight_records := by
  decide!

/-- C26 (amended): weights stream layout. The weight file written by `save` is the
concatenation, over the live layers in load order, of: for BatchNorm the slope,
mean, var and bias data; for Convolution, ConvolutionDepthWise, Deconvolution,
DeconvolutionDepthWise and InnerProduct a tag 0, the weight data and the bias
data; for Scale the scale and bias data; for Normalize the scale data; for PReLU
the slope data; for Bias the bias data; nothing for any other kind. A tag is 4
bytes and a tensor is `elemsize` bytes per element, so the size of the file is the
sum of the sizes of those records; a branch that writes a tag writes the tag 0 and
belongs to one of the five kinds named above. -/
theorem weights_stream_layout (fmt_f : F → String) (int_bits : F → Int)
    (create_layer : Int → Layer F) (s : NetOptimize F) (elemsize : Nat) :
    (save fmt_f int_bits create_layer s).bp = (live_layers s).flatMap weight_records ∧
    byte_count elemsize (save fmt_f int_bits create_layer s).bp
      = ((live_layers s).map fun l => byte_count elemsize (weight_records l)).sum ∧
    (∀ (tag : Int) (m : List F),
      BinItem.byte_size elemsize (.tag tag : BinItem F) = 4 ∧
      BinItem.byte_size elemsize (.data m : BinItem F) = elemsize * m.length) ∧
    (∀ (ty : String) (tag : Int), .weight_tag tag ∈ layer_branch ty →
      tag = 0 ∧ (ty = "Convolution" ∨ ty = "ConvolutionDepthWise" ∨ ty = "Deconvolution" ∨
        ty = "DeconvolutionDepthWise" ∨ ty = "InnerProduct")) ∧
    (∀ l : Layer F, l.type ≠ "Bias" → weight_records l = listed_weight_records l) ∧
    (∀ l : Layer F, l.type = "Bias" → weight_records l = [.data l.bias_data]) := by
  have hbp : (save fmt_f int_bits create_layer s).bp
      = (live_layers s).flatMap weight_records := by
    rw [save_bp]
    congr 1
    funext l
    exact param_bin_layer fmt_f int_bits l _
  refine ⟨hbp, ?_, fun _ _ => ⟨rfl, rfl⟩, ?_, ?_, ?_⟩
  · rw [hbp, byte_count_flatMap]
  · intro ty tag hmem
    have hf : ParamStmt.weight_tag tag ∈ (layer_branch ty).filter is_weight_stmt :=
      List.mem_filter.mpr ⟨hmem, rfl⟩
    rw [branch_weight_stmts] at hf
    split_ifs at hf with h1 h2 h3 h4 h5 h6
    · simp at hf
    · simp at hf
    · simp only [List.mem_cons, ParamStmt.weight_tag.injEq, List.mem_singleton,
        reduceCtorEq, or_false, List.not_mem_nil] at hf
      exact ⟨hf, h3⟩
    · simp at hf
    · simp at hf
    · simp at hf
    · simp at hf
  · intro l h
    unfold weight_records
    rw [if_neg h]
  · intro l h
    unfold weight_records
    rw [if_pos h]

theorem weights_stream_layout_witness :
    (.tag 0 : BinItem ℚ) ∈
      (save fmt_f6 (fun _ => 0) (fun _ => Layer.blank) (chain_net : NetOptimize ℚ)).bp ∧
    weight_records (layerAt (single_bias_net : NetOptimize ℚ).layers 0) = [.data [1]] := by
  have h := weights_stream_layout fmt_f6 (fun _ => 0) (fun _ => Layer.blank)
    (chain_net : NetOptimize ℚ) 4
  have h2 := (weights_stream_layout fmt_f6 (fun _ => 0) (fun _ => Layer.blank)
    (single_bias_net : NetOptimize ℚ) 4).2.2.2.2.2
    (layerAt (single_bias_net : NetOptimize ℚ).layers 0) (by decide)
  refine ⟨?_, h2⟩
  rw [h.1]
  decide!

/-- C27 (unrecognised kind). For a live layer whose type is none of the types of
the chain of `save` (such as Sigmoid or Split), the branch taken has no statement:
`save` appends the layer's line with type, name, counts and blob names and no
parameter token, writes nothing to the weight file, and the first loop counts the
layer in the header. -/
theorem unrecognised_kind (fmt_f : F → String) (int_bits : F → Int)
    (create_layer : Int → Layer F) (s : NetOptimize F) (out : Files F)
    (acc : Nat × List String) (i : Nat)
    (hi : i < s.layers.length)
    (hlive : (layerAt s.layers i).type ≠ "ncnnfused")
    (hkind : (layerAt s.layers i).type ∉ save_branches.map Prod.fst) :
    layer_branch (layerAt s.layers i).type = [] ∧
    save_layer fmt_f int_bits create_layer s out i
      = { pp := out.pp ++ (left_justify 24 (layerAt s.layers i).type ++ " "
            ++ left_justify 24 (layerAt s.layers i).name ++ " "
            ++ toString (layerAt s.layers i).bottoms.length ++ " "
            ++ toString (layerAt s.layers i).tops.length
            ++ String.join ((layerAt s.layers i).bottoms.map fun b =>
                " " ++ (s.blobs.getD b Blob.blank).name)
            ++ String.join ((layerAt s.layers i).tops.map fun t =>
                " " ++ (s.blobs.getD t Blob.blank).name)
            ++ "\n"),
          bp := out.bp } ∧
    (count_step s acc i).1 = acc.1 + 1 ∧
    layerAt s.layers i ∈ live_layers s ∧
    "Sigmoid" ∉ save_branches.map Prod.fst ∧ "Split" ∉ save_branches.map Prod.fst := by
  have hb : layer_branch (layerAt s.layers i).type = [] := by
    unfold layer_branch
    rw [lookup_none _ _ hkind]
    rfl
  refine ⟨hb, ?_, ?_, ?_, by decide, by decide⟩
  · rw [save_layer_eq, if_neg hlive, hb, param_text_nil, param_bin_nil]
    simp only [spec_layer_line, String.append_empty, blob_name, List.append_nil]
  · rw [count_step_eq, if_neg hlive]
  · unfold live_layers
    apply List.mem_filter.mpr
    refine ⟨?_, by simpa using hlive⟩
    unfold layerAt
    rw [List.getD_eq_getElem?_getD, List.getElem?_eq_getElem hi]
    exact List.getElem_mem hi

theorem unrecognised_kind_witness :
    save_layer fmt_f6 (fun _ => 0) (fun _ => Layer.blank) (shared_top_net : NetOptimize ℚ)
        { pp := "", bp := [] } 3
      = { pp := "Sigmoid                  sig                      1 1 bn sig\n", bp := [] } := by
  rw [(unrecognised_kind fmt_f6 (fun _ => 0) (fun _ => Layer.blank)
    (shared_top_net : NetOptimize ℚ) { pp := "", bp := [] } (0, []) 3 (by decide) (by decide)
    (by decide)).2.1]
  decide

end WeightClaims

section NeverFail

set_option linter.unusedSectionVars false

variable {F : Type} [Field F] [DecidableEq F]

/-! ## Passes without a matching candidate -/

theorem run_pass_eq_forward (sqrt : F → F) (p : Pass) (hp : p ≠ .eliminate_dropout)
    (s : NetOptimize F) :
    run_pass sqrt p s
      = forward_pass p.pass_name p.producer_kind p.consumer_test (p.fold sqrt) s := by
  cases p <;> first | rfl | exact absurd rfl hp

/-- An iteration of a forward pass with no partner after `i` changes nothing. -/
theorem fuse_step_no_partner (pass_name pt : String) (ic : String → Bool)
    (fold : Layer F → Layer F → Layer F) (s : NetOptimize F) (i : Nat)
    (hi : i < s.layers.length)
    (h : (layerAt s.layers i).type = pt → ∀ j, i < j → j < s.layers.length →
      ¬ is_partner s.layers ic ((layerAt s.layers i).tops.getD 0 0) j) :
    fuse_step pass_name pt ic fold s.layers.length s i = s := by
  rw [fuse_step_eq]
  by_cases ht : (layerAt s.layers i).type = pt
  · have hscan : forward_scan s.layers ic ((layerAt s.layers i).tops.getD 0 0)
        (s.layers.length - (i + 1)) (i + 1) = (i + 1) + (s.layers.length - (i + 1)) :=
      forward_scan_eq_end _ _ _ _ _ (fun k hk1 hk2 => h ht k (by omega) (by omega))
    rw [if_neg (not_not.mpr ht), hscan, if_pos (by omega)]
  · rw [if_pos ht]

/-- An iteration of `eliminate_dropout` with no source before `i` changes nothing. -/
theorem eliminate_step_no_source (s : NetOptimize F) (i : Nat)
    (h : (layerAt s.layers i).type = "Dropout" → (layerAt s.layers i).scale = 1 →
      ∀ j, j < i → ¬ is_source s.layers ((layerAt s.layers i).bottoms.getD 0 0) j) :
    eliminate_step s i = s := by
  rw [eliminate_step_eq]
  by_cases ht : (layerAt s.layers i).type = "Dropout"
  · rw [if_neg (not_not.mpr ht)]
    by_cases hs : (layerAt s.layers i).scale = 1
    · rw [if_neg (not_not.mpr hs), backward_scan_none _ _ _ (h ht hs), if_pos rfl]
    · rw [if_pos hs]
  · rw [if_pos ht]

/-- A pass on a state without a matching candidate returns the state. -/
theorem run_pass_no_candidate (sqrt : F → F) (p : Pass) (s : NetOptimize F)
    (h : ∀ i, i < s.layers.length → ∀ j, j < s.layers.length → ¬ candidate p s i j) :
    run_pass sqrt p s = s := by
  by_cases hp : p = .eliminate_dropout
  · subst hp
    show eliminate_dropout s = s
    unfold eliminate_dropout
    apply foldl_fixed
    intro i hi
    have hi2 := List.mem_range.mp hi
    apply eliminate_step_no_source
    intro ht hs j hj hsrc
    refine h i hi2 j (by omega) ?_
    unfold candidate
    rw [if_pos rfl]
    exact ⟨ht, hs, hj, hsrc⟩
  · rw [run_pass_eq_forward sqrt p hp]
    unfold forward_pass
    apply foldl_fixed
    intro i hi
    have hi2 := List.mem_range.mp hi
    apply fuse_step_no_partner _ _ _ _ _ _ hi2
    intro ht j hij hj hpart
    refine h i hi2 j hj ?_
    unfold candidate
    rw [if_neg hp]
    exact ⟨ht, hij, hj, hpart⟩

/-- C28 (passes never fail). Every pass (the eleven fusion passes and
`eliminate_dropout`) returns 0 on every graph, and on a graph that contains no
matching candidate for the pass it leaves the state as it was: the layers, the
blobs and the diagnostic stream are unchanged. -/
theorem passes_never_fail (sqrt : F → F) (p : Pass) (s : NetOptimize F) :
    (call_pass sqrt p s).1 = 0 ∧
    ((∀ i, i < s.layers.length → ∀ j, j < s.layers.length → ¬ candidate p s i j) →
      (call_pass sqrt p s).2 = s ∧ (call_pass sqrt p s).2.stderr = s.stderr) := by
  refine ⟨rfl, fun h => ?_⟩
  have e : (call_pass sqrt p s).2 = s := run_pass_no_candidate sqrt p s h
  exact ⟨e, by rw [e]⟩

theorem passes_never_fail_witness :
    (call_pass (fun x => x) Pass.fuse_convolution_batchnorm
      (convolution_dropout_net (1 / 2) : NetOptimize ℚ)).2 = convolution_dropout_net (1 / 2) :=
  ((passes_never_fail (fun x => x) Pass.fuse_convolution_batchnorm
    (convolution_dropout_net (1 / 2) : NetOptimize ℚ)).2 (by decide)).1

end NeverFail

section MainClaim

set_option linter.unusedSectionVars false

variable {F : Type} [Field F] [DecidableEq F]

/-- C29 (as stated, refuted): when the loader reports a failure for the topology
(`load_param` returns -1) and leaves the chain `Input -> Convolution -> Dropout`
in the optimizer, `main` still runs the passes (the Dropout is eliminated and one
diagnostic line is printed), runs the serializer, and returns exit code 0. -/
theorem failure_not_fatal_counterexample :
    (main (fun x => x) fmt_f6 (fun _ => 0) unit_scale_defaults
      { load_param_status := -1, load_model_status := 0,
        net := (convolution_dropout_net 1 : NetOptimize ℚ) }).exit_code = 0 ∧
    (main (fun x => x) fmt_f6 (fun _ => 0) unit_scale_defaults
      { load_param_status := -1, load_model_status := 0,
        net := (convolution_dropout_net 1 : NetOptimize ℚ) }).net.stderr
      = ["eliminate_dropout conv drop\n"] ∧
    (main (fun x => x) fmt_f6 (fun _ => 0) unit_scale_defaults
      { load_param_status := -1, load_model_status := 0,
        net := (convolution_dropout_net 1 : NetOptimize ℚ) }).files.pp
      = "7767517\n2 2\nInput                    data                     0 1 data\n"
        ++ "Convolution              conv                     1 1 data drop\n" := by
  refine ⟨rfl, ?_, ?_⟩
  · decide!
  · decide!

/-- C29 (amended): `main` has no failure handling. Whatever the two loader calls
return, `main` runs the twelve passes on the net the loader left, runs `save` on
the result, and returns exit code 0; two runs that differ only in the values
returned by the loader have the same outcome. -/
theorem failure_is_ignored (sqrt : F → F) (fmt_f : F → String) (int_bits : F → Int)
    (create_layer : Int → Layer F) (loaded : Loaded F) :
    (main sqrt fmt_f int_bits create_layer loaded).exit_code = 0 ∧
    (main sqrt fmt_f int_bits create_layer loaded).net = optimize sqrt loaded.net ∧
    (main sqrt fmt_f int_bits create_layer loaded).files
      = save fmt_f int_bits create_layer (optimize sqrt loaded.net) ∧
    ∀ status1 status2 : Int,
      main sqrt fmt_f int_bits create_layer
          { load_param_status := status1, load_model_status := status2, net := loaded.net }
        = main sqrt fmt_f int_bits create_layer loaded := by
  simp [main]

end MainClaim

section SweepCounter

/-- C30 (as stated, refuted). On `Input -> Convolution -> Clip -> ReLU` the first
run of `fuse_convolution_activation` fuses the Clip and leaves the ReLU; the second
run differs from the first: it fuses the ReLU and prints one more diagnostic line.
On the unordered Dropout graph a second run of `eliminate_dropout` tombstones the
Dropout that the first run left. -/
theorem single_sweep_counterexample :
    run_pass (fun x => x) .fuse_convolution_activation
        (run_pass (fun x => x) .fuse_convolution_activation (clip_relu_net 0 6 : NetOptimize ℚ))
      ≠ run_pass (fun x => x) .fuse_convolution_activation (clip_relu_net 0 6 : NetOptimize ℚ) ∧
    (run_pass (fun x => x) .fuse_convolution_activation
        (clip_relu_net 0 6 : NetOptimize ℚ)).stderr
      = ["fuse_convolution_activation conv clip\n"] ∧
    (run_pass (fun x => x) .fuse_convolution_activation
        (run_pass (fun x => x) .fuse_convolution_activation
          (clip_relu_net 0 6 : NetOptimize ℚ))).stderr
      = ["fuse_convolution_activation conv clip\n", "fuse_convolution_activation conv relu\n"] ∧
    (run_pass (fun x => x) .eliminate_dropout
        (run_pass (fun x => x) .eliminate_dropout (unordered_dropout_net : NetOptimize ℚ))).stderr
      ≠ (run_pass (fun x => x) .eliminate_dropout
        (unordered_dropout_net : NetOptimize ℚ)).stderr := by
  have h1 : (run_pass (fun x => x) .fuse_convolution_activation
        (clip_relu_net 0 6 : NetOptimize ℚ)).stderr
      = ["fuse_convolution_activation conv clip\n"] := by decide!
  have h2 : (run_pass (fun x => x) .fuse_convolution_activation
        (run_pass (fun x => x) .fuse_convolution_activation
          (clip_relu_net 0 6 : NetOptimize ℚ))).stderr
      = ["fuse_convolution_activation conv clip\n",
         "fuse_convolution_activation conv relu\n"] := by decide!
  refine ⟨?_, h1, h2, ?_⟩
  · intro h
    have e := congrArg NetOptimize.stderr h
    rw [h1, h2] at e
    exact absurd e (by decide)
  · decide!

end SweepCounter

section SweepLemmas

set_option linter.unusedSectionVars false

variable {F : Type} [Field F] [DecidableEq F]

/-! ## States reached inside one sweep -/

theorem getD_set_zero (l : List Nat) (x : Nat) (h : l ≠ []) : (l.set 0 x).getD 0 0 = x := by
  cases l with
  | nil => exact absurd rfl h
  | cons a t => rfl

theorem foldl_range_succ {σ : Type} (step : σ → Nat → σ) (s : σ) (b : Nat) :
    (List.range (b + 1)).foldl step s = step ((List.range b).foldl step s) b := by
  rw [List.range_succ, List.foldl_append]
  rfl

/-- An iteration of a forward pass keeps the bottoms of every layer, and the tops
of every layer but the producer `i`. -/
theorem fuse_step_shape (pass_name pt : String) (ic : String → Bool)
    (fold : Layer F → Layer F → Layer F) (hfold : FoldFrame fold) (s : NetOptimize F)
    (i k : Nat) (hi : i < s.layers.length) :
    (layerAt (fuse_step pass_name pt ic fold s.layers.length s i).layers k).bottoms
      = (layerAt s.layers k).bottoms ∧
    (k ≠ i → (layerAt (fuse_step pass_name pt ic fold s.layers.length s i).layers k).tops
      = (layerAt s.layers k).tops) := by
  rw [fuse_step_eq]
  split_ifs with h1 h2
  · exact ⟨rfl, fun _ => rfl⟩
  · exact ⟨rfl, fun _ => rfl⟩
  · have hge := forward_scan_ge s.layers ic ((layerAt s.layers i).tops.getD 0 0)
      (s.layers.length - (i + 1)) (i + 1)
    have hle := forward_scan_le s.layers ic ((layerAt s.layers i).tops.getD 0 0)
      (s.layers.length - (i + 1)) (i + 1)
    by_cases hkj : k = forward_scan s.layers ic ((layerAt s.layers i).tops.getD 0 0)
        (s.layers.length - (i + 1)) (i + 1)
    · rw [← hkj] at hge hle h2 ⊢
      rw [fuse_pair_layer_consumer _ _ _ _ _ (by omega) (by omega)]
      exact ⟨rfl, fun _ => rfl⟩
    · by_cases hki : k = i
      · rw [hki, fuse_pair_layer_producer _ _ _ _ _ (by omega) hi]
        exact ⟨(hfold _ _).2.2, fun h => absurd rfl h⟩
      · rw [fuse_pair_layer_other _ _ _ _ _ _ hki hkj]
        exact ⟨rfl, fun _ => rfl⟩

/-- After the first `b` iterations of a forward pass every layer has the bottoms
it started with, and a layer of index `b` or more has the tops it started with. -/
theorem fuse_prefix_shape (pass_name pt : String) (ic : String → Bool)
    (fold : Layer F → Layer F → Layer F) (hfold : FoldFrame fold) (g : NetOptimize F)
    (b : Nat) (hb : b ≤ g.layers.length) (k : Nat) :
    (layerAt ((List.range b).foldl (fuse_step pass_name pt ic fold g.layers.length)
      g).layers k).bottoms = (layerAt g.layers k).bottoms ∧
    (b ≤ k → (layerAt ((List.range b).foldl (fuse_step pass_name pt ic fold g.layers.length)
      g).layers k).tops = (layerAt g.layers k).tops) := by
  induction b with
  | zero => exact ⟨rfl, fun _ => rfl⟩
  | succ b ih =>
    obtain ⟨ih1, ih2⟩ := ih (by omega)
    have hlen := fuse_foldl_length pass_name pt ic fold g.layers.length (List.range b) g
    have hstep := fuse_step_shape pass_name pt ic fold hfold
      ((List.range b).foldl (fuse_step pass_name pt ic fold g.layers.length) g) b k
      (by rw [hlen]; omega)
    rw [hlen] at hstep
    rw [foldl_range_succ]
    refine ⟨by rw [hstep.1, ih1], fun hk => ?_⟩
    rw [hstep.2 (by omega), ih2 (by omega)]

/-- The states of one forward sweep are ordered by `Terminal`. -/
theorem fuse_prefix_terminal (pass_name pt : String) (ic : String → Bool)
    (fold : Layer F → Layer F → Layer F)
    (hpt : pt ≠ "ncnnfused") (hic : ∀ ty, ic ty = true → is_consumer_kind ty = true)
    (hfold : FoldFrame fold) (g : NetOptimize F) (a b : Nat) (hab : a ≤ b)
    (hb : b ≤ g.layers.length) :
    Terminal ((List.range a).foldl (fuse_step pass_name pt ic fold g.layers.length) g)
      ((List.range b).foldl (fuse_step pass_name pt ic fold g.layers.length) g) := by
  induction b with
  | zero =>
    have : a = 0 := by omega
    subst this
    exact terminal_refl _
  | succ b ih =>
    by_cases hab2 : a = b + 1
    · subst hab2
      exact terminal_refl _
    · have hlen := fuse_foldl_length pass_name pt ic fold g.layers.length (List.range b) g
      have hstep := fuse_step_terminal pass_name pt ic fold hpt hic hfold
        ((List.range b).foldl (fuse_step pass_name pt ic fold g.layers.length) g) b
        (by rw [hlen]; omega)
      rw [hlen] at hstep
      rw [foldl_range_succ]
      exact terminal_trans _ _ _ (ih (by omega) (by omega)) hstep

end SweepLemmas
section SweepForward

set_option linter.unusedSectionVars false

variable {F : Type} [Field F] [DecidableEq F]

/-- At the end of a forward sweep over a graph without consumer chains no layer
of the producer kind has a partner left. -/
theorem forward_pass_no_partner_left (pass_name pt : String) (ic : String → Bool)
    (fold : Layer F → Layer F → Layer F)
    (hpt : pt ≠ "ncnnfused") (hic : ∀ ty, ic ty = true → is_consumer_kind ty = true)
    (hfold : FoldFrame fold) (g : NetOptimize F)
    (htop : ∀ i, i < g.layers.length → (layerAt g.layers i).type = pt →
      (layerAt g.layers i).tops ≠ [])
    (hchain : ∀ j, j < g.layers.length → ∀ k, k < g.layers.length → j ≠ k →
      ic (layerAt g.layers j).type = true → ic (layerAt g.layers k).type = true →
      (layerAt g.layers j).bottoms.length = 1 →
      (layerAt g.layers j).bottoms.getD 0 0 ≠ (layerAt g.layers k).tops.getD 0 0)
    (i j : Nat) (hi : i < g.layers.length) (hij : i < j) (hj : j < g.layers.length)
    (htype : (layerAt (forward_pass pass_name pt ic fold g).layers i).type = pt) :
    ¬ is_partner (forward_pass pass_name pt ic fold g).layers ic
      ((layerAt (forward_pass pass_name pt ic fold g).layers i).tops.getD 0 0) j := by
  intro hpart
  obtain ⟨hp1, hp2, hp3⟩ := hpart
  have hset := forward_pass_settled pass_name pt ic fold g i hi
  have TGS := fuse_prefix_terminal pass_name pt ic fold hpt hic hfold g 0 i (by omega)
    (by omega)
  have TGP := fuse_prefix_terminal pass_name pt ic fold hpt hic hfold g 0 g.layers.length
    (by omega) (by omega)
  have TSP := fuse_prefix_terminal pass_name pt ic fold hpt hic hfold g i g.layers.length
    (by omega) (by omega)
  have TS1 := fuse_prefix_terminal pass_name pt ic fold hpt hic hfold g i (i + 1)
    (by omega) (by omega)
  have T1P := fuse_prefix_terminal pass_name pt ic fold hpt hic hfold g (i + 1)
    g.layers.length (by omega) (by omega)
  have shP := fuse_prefix_shape pass_name pt ic fold hfold g g.layers.length (by omega)
  have shS := fuse_prefix_shape pass_name pt ic fold hfold g i (by omega)
  have hlen := fuse_foldl_length pass_name pt ic fold g.layers.length (List.range i) g
  rw [foldl_range_succ] at TS1 T1P
  simp only [List.range_zero, List.foldl_nil] at TGS TGP
  obtain ⟨P, hP⟩ : ∃ P, P = forward_pass pass_name pt ic fold g := ⟨_, rfl⟩
  have hP2 : P = (List.range g.layers.length).foldl
      (fuse_step pass_name pt ic fold g.layers.length) g := hP
  obtain ⟨S, hS⟩ : ∃ S, S = (List.range i).foldl
      (fuse_step pass_name pt ic fold g.layers.length) g := ⟨_, rfl⟩
  rw [← hP] at htype hp1 hp2 hp3 hset
  rw [← hP2] at TGP TSP T1P shP
  rw [← hS] at TGS TSP TS1 T1P shS hlen hset
  rw [← hlen] at TS1 T1P hset
  have hiS : i < S.layers.length := by omega
  -- the consumer `j`
  have hjlive : (layerAt P.layers j).type ≠ "ncnnfused" := consumer_kind_live _ (hic _ hp1)
  have hjg : (layerAt P.layers j).type = (layerAt g.layers j).type := by
    rcases (TGP.2 j).1 with h | h
    · exact h
    · exact absurd h hjlive
  have hjS : (layerAt P.layers j).type = (layerAt S.layers j).type := by
    rcases (TSP.2 j).1 with h | h
    · exact h
    · exact absurd h hjlive
  have hbg : (layerAt P.layers j).bottoms = (layerAt g.layers j).bottoms := (shP j).1
  have hbS : (layerAt S.layers j).bottoms = (layerAt g.layers j).bottoms := (shS j).1
  -- the producer `i`
  have htype1 : (layerAt (fuse_step pass_name pt ic fold S.layers.length S i).layers i).type
      = pt := by rw [← hset]; exact htype
  have htypeS : (layerAt S.layers i).type = pt := by
    rcases (TS1.2 i).1 with h | h
    · rw [← h]; exact htype1
    · rw [htype1] at h; exact absurd h hpt
  have htypeg : (layerAt g.layers i).type = pt := by
    rcases (TGS.2 i).1 with h | h
    · rw [← h]; exact htypeS
    · rw [htypeS] at h; exact absurd h hpt
  have htopsS : (layerAt S.layers i).tops = (layerAt g.layers i).tops := (shS i).2 (le_refl i)
  obtain ⟨j0, hj0⟩ : ∃ j0, j0 = forward_scan S.layers ic ((layerAt S.layers i).tops.getD 0 0)
      (S.layers.length - (i + 1)) (i + 1) := ⟨_, rfl⟩
  by_cases hscan : j0 = S.layers.length
  · have hidle : fuse_step pass_name pt ic fold S.layers.length S i = S := by
      rw [fuse_step_eq, ← hj0, if_neg (not_not.mpr htypeS), if_pos hscan]
    rw [hidle] at hset
    rw [hset] at hp3
    refine forward_scan_skipped S.layers ic ((layerAt S.layers i).tops.getD 0 0)
      (S.layers.length - (i + 1)) (i + 1) j (by omega) (by rw [← hj0, hscan]; omega) ?_
    exact ⟨by rw [← hjS]; exact hp1, by rw [hbS, ← hbg]; exact hp2,
      by rw [hbS, ← hbg]; exact hp3⟩
  · have hprod := fuse_step_producer pass_name pt ic fold S i j0 hiS htypeS hj0 hscan
    have hcons := fuse_step_consumer pass_name pt ic fold S i j0 hiS htypeS hj0 hscan
    obtain ⟨⟨hij0, hj0n, _, _, _⟩, hm1, _, _⟩ :=
      forward_match pt ic S i j0 hpt hic hiS htypeS hj0 hscan
    have hj0live : (layerAt S.layers j0).type ≠ "ncnnfused" := consumer_kind_live _ (hic _ hm1)
    have hj0g : (layerAt S.layers j0).type = (layerAt g.layers j0).type := by
      rcases (TGS.2 j0).1 with h | h
      · exact h
      · exact absurd h hj0live
    have hj0tops : (layerAt S.layers j0).tops = (layerAt g.layers j0).tops :=
      (shS j0).2 (by omega)
    have hne : j ≠ j0 := by
      intro e
      have h1 : (layerAt (fuse_step pass_name pt ic fold S.layers.length S i).layers j0).type
          = "ncnnfused" := by rw [hcons]
      have h2 := (T1P.2 j0).2 h1
      rw [← e] at h2 h1
      rw [h2] at hjlive
      exact hjlive h1
    have htopsP : (layerAt P.layers i).tops.getD 0 0 = (layerAt g.layers j0).tops.getD 0 0 := by
      rw [hset, hprod]
      show ((fold (layerAt S.layers i) (layerAt S.layers j0)).tops.set 0
        ((layerAt S.layers j0).tops.getD 0 0)).getD 0 0 = _
      rw [(hfold _ _).2.1, htopsS, getD_set_zero _ _ (htop i hi htypeg), hj0tops]
    refine hchain j hj j0 (by omega) hne (by rw [← hjg]; exact hp1)
      (by rw [← hj0g]; exact hm1) (by rw [← hbg]; exact hp2) ?_
    rw [← hbg, hp3, htopsP]

/-- A second run of a forward pass over the result of the first changes nothing,
when the graph has no consumer chain. -/
theorem forward_pass_twice (pass_name pt : String) (ic : String → Bool)
    (fold : Layer F → Layer F → Layer F)
    (hpt : pt ≠ "ncnnfused") (hic : ∀ ty, ic ty = true → is_consumer_kind ty = true)
    (hfold : FoldFrame fold) (g : NetOptimize F)
    (htop : ∀ i, i < g.layers.length → (layerAt g.layers i).type = pt →
      (layerAt g.layers i).tops ≠ [])
    (hchain : ∀ j, j < g.layers.length → ∀ k, k < g.layers.length → j ≠ k →
      ic (layerAt g.layers j).type = true → ic (layerAt g.layers k).type = true →
      (layerAt g.layers j).bottoms.length = 1 →
      (layerAt g.layers j).bottoms.getD 0 0 ≠ (layerAt g.layers k).tops.getD 0 0) :
    forward_pass pass_name pt ic fold (forward_pass pass_name pt ic fold g)
      = forward_pass pass_name pt ic fold g := by
  obtain ⟨P, hP⟩ : ∃ P, P = forward_pass pass_name pt ic fold g := ⟨_, rfl⟩
  have hlen : P.layers.length = g.layers.length := by
    rw [hP]; exact fuse_foldl_length _ _ _ _ _ _ _
  rw [← hP]
  unfold forward_pass
  apply foldl_fixed
  intro i hi
  have hi2 := List.mem_range.mp hi
  apply fuse_step_no_partner _ _ _ _ _ _ hi2
  intro ht j hij hj
  rw [hlen] at hi2 hj
  rw [hP] at ht ⊢
  exact forward_pass_no_partner_left pass_name pt ic fold hpt hic hfold g htop hchain i j
    hi2 hij hj ht

end SweepForward
section SweepDropout

set_option linter.unusedSectionVars false

variable {F : Type} [Field F] [DecidableEq F]

/-- The states of one sweep of `eliminate_dropout` are ordered by `Terminal`. -/
theorem eliminate_prefix_terminal (g : NetOptimize F) (a b : Nat) (hab : a ≤ b)
    (hb : b ≤ g.layers.length) :
    Terminal ((List.range a).foldl eliminate_step g) ((List.range b).foldl eliminate_step g) := by
  induction b with
  | zero =>
    have : a = 0 := by omega
    subst this
    exact terminal_refl _
  | succ b ih =>
    by_cases hab2 : a = b + 1
    · subst hab2
      exact terminal_refl _
    · have hlen := eliminate_foldl_length (List.range b) g
      rw [foldl_range_succ]
      exact terminal_trans _ _ _ (ih (by omega) (by omega))
        (eliminate_step_terminal _ b (by rw [hlen]; omega))

/-- An iteration of `eliminate_dropout` keeps the number of tops of every layer;
a first top changes only to the first top of the Dropout of scale 1 on which the
iteration stands. -/
theorem eliminate_step_tops (s : NetOptimize F) (m k : Nat) (hm : m < s.layers.length) :
    (layerAt (eliminate_step s m).layers k).tops.length = (layerAt s.layers k).tops.length ∧
    ((layerAt (eliminate_step s m).layers k).tops.getD 0 0 = (layerAt s.layers k).tops.getD 0 0 ∨
      ((layerAt s.layers m).type = "Dropout" ∧ (layerAt s.layers m).scale = 1 ∧
        (layerAt (eliminate_step s m).layers k).tops.getD 0 0
          = (layerAt s.layers m).tops.getD 0 0)) := by
  rw [eliminate_step_eq]
  split_ifs with h1 h2 h3
  · exact ⟨rfl, Or.inl rfl⟩
  · exact ⟨rfl, Or.inl rfl⟩
  · exact ⟨rfl, Or.inl rfl⟩
  · have htype : (layerAt s.layers m).type = "Dropout" := not_not.mp h1
    have hscale : (layerAt s.layers m).scale = 1 := not_not.mp h2
    obtain ⟨⟨hjm, _, _, _, _⟩, _⟩ := backward_match s m _ hm htype rfl h3
    by_cases hkm : k = m
    · rw [hkm, eliminate_pair_layer_dropout s m _ (by omega) hm]
      exact ⟨rfl, Or.inl rfl⟩
    · by_cases hkj : k = (backward_scan s.layers
          ((layerAt s.layers m).bottoms.getD 0 0) m).toNat
      · rw [hkj, eliminate_pair_layer_source s m _ (by omega) (by omega)]
        refine ⟨List.length_set _ _ _, ?_⟩
        by_cases hnil : (layerAt s.layers (backward_scan s.layers
            ((layerAt s.layers m).bottoms.getD 0 0) m).toNat).tops = []
        · left
          show (((layerAt s.layers _).tops.set 0 _).getD 0 0) = _
          rw [hnil]
          rfl
        · right
          exact ⟨htype, hscale, getD_set_zero _ _ hnil⟩
      · rw [eliminate_pair_layer_other s m _ k hkm hkj]
        exact ⟨rfl, Or.inl rfl⟩

/-- Between two states of one sweep of `eliminate_dropout` a layer keeps its
number of tops, and its first top is either unchanged or the first top that a
Dropout of scale 1 visited in between had in the input graph. -/
theorem eliminate_prefix_tops (g : NetOptimize F) (a b : Nat) (hab : a ≤ b)
    (hb : b ≤ g.layers.length) (k : Nat) :
    (layerAt ((List.range b).foldl eliminate_step g).layers k).tops.length
      = (layerAt ((List.range a).foldl eliminate_step g).layers k).tops.length ∧
    ((layerAt ((List.range b).foldl eliminate_step g).layers k).tops.getD 0 0
        = (layerAt ((List.range a).foldl eliminate_step g).layers k).tops.getD 0 0 ∨
      ∃ d, a ≤ d ∧ d < b ∧ (layerAt g.layers d).type = "Dropout" ∧
        (layerAt g.layers d).scale = 1 ∧
        (layerAt ((List.range b).foldl eliminate_step g).layers k).tops.getD 0 0
          = (layerAt g.layers d).tops.getD 0 0) := by
  induction b with
  | zero =>
    have : a = 0 := by omega
    subst this
    exact ⟨rfl, Or.inl rfl⟩
  | succ b ih =>
    by_cases hab2 : a = b + 1
    · subst hab2
      exact ⟨rfl, Or.inl rfl⟩
    · obtain ⟨ih1, ih2⟩ := ih (by omega) (by omega)
      have hlen := eliminate_foldl_length (List.range b) g
      have hsame : layerAt ((List.range b).foldl eliminate_step g).layers b
          = layerAt g.layers b :=
        eliminate_foldl_layer_after (List.range b) b g
          (fun i hi => ⟨by have := List.mem_range.mp hi; omega, List.mem_range.mp hi⟩)
      obtain ⟨st1, st2⟩ := eliminate_step_tops ((List.range b).foldl eliminate_step g) b k
        (by rw [hlen]; omega)
      rw [hsame] at st2
      rw [foldl_range_succ]
      refine ⟨by rw [st1, ih1], ?_⟩
      rcases st2 with e | ⟨e1, e2, e3⟩
      · rcases ih2 with f | ⟨d, d1, d2, d3, d4, d5⟩
        · exact Or.inl (by rw [e, f])
        · exact Or.inr ⟨d, d1, by omega, d3, d4, by rw [e, d5]⟩
      · exact Or.inr ⟨b, by omega, by omega, e1, e2, e3⟩

end SweepDropout
section SweepDropoutMain

set_option linter.unusedSectionVars false

variable {F : Type} [Field F] [DecidableEq F]

/-- At the end of a sweep of `eliminate_dropout` over a graph in which no Dropout
of scale 1 reads a later one, no Dropout of scale 1 has a source left. -/
theorem eliminate_dropout_no_source_left (g : NetOptimize F)
    (hchain : ∀ i, i < g.layers.length → ∀ k, k < g.layers.length → ¬ dropout_chain g i k)
    (i j : Nat) (hi : i < g.layers.length) (hji : j < i)
    (htype : (layerAt (eliminate_dropout g).layers i).type = "Dropout")
    (hscale : (layerAt (eliminate_dropout g).layers i).scale = 1) :
    ¬ is_source (eliminate_dropout g).layers
      ((layerAt (eliminate_dropout g).layers i).bottoms.getD 0 0) j := by
  intro hsrc
  obtain ⟨hs1, hs2, hs3⟩ := hsrc
  have TS1 := eliminate_prefix_terminal g i (i + 1) (by omega) (by omega)
  have TSP := eliminate_prefix_terminal g i g.layers.length (by omega) (by omega)
  have T1P := eliminate_prefix_terminal g (i + 1) g.layers.length (by omega) (by omega)
  have FP := dropoutFrame_foldl g (List.range g.layers.length)
    (fun k hk => List.mem_range.mp hk) g (dropoutFrame_refl g)
  have trace := eliminate_prefix_tops g (i + 1) g.layers.length (by omega) (by omega) j
  have hsame : layerAt ((List.range i).foldl eliminate_step g).layers i = layerAt g.layers i :=
    eliminate_foldl_layer_after (List.range i) i g
      (fun k hk => ⟨by have := List.mem_range.mp hk; omega, List.mem_range.mp hk⟩)
  have hlen := eliminate_foldl_length (List.range i) g
  rw [foldl_range_succ] at TS1 T1P trace
  obtain ⟨P, hP⟩ : ∃ P, P = eliminate_dropout g := ⟨_, rfl⟩
  have hP2 : P = (List.range g.layers.length).foldl eliminate_step g := hP
  obtain ⟨S, hS⟩ : ∃ S, S = (List.range i).foldl eliminate_step g := ⟨_, rfl⟩
  rw [← hP] at htype hscale hs1 hs2 hs3
  rw [← hP2] at TSP T1P FP trace
  rw [← hS] at TS1 TSP T1P trace hsame hlen
  have hiS : i < S.layers.length := by omega
  -- the Dropout `i`
  have hframe := (FP.2 i).1
  unfold same_but_type_tops at hframe
  have hscaleg : (layerAt g.layers i).scale = 1 := by
    have e := congrArg Layer.scale hframe
    rw [← hscale]; exact e.symm
  have hbotg : (layerAt g.layers i).bottoms = (layerAt P.layers i).bottoms := by
    have e := congrArg Layer.bottoms hframe
    exact e.symm
  have htype1 : (layerAt (eliminate_step S i).layers i).type = "Dropout" := by
    rcases (T1P.2 i).1 with h | h
    · rw [← h]; exact htype
    · rw [htype] at h; exact absurd h (by decide)
  have htypeS : (layerAt S.layers i).type = "Dropout" := by
    rcases (TS1.2 i).1 with h | h
    · rw [← h]; exact htype1
    · rw [htype1] at h; exact absurd h (by decide)
  have htypeg : (layerAt g.layers i).type = "Dropout" := by rw [← hsame]; exact htypeS
  have hscaleS : (layerAt S.layers i).scale = 1 := by rw [hsame]; exact hscaleg
  have hbotS : (layerAt S.layers i).bottoms = (layerAt P.layers i).bottoms := by
    rw [hsame]; exact hbotg
  -- the scan of iteration `i` found nothing
  have hscan : backward_scan S.layers ((layerAt S.layers i).bottoms.getD 0 0) i = -1 := by
    by_contra hne
    obtain ⟨⟨hlt, _, _, _, _⟩, _⟩ := backward_match S i _ hiS htypeS rfl hne
    have hfire : eliminate_step S i = eliminate_pair S i
        (backward_scan S.layers ((layerAt S.layers i).bottoms.getD 0 0) i).toNat := by
      rw [eliminate_step_eq, if_neg (not_not.mpr htypeS), if_neg (not_not.mpr hscaleS),
        if_neg hne]
    rw [hfire, eliminate_pair_layer_dropout S i _ (by omega) hiS] at htype1
    have h2 : ("ncnnfused" : String) = "Dropout" := htype1
    exact absurd h2 (by decide)
  have hidle : eliminate_step S i = S := by
    rw [eliminate_step_eq, if_neg (not_not.mpr htypeS), if_neg (not_not.mpr hscaleS),
      if_pos hscan]
  rw [hidle] at trace
  have hnone : ¬ is_source S.layers ((layerAt S.layers i).bottoms.getD 0 0) j :=
    backward_scan_skipped S.layers _ i j hji (by rw [hscan]; omega)
  have hjS : (layerAt S.layers j).type ≠ "ncnnfused" := by
    intro h
    have e := (TSP.2 j).2 h
    rw [e] at hs1
    exact hs1 h
  obtain ⟨tr1, tr2⟩ := trace
  rcases tr2 with e | ⟨d, d1, d2, d3, d4, d5⟩
  · exact hnone ⟨hjS, by rw [← tr1]; exact hs2, by rw [← e, hbotS]; exact hs3⟩
  · refine hchain i hi d d2 ⟨by omega, htypeg, hscaleg, d3, d4, ?_⟩
    rw [hbotg, ← hs3, d5]

/-- A second run of `eliminate_dropout` over the result of the first changes
nothing, when no Dropout of scale 1 reads a later Dropout of scale 1. -/
theorem eliminate_dropout_twice (g : NetOptimize F)
    (hchain : ∀ i, i < g.layers.length → ∀ k, k < g.layers.length → ¬ dropout_chain g i k) :
    eliminate_dropout (eliminate_dropout g) = eliminate_dropout g := by
  obtain ⟨P, hP⟩ : ∃ P, P = eliminate_dropout g := ⟨_, rfl⟩
  have hlen : P.layers.length = g.layers.length := by
    rw [hP]; exact eliminate_foldl_length _ _
  rw [← hP]
  unfold eliminate_dropout
  apply foldl_fixed
  intro i hi
  have hi2 := List.mem_range.mp hi
  apply eliminate_step_no_source
  intro ht hs j hj
  rw [hlen] at hi2
  rw [hP] at ht hs ⊢
  exact eliminate_dropout_no_source_left g hchain i j hi2 hj ht hs

theorem producer_kind_live (p : Pass) : p.producer_kind ≠ "ncnnfused" := by
  cases p <;> decide

theorem consumer_test_kind (p : Pass) (ty : String) (h : p.consumer_test ty = true) :
    is_consumer_kind ty = true := by
  cases p
  · exact is_scale_kind ty h
  · exact is_batchnorm_kind ty h
  · exact is_batchnorm_kind ty h
  · exact is_batchnorm_kind ty h
  · exact is_batchnorm_kind ty h
  · exact is_batchnorm_kind ty h
  · exact is_activation_kind ty h
  · exact is_activation_kind ty h
  · exact is_activation_kind ty h
  · exact is_activation_kind ty h
  · exact is_activation_kind ty h
  · exact absurd h (by simp [Pass.consumer_test])

theorem foldFrame_pass (sqrt : F → F) (p : Pass) : FoldFrame (p.fold sqrt) := by
  cases p
  · exact foldFrame_scale
  · exact foldFrame_batchnorm sqrt
  · exact foldFrame_batchnorm sqrt
  · exact foldFrame_batchnorm sqrt
  · exact foldFrame_batchnorm sqrt
  · exact foldFrame_batchnorm sqrt
  · exact foldFrame_activation
  · exact foldFrame_activation
  · exact foldFrame_activation
  · exact foldFrame_activation
  · exact foldFrame_activation
  · exact fun _ _ => ⟨rfl, rfl, rfl⟩

end SweepDropoutMain

section SweepClaim

set_option linter.unusedSectionVars false

variable {F : Type} [Field F] [DecidableEq F]

/-- C30 (amended). For every pass `p` (each of the eleven fusion passes and
`eliminate_dropout`) and every graph `g` without a chain for `p`, running `p`
again on `p(g)` performs no further rewrite: `p(p(g)) = p(g)`, and the second run
emits no diagnostic line.  A graph has no chain for a forward pass when every
layer of the producer kind has a top and no layer passing the consumer test has
as its single bottom the first top of another layer passing the consumer test;
for `eliminate_dropout`, when no Dropout of scale 1 has as its first bottom the
first top of a later Dropout of scale 1. -/
theorem single_sweep_fixed_point (sqrt : F → F) (p : Pass) (g : NetOptimize F)
    (h : Unchained p g) :
    run_pass sqrt p (run_pass sqrt p g) = run_pass sqrt p g ∧
    (run_pass sqrt p (run_pass sqrt p g)).stderr = (run_pass sqrt p g).stderr := by
  have key : run_pass sqrt p (run_pass sqrt p g) = run_pass sqrt p g := by
    by_cases hp : p = .eliminate_dropout
    · subst hp
      unfold Unchained at h
      rw [if_pos rfl] at h
      exact eliminate_dropout_twice g h
    · unfold Unchained at h
      rw [if_neg hp] at h
      rw [run_pass_eq_forward sqrt p hp, run_pass_eq_forward sqrt p hp]
      refine forward_pass_twice p.pass_name p.producer_kind p.consumer_test (p.fold sqrt)
        (producer_kind_live p) (consumer_test_kind p) (foldFrame_pass sqrt p) g h.1 ?_
      intro j hj k hk hne c1 c2 c3 c4
      exact h.2 j hj k hk ⟨hne, c1, c2, c3, c4⟩
  exact ⟨key, by rw [key]⟩

/-- The amended C30 at work on `Input -> Convolution -> Clip`: the graph has no
chain, the first run of `fuse_convolution_activation` fuses the Clip, and the
second run changes nothing. -/
theorem single_sweep_fixed_point_witness :
    Unchained .fuse_convolution_activation (clip_net 0 6 : NetOptimize ℚ) ∧
    (run_pass (fun x => x) .fuse_convolution_activation
        (run_pass (fun x => x) .fuse_convolution_activation (clip_net 0 6 : NetOptimize ℚ))
      = run_pass (fun x => x) .fuse_convolution_activation (clip_net 0 6 : NetOptimize ℚ) ∧
    (run_pass (fun x => x) .fuse_convolution_activation
        (run_pass (fun x => x) .fuse_convolution_activation
          (clip_net 0 6 : NetOptimize ℚ))).stderr
      = (run_pass (fun x => x) .fuse_convolution_activation
          (clip_net 0 6 : NetOptimize ℚ)).stderr) :=
  ⟨by decide, single_sweep_fixed_point (fun x => x) .fuse_convolution_activation
    (clip_net 0 6 : NetOptimize ℚ) (by decide)⟩

end SweepClaim

section OtherConsumers

set_option linter.unusedSectionVars false

variable {F : Type} [Field F] [DecidableEq F]

/-- The result of the forward scan started after `i` is the same in two layer
lists that agree on the layers in `(i, j]`, whatever their other layers and
their lengths. -/
theorem forward_scan_local (layers1 layers2 : List (Layer F)) (ic : String → Bool)
    (t r1 r2 i j : Nat) (h1 : forward_scan layers1 ic t r1 (i + 1) = j)
    (hj1 : j < i + 1 + r1) (hj2 : j < i + 1 + r2)
    (hk : ∀ k, i < k → k ≤ j → layerAt layers1 k = layerAt layers2 k) :
    forward_scan layers2 ic t r2 (i + 1) = j := by
  have hge := forward_scan_ge layers1 ic t r1 (i + 1)
  rw [h1] at hge
  have hp : is_partner layers1 ic t j := by
    have := forward_scan_found layers1 ic t r1 (i + 1) (by rw [h1]; omega)
    rw [h1] at this
    exact this
  refine forward_scan_eq_of_least layers2 ic t r2 (i + 1) j hge hj2 ?_ ?_
  · unfold is_partner at hp ⊢
    rw [← hk j (by omega) (le_refl j)]
    exact hp
  · intro k hik hkj hpk
    refine forward_scan_skipped layers1 ic t r1 (i + 1) k hik (by rw [h1]; exact hkj) ?_
    unfold is_partner at hpk ⊢
    rw [hk k (by omega) (by omega)]
    exact hpk

/-- C31 (fusion does not check for other consumers). There is a graph in which
the top of a BatchNorm is the bottom of a single-bottom Scale and of another live
layer, and `fuse_batchnorm_scale` fuses the pair: the Scale is tombstoned and a
diagnostic line is printed; afterwards the other layer is live and still reads
that blob, no live layer has the blob among its tops, and the layer recorded as
the blob's producer no longer computes the BatchNorm's original output.  The
decision of an iteration of a forward pass to fuse the layer `i` with the partner
`j` is the same in two states that agree on the layer `i` and on the layers in
`(i, j]`. -/
theorem other_consumers_unchecked (pt : String) (ic : String → Bool)
    (s1 s2 : NetOptimize F) (i j : Nat) (hij : i < j)
    (hj1 : j < s1.layers.length) (hj2 : j < s2.layers.length)
    (hi : layerAt s1.layers i = layerAt s2.layers i)
    (hk : ∀ k, i < k → k ≤ j → layerAt s1.layers k = layerAt s2.layers k) :
    (∃ g : NetOptimize ℚ,
      (layerAt g.layers 1).type = "BatchNorm" ∧ (layerAt g.layers 1).tops = [1] ∧
      (layerAt g.layers 2).type = "Scale" ∧ (layerAt g.layers 2).bottoms = [1] ∧
      (layerAt g.layers 3).type ≠ "ncnnfused" ∧ 1 ∈ (layerAt g.layers 3).bottoms ∧
      (layerAt (fuse_batchnorm_scale g).layers 2).type = "ncnnfused" ∧
      (fuse_batchnorm_scale g).stderr = g.stderr ++ ["fuse_batchnorm_scale bn scale\n"] ∧
      (layerAt (fuse_batchnorm_scale g).layers 3).type ≠ "ncnnfused" ∧
      1 ∈ (layerAt (fuse_batchnorm_scale g).layers 3).bottoms ∧
      (∀ k, k < (fuse_batchnorm_scale g).layers.length →
        (layerAt (fuse_batchnorm_scale g).layers k).type ≠ "ncnnfused" →
        1 ∉ (layerAt (fuse_batchnorm_scale g).layers k).tops) ∧
      ((fuse_batchnorm_scale g).blobs.getD 1 Blob.blank).producer = 1 ∧
      batchnorm_forward (fun x => x) (layerAt (fuse_batchnorm_scale g).layers 1) 0 1
        ≠ batchnorm_forward (fun x => x) (layerAt g.layers 1) 0 1) ∧
    (((layerAt s1.layers i).type = pt ∧
        forward_scan s1.layers ic ((layerAt s1.layers i).tops.getD 0 0)
          (s1.layers.length - (i + 1)) (i + 1) = j) ↔
      ((layerAt s2.layers i).type = pt ∧
        forward_scan s2.layers ic ((layerAt s2.layers i).tops.getD 0 0)
          (s2.layers.length - (i + 1)) (i + 1) = j)) := by
  refine ⟨⟨shared_top_net, by decide!⟩, ?_⟩
  rw [hi]
  constructor
  · rintro ⟨ht, hs⟩
    exact ⟨ht, forward_scan_local s1.layers s2.layers ic _ _ _ i j hs (by omega) (by omega) hk⟩
  · rintro ⟨ht, hs⟩
    exact ⟨ht, forward_scan_local s2.layers s1.layers ic _ _ _ i j hs (by omega) (by omega)
      (fun k h1 h2 => (hk k h1 h2).symm)⟩

/-- The locality of C31 on `shared_top_net` and `scale_only_net`, which agree on
the BatchNorm at index 1 and the Scale at index 2 and differ elsewhere: the
iteration on the BatchNorm decides to fuse it with the Scale in both. -/
theorem other_consumers_unchecked_witness :
    (((layerAt (shared_top_net : NetOptimize ℚ).layers 1).type = "BatchNorm" ∧
        forward_scan (shared_top_net : NetOptimize ℚ).layers is_scale
          ((layerAt (shared_top_net : NetOptimize ℚ).layers 1).tops.getD 0 0)
          ((shared_top_net : NetOptimize ℚ).layers.length - (1 + 1)) (1 + 1) = 2) ↔
      ((layerAt (scale_only_net : NetOptimize ℚ).layers 1).type = "BatchNorm" ∧
        forward_scan (scale_only_net : NetOptimize ℚ).layers is_scale
          ((layerAt (scale_only_net : NetOptimize ℚ).layers 1).tops.getD 0 0)
          ((scale_only_net : NetOptimize ℚ).layers.length - (1 + 1)) (1 + 1) = 2)) ∧
    (layerAt (shared_top_net : NetOptimize ℚ).layers 1).type = "BatchNorm" ∧
    (shared_top_net : NetOptimize ℚ).layers.length ≠ (scale_only_net : NetOptimize ℚ).layers.length :=
  ⟨(other_consumers_unchecked "BatchNorm" is_scale (shared_top_net : NetOptimize ℚ)
    scale_only_net 1 2 (by decide) (by decide) (by decide) (by decide)
    (fun k h1 h2 => by
      have : k = 2 := by omega
      subst this
      decide)).2, by decide, by decide⟩

end OtherConsumers

section ActivationArray

set_option linter.unusedSectionVars false

variable {F : Type} [Field F] [DecidableEq F]

/-! ## The activation parameters in the parameter file -/

end ActivationArray

section FrameClaim

set_option linter.unusedSectionVars false

variable {F : Type} [Field F] [DecidableEq F]

/-! ## Frame of a rewrite -/

theorem set_producer_getD_blob (blobs : List Blob) (t : Nat) (p : Int) (u : Nat) :
    (set_producer blobs t p).getD u Blob.blank =
      if u = t ∧ t < blobs.length then { blobs.getD t Blob.blank with producer := p }
      else blobs.getD u Blob.blank := by
  unfold set_producer
  simp only [List.getD_eq_getElem?_getD, List.getElem?_set]
  by_cases h : t = u
  · subst h
    by_cases hl : t < blobs.length
    · simp [hl]
    · simp [hl, List.getElem?_eq_none (Nat.not_lt.mp hl)]
  · have h2 : ¬ u = t := fun e => h e.symm
    simp [h, h2]

theorem reroute_blob (s : NetOptimize F) (p c u : Nat) :
    (reroute s p c).blobs.getD u Blob.blank =
      if u = (layerAt s.layers c).tops.getD 0 0 ∧
          (layerAt s.layers c).tops.getD 0 0 < s.blobs.length
      then { s.blobs.getD ((layerAt s.layers c).tops.getD 0 0) Blob.blank with producer := p }
      else s.blobs.getD u Blob.blank := by
  simp only [reroute]
  exact set_producer_getD_blob _ _ _ _

theorem fold_scale_touched (batchnorm scale : Layer F) :
    { fold_scale batchnorm scale with
      slope_data := batchnorm.slope_data, bias_data := batchnorm.bias_data } = batchnorm := rfl

theorem fold_batchnorm_touched (sqrt : F → F) (convolution batchnorm : Layer F) :
    { fold_batchnorm sqrt convolution batchnorm with
      weight_data := convolution.weight_data, bias_data := convolution.bias_data,
      bias_term := convolution.bias_term } = convolution := by
  by_cases h : convolution.bias_term = 0
  · simp only [fold_batchnorm, if_pos h]
  · simp only [fold_batchnorm, if_neg h]

theorem fold_activation_touched (convolution activation : Layer F) :
    { fold_activation convolution activation with
      activation_type := convolution.activation_type,
      activation_params := convolution.activation_params } = convolution := by
  unfold fold_activation
  split_ifs <;> rfl

theorem fold_touched_only (sqrt : F → F) (p : Pass) (l c : Layer F) :
    touched_only p l (p.fold sqrt l c) := by
  cases p
  · exact fold_scale_touched l c
  · exact fold_batchnorm_touched sqrt l c
  · exact fold_batchnorm_touched sqrt l c
  · exact fold_batchnorm_touched sqrt l c
  · exact fold_batchnorm_touched sqrt l c
  · exact fold_batchnorm_touched sqrt l c
  · exact fold_activation_touched l c
  · exact fold_activation_touched l c
  · exact fold_activation_touched l c
  · exact fold_activation_touched l c
  · exact fold_activation_touched l c
  · rfl

theorem fold_pass_name (sqrt : F → F) (p : Pass) (l c : Layer F) :
    (p.fold sqrt l c).name = l.name := by
  have h := fold_touched_only sqrt p l c
  cases p <;>
    (unfold touched_only at h
     have e := congrArg Layer.name h
     exact e)

/-- C33 (frame of a fusion step). Let `i < j` be layers of the state `s`, `t` the
first top of layer `j`, and `s1` the state after the rewrite of a forward pass `p`
for producer `i` and consumer `j`.  The numbers of layers and of blobs are
unchanged; layer `j` changes in its type only, which becomes "ncnnfused"; layer
`i` changes in its first top, which becomes `t`, and in the fields of the numeric
block of `p` only; every other layer is unchanged, and every layer keeps its name
and its bottoms; the blob `t` changes in its producer only, which becomes `i`, and
every other blob is unchanged, so the blob that was the first top of `i` still has
producer `i` if it had before.  The rewrite of `eliminate_dropout` for the
Dropout `j` and the found layer `i` changes layer `j` in its type only, layer `i`
in its first top only (its single top, when it has one top), the blob `t` in its
producer only, and nothing else but the diagnostic stream. -/
theorem fusion_step_frame (sqrt : F → F) (p : Pass) (s : NetOptimize F) (i j : Nat)
    (hij : i < j) (hj : j < s.layers.length) :
    ((fuse_pair p.pass_name (p.fold sqrt) s i j).layers.length = s.layers.length ∧
      (fuse_pair p.pass_name (p.fold sqrt) s i j).blobs.length = s.blobs.length ∧
      layerAt (fuse_pair p.pass_name (p.fold sqrt) s i j).layers j
        = { layerAt s.layers j with type := "ncnnfused" } ∧
      (layerAt (fuse_pair p.pass_name (p.fold sqrt) s i j).layers i).tops
        = (layerAt s.layers i).tops.set 0 ((layerAt s.layers j).tops.getD 0 0) ∧
      touched_only p (layerAt s.layers i)
        { layerAt (fuse_pair p.pass_name (p.fold sqrt) s i j).layers i with
          tops := (layerAt s.layers i).tops } ∧
      (∀ k, k ≠ i → k ≠ j →
        layerAt (fuse_pair p.pass_name (p.fold sqrt) s i j).layers k = layerAt s.layers k) ∧
      (∀ k, (layerAt (fuse_pair p.pass_name (p.fold sqrt) s i j).layers k).name
          = (layerAt s.layers k).name ∧
        (layerAt (fuse_pair p.pass_name (p.fold sqrt) s i j).layers k).bottoms
          = (layerAt s.layers k).bottoms) ∧
      (∀ u, (fuse_pair p.pass_name (p.fold sqrt) s i j).blobs.getD u Blob.blank =
        if u = (layerAt s.layers j).tops.getD 0 0 ∧
            (layerAt s.layers j).tops.getD 0 0 < s.blobs.length
        then { s.blobs.getD ((layerAt s.layers j).tops.getD 0 0) Blob.blank with
               producer := (i : Int) }
        else s.blobs.getD u Blob.blank) ∧
      ((s.blobs.getD ((layerAt s.layers i).tops.getD 0 0) Blob.blank).producer = (i : Int) →
        ((fuse_pair p.pass_name (p.fold sqrt) s i j).blobs.getD
          ((layerAt s.layers i).tops.getD 0 0) Blob.blank).producer = (i : Int)) ∧
      (fuse_pair p.pass_name (p.fold sqrt) s i j).stderr = s.stderr ++
        [diagnostic p.pass_name (layerAt s.layers i).name (layerAt s.layers j).name]) ∧
    ((eliminate_pair s j i).layers.length = s.layers.length ∧
      (eliminate_pair s j i).blobs.length = s.blobs.length ∧
      layerAt (eliminate_pair s j i).layers j
        = { layerAt s.layers j with type := "ncnnfused" } ∧
      layerAt (eliminate_pair s j i).layers i
        = { layerAt s.layers i with
            tops := (layerAt s.layers i).tops.set 0 ((layerAt s.layers j).tops.getD 0 0) } ∧
      ((layerAt s.layers i).tops.length = 1 →
        (layerAt (eliminate_pair s j i).layers i).tops = [(layerAt s.layers j).tops.getD 0 0]) ∧
      (∀ k, k ≠ i → k ≠ j → layerAt (eliminate_pair s j i).layers k = layerAt s.layers k) ∧
      (∀ u, (eliminate_pair s j i).blobs.getD u Blob.blank =
        if u = (layerAt s.layers j).tops.getD 0 0 ∧
            (layerAt s.layers j).tops.getD 0 0 < s.blobs.length
        then { s.blobs.getD ((layerAt s.layers j).tops.getD 0 0) Blob.blank with
               producer := (i : Int) }
        else s.blobs.getD u Blob.blank) ∧
      (eliminate_pair s j i).stderr = s.stderr ++
        [diagnostic "eliminate_dropout" (layerAt s.layers i).name (layerAt s.layers j).name]) := by
  have hne : i ≠ j := by omega
  have hi : i < s.layers.length := by omega
  have hfold := foldFrame_pass sqrt p (layerAt s.layers i) (layerAt s.layers j)
  have hprod := fuse_pair_layer_producer p.pass_name (p.fold sqrt) s i j hne hi
  have hcons := fuse_pair_layer_consumer p.pass_name (p.fold sqrt) s i j hne hj
  have hblob : ∀ u, (fuse_pair p.pass_name (p.fold sqrt) s i j).blobs.getD u Blob.blank =
      if u = (layerAt s.layers j).tops.getD 0 0 ∧
          (layerAt s.layers j).tops.getD 0 0 < s.blobs.length
      then { s.blobs.getD ((layerAt s.layers j).tops.getD 0 0) Blob.blank with
             producer := (i : Int) }
      else s.blobs.getD u Blob.blank := by
    intro u
    rw [fuse_pair_eq, reroute_blob]
    simp only [layerAt_set_other _ _ _ _ hne]
  refine ⟨⟨fuse_pair_length _ _ _ _ _, ?_, hcons, ?_, ?_, ?_, ?_, hblob, ?_, ?_⟩,
    ⟨?_, ?_, ?_, ?_, ?_, ?_, ?_, ?_⟩⟩
  · rw [fuse_pair_eq, reroute_blobs_length]
  · rw [hprod]
    show (p.fold sqrt _ _).tops.set 0 _ = _
    rw [hfold.2.1]
  · rw [hprod]
    have e : ({ ({ p.fold sqrt (layerAt s.layers i) (layerAt s.layers j) with
          tops := (p.fold sqrt (layerAt s.layers i) (layerAt s.layers j)).tops.set 0
            ((layerAt s.layers j).tops.getD 0 0) } : Layer F) with
        tops := (layerAt s.layers i).tops } : Layer F)
        = p.fold sqrt (layerAt s.layers i) (layerAt s.layers j) := by
      conv_rhs => rw [show p.fold sqrt (layerAt s.layers i) (layerAt s.layers j)
        = { p.fold sqrt (layerAt s.layers i) (layerAt s.layers j) with
            tops := (p.fold sqrt (layerAt s.layers i) (layerAt s.layers j)).tops } from rfl]
      rw [hfold.2.1]
    rw [e]
    exact fold_touched_only sqrt p _ _
  · intro k hki hkj
    exact fuse_pair_layer_other _ _ _ _ _ _ hki hkj
  · intro k
    by_cases hki : k = i
    · rw [hki, hprod]
      exact ⟨fold_pass_name sqrt p _ _, hfold.2.2⟩
    · by_cases hkj : k = j
      · rw [hkj, hcons]
        exact ⟨rfl, rfl⟩
      · rw [fuse_pair_layer_other _ _ _ _ _ _ hki hkj]
        exact ⟨rfl, rfl⟩
  · intro hprev
    rw [hblob]
    split_ifs with hc
    · rfl
    · exact hprev
  · rfl
  · rw [eliminate_pair_eq, reroute_length]
  · rw [eliminate_pair_eq, reroute_blobs_length]
  · exact eliminate_pair_layer_dropout s j i hne hj
  · exact eliminate_pair_layer_source s j i hne hi
  · intro hlen
    rw [eliminate_pair_layer_source s j i hne hi]
    show (layerAt s.layers i).tops.set 0 _ = _
    cases htops : (layerAt s.layers i).tops with
    | nil => rw [htops] at hlen; simp at hlen
    | cons a t =>
      rw [htops] at hlen
      cases t with
      | nil => rfl
      | cons b t2 => simp at hlen
  · intro k hki hkj
    exact eliminate_pair_layer_other s j i k hkj hki
  · intro u
    rw [eliminate_pair_eq, reroute_blob]
  · rfl

/-- The frame of C33 on the chain `Input -> Convolution -> BatchNorm -> ReLU ->
Dropout` for the Convolution at index 1 and the BatchNorm at index 2: the rewrite
of `fuse_convolution_batchnorm` changes the BatchNorm in its type only and gives
the Convolution the tops `[2]`. -/
theorem fusion_step_frame_witness :
    1 < 2 ∧ 2 < (chain_net : NetOptimize ℚ).layers.length ∧
    layerAt (fuse_pair "fuse_convolution_batchnorm" (fold_batchnorm (fun x => x))
        (chain_net : NetOptimize ℚ) 1 2).layers 2
      = { layerAt (chain_net : NetOptimize ℚ).layers 2 with type := "ncnnfused" } ∧
    (layerAt (fuse_pair "fuse_convolution_batchnorm" (fold_batchnorm (fun x => x))
        (chain_net : NetOptimize ℚ) 1 2).layers 1).tops = [2] :=
  ⟨by decide, by decide,
    (fusion_step_frame (fun x => x) .fuse_convolution_batchnorm (chain_net : NetOptimize ℚ) 1 2
      (by decide) (by decide)).1.2.2.1,
    (fusion_step_frame (fun x => x) .fuse_convolution_batchnorm (chain_net : NetOptimize ℚ) 1 2
      (by decide) (by decide)).1.2.2.2.1⟩

end FrameClaim

section ChainInvariant

set_option linter.unusedSectionVars false

variable {F : Type} [Field F] [DecidableEq F]

/-! ## Consistency of a chain -/

theorem orderedBottoms_of_similar (s1 s2 : NetOptimize F) (h : Similar s1 s2)
    (hP : OrderedBottoms s1) : OrderedBottoms s2 := by
  obtain ⟨hlen, hb, hk⟩ := h
  intro k hk1 hl b hbm
  rw [← (hk k).1] at hl
  rw [← (hk k).2.2] at hbm
  obtain ⟨m, hm, hml, hmb⟩ := hP k (by omega) hl b hbm
  refine ⟨m, hm, ?_, ?_⟩
  · rw [← (hk m).1]; exact hml
  · rw [← (hk m).2.1]; exact hmb

theorem reroute_orderedBottoms (s : NetOptimize F) (p c : Nat) (hpc : p < c)
    (hc : c < s.layers.length)
    (hBC : OrderedBottoms s) (hS : SingleReader s)
    (hlp : (layerAt s.layers p).type ≠ "ncnnfused")
    (hlc : (layerAt s.layers c).type ≠ "ncnnfused")
    (hptop : (layerAt s.layers p).tops ≠ [])
    (hctop : (layerAt s.layers c).tops.length = 1)
    (hreads : (layerAt s.layers p).tops.getD 0 0 ∈ (layerAt s.layers c).bottoms) :
    OrderedBottoms (reroute s p c) := by
  have hne : p ≠ c := by omega
  have hp : p < s.layers.length := by omega
  intro k hk hl b hb
  rw [reroute_length] at hk
  rw [reroute_type s p c k hne hp hc] at hl
  rw [reroute_bottoms s p c k hne hp hc] at hb
  have hkc : k ≠ c := by
    intro h; rw [if_pos h] at hl; exact hl rfl
  rw [if_neg hkc] at hl
  have hp_live : (layerAt (reroute s p c).layers p).type ≠ "ncnnfused" := by
    rw [reroute_type s p c p hne hp hc, if_neg hne]; exact hlp
  have hp_tops := reroute_tops s p c p hne hp hc
  rw [if_pos rfl] at hp_tops
  obtain ⟨m, hm, hml, hmb⟩ := hBC k hk hl b hb
  by_cases hmc : m = c
  · subst hmc
    refine ⟨p, by omega, hp_live, ?_⟩
    rw [hp_tops]
    have hb_eq : b = (layerAt s.layers m).tops.getD 0 0 := by
      rw [bottoms_eq_singleton _ hctop] at hmb
      simpa using hmb
    rw [hb_eq]
    exact zero_mem_set_zero _ _ hptop
  · by_cases hmp : m = p
    · subst hmp
      refine ⟨m, hm, hp_live, ?_⟩
      rw [hp_tops]
      apply mem_set_zero_of_mem _ _ _ hmb
      intro hbt
      apply hkc
      exact hS k hk c hc ⟨hl, hlc, b, hb, by rw [hbt]; exact hreads⟩
    · refine ⟨m, hm, ?_, ?_⟩
      · rw [reroute_type s p c m hne hp hc, if_neg hmc]; exact hml
      · rw [reroute_tops s p c m hne hp hc, if_neg hmp]; exact hmb

/-- The reroute keeps graph invariant 1 when the consumer is live and its first
top is a blob of the table. -/
theorem reroute_producerConsistent_top (s : NetOptimize F) (p c : Nat) (hpc : p ≠ c)
    (hp : p < s.layers.length) (hc : c < s.layers.length)
    (hPC : ProducerConsistent s)
    (hlive : (layerAt s.layers c).type ≠ "ncnnfused")
    (htop : (layerAt s.layers c).tops ≠ []) :
    ProducerConsistent (reroute s p c) := by
  have htc_mem := getD_zero_mem _ htop
  have htc_lt : (layerAt s.layers c).tops.getD 0 0 < s.blobs.length := by
    by_contra hge
    have e := hPC c hc hlive _ htc_mem
    rw [List.getD_eq_getElem?_getD, List.getElem?_eq_none (Nat.not_lt.mp hge)] at e
    have e2 : (-1 : Int) = (c : Int) := e
    omega
  intro k hk hl t ht
  rw [reroute_length] at hk
  rw [reroute_type s p c k hpc hp hc] at hl
  rw [reroute_tops s p c k hpc hp hc] at ht
  rw [reroute_producer]
  have hkc : k ≠ c := by
    intro h; rw [if_pos h] at hl; exact hl rfl
  rw [if_neg hkc] at hl
  by_cases htc : t = (layerAt s.layers c).tops.getD 0 0
  · rw [if_pos ⟨htc, htc_lt⟩]
    by_cases hkp : k = p
    · rw [hkp]
    · exfalso
      rw [if_neg hkp] at ht
      have e1 := hPC k hk hl t ht
      have e2 := hPC c hc hlive _ htc_mem
      rw [htc] at e1
      rw [e1] at e2
      exact hkc (by exact_mod_cast e2)
  · rw [if_neg (fun h => htc h.1)]
    by_cases hkp : k = p
    · rw [if_pos hkp] at ht
      rcases mem_set_zero _ _ _ ht with h | h
      · exact absurd h htc
      · rw [hkp]; exact hPC p hp (by rw [← hkp]; exact hl) t h
    · rw [if_neg hkp] at ht
      exact hPC k hk hl t ht

theorem chain_invariant :
    PassInvariant (fun s : NetOptimize F =>
      ProducerConsistent s ∧ SingleReader s ∧ OrderedBottoms s ∧ ConsumerShape s ∧
        LiveLayersHaveTop s) := by
  refine ⟨?_, ?_⟩
  · intro s1 s2 hs h
    exact ⟨producerConsistent_of_similar s1 s2 hs h.1,
      singleReader_of_similar s1 s2 hs h.2.1,
      orderedBottoms_of_similar s1 s2 hs h.2.2.1,
      consumerShape_of_similar s1 s2 hs h.2.2.2.1,
      liveLayersHaveTop_of_similar s1 s2 hs h.2.2.2.2⟩
  · intro s p c hr h
    obtain ⟨hpc, hc, hlp, hkind, hread⟩ := hr
    obtain ⟨hA, hB, hC, hD, hE⟩ := h
    have hp : p < s.layers.length := by omega
    have hne : p ≠ c := by omega
    have hlc := consumer_kind_live _ hkind
    have hshape := hD c hc hkind
    have hctop : (layerAt s.layers c).tops ≠ [] := by
      intro e; rw [e] at hshape; simp at hshape
    have hreads : (layerAt s.layers p).tops.getD 0 0 ∈ (layerAt s.layers c).bottoms := by
      rw [bottoms_eq_singleton _ hshape.1, hread]; simp
    exact ⟨reroute_producerConsistent_top s p c hne hp hc hA hlc hctop,
      reroute_singleReader s p c hne hp hc hB,
      reroute_orderedBottoms s p c hpc hc hC hB hlp hlc (hE p hp hlp) hshape.2 hreads,
      reroute_consumerShape s p c hne hp hc hD,
      reroute_liveLayersHaveTop s p c hne hp hc hE⟩

end ChainInvariant

section CopyLemmas

set_option linter.unusedSectionVars false

variable {F : Type} [Field F] [DecidableEq F]

/-! ## The per-kind copies of the passes -/

/-- The rewrite of a forward pass as two assignments to the layer table. -/
theorem fuse_pair_two_sets (pass_name : String) (fold : Layer F → Layer F → Layer F)
    (s : NetOptimize F) (i j : Nat) (hij : i ≠ j) :
    fuse_pair pass_name fold s i j =
      { layers := (s.layers.set i
            { fold (layerAt s.layers i) (layerAt s.layers j) with
              tops := (fold (layerAt s.layers i) (layerAt s.layers j)).tops.set 0
                ((layerAt s.layers j).tops.getD 0 0) }).set j
            { layerAt s.layers j with type := "ncnnfused" },
        blobs := set_producer s.blobs ((layerAt s.layers j).tops.getD 0 0) i,
        stderr := s.stderr ++
          [diagnostic pass_name (layerAt s.layers i).name (layerAt s.layers j).name] } := by
  rw [fuse_pair_eq]
  by_cases hi : i < s.layers.length
  · simp only [reroute, layerAt_set_other _ _ _ _ hij, layerAt_set_self _ _ _ hi, List.set_set]
  · have hlen : s.layers.length ≤ i := Nat.not_lt.mp hi
    simp only [reroute, layerAt_set_other _ _ _ _ hij, set_of_length_le _ _ _ hlen]

theorem batchnorm_pass_for_eq (sqrt : F → F) (pass_name kind : String) (s : NetOptimize F) :
    batchnorm_pass_for sqrt pass_name kind s
      = forward_pass pass_name kind is_batchnorm (fold_batchnorm sqrt) s := by
  have hic : (fun type : String => !(type != "BatchNorm")) = is_batchnorm := by
    funext t
    show (!(!(t == "BatchNorm"))) = (t == "BatchNorm")
    exact Bool.not_not _
  unfold batchnorm_pass_for forward_pass
  simp only [hic]
  congr 1
  funext s1 i
  rw [fuse_step_eq]
  by_cases ht : (layerAt s1.layers i).type = kind
  · rw [if_neg (not_not.mpr ht), if_neg (not_not.mpr ht)]
    by_cases hscan : forward_scan s1.layers is_batchnorm ((layerAt s1.layers i).tops.getD 0 0)
        (s.layers.length - (i + 1)) (i + 1) = s.layers.length
    · rw [if_pos hscan, if_pos hscan]
    · have hge := forward_scan_ge s1.layers is_batchnorm ((layerAt s1.layers i).tops.getD 0 0)
        (s.layers.length - (i + 1)) (i + 1)
      rw [if_neg hscan, if_neg hscan, fuse_pair_two_sets _ _ _ _ _ (by omega)]
      rfl
  · rw [if_pos ht, if_pos ht]

theorem activation_pass_for_eq (pass_name kind : String) (s : NetOptimize F) :
    activation_pass_for pass_name kind s
      = forward_pass pass_name kind is_activation fold_activation s := by
  have hic : (fun type : String => !(type != "ReLU" && type != "Clip")) = is_activation := by
    funext t
    show (!(!(t == "ReLU") && !(t == "Clip"))) = (t == "ReLU" || t == "Clip")
    cases (t == "ReLU") <;> cases (t == "Clip") <;> rfl
  unfold activation_pass_for forward_pass
  simp only [hic]
  congr 1
  funext s1 i
  rw [fuse_step_eq]
  by_cases ht : (layerAt s1.layers i).type = kind
  · rw [if_neg (not_not.mpr ht), if_neg (not_not.mpr ht)]
    by_cases hscan : forward_scan s1.layers is_activation ((layerAt s1.layers i).tops.getD 0 0)
        (s.layers.length - (i + 1)) (i + 1) = s.layers.length
    · rw [if_pos hscan, if_pos hscan]
    · have hge := forward_scan_ge s1.layers is_activation ((layerAt s1.layers i).tops.getD 0 0)
        (s.layers.length - (i + 1)) (i + 1)
      rw [if_neg hscan, if_neg hscan, fuse_pair_two_sets _ _ _ _ _ (by omega)]
      rfl
  · rw [if_pos ht, if_pos ht]

end CopyLemmas

section CopyClaim

set_option linter.unusedSectionVars false

variable {F : Type} [Field F] [DecidableEq F]

/-- C36 (the five per-kind copies are one algorithm). Each of the five
`fuse_*_batchnorm` functions, transcribed from its own lines, is
`fuse_convolution_batchnorm` with the producer kind name substituted, and each of
the five `fuse_*_activation` functions is `fuse_convolution_activation` with the
producer kind name substituted; each transcription is the pass that `run_pass`
runs: the generic forward pass with the BatchNorm fold, or the activation fold,
for that producer kind. -/
theorem per_kind_copies (sqrt : F → F) (s : NetOptimize F) :
    (fuse_convolution_batchnorm_source sqrt s
        = batchnorm_pass_for sqrt "fuse_convolution_batchnorm" "Convolution" s ∧
      fuse_convolutiondepthwise_batchnorm_source sqrt s
        = batchnorm_pass_for sqrt "fuse_convolutiondepthwise_batchnorm" "ConvolutionDepthWise" s ∧
      fuse_deconvolution_batchnorm_source sqrt s
        = batchnorm_pass_for sqrt "fuse_deconvolution_batchnorm" "Deconvolution" s ∧
      fuse_deconvolutiondepthwise_batchnorm_source sqrt s
        = batchnorm_pass_for sqrt "fuse_deconvolutiondepthwise_batchnorm"
            "DeconvolutionDepthWise" s ∧
      fuse_innerproduct_batchnorm_source sqrt s
        = batchnorm_pass_for sqrt "fuse_innerproduct_batchnorm" "InnerProduct" s) ∧
    (fuse_convolution_activation_source s
        = activation_pass_for "fuse_convolution_activation" "Convolution" s ∧
      fuse_convolutiondepthwise_activation_source s
        = activation_pass_for "fuse_convolutiondepthwise_activation" "ConvolutionDepthWise" s ∧
      fuse_deconvolution_activation_source s
        = activation_pass_for "fuse_deconvolution_activation" "Deconvolution" s ∧
      fuse_deconvolutiondepthwise_activation_source s
        = activation_pass_for "fuse_deconvolutiondepthwise_activation"
            "DeconvolutionDepthWise" s ∧
      fuse_innerproduct_activation_source s
        = activation_pass_for "fuse_innerproduct_activation" "InnerProduct" s) ∧
    (fuse_convolution_batchnorm_source sqrt s = run_pass sqrt .fuse_convolution_batchnorm s ∧
      fuse_convolutiondepthwise_batchnorm_source sqrt s
        = run_pass sqrt .fuse_convolutiondepthwise_batchnorm s ∧
      fuse_deconvolution_batchnorm_source sqrt s = run_pass sqrt .fuse_deconvolution_batchnorm s ∧
      fuse_deconvolutiondepthwise_batchnorm_source sqrt s
        = run_pass sqrt .fuse_deconvolutiondepthwise_batchnorm s ∧
      fuse_innerproduct_batchnorm_source sqrt s = run_pass sqrt .fuse_innerproduct_batchnorm s ∧
      fuse_convolution_activation_source s = run_pass sqrt .fuse_convolution_activation s ∧
      fuse_convolutiondepthwise_activation_source s
        = run_pass sqrt .fuse_convolutiondepthwise_activation s ∧
      fuse_deconvolution_activation_source s = run_pass sqrt .fuse_deconvolution_activation s ∧
      fuse_deconvolutiondepthwise_activation_source s
        = run_pass sqrt .fuse_deconvolutiondepthwise_activation s ∧
      fuse_innerproduct_activation_source s = run_pass sqrt .fuse_innerproduct_activation s) := by
  have hb : ∀ name kind, batchnorm_pass_for sqrt name kind s
      = forward_pass name kind is_batchnorm (fold_batchnorm sqrt) s :=
    fun name kind => batchnorm_pass_for_eq sqrt name kind s
  have ha : ∀ name kind, activation_pass_for name kind s
      = forward_pass name kind is_activation fold_activation s :=
    fun name kind => activation_pass_for_eq name kind s
  refine ⟨⟨rfl, rfl, rfl, rfl, rfl⟩, ⟨rfl, rfl, rfl, rfl, rfl⟩, ?_, ?_, ?_, ?_, ?_, ?_, ?_, ?_,
    ?_, ?_⟩
  · exact (hb _ _)
  · exact (hb _ _)
  · exact (hb _ _)
  · exact (hb _ _)
  · exact (hb _ _)
  · exact (ha _ _)
  · exact (ha _ _)
  · exact (ha _ _)
  · exact (ha _ _)
  · exact (ha _ _)

end CopyClaim

section Collapse

set_option linter.unusedSectionVars false

variable {F : Type} [Field F] [DecidableEq F]

/-! ## Collapse of an affine, BatchNorm, Scale chain -/

theorem four_types (l0 l1 l2 l3 : Layer F) (blobs : List Blob) (err : List String)
    (P : String → Prop) (h0 : P l0.type) (h1 : P l1.type) (h2 : P l2.type) (h3 : P l3.type) :
    ∀ i, i < ({ layers := [l0, l1, l2, l3], blobs := blobs, stderr := err } :
      NetOptimize F).layers.length →
      P (layerAt ({ layers := [l0, l1, l2, l3], blobs := blobs, stderr := err } :
        NetOptimize F).layers i).type := by
  intro i hi
  have hi4 : i < 4 := hi
  interval_cases i
  · exact h0
  · exact h1
  · exact h2
  · exact h3

/-- A forward pass changes nothing when no layer passes its consumer test. -/
theorem forward_pass_no_consumer (pass_name pt : String) (ic : String → Bool)
    (fold : Layer F → Layer F → Layer F) (s : NetOptimize F)
    (h : ∀ j, j < s.layers.length → ic (layerAt s.layers j).type = false) :
    forward_pass pass_name pt ic fold s = s := by
  unfold forward_pass
  apply foldl_fixed
  intro i hi
  apply fuse_step_no_partner _ _ _ _ _ _ (List.mem_range.mp hi)
  intro _ j _ hj hpart
  have h1 := hpart.1
  rw [h j hj] at h1
  exact Bool.noConfusion h1

set_option maxHeartbeats 1000000 in
theorem collapse_scale_pass (kind : String) (p bn sc : Layer F)
    (hkind : kind = "Convolution" ∨ kind = "ConvolutionDepthWise" ∨ kind = "Deconvolution" ∨
      kind = "DeconvolutionDepthWise" ∨ kind = "InnerProduct") :
    fuse_batchnorm_scale (collapse_chain kind p bn sc) = collapse_after_scale kind p bn sc := by
  rcases hkind with rfl | rfl | rfl | rfl | rfl <;> rfl

set_option maxHeartbeats 1000000 in
theorem collapse_fold_pass (sqrt : F → F) (kind : String) (p bn sc : Layer F)
    (hkind : kind = "Convolution" ∨ kind = "ConvolutionDepthWise" ∨ kind = "Deconvolution" ∨
      kind = "DeconvolutionDepthWise" ∨ kind = "InnerProduct") :
    run_pass sqrt (batchnorm_pass_of kind) (collapse_after_scale kind p bn sc)
      = collapse_final sqrt kind p bn sc := by
  rcases hkind with rfl | rfl | rfl | rfl | rfl <;> rfl

theorem collapse_producer_type (sqrt : F → F) (kind : String) (p bn sc : Layer F) :
    (collapse_producer sqrt kind p bn sc).type = kind :=
  (foldFrame_batchnorm sqrt _ _).1

theorem collapse_idle_before (kind : String) (p bn sc : Layer F) (pass_name pt : String)
    (ic : String → Bool) (fold : Layer F → Layer F → Layer F)
    (h1 : "Input" ≠ pt) (h2 : kind ≠ pt) (h3 : "BatchNorm" ≠ pt) (h4 : "ncnnfused" ≠ pt) :
    forward_pass pass_name pt ic fold (collapse_after_scale kind p bn sc)
      = collapse_after_scale kind p bn sc :=
  forward_pass_idle _ _ _ _ _ (four_types _ _ _ _ _ _ (fun ty => ty ≠ pt) h1 h2 h3 h4)

theorem collapse_final_fixed (sqrt : F → F) (kind : String) (p bn sc : Layer F)
    (pass_name pt : String) (ic : String → Bool) (fold : Layer F → Layer F → Layer F)
    (h1 : ic "Input" = false) (h2 : ic kind = false) (h3 : ic "ncnnfused" = false) :
    forward_pass pass_name pt ic fold (collapse_final sqrt kind p bn sc)
      = collapse_final sqrt kind p bn sc :=
  forward_pass_no_consumer _ _ _ _ _
    (four_types _ _ _ _ _ _ (fun ty => ic ty = false) h1
      (by rw [collapse_producer_type]; exact h2) h3 h3)

theorem collapse_final_dropout (sqrt : F → F) (kind : String) (p bn sc : Layer F)
    (h : kind ≠ "Dropout") :
    eliminate_dropout (collapse_final sqrt kind p bn sc) = collapse_final sqrt kind p bn sc :=
  eliminate_dropout_idle _
    (four_types _ _ _ _ _ _ (fun ty => ty ≠ "Dropout")
      (by show "Input" ≠ "Dropout"; decide)
      (by rw [collapse_producer_type]; exact h)
      (by show "ncnnfused" ≠ "Dropout"; decide) (by show "ncnnfused" ≠ "Dropout"; decide))

/-- The twelve passes of `main` on `collapse_chain`. -/
theorem optimize_collapse_chain (sqrt : F → F) (kind : String) (p bn sc : Layer F)
    (hkind : kind = "Convolution" ∨ kind = "ConvolutionDepthWise" ∨ kind = "Deconvolution" ∨
      kind = "DeconvolutionDepthWise" ∨ kind = "InnerProduct") :
    optimize sqrt (collapse_chain kind p bn sc) = collapse_final sqrt kind p bn sc := by
  have hfire := collapse_fold_pass sqrt kind p bn sc hkind
  have hact : ∀ (pass_name pt : String),
      forward_pass pass_name pt is_activation fold_activation (collapse_final sqrt kind p bn sc)
        = collapse_final sqrt kind p bn sc := by
    intro pass_name pt
    refine collapse_final_fixed sqrt kind p bn sc _ _ _ _ (by decide) ?_ (by decide)
    rcases hkind with rfl | rfl | rfl | rfl | rfl <;> decide
  have hbn : ∀ (pass_name pt : String),
      forward_pass pass_name pt is_batchnorm (fold_batchnorm sqrt)
          (collapse_final sqrt kind p bn sc)
        = collapse_final sqrt kind p bn sc := by
    intro pass_name pt
    refine collapse_final_fixed sqrt kind p bn sc _ _ _ _ (by decide) ?_ (by decide)
    rcases hkind with rfl | rfl | rfl | rfl | rfl <;> decide
  have hdrop := collapse_final_dropout sqrt kind p bn sc
    (by rcases hkind with rfl | rfl | rfl | rfl | rfl <;> decide)
  have hidle : ∀ (pass_name pt : String), kind ≠ pt → "Input" ≠ pt → "BatchNorm" ≠ pt →
      "ncnnfused" ≠ pt →
      forward_pass pass_name pt is_batchnorm (fold_batchnorm sqrt)
          (collapse_after_scale kind p bn sc)
        = collapse_after_scale kind p bn sc :=
    fun pass_name pt h2 h1 h3 h4 => collapse_idle_before kind p bn sc _ _ _ _ h1 h2 h3 h4
  simp only [optimize]
  rw [collapse_scale_pass kind p bn sc hkind]
  simp only [fuse_convolution_activation, fuse_convolutiondepthwise_activation,
    fuse_deconvolution_activation, fuse_deconvolutiondepthwise_activation,
    fuse_innerproduct_activation]
  rcases hkind with rfl | rfl | rfl | rfl | rfl
  · have hf : fuse_convolution_batchnorm sqrt (collapse_after_scale "Convolution" p bn sc)
        = collapse_final sqrt "Convolution" p bn sc := hfire
    rw [hf]
    simp only [fuse_convolutiondepthwise_batchnorm, fuse_deconvolution_batchnorm,
      fuse_deconvolutiondepthwise_batchnorm, fuse_innerproduct_batchnorm, hbn, hact, hdrop]
  · have hf : fuse_convolutiondepthwise_batchnorm sqrt
          (collapse_after_scale "ConvolutionDepthWise" p bn sc)
        = collapse_final sqrt "ConvolutionDepthWise" p bn sc := hfire
    have h1 : fuse_convolution_batchnorm sqrt
          (collapse_after_scale "ConvolutionDepthWise" p bn sc)
        = collapse_after_scale "ConvolutionDepthWise" p bn sc :=
      hidle _ _ (by decide) (by decide) (by decide) (by decide)
    rw [h1, hf]
    simp only [fuse_deconvolution_batchnorm,
      fuse_deconvolutiondepthwise_batchnorm, fuse_innerproduct_batchnorm, hbn, hact, hdrop]
  · have hf : fuse_deconvolution_batchnorm sqrt
          (collapse_after_scale "Deconvolution" p bn sc)
        = collapse_final sqrt "Deconvolution" p bn sc := hfire
    have h1 : fuse_convolution_batchnorm sqrt (collapse_after_scale "Deconvolution" p bn sc)
        = collapse_after_scale "Deconvolution" p bn sc :=
      hidle _ _ (by decide) (by decide) (by decide) (by decide)
    have h2 : fuse_convolutiondepthwise_batchnorm sqrt
          (collapse_after_scale "Deconvolution" p bn sc)
        = collapse_after_scale "Deconvolution" p bn sc :=
      hidle _ _ (by decide) (by decide) (by decide) (by decide)
    rw [h1, h2, hf]
    simp only [fuse_deconvolutiondepthwise_batchnorm, fuse_innerproduct_batchnorm, hbn, hact,
      hdrop]
  · have hf : fuse_deconvolutiondepthwise_batchnorm sqrt
          (collapse_after_scale "DeconvolutionDepthWise" p bn sc)
        = collapse_final sqrt "DeconvolutionDepthWise" p bn sc := hfire
    have h1 : fuse_convolution_batchnorm sqrt
          (collapse_after_scale "DeconvolutionDepthWise" p bn sc)
        = collapse_after_scale "DeconvolutionDepthWise" p bn sc :=
      hidle _ _ (by decide) (by decide) (by decide) (by decide)
    have h2 : fuse_convolutiondepthwise_batchnorm sqrt
          (collapse_after_scale "DeconvolutionDepthWise" p bn sc)
        = collapse_after_scale "DeconvolutionDepthWise" p bn sc :=
      hidle _ _ (by decide) (by decide) (by decide) (by decide)
    have h3 : fuse_deconvolution_batchnorm sqrt
          (collapse_after_scale "DeconvolutionDepthWise" p bn sc)
        = collapse_after_scale "DeconvolutionDepthWise" p bn sc :=
      hidle _ _ (by decide) (by decide) (by decide) (by decide)
    rw [h1, h2, h3, hf]
    simp only [fuse_innerproduct_batchnorm, hbn, hact, hdrop]
  · have hf : fuse_innerproduct_batchnorm sqrt (collapse_after_scale "InnerProduct" p bn sc)
        = collapse_final sqrt "InnerProduct" p bn sc := hfire
    have h1 : fuse_convolution_batchnorm sqrt (collapse_after_scale "InnerProduct" p bn sc)
        = collapse_after_scale "InnerProduct" p bn sc :=
      hidle _ _ (by decide) (by decide) (by decide) (by decide)
    have h2 : fuse_convolutiondepthwise_batchnorm sqrt
          (collapse_after_scale "InnerProduct" p bn sc)
        = collapse_after_scale "InnerProduct" p bn sc :=
      hidle _ _ (by decide) (by decide) (by decide) (by decide)
    have h3 : fuse_deconvolution_batchnorm sqrt (collapse_after_scale "InnerProduct" p bn sc)
        = collapse_after_scale "InnerProduct" p bn sc :=
      hidle _ _ (by decide) (by decide) (by decide) (by decide)
    have h4 : fuse_deconvolutiondepthwise_batchnorm sqrt
          (collapse_after_scale "InnerProduct" p bn sc)
        = collapse_after_scale "InnerProduct" p bn sc :=
      hidle _ _ (by decide) (by decide) (by decide) (by decide)
    rw [h1, h2, h3, h4, hf]
    simp only [hact, hdrop]

end Collapse

section CollapseClaim

set_option linter.unusedSectionVars false

variable {F : Type} [Field F] [DecidableEq F]

theorem collapse_batchnorm_slope (bn sc : Layer F) (c : Nat) (hc : c < bn.channels.toNat) :
    (collapse_batchnorm bn sc).slope_data.getD c 0
      = bn.slope_data.getD c 0 * sc.scale_data.getD c 0 := by
  show (scale_channels _ bn.channels.toNat bn.slope_data bn.bias_data).1.getD c 0 = _
  rw [scale_channels_slope, if_pos hc]

theorem collapse_batchnorm_bias (bn sc : Layer F) (c : Nat) (hc : c < bn.channels.toNat)
    (hbias : bn.channels.toNat ≤ bn.bias_data.length) :
    (collapse_batchnorm bn sc).bias_data.getD c 0
      = bn.bias_data.getD c 0 * sc.scale_data.getD c 0
        + (if sc.bias_term ≠ 0 then sc.bias_data.getD c 0 else 0) := by
  show (scale_channels _ bn.channels.toNat bn.slope_data bn.bias_data).2.getD c 0 = _
  rw [scale_channels_bias _ _ _ _ _ (by omega), if_pos hc]
  by_cases h : sc.bias_term ≠ 0
  · rw [if_pos h, if_pos h]
  · rw [if_neg h, if_neg h, add_zero]

/-- The BatchNorm left by `fuse_batchnorm_scale` computes the Scale of the
BatchNorm. -/
theorem collapse_batchnorm_forward (sqrt : F → F) (bn sc : Layer F) (c : Nat) (y : F)
    (hc : c < bn.channels.toNat) (hbias : bn.channels.toNat ≤ bn.bias_data.length) :
    batchnorm_forward sqrt (collapse_batchnorm bn sc) c y
      = scale_forward sc c (batchnorm_forward sqrt bn c y) := by
  unfold batchnorm_forward scale_forward
  rw [collapse_batchnorm_slope bn sc c hc, collapse_batchnorm_bias bn sc c hc hbias]
  show bn.slope_data.getD c 0 * sc.scale_data.getD c 0 * (y - bn.mean_data.getD c 0)
      / sqrt (bn.var_data.getD c 0 + bn.eps) + _ = _
  ring

/-- C37 (collapse of a bias-free affine, BatchNorm, Scale chain). For the chain
`Input -> producer -> BatchNorm -> Scale` with a producer of one of the five affine
kinds and `bias_term = 0`, a BatchNorm with positive `channels` dividing the
producer's `weight_data_size` and a bias vector of at least `channels` elements:
after the twelve passes of `main` the producer is live and the BatchNorm and the
Scale are tombstoned; the producer's tops are the Scale's top, its `bias_term` is
1, every weight of channel `c` is multiplied by
`slope_c * scale_c / sqrt(var_c + eps)`, its bias is
`bias_bn_c * scale_c + scale_bias_c - slope_c * scale_c * mean_c / sqrt(var_c + eps)`
with `scale_bias_c = 0` when the Scale has no bias, and on every input the layer
computes the Scale of the BatchNorm of the original producer. -/
theorem affine_batchnorm_scale_collapse (sqrt : F → F) (kind : String) (p bn sc : Layer F)
    (hkind : kind = "Convolution" ∨ kind = "ConvolutionDepthWise" ∨ kind = "Deconvolution" ∨
      kind = "DeconvolutionDepthWise" ∨ kind = "InnerProduct")
    (hfree : p.bias_term = 0) (hch : 0 < bn.channels)
    (hdiv : bn.channels ∣ p.weight_data_size)
    (hbias : bn.channels.toNat ≤ bn.bias_data.length) :
    (layerAt (optimize sqrt (collapse_chain kind p bn sc)).layers 0).type = "Input" ∧
    (layerAt (optimize sqrt (collapse_chain kind p bn sc)).layers 1).type = kind ∧
    (layerAt (optimize sqrt (collapse_chain kind p bn sc)).layers 2).type = "ncnnfused" ∧
    (layerAt (optimize sqrt (collapse_chain kind p bn sc)).layers 3).type = "ncnnfused" ∧
    (optimize sqrt (collapse_chain kind p bn sc)).layers.length = 4 ∧
    (layerAt (optimize sqrt (collapse_chain kind p bn sc)).layers 1).tops
      = (layerAt (collapse_chain kind p bn sc).layers 3).tops ∧
    (layerAt (optimize sqrt (collapse_chain kind p bn sc)).layers 1).bias_term = 1 ∧
    (∀ k : Nat, (k : Int) < p.weight_data_size →
      (layerAt (optimize sqrt (collapse_chain kind p bn sc)).layers 1).weight_data.getD k 0
        = p.weight_data.getD k 0
          * (bn.slope_data.getD (k / (Int.tdiv p.weight_data_size bn.channels).toNat) 0
            * sc.scale_data.getD (k / (Int.tdiv p.weight_data_size bn.channels).toNat) 0
            / sqrt (bn.var_data.getD (k / (Int.tdiv p.weight_data_size bn.channels).toNat) 0
              + bn.eps))) ∧
    (∀ c : Nat, c < bn.channels.toNat →
      (layerAt (optimize sqrt (collapse_chain kind p bn sc)).layers 1).bias_data.getD c 0
        = bn.bias_data.getD c 0 * sc.scale_data.getD c 0
          + (if sc.bias_term ≠ 0 then sc.bias_data.getD c 0 else 0)
          - bn.slope_data.getD c 0 * sc.scale_data.getD c 0 * bn.mean_data.getD c 0
            / sqrt (bn.var_data.getD c 0 + bn.eps)) ∧
    (∀ (x : Nat → F) (c : Nat), c < bn.channels.toNat →
      affine_forward (layerAt (optimize sqrt (collapse_chain kind p bn sc)).layers 1)
          (Int.tdiv p.weight_data_size bn.channels).toNat x c
        = scale_forward sc c (batchnorm_forward sqrt bn c
            (affine_forward p (Int.tdiv p.weight_data_size bn.channels).toNat x c))) := by
  rw [optimize_collapse_chain sqrt kind p bn sc hkind]
  have hL : layerAt (collapse_final sqrt kind p bn sc).layers 1
      = collapse_producer sqrt kind p bn sc := rfl
  have hframe := foldFrame_batchnorm sqrt
    ({ p with type := kind, bottoms := [0], tops := [1] } : Layer F) (collapse_batchnorm bn sc)
  have hsize : 0 < (Int.tdiv p.weight_data_size bn.channels).toNat ∨
      p.weight_data_size ≤ 0 := by
    rcases Nat.eq_zero_or_pos (Int.tdiv p.weight_data_size bn.channels).toNat with h | h
    · right
      by_contra hpos
      have hcover := slices_cover p.weight_data_size bn.channels hch hdiv (by omega)
      rw [h] at hcover
      omega
    · exact Or.inl h
  refine ⟨rfl, ?_, rfl, rfl, rfl, ?_, ?_, ?_, ?_, ?_⟩
  · rw [hL]; exact collapse_producer_type sqrt kind p bn sc
  · rw [hL]
    show (fold_batchnorm sqrt _ _).tops.set 0 3 = [3]
    rw [hframe.2.1]
    rfl
  · rw [hL]
    refine (fold_batchnorm_bias_term sqrt
      ({ p with type := kind, bottoms := [0], tops := [1] } : Layer F)
      (collapse_batchnorm bn sc)).trans ?_
    exact if_pos hfree
  · intro k hk
    rw [hL]
    refine (fold_batchnorm_weight_whole sqrt
      ({ p with type := kind, bottoms := [0], tops := [1] } : Layer F)
      (collapse_batchnorm bn sc) k hch hdiv hk).trans ?_
    show p.weight_data.getD k 0
        * spec_b sqrt (collapse_batchnorm bn sc)
          (k / (Int.tdiv p.weight_data_size bn.channels).toNat) = _
    have hcover := slices_cover p.weight_data_size bn.channels hch hdiv (by omega)
    have hc : k / (Int.tdiv p.weight_data_size bn.channels).toNat < bn.channels.toNat := by
      rcases hsize with h | h
      · rw [Nat.div_lt_iff_lt_mul h]
        rw [Nat.mul_comm] at hcover
        rw [hcover]
        omega
      · omega
    unfold spec_b
    rw [collapse_batchnorm_slope bn sc _ hc]
    rfl
  · intro c hc
    rw [hL]
    refine (fold_batchnorm_bias_getD sqrt
      ({ p with type := kind, bottoms := [0], tops := [1] } : Layer F)
      (collapse_batchnorm bn sc) c hc (fun h => absurd hfree h)).trans ?_
    show (if p.bias_term = 0 then 0 else p.bias_data.getD c 0)
        + spec_a sqrt (collapse_batchnorm bn sc) c = _
    rw [if_pos hfree, zero_add]
    unfold spec_a
    rw [collapse_batchnorm_slope bn sc c hc, collapse_batchnorm_bias bn sc c hc hbias]
    rfl
  · intro x c hc
    rw [hL, ← collapse_batchnorm_forward sqrt bn sc c _ hc hbias]
    have h1 := fold_batchnorm_forward_bias_free sqrt
      ({ p with type := kind, bottoms := [0], tops := [1] } : Layer F)
      (collapse_batchnorm bn sc) x c hc hfree
    exact h1

/-- The collapse of C37 on a Convolution with the weight 2 and no bias, a
BatchNorm with slope 3, bias 1/2, mean 1, var 3 and eps 1, and a Scale with scale
2 and bias 3, with the identity in place of the square root (so that the divisor
is `var + eps = 4`): the weight becomes `2 * (3 * 2 / 4) = 3` and the bias
`1/2 * 2 + 3 - 3 * 2 * 1 / 4 = 5/2`. -/
theorem affine_batchnorm_scale_collapse_witness :
    (layerAt (optimize (fun x => x) (collapse_chain "Convolution"
      ({ (Layer.blank : Layer ℚ) with weight_data_size := 1, weight_data := [2] })
      ({ (Layer.blank : Layer ℚ) with
          channels := 1, eps := 1, slope_data := [3], mean_data := [1], var_data := [3],
          bias_data := [1 / 2] })
      ({ (Layer.blank : Layer ℚ) with
          bias_term := 1, scale_data := [2], bias_data := [3] }))).layers 1).weight_data.getD 0 0 = 3 ∧
    (layerAt (optimize (fun x => x) (collapse_chain "Convolution"
      ({ (Layer.blank : Layer ℚ) with weight_data_size := 1, weight_data := [2] })
      ({ (Layer.blank : Layer ℚ) with
          channels := 1, eps := 1, slope_data := [3], mean_data := [1], var_data := [3],
          bias_data := [1 / 2] })
      ({ (Layer.blank : Layer ℚ) with
          bias_term := 1, scale_data := [2], bias_data := [3] }))).layers 1).bias_data.getD 0 0 = 5 / 2 := by
  have h := affine_batchnorm_scale_collapse (fun x : ℚ => x) "Convolution"
    ({ (Layer.blank : Layer ℚ) with weight_data_size := 1, weight_data := [2] })
    ({ (Layer.blank : Layer ℚ) with
        channels := 1, eps := 1, slope_data := [3], mean_data := [1], var_data := [3],
        bias_data := [1 / 2] })
    ({ (Layer.blank : Layer ℚ) with bias_term := 1, scale_data := [2], bias_data := [3] })
    (Or.inl rfl) rfl (by decide) (by decide) (by decide)
  refine ⟨?_, ?_⟩
  · rw [h.2.2.2.2.2.2.2.1 0 (by decide)]
    decide!
  · rw [h.2.2.2.2.2.2.2.2.1 0 (by decide)]
    decide!

end CollapseClaim

/-! ## Index safety: the checked folds agree with the folds -/

section CheckedFolds

set_option linter.unusedSectionVars false

variable {F : Type} [Field F] [DecidableEq F]

theorem read_at_eq {α : Type} (xs : List α) (i : Nat) (d : α) (h : i < xs.length) :
    read_at xs i = some (xs.getD i d) := by
  unfold read_at
  rw [List.getD_eq_getElem?_getD, List.getElem?_eq_getElem h]
  rfl

theorem write_at_eq {α : Type} (xs : List α) (i : Nat) (v : α) (h : i < xs.length) :
    write_at xs i v = some (xs.set i v) := by
  unfold write_at
  rw [if_pos h]

theorem for_checked_cons {σ : Type} (a : Nat) (t : List Nat) (body : σ → Nat → Option σ)
    (init : σ) :
    for_checked (a :: t) body init = (body init a).bind (for_checked t body) := by
  show (match body init a with
    | none => none
    | some s => for_checked t body s) = _
  cases body init a <;> rfl

theorem for_checked_append {σ : Type} (l1 l2 : List Nat) (body : σ → Nat → Option σ)
    (init : σ) :
    for_checked (l1 ++ l2) body init
      = (for_checked l1 body init).bind (for_checked l2 body) := by
  induction l1 generalizing init with
  | nil => rfl
  | cons a t ih =>
    rw [List.cons_append, for_checked_cons, for_checked_cons]
    cases body init a with
    | none => rfl
    | some s => exact ih s

/-- A checked loop over `0..n-1` whose every iteration succeeds with the value of
the unchecked body, under an invariant indexed by the iteration, yields the
result of the unchecked loop. -/
theorem for_checked_range {σ : Type} (step : σ → Nat → σ) (body : σ → Nat → Option σ)
    (J : Nat → σ → Prop) (n : Nat) (init : σ) (h0 : J 0 init)
    (hstep : ∀ b s, b < n → J b s → body s b = some (step s b) ∧ J (b + 1) (step s b)) :
    for_checked (List.range n) body init = some ((List.range n).foldl step init) ∧
      J n ((List.range n).foldl step init) := by
  induction n with
  | zero => exact ⟨rfl, h0⟩
  | succ m ih =>
    have hm := ih (fun b s hb hJ => hstep b s (Nat.lt_succ_of_lt hb) hJ)
    have hs := hstep m _ (Nat.lt_succ_self m) hm.2
    rw [List.range_succ, for_checked_append, hm.1, List.foldl_append]
    refine ⟨?_, hs.2⟩
    show for_checked [m] body _ = _
    unfold for_checked
    rw [hs.1]
    rfl

theorem fill_checked_eq {β : Type} (l : List Nat) (f : Nat → Option β) (g : Nat → β)
    (h : ∀ i, i ∈ l → f i = some (g i)) : fill_checked l f = some (l.map g) := by
  induction l with
  | nil => rfl
  | cons a t ih =>
    unfold fill_checked
    rw [h a (List.mem_cons_self _ _), ih (fun i hi => h i (List.mem_cons_of_mem _ hi))]
    rfl

theorem float_div_eq (x y : F) (h : y ≠ 0) : float_div x y = some (x / y) := by
  unfold float_div
  rw [if_neg h]

theorem int_div_eq (a b : Int) (h : b ≠ 0) : int_div a b = some (Int.tdiv a b) := by
  unfold int_div
  rw [if_neg h]

theorem batchnorm_ab_checked_eq (sqrt : F → F) (bn : Layer F)
    (hs : bn.channels.toNat ≤ bn.slope_data.length)
    (hm : bn.channels.toNat ≤ bn.mean_data.length)
    (hv : bn.channels.toNat ≤ bn.var_data.length)
    (hb : bn.channels.toNat ≤ bn.bias_data.length)
    (hz : divisors_nonzero sqrt bn) :
    batchnorm_ab_checked sqrt bn = some (batchnorm_a sqrt bn, batchnorm_b sqrt bn) := by
  unfold batchnorm_ab_checked batchnorm_a batchnorm_b
  rw [fill_checked_eq _ _ (fun i =>
      bn.bias_data.getD i 0
        - bn.slope_data.getD i 0 * bn.mean_data.getD i 0
          / sqrt (bn.var_data.getD i 0 + bn.eps)) ?_,
    fill_checked_eq _ _ (fun i =>
      bn.slope_data.getD i 0 / sqrt (bn.var_data.getD i 0 + bn.eps)) ?_]
  · intro i hi
    have hi := List.mem_range.mp hi
    rw [read_at_eq _ i 0 (lt_of_lt_of_le hi hv), read_at_eq _ i 0 (lt_of_lt_of_le hi hs)]
    exact float_div_eq _ _ (hz i hi)
  · intro i hi
    have hi := List.mem_range.mp hi
    rw [read_at_eq _ i 0 (lt_of_lt_of_le hi hv), read_at_eq _ i 0 (lt_of_lt_of_le hi hs),
      read_at_eq _ i 0 (lt_of_lt_of_le hi hb), read_at_eq _ i 0 (lt_of_lt_of_le hi hm)]
    show (float_div _ _).bind _ = _
    rw [float_div_eq _ _ (hz i hi)]
    rfl

theorem scale_outch_length (w : List F) (base n : Nat) (b : F) :
    (scale_outch w base n b).length = w.length := by
  unfold scale_outch
  exact foldl_invariant_mem (fun w1 : List F => w1.length = w.length) _ _
    (fun s i _ hs => by
      show (List.set _ _ _).length = _
      rw [List.length_set]; exact hs) w rfl

theorem scale_outch_checked_eq (w : List F) (base n : Nat) (b : F)
    (h : base + n ≤ w.length) :
    scale_outch_checked w base n b = some (scale_outch w base n b) := by
  unfold scale_outch_checked scale_outch
  exact (for_checked_range (fun (w1 : List F) j => w1.set (base + j) (w1.getD (base + j) 0 * b))
    _ (fun _ w1 => w1.length = w.length) n w rfl
    (fun j w1 hj hw => by
      have hlt : base + j < w1.length := by rw [hw]; omega
      refine ⟨?_, by show (List.set _ _ _).length = _; rw [List.length_set]; exact hw⟩
      show (read_at w1 (base + j)).bind _ = _
      rw [read_at_eq _ _ 0 hlt]
      exact write_at_eq _ _ _ hlt)).1

theorem fold_channels_checked_eq (a b : List F) (wpo n : Nat) (w bias : List F)
    (ha : n ≤ a.length) (hb : n ≤ b.length) (hbias : n ≤ bias.length)
    (hw : wpo * n ≤ w.length) :
    fold_channels_checked a b wpo n w bias = some (fold_channels a b wpo n w bias) := by
  unfold fold_channels_checked fold_channels
  exact (for_checked_range
    (fun (wb : List F × List F) i =>
      (scale_outch wb.1 (wpo * i) wpo (b.getD i 0), wb.2.set i (wb.2.getD i 0 + a.getD i 0)))
    _ (fun _ wb => wb.1.length = w.length ∧ wb.2.length = bias.length) n (w, bias) ⟨rfl, rfl⟩
    (fun i wb hi hlen => by
      have h1 : wpo * i + wpo ≤ wb.1.length := by
        rw [hlen.1]
        calc wpo * i + wpo = wpo * (i + 1) := by ring
          _ ≤ wpo * n := Nat.mul_le_mul_left _ hi
          _ ≤ w.length := hw
      have h2 : i < wb.2.length := by rw [hlen.2]; omega
      refine ⟨?_, by show (scale_outch _ _ _ _).length = _; rw [scale_outch_length]; exact hlen.1,
        by show (List.set _ _ _).length = _; rw [List.length_set]; exact hlen.2⟩
      show (read_at b i).bind _ = _
      rw [read_at_eq _ i 0 (lt_of_lt_of_le hi hb)]
      show (scale_outch_checked _ _ _ _).bind _ = _
      rw [scale_outch_checked_eq _ _ _ _ h1]
      show (read_at wb.2 i).bind _ = _
      rw [read_at_eq _ i 0 h2]
      show (read_at a i).bind _ = _
      rw [read_at_eq _ i 0 (lt_of_lt_of_le hi ha)]
      show (write_at wb.2 i _).bind _ = _
      rw [write_at_eq _ _ _ h2]
      rfl)).1

end CheckedFolds

section CheckedFoldEq

set_option linter.unusedSectionVars false

variable {F : Type} [Field F] [DecidableEq F]

theorem batchnorm_a_length (sqrt : F → F) (bn : Layer F) :
    (batchnorm_a sqrt bn).length = bn.channels.toNat := by
  unfold batchnorm_a
  rw [List.length_map, List.length_range]

theorem batchnorm_b_length (sqrt : F → F) (bn : Layer F) :
    (batchnorm_b sqrt bn).length = bn.channels.toNat := by
  unfold batchnorm_b
  rw [List.length_map, List.length_range]

/-- The slices of the weight tensor fit: `(size / channels) * channels <= size`
for the truncating division of a non-negative size by a positive count. -/
theorem weight_slices_fit (size channels : Int) (hs : 0 ≤ size) (hc : 0 < channels) :
    (Int.tdiv size channels).toNat * channels.toNat ≤ size.toNat := by
  have h1 : Int.tdiv size channels = size / channels :=
    Int.tdiv_eq_ediv hs (le_of_lt hc)
  have h2 : 0 ≤ size / channels := Int.ediv_nonneg hs (le_of_lt hc)
  have h3 : size / channels * channels ≤ size := Int.ediv_mul_le size (ne_of_gt hc)
  rw [h1]
  have h4 : ((size / channels).toNat : Int) = size / channels := Int.toNat_of_nonneg h2
  have h5 : (channels.toNat : Int) = channels := Int.toNat_of_nonneg (le_of_lt hc)
  have h6 : (size.toNat : Int) = size := Int.toNat_of_nonneg hs
  have : (((size / channels).toNat * channels.toNat : Nat) : Int) ≤ (size.toNat : Int) := by
    rw [Nat.cast_mul, h4, h5, h6]; exact h3
  exact_mod_cast this

theorem fold_batchnorm_checked_eq (sqrt : F → F) (cv bn : Layer F)
    (h : batchnorm_safe cv bn) (hz : divisors_nonzero sqrt bn) :
    fold_batchnorm_checked sqrt cv bn = some (fold_batchnorm sqrt cv bn) := by
  obtain ⟨hch, hs, hm, hv, hb, hsize, hlen, hbias⟩ := h
  unfold fold_batchnorm_checked fold_batchnorm
  rw [batchnorm_ab_checked_eq sqrt bn hs hm hv hb hz]
  have hfit := weight_slices_fit cv.weight_data_size bn.channels hsize hch
  have hwlen : cv.weight_data.length = cv.weight_data_size.toNat := by
    have : ((cv.weight_data.length : Nat) : Int).toNat = cv.weight_data_size.toNat := by
      rw [hlen]
    simpa using this
  by_cases hbt : cv.bias_term = 0
  · simp only [Option.some_bind, hbt, if_true]
    rw [int_div_eq _ _ (ne_of_gt hch)]
    simp only [Option.some_bind]
    rw [fold_channels_checked_eq _ _ _ _ _ _
      (by rw [batchnorm_a_length]) (by rw [batchnorm_b_length])
      (by rw [List.length_replicate]) (by rw [hwlen]; exact hfit)]
    rfl
  · simp only [Option.some_bind, hbt, if_false]
    rw [int_div_eq _ _ (ne_of_gt hch)]
    simp only [Option.some_bind]
    rw [fold_channels_checked_eq _ _ _ _ _ _
      (by rw [batchnorm_a_length]) (by rw [batchnorm_b_length])
      (hbias hbt) (by rw [hwlen]; exact hfit)]
    rfl

/-- Every weight index `(weight_data_size / channels) * c + k` of a BatchNorm
fold, for a channel `c < channels` and `k < weight_data_size / channels`, is
below `weight_data_size`. -/
theorem weight_index_bound (size channels : Int) (hs : 0 ≤ size) (hc : 0 < channels)
    (c k : Int) (hcc : c < channels) (hk : k < Int.tdiv size channels) :
    Int.tdiv size channels * c + k < size := by
  have h1 : Int.tdiv size channels = size / channels :=
    Int.tdiv_eq_ediv hs (le_of_lt hc)
  rw [h1] at hk ⊢
  have h2 : 0 ≤ size / channels := Int.ediv_nonneg hs (le_of_lt hc)
  have h3 : size / channels * channels ≤ size := Int.ediv_mul_le size (ne_of_gt hc)
  have h4 : size / channels * (c + 1) ≤ size / channels * channels :=
    Int.mul_le_mul_of_nonneg_left (by omega) h2
  have h5 : size / channels * (c + 1) = size / channels * c + size / channels := by ring
  omega

theorem scale_channels_checked_eq (scale : Layer F) (n : Nat) (slope bias : List F)
    (hslope : n ≤ slope.length) (hbias : n ≤ bias.length)
    (hscale : n ≤ scale.scale_data.length)
    (hsb : scale.bias_term ≠ 0 → n ≤ scale.bias_data.length) :
    scale_channels_checked scale n slope bias = some (scale_channels scale n slope bias) := by
  unfold scale_channels_checked scale_channels
  exact (for_checked_range
    (fun (sb : List F × List F) q =>
      (sb.1.set q (sb.1.getD q 0 * scale.scale_data.getD q 0),
       if scale.bias_term ≠ 0 then
         sb.2.set q (sb.2.getD q 0 * scale.scale_data.getD q 0 + scale.bias_data.getD q 0)
       else
         sb.2.set q (sb.2.getD q 0 * scale.scale_data.getD q 0)))
    _ (fun _ sb => sb.1.length = slope.length ∧ sb.2.length = bias.length) n (slope, bias)
    ⟨rfl, rfl⟩
    (fun q sb hq hlen => by
      have h1 : q < sb.1.length := by rw [hlen.1]; omega
      have h2 : q < sb.2.length := by rw [hlen.2]; omega
      have h3 : q < scale.scale_data.length := by omega
      refine ⟨?_, by show (List.set _ _ _).length = _; rw [List.length_set]; exact hlen.1, ?_⟩
      · show (read_at sb.1 q).bind _ = _
        rw [read_at_eq _ q 0 h1]
        show (read_at scale.scale_data q).bind _ = _
        rw [read_at_eq _ q 0 h3]
        show (write_at sb.1 q _).bind _ = _
        rw [write_at_eq _ _ _ h1]
        show (read_at sb.2 q).bind _ = _
        rw [read_at_eq _ q 0 h2]
        simp only [Option.some_bind]
        by_cases hbt : scale.bias_term ≠ 0
        · rw [if_pos hbt, if_pos hbt, read_at_eq _ q 0 (lt_of_lt_of_le hq (hsb hbt))]
          simp only [Option.some_bind]
          rw [write_at_eq _ _ _ h2]
          rfl
        · rw [if_neg hbt, if_neg hbt, write_at_eq _ _ _ h2]
          rfl
      · show (ite _ _ _ : List F).length = _
        split
        · rw [List.length_set]; exact hlen.2
        · rw [List.length_set]; exact hlen.2)).1

theorem fold_scale_checked_eq (bn sc : Layer F) (h : scale_safe bn sc) :
    fold_scale_checked bn sc = some (fold_scale bn sc) := by
  obtain ⟨h1, h2, h3, h4⟩ := h
  unfold fold_scale_checked fold_scale
  rw [scale_channels_checked_eq sc _ _ _ h1 h2 h3 h4]
  rfl

theorem fold_activation_checked_eq (cv act : Layer F) :
    fold_activation_checked cv act = some (fold_activation cv act) := by
  unfold fold_activation_checked fold_activation
  by_cases h1 : act.type = "ReLU"
  · by_cases h2 : act.slope = 0
    · simp only [h1, h2, if_true]
    · simp only [h1, h2, if_true, if_false]
      rfl
  · by_cases h3 : act.type = "Clip"
    · simp only [h1, h3, if_true, if_false]
      rfl
    · simp only [h1, h3, if_false]

/-- Under the size conditions of the pass and with non-zero divisors, the
checked numeric block of a pass yields the result of the numeric block. -/
theorem fold_checked_eq (sqrt : F → F) (p : Pass) (producer consumer : Layer F)
    (h : fold_safe p producer consumer)
    (hz : p.folds_batchnorm = true → divisors_nonzero sqrt consumer) :
    p.fold_checked sqrt producer consumer = some (p.fold sqrt producer consumer) := by
  cases p
  · exact fold_scale_checked_eq _ _ h
  · exact fold_batchnorm_checked_eq sqrt _ _ h (hz rfl)
  · exact fold_batchnorm_checked_eq sqrt _ _ h (hz rfl)
  · exact fold_batchnorm_checked_eq sqrt _ _ h (hz rfl)
  · exact fold_batchnorm_checked_eq sqrt _ _ h (hz rfl)
  · exact fold_batchnorm_checked_eq sqrt _ _ h (hz rfl)
  · exact fold_activation_checked_eq _ _
  · exact fold_activation_checked_eq _ _
  · exact fold_activation_checked_eq _ _
  · exact fold_activation_checked_eq _ _
  · exact fold_activation_checked_eq _ _
  · rfl

end CheckedFoldEq

section CheckedSteps

set_option linter.unusedSectionVars false

variable {F : Type} [Field F] [DecidableEq F]

theorem read_layer (layers : List (Layer F)) (j : Nat) (h : j < layers.length) :
    read_at layers j = some (layerAt layers j) :=
  read_at_eq layers j Layer.blank h

theorem read_first (xs : List Nat) (h : xs ≠ []) : read_at xs 0 = some (xs.getD 0 0) :=
  read_at_eq xs 0 0 (List.length_pos.mpr h)

theorem forward_scan_checked_eq (layers : List (Layer F)) (ic : String → Bool) (t : Nat) :
    ∀ r j, j + r ≤ layers.length →
      forward_scan_checked layers ic t r j = some (forward_scan layers ic t r j) := by
  intro r
  induction r with
  | zero => intro j _; rfl
  | succ r ih =>
    intro j hj
    have hrec := ih (j + 1) (by omega)
    unfold forward_scan_checked forward_scan
    rw [read_layer layers j (by omega)]
    simp only [Option.some_bind]
    split_ifs with h1 h2 h3
    · exact hrec
    · exact hrec
    · rw [read_first _ (by intro e; rw [e] at h2; exact h2 (by simp) |> False.elim)]
      simp only [Option.some_bind, h3, if_true]
    · rw [read_first _ (by intro e; rw [e] at h2; exact h2 (by simp) |> False.elim)]
      simp only [Option.some_bind, h3, if_false]
      exact hrec

theorem backward_scan_checked_eq (layers : List (Layer F)) (b : Nat) :
    ∀ i, i ≤ layers.length →
      backward_scan_checked layers b i = some (backward_scan layers b i) := by
  intro i
  induction i with
  | zero => intro _; rfl
  | succ i ih =>
    intro hi
    have hrec := ih (by omega)
    unfold backward_scan_checked backward_scan
    rw [read_layer layers i (by omega)]
    simp only [Option.some_bind]
    split_ifs with h1 h2 h3
    · exact hrec
    · exact hrec
    · rw [read_first _ (by intro e; rw [e] at h2; exact h2 (by simp) |> False.elim)]
      simp only [Option.some_bind, h3, if_true]
    · rw [read_first _ (by intro e; rw [e] at h2; exact h2 (by simp) |> False.elim)]
      simp only [Option.some_bind, h3, if_false]
      exact hrec

/-- The reroute is in bounds when both layers exist, both have a top, and the
first top of the consumer is an index of the blob table. -/
theorem reroute_checked_eq (s : NetOptimize F) (p c : Nat)
    (hp : p < s.layers.length) (hc : c < s.layers.length)
    (htp : (layerAt s.layers p).tops ≠ []) (htc : (layerAt s.layers c).tops ≠ [])
    (hb : (layerAt s.layers c).tops.getD 0 0 < s.blobs.length) :
    reroute_checked s p c = some (reroute s p c) := by
  unfold reroute_checked
  rw [read_layer _ c hc]
  simp only [Option.some_bind]
  rw [read_first _ htc]
  simp only [Option.some_bind]
  rw [read_layer _ p hp]
  simp only [Option.some_bind]
  rw [write_at_eq _ 0 _ (List.length_pos.mpr htp)]
  simp only [Option.some_bind]
  rw [write_at_eq _ p _ hp]
  simp only [Option.some_bind]
  rw [read_at_eq _ _ Blob.blank hb]
  simp only [Option.some_bind]
  rw [write_at_eq _ _ _ hb]
  simp only [Option.some_bind]
  rw [read_layer _ c (by rw [List.length_set]; exact hc)]
  simp only [Option.some_bind]
  rw [write_at_eq _ c _ (by rw [List.length_set]; exact hc)]
  rfl

theorem fuse_pair_checked_eq (pass_name : String)
    (fold_checked : Layer F → Layer F → Option (Layer F))
    (fold : Layer F → Layer F → Layer F) (hframe : FoldFrame fold)
    (s : NetOptimize F) (i j : Nat) (hij : i ≠ j)
    (hi : i < s.layers.length) (hj : j < s.layers.length)
    (hfold : fold_checked (layerAt s.layers i) (layerAt s.layers j)
      = some (fold (layerAt s.layers i) (layerAt s.layers j)))
    (hti : (layerAt s.layers i).tops ≠ []) (htj : (layerAt s.layers j).tops ≠ [])
    (hb : (layerAt s.layers j).tops.getD 0 0 < s.blobs.length) :
    fuse_pair_checked pass_name fold_checked s i j
      = some (fuse_pair pass_name fold s i j) := by
  unfold fuse_pair_checked
  rw [read_layer _ i hi]
  simp only [Option.some_bind]
  rw [read_layer _ j hj]
  simp only [Option.some_bind]
  rw [hfold]
  simp only [Option.some_bind]
  rw [write_at_eq _ i _ hi, fuse_pair_eq]
  simp only [Option.some_bind]
  refine reroute_checked_eq _ i j (by simpa using hi) (by simpa using hj) ?_ ?_ ?_
  · show (layerAt (s.layers.set i _) i).tops ≠ []
    rw [layerAt_set_self _ _ _ hi, (hframe _ _).2.1]
    exact hti
  · show (layerAt (s.layers.set i _) j).tops ≠ []
    rw [layerAt_set_other _ _ _ _ hij]
    exact htj
  · show (layerAt (s.layers.set i _) j).tops.getD 0 0 < s.blobs.length
    rw [layerAt_set_other _ _ _ _ hij]
    exact hb

/-- An iteration of a forward pass is in bounds when the layer at `i`, if it has
the producer kind, has a top, the consumer matched with it has a top and folds
safely with it, and the tops are indices of the blob table. -/
theorem fuse_step_checked_eq (pass_name pt : String) (ic : String → Bool)
    (fold_checked : Layer F → Layer F → Option (Layer F))
    (fold : Layer F → Layer F → Layer F) (hframe : FoldFrame fold)
    (s : NetOptimize F) (i : Nat) (hi : i < s.layers.length)
    (hprod : (layerAt s.layers i).type = pt → (layerAt s.layers i).tops ≠ [] ∧
      ∀ j, i < j → j < s.layers.length →
        is_partner s.layers ic ((layerAt s.layers i).tops.getD 0 0) j →
        (layerAt s.layers j).tops ≠ [] ∧
        fold_checked (layerAt s.layers i) (layerAt s.layers j)
          = some (fold (layerAt s.layers i) (layerAt s.layers j)))
    (hrange : ∀ k, k < s.layers.length → ∀ t ∈ (layerAt s.layers k).tops,
      t < s.blobs.length) :
    fuse_step_checked pass_name pt ic fold_checked s.layers.length s i
      = some (fuse_step pass_name pt ic fold s.layers.length s i) := by
  unfold fuse_step_checked
  rw [read_layer _ i hi, fuse_step_eq]
  simp only [Option.some_bind]
  by_cases h1 : (layerAt s.layers i).type ≠ pt
  · rw [if_pos h1, if_pos h1]
  · rw [if_neg h1, if_neg h1]
    have htype : (layerAt s.layers i).type = pt := not_not.mp h1
    obtain ⟨hti, hf⟩ := hprod htype
    rw [read_first _ hti]
    simp only [Option.some_bind]
    rw [forward_scan_checked_eq _ _ _ _ _ (by omega)]
    simp only [Option.some_bind]
    by_cases h2 : forward_scan s.layers ic ((layerAt s.layers i).tops.getD 0 0)
        (s.layers.length - (i + 1)) (i + 1) = s.layers.length
    · rw [if_pos h2, if_pos h2]
    · rw [if_neg h2, if_neg h2]
      have hge := forward_scan_ge s.layers ic ((layerAt s.layers i).tops.getD 0 0)
        (s.layers.length - (i + 1)) (i + 1)
      have hle := forward_scan_le s.layers ic ((layerAt s.layers i).tops.getD 0 0)
        (s.layers.length - (i + 1)) (i + 1)
      have hfound := forward_scan_found s.layers ic ((layerAt s.layers i).tops.getD 0 0)
        (s.layers.length - (i + 1)) (i + 1) (by omega)
      have hj : forward_scan s.layers ic ((layerAt s.layers i).tops.getD 0 0)
        (s.layers.length - (i + 1)) (i + 1) < s.layers.length := by omega
      obtain ⟨htj, hfj⟩ := hf _ (by omega) hj hfound
      exact fuse_pair_checked_eq pass_name fold_checked fold hframe s i _ (by omega) hi hj
        hfj hti htj (hrange _ hj _ (getD_zero_mem _ htj))

/-- An iteration of `eliminate_dropout` is in bounds when the layer at `i`, if it
is a Dropout, has a bottom and a top, and the tops are indices of the blob
table. -/
theorem eliminate_step_checked_eq (s : NetOptimize F) (i : Nat) (hi : i < s.layers.length)
    (hdrop : (layerAt s.layers i).type = "Dropout" →
      (layerAt s.layers i).bottoms ≠ [] ∧ (layerAt s.layers i).tops ≠ [])
    (hrange : ∀ k, k < s.layers.length → ∀ t ∈ (layerAt s.layers k).tops,
      t < s.blobs.length) :
    eliminate_step_checked s i = some (eliminate_step s i) := by
  unfold eliminate_step_checked
  rw [read_layer _ i hi, eliminate_step_eq]
  simp only [Option.some_bind]
  by_cases h1 : (layerAt s.layers i).type ≠ "Dropout"
  · rw [if_pos h1, if_pos h1]
  · rw [if_neg h1, if_neg h1]
    by_cases h2 : (layerAt s.layers i).scale ≠ 1
    · rw [if_pos h2, if_pos h2]
    · rw [if_neg h2, if_neg h2]
      obtain ⟨hbot, htop⟩ := hdrop (not_not.mp h1)
      rw [read_first _ hbot]
      simp only [Option.some_bind]
      rw [backward_scan_checked_eq _ _ _ (le_of_lt hi)]
      simp only [Option.some_bind]
      by_cases h3 : backward_scan s.layers ((layerAt s.layers i).bottoms.getD 0 0) i = -1
      · rw [if_pos h3, if_pos h3]
      · rw [if_neg h3, if_neg h3]
        rcases backward_scan_found s.layers ((layerAt s.layers i).bottoms.getD 0 0) i
          with h | ⟨_, hlt, hsrc⟩
        · exact absurd h h3
        · have hj : (backward_scan s.layers ((layerAt s.layers i).bottoms.getD 0 0) i).toNat
              < s.layers.length := by omega
          unfold eliminate_pair_checked
          rw [read_layer _ _ hj, read_layer _ i hi]
          simp only [Option.some_bind]
          exact reroute_checked_eq _ _ i hj hi
            (by
              intro e
              have := hsrc.2.1
              rw [show (layerAt s.layers _).tops = [] from e] at this
              simp at this)
            htop (hrange i hi _ (getD_zero_mem _ htop))

end CheckedSteps

section CheckedSweeps

set_option linter.unusedSectionVars false

variable {F : Type} [Field F] [DecidableEq F]

theorem fuse_step_cases (pass_name pt : String) (ic : String → Bool)
    (fold : Layer F → Layer F → Layer F) (s : NetOptimize F) (i : Nat)
    (hi : i < s.layers.length) :
    fuse_step pass_name pt ic fold s.layers.length s i = s ∨
    ∃ j, i < j ∧ j < s.layers.length ∧ (layerAt s.layers i).type = pt ∧
      is_partner s.layers ic ((layerAt s.layers i).tops.getD 0 0) j ∧
      fuse_step pass_name pt ic fold s.layers.length s i = fuse_pair pass_name fold s i j := by
  rw [fuse_step_eq]
  split_ifs with h1 h2
  · exact Or.inl rfl
  · exact Or.inl rfl
  · right
    have hge := forward_scan_ge s.layers ic ((layerAt s.layers i).tops.getD 0 0)
      (s.layers.length - (i + 1)) (i + 1)
    have hle := forward_scan_le s.layers ic ((layerAt s.layers i).tops.getD 0 0)
      (s.layers.length - (i + 1)) (i + 1)
    have hfound := forward_scan_found s.layers ic ((layerAt s.layers i).tops.getD 0 0)
      (s.layers.length - (i + 1)) (i + 1) (by omega)
    exact ⟨_, by omega, by omega, not_not.mp h1, hfound, rfl⟩

theorem eliminate_step_cases (s : NetOptimize F) (i : Nat) :
    eliminate_step s i = s ∨
    ∃ j, j < i ∧ (layerAt s.layers i).type = "Dropout" ∧
      eliminate_step s i = eliminate_pair s i j := by
  rw [eliminate_step_eq]
  split_ifs with h1 h2 h3
  · exact Or.inl rfl
  · exact Or.inl rfl
  · exact Or.inl rfl
  · right
    rcases backward_scan_found s.layers ((layerAt s.layers i).bottoms.getD 0 0) i
      with h | ⟨_, hlt, _⟩
    · exact absurd h h3
    · exact ⟨_, hlt, not_not.mp h1, rfl⟩

theorem fuse_pair_blobs_length (pass_name : String) (fold : Layer F → Layer F → Layer F)
    (s : NetOptimize F) (i j : Nat) :
    (fuse_pair pass_name fold s i j).blobs.length = s.blobs.length := by
  rw [fuse_pair_eq, reroute_blobs_length]

theorem eliminate_pair_blobs_length (s : NetOptimize F) (i j : Nat) :
    (eliminate_pair s i j).blobs.length = s.blobs.length := by
  rw [eliminate_pair_eq, reroute_blobs_length]

/-- A forward pass run with every access checked succeeds with the result of
the pass when every producer has a top, every consumer matched in the net the
pass starts from has a top and folds safely with its producer, and the tops are
indices of the blob table. -/
theorem forward_pass_checked_eq (pass_name pt : String) (ic : String → Bool)
    (fold_checked : Layer F → Layer F → Option (Layer F))
    (fold : Layer F → Layer F → Layer F) (hframe : FoldFrame fold)
    (hpt : pt ≠ "ncnnfused") (hicf : ic "ncnnfused" = false) (g : NetOptimize F)
    (hprod : ∀ i, i < g.layers.length → (layerAt g.layers i).type = pt →
      (layerAt g.layers i).tops ≠ [])
    (hcand : ∀ i j, i < j → j < g.layers.length → (layerAt g.layers i).type = pt →
      is_partner g.layers ic ((layerAt g.layers i).tops.getD 0 0) j →
      (layerAt g.layers j).tops ≠ [] ∧
      fold_checked (layerAt g.layers i) (layerAt g.layers j)
        = some (fold (layerAt g.layers i) (layerAt g.layers j)))
    (hrange : ∀ k, k < g.layers.length → ∀ t ∈ (layerAt g.layers k).tops,
      t < g.blobs.length) :
    forward_pass_checked pass_name pt ic fold_checked g
      = some (forward_pass pass_name pt ic fold g) := by
  unfold forward_pass_checked forward_pass
  refine (for_checked_range (fuse_step pass_name pt ic fold g.layers.length)
    (fuse_step_checked pass_name pt ic fold_checked g.layers.length)
    (fun b s => s.layers.length = g.layers.length ∧
      (∀ k, b ≤ k → k < g.layers.length →
        layerAt s.layers k = layerAt g.layers k ∨
        layerAt s.layers k = { layerAt g.layers k with type := "ncnnfused" }) ∧
      (∀ k, k < g.layers.length → ∀ t ∈ (layerAt s.layers k).tops, t < s.blobs.length))
    g.layers.length g ⟨rfl, fun k _ _ => Or.inl rfl, hrange⟩ ?_).1
  rintro b s hb ⟨hlen, hG, hR⟩
  have hbs : b < s.layers.length := by rw [hlen]; exact hb
  -- a layer at or after `b` that is not tombstoned is the layer of `g`
  have hlive : ∀ k, b ≤ k → k < g.layers.length →
      (layerAt s.layers k).type ≠ "ncnnfused" → layerAt s.layers k = layerAt g.layers k := by
    intro k hbk hk hty
    rcases hG k hbk hk with e | e
    · exact e
    · rw [e] at hty
      exact absurd rfl hty
  have hcons : ∀ k, ic (layerAt s.layers k).type = true →
      (layerAt s.layers k).type ≠ "ncnnfused" := by
    intro k hc e
    rw [e, hicf] at hc
    exact absurd hc (by decide)
  refine ⟨?_, ?_⟩
  · have := fuse_step_checked_eq pass_name pt ic fold_checked fold hframe s b hbs
      (fun ht => by
        have eb := hlive b (le_refl b) hb (by rw [ht]; exact hpt)
        refine ⟨by rw [eb]; exact hprod b hb (by rw [← eb]; exact ht), ?_⟩
        intro j hbj hj hpart
        have hjg : j < g.layers.length := by rw [← hlen]; exact hj
        have ej := hlive j (by omega) hjg (hcons j hpart.1)
        have hpg : is_partner g.layers ic ((layerAt g.layers b).tops.getD 0 0) j := by
          unfold is_partner at hpart ⊢
          rw [ej, eb] at hpart
          exact hpart
        have := hcand b j hbj hjg (by rw [← eb]; exact ht) hpg
        rw [ej, eb]
        exact this)
      (fun k hk => hR k (by rw [← hlen]; exact hk))
    rw [hlen] at this
    exact this
  · have hcases := fuse_step_cases pass_name pt ic fold s b hbs
    rw [hlen] at hcases
    rcases hcases with h | ⟨j0, hbj, hj0, htb, hcj, h⟩
    · rw [h]
      exact ⟨hlen, fun k hk => hG k (by omega), hR⟩
    · rw [h]
      have hjl : j0 < g.layers.length := hj0
      have hj0s : j0 < s.layers.length := by rw [hlen]; exact hj0
      have hne : b ≠ j0 := by omega
      have hprod_new := fuse_pair_layer_producer pass_name fold s b j0 hne hbs
      have hcons_new := fuse_pair_layer_consumer pass_name fold s b j0 hne hj0s
      have hother := fun k (h1 : k ≠ b) (h2 : k ≠ j0) =>
        fuse_pair_layer_other pass_name fold s b j0 k h1 h2
      have ej := hlive j0 (by omega) hjl (hcons j0 hcj.1)
      refine ⟨by rw [fuse_pair_length]; exact hlen, ?_, ?_⟩
      · intro k hbk hk
        by_cases h2 : k = j0
        · subst h2
          right
          rw [hcons_new, ej]
        · rw [hother k (by omega) h2]
          exact hG k (by omega) hk
      · intro k hk t ht
        rw [fuse_pair_blobs_length]
        by_cases h1 : k = b
        · subst h1
          rw [hprod_new] at ht
          have ht2 : t ∈ (fold (layerAt s.layers k) (layerAt s.layers j0)).tops.set 0
              ((layerAt s.layers j0).tops.getD 0 0) := ht
          rw [(hframe _ _).2.1] at ht2
          rcases mem_set_zero _ _ _ ht2 with e | e
          · rw [e]
            have eb := hlive k (le_refl k) hb (by rw [htb]; exact hpt)
            have htop : (layerAt s.layers j0).tops ≠ [] := by
              have hk0 : is_partner s.layers ic ((layerAt s.layers k).tops.getD 0 0) j0 →
                  (layerAt g.layers j0).tops ≠ [] := by
                intro hpart
                have hpg : is_partner g.layers ic ((layerAt g.layers k).tops.getD 0 0) j0 := by
                  unfold is_partner at hpart ⊢
                  rw [ej, eb] at hpart
                  exact hpart
                exact (hcand k j0 hbj hjl (by rw [← eb]; exact htb) hpg).1
              rw [ej]
              exact hk0 hcj
            exact hR j0 hjl _ (getD_zero_mem _ htop)
          · exact hR k hk t e
        · by_cases h2 : k = j0
          · subst h2
            rw [hcons_new] at ht
            exact hR k hk t ht
          · rw [hother k h1 h2] at ht
            exact hR k hk t ht

end CheckedSweeps

section IndexSafety

set_option linter.unusedSectionVars false

variable {F : Type} [Field F] [DecidableEq F]

/-- The pass `eliminate_dropout` run with every access checked succeeds with
the result of the pass when every Dropout has a bottom and a top and the tops
are indices of the blob table. -/
theorem eliminate_dropout_checked_eq (g : NetOptimize F)
    (hdrop : ∀ i, i < g.layers.length → (layerAt g.layers i).type = "Dropout" →
      (layerAt g.layers i).bottoms ≠ [] ∧ (layerAt g.layers i).tops ≠ [])
    (hrange : ∀ k, k < g.layers.length → ∀ t ∈ (layerAt g.layers k).tops,
      t < g.blobs.length) :
    eliminate_dropout_checked g = some (eliminate_dropout g) := by
  unfold eliminate_dropout_checked eliminate_dropout
  refine (for_checked_range eliminate_step eliminate_step_checked
    (fun b s => s.layers.length = g.layers.length ∧
      (∀ i, b ≤ i → i < g.layers.length → (layerAt s.layers i).type = "Dropout" →
        (layerAt s.layers i).bottoms ≠ [] ∧ (layerAt s.layers i).tops ≠ []) ∧
      (∀ k, k < g.layers.length → ∀ t ∈ (layerAt s.layers k).tops, t < s.blobs.length))
    g.layers.length g ⟨rfl, fun i _ hi ht => hdrop i hi ht, hrange⟩ ?_).1
  rintro b s hb ⟨hlen, hD, hR⟩
  have hbs : b < s.layers.length := by rw [hlen]; exact hb
  refine ⟨eliminate_step_checked_eq s b hbs (hD b (le_refl b) hb)
    (fun k hk => hR k (by rw [← hlen]; exact hk)), ?_⟩
  rcases eliminate_step_cases s b with h | ⟨j0, hj0, htb, h⟩
  · rw [h]
    exact ⟨hlen, fun i hi => hD i (by omega), hR⟩
  · rw [h]
    have hj0s : j0 < s.layers.length := by omega
    have hne : j0 ≠ b := by omega
    have hsrc := eliminate_pair_layer_source s b j0 hne hj0s
    have hdro := eliminate_pair_layer_dropout s b j0 hne hbs
    have hother := fun k (h1 : k ≠ b) (h2 : k ≠ j0) =>
      eliminate_pair_layer_other s b j0 k h1 h2
    refine ⟨by rw [eliminate_pair_eq, reroute_length]; exact hlen, ?_, ?_⟩
    · intro i hbi hi ht
      have e := hother i (by omega) (by omega)
      rw [e] at ht ⊢
      exact hD i (by omega) hi ht
    · intro k hk t ht
      rw [eliminate_pair_blobs_length]
      by_cases h1 : k = j0
      · subst h1
        rw [hsrc] at ht
        rcases mem_set_zero _ _ _ ht with e | e
        · rw [e]
          exact hR b hb _ (getD_zero_mem _ (hD b (le_refl b) hb htb).2)
        · exact hR k hk t e
      · by_cases h2 : k = b
        · subst h2
          rw [hdro] at ht
          exact hR k hk t ht
        · rw [hother k h2 h1] at ht
          exact hR k hk t ht

theorem consumer_test_fused (p : Pass) : p.consumer_test "ncnnfused" = false := by
  cases p <;> decide

theorem folds_batchnorm_safe (p : Pass) (hp : p.folds_batchnorm = true)
    (producer consumer : Layer F) (h : fold_safe p producer consumer) :
    batchnorm_safe producer consumer := by
  cases p <;> first
    | exact absurd hp (by decide)
    | exact h

theorem folds_batchnorm_forward (p : Pass) (hp : p.folds_batchnorm = true) :
    p ≠ .eliminate_dropout := by
  intro e
  rw [e] at hp
  exact absurd hp (by decide)

theorem candidate_forward (p : Pass) (hp : p ≠ .eliminate_dropout) (s : NetOptimize F)
    (i j : Nat) :
    candidate p s i j ↔
      ((layerAt s.layers i).type = p.producer_kind ∧ i < j ∧ j < s.layers.length ∧
        is_partner s.layers p.consumer_test ((layerAt s.layers i).tops.getD 0 0) j) := by
  unfold candidate
  rw [if_neg hp]

/-- Under the preconditions of index safety and with non-zero divisors, a pass
run with every indexed access and every division checked succeeds with the
result of the pass. -/
theorem run_pass_checked_eq (sqrt : F → F) (p : Pass) (s : NetOptimize F)
    (h : IndexPreconditions p s) (hz : DivisorsNonzero sqrt p s) :
    run_pass_checked sqrt p s = some (run_pass sqrt p s) := by
  obtain ⟨hprod, hcand, hbot, hrange⟩ := h
  unfold run_pass_checked
  by_cases hp : p = .eliminate_dropout
  · rw [if_pos hp]
    subst hp
    exact eliminate_dropout_checked_eq s
      (fun i hi ht => ⟨hbot i hi ht, hprod i hi ht⟩) (fun k hk => (hrange k hk).1)
  · rw [if_neg hp, run_pass_eq_forward sqrt p hp]
    refine forward_pass_checked_eq p.pass_name p.producer_kind p.consumer_test
      (p.fold_checked sqrt) (p.fold sqrt) (foldFrame_pass sqrt p) (producer_kind_live p)
      (consumer_test_fused p) s hprod ?_ (fun k hk => (hrange k hk).1)
    intro i j hij hj ht hpart
    have hc : candidate p s i j := (candidate_forward p hp s i j).mpr ⟨ht, hij, hj, hpart⟩
    obtain ⟨htop, hsafe⟩ := hcand i (by omega) j hj hc
    exact ⟨htop, fold_checked_eq sqrt p _ _ hsafe (fun hb => hz hb i (by omega) j hj hc)⟩

theorem fill_checked_none {β : Type} (l : List Nat) (f : Nat → Option β) (i : Nat)
    (hi : i ∈ l) (hf : f i = none) : fill_checked l f = none := by
  induction l with
  | nil => exact absurd hi (List.not_mem_nil i)
  | cons a t ih =>
    unfold fill_checked
    rcases List.mem_cons.mp hi with e | e
    · rw [← e, hf]
    · rw [ih e]
      cases f a <;> rfl

/-- An iteration of a forward pass whose scan matches a consumer on which the
checked numeric block fails, fails. -/
theorem fuse_step_checked_none (pass_name pt : String) (ic : String → Bool)
    (fold_checked : Layer F → Layer F → Option (Layer F))
    (s : NetOptimize F) (i j : Nat) (hi : i < s.layers.length) (hj : j < s.layers.length)
    (htype : (layerAt s.layers i).type = pt) (htop : (layerAt s.layers i).tops ≠ [])
    (hscan : forward_scan s.layers ic ((layerAt s.layers i).tops.getD 0 0)
      (s.layers.length - (i + 1)) (i + 1) = j)
    (hnone : fold_checked (layerAt s.layers i) (layerAt s.layers j) = none) :
    fuse_step_checked pass_name pt ic fold_checked s.layers.length s i = none := by
  unfold fuse_step_checked
  rw [read_layer _ i hi]
  simp only [Option.some_bind]
  rw [if_neg (not_not.mpr htype), read_first _ htop]
  simp only [Option.some_bind]
  rw [forward_scan_checked_eq _ _ _ _ _ (by omega), hscan]
  simp only [Option.some_bind]
  rw [if_neg (by omega)]
  unfold fuse_pair_checked
  rw [read_layer _ i hi]
  simp only [Option.some_bind]
  rw [read_layer _ j hj]
  simp only [Option.some_bind]
  rw [hnone]
  rfl

/-- The run of `fuse_convolution_batchnorm` with every division checked on the
net with a BatchNorm of zero variance and zero `eps` stops at the division by
`sqrt(0 + 0)`. -/
theorem zero_variance_fails :
    run_pass_checked Real.sqrt Pass.fuse_convolution_batchnorm
      (zero_variance_net : NetOptimize ℝ) = none := by
  have hab : batchnorm_ab_checked Real.sqrt
      (layerAt (zero_variance_net : NetOptimize ℝ).layers 2) = none := by
    unfold batchnorm_ab_checked
    rw [fill_checked_none _ _ 0 (by decide) ?_]
    show (read_at [(0 : ℝ)] 0).bind _ = none
    show (float_div ((3 : ℝ) * 1) (Real.sqrt (0 + 0))).bind _ = none
    rw [add_zero, Real.sqrt_zero]
    unfold float_div
    rw [if_pos rfl]
    rfl
  have hfold : fold_batchnorm_checked Real.sqrt
      (layerAt (zero_variance_net : NetOptimize ℝ).layers 1)
      (layerAt (zero_variance_net : NetOptimize ℝ).layers 2) = none := by
    unfold fold_batchnorm_checked
    rw [hab]
    rfl
  have hstep0 : fuse_step_checked "fuse_convolution_batchnorm" "Convolution" is_batchnorm
      (fold_batchnorm_checked Real.sqrt) 3 (zero_variance_net : NetOptimize ℝ) 0
      = some zero_variance_net := by
    unfold fuse_step_checked
    rw [read_layer _ 0 (by decide)]
    simp only [Option.some_bind]
    rw [if_pos (by decide)]
  have hstep1 : fuse_step_checked "fuse_convolution_batchnorm" "Convolution" is_batchnorm
      (fold_batchnorm_checked Real.sqrt) 3 (zero_variance_net : NetOptimize ℝ) 1 = none :=
    fuse_step_checked_none "fuse_convolution_batchnorm" "Convolution" is_batchnorm
      (fold_batchnorm_checked Real.sqrt) zero_variance_net 1 2 (by decide) (by decide)
      (by decide) (by decide) (by decide) hfold
  unfold run_pass_checked
  rw [if_neg (by decide)]
  show for_checked (0 :: 1 :: [2])
    (fuse_step_checked "fuse_convolution_batchnorm" "Convolution" is_batchnorm
      (fold_batchnorm_checked Real.sqrt) 3) zero_variance_net = none
  rw [for_checked_cons, hstep0]
  simp only [Option.some_bind]
  rw [for_checked_cons, hstep1]
  rfl

end IndexSafety

section IndexSafetyClaim

set_option linter.unusedSectionVars false

variable {F : Type} [Field F] [DecidableEq F]

/-- C35 (as stated, refuted): `zero_variance_net` is `Input -> Convolution ->
BatchNorm` with one channel, one weight, `var_data = [0]` and `eps = 0`.  Every
precondition of the claim holds (each layer has a top, the blob indices are in
range, `channels = 1 > 0`, the four tensors of the BatchNorm have one element,
the weight tensor has `weight_data_size = 1` elements), yet
`fuse_convolution_batchnorm` divides by zero: the divisor of `a[0]` and `b[0]`
is `sqrt(var_data[0] + eps) = sqrt(0)`, so the run with every division checked
stops there. -/
theorem index_safety_counterexample :
    IndexPreconditions Pass.fuse_convolution_batchnorm (zero_variance_net : NetOptimize ℝ) ∧
    (layerAt (zero_variance_net : NetOptimize ℝ).layers 2).var_data = [0] ∧
    (layerAt (zero_variance_net : NetOptimize ℝ).layers 2).eps = 0 ∧
    float_div ((3 : ℝ) * 1) (Real.sqrt (0 + 0)) = none ∧
    run_pass_checked Real.sqrt Pass.fuse_convolution_batchnorm
      (zero_variance_net : NetOptimize ℝ) = none := by
  refine ⟨by decide, rfl, rfl, ?_, zero_variance_fails⟩
  unfold float_div
  rw [add_zero, Real.sqrt_zero, if_pos rfl]

/-- C35 (amended): index safety of the folds.  Under the preconditions of the
claim (`IndexPreconditions`: every layer of the kind the pass stops at and every
matched consumer has at least one top, every Dropout has at least one bottom,
all blob indices are below the blob count, the matched BatchNorm has positive
`channels` and four tensors of at least `channels` elements, the producer's
weight tensor has `weight_data_size >= 0` elements and its bias, when
`bias_term != 0`, at least `channels` elements, the matched Scale's scale, and
bias when `bias_term != 0`, at least `channels` elements) and the added one
that `sqrt(var_data[c] + eps)` is non-zero for every channel `c` of a matched
BatchNorm (`DivisorsNonzero`), every pass run with each indexed read and write
and each division checked succeeds and leaves the state the pass leaves: no
index is out of bounds and no divisor is zero.  In particular, for a matched
producer and BatchNorm, every weight index `(weight_data_size / channels) * c + k`
with `c < channels` and `k < weight_data_size / channels` is below
`weight_data_size`, the size of the weight tensor. -/
theorem index_safety (sqrt : F → F) (p : Pass) (s : NetOptimize F)
    (h : IndexPreconditions p s) (hz : DivisorsNonzero sqrt p s) :
    run_pass_checked sqrt p s = some (run_pass sqrt p s) ∧
    (p.folds_batchnorm = true → ∀ i j, candidate p s i j →
      ∀ c k : Nat, (c : Int) < (layerAt s.layers j).channels →
        (k : Int) < Int.tdiv (layerAt s.layers i).weight_data_size
          (layerAt s.layers j).channels →
        Int.tdiv (layerAt s.layers i).weight_data_size (layerAt s.layers j).channels * c + k
            < (layerAt s.layers i).weight_data_size ∧
        (layerAt s.layers i).weight_data_size
            = ((layerAt s.layers i).weight_data.length : Int)) := by
  refine ⟨run_pass_checked_eq sqrt p s h hz, ?_⟩
  intro hb i j hc c k hcc hk
  obtain ⟨_, hij, hj, _⟩ := (candidate_forward p (folds_batchnorm_forward p hb) s i j).mp hc
  obtain ⟨hch, _, _, _, _, hsize, hlen, _⟩ :=
    folds_batchnorm_safe p hb _ _ (h.2.1 i (by omega) j hj hc).2
  exact ⟨weight_index_bound _ _ hsize hch c k hcc hk, hlen.symm⟩

/-- The amended C35 on the chain `Input -> Convolution -> BatchNorm -> ReLU ->
Dropout` over the reals, where `sqrt(var_data[0] + eps) = sqrt(3 + 1) = 2`: the
checked run of `fuse_convolution_batchnorm` succeeds. -/
theorem index_safety_witness :
    (IndexPreconditions Pass.fuse_convolution_batchnorm (chain_net : NetOptimize ℝ) ∧
      DivisorsNonzero Real.sqrt Pass.fuse_convolution_batchnorm (chain_net : NetOptimize ℝ)) ∧
    run_pass_checked Real.sqrt Pass.fuse_convolution_batchnorm (chain_net : NetOptimize ℝ)
      = some (run_pass Real.sqrt Pass.fuse_convolution_batchnorm chain_net) := by
  have hz : DivisorsNonzero Real.sqrt Pass.fuse_convolution_batchnorm
      (chain_net : NetOptimize ℝ) := by
    intro _ i _ j hj hc c hcl
    have hpart := ((candidate_forward Pass.fuse_convolution_batchnorm (by decide)
      chain_net i j).mp hc).2.2.2
    have hj5 : j < 5 := hj
    have hty : is_batchnorm (layerAt (chain_net : NetOptimize ℝ).layers j).type = true :=
      hpart.1
    have hj2 : j = 2 := by
      interval_cases j
      · exact absurd hty (by decide)
      · exact absurd hty (by decide)
      · rfl
      · exact absurd hty (by decide)
      · exact absurd hty (by decide)
    subst hj2
    have hc0 : c = 0 := by
      have : c < 1 := hcl
      omega
    subst hc0
    show Real.sqrt (3 + 1) ≠ 0
    rw [real_sqrt_four]
    norm_num
  exact ⟨⟨by decide, hz⟩,
    (index_safety Real.sqrt Pass.fuse_convolution_batchnorm chain_net (by decide) hz).1⟩

end IndexSafetyClaim

section ChainDefined

set_option linter.unusedSectionVars false

variable {F : Type} [Field F] [DecidableEq F]

/-! ## Consistency of a chain on the runs that read `tops[0]` in bounds -/

theorem chain_similar (s1 s2 : NetOptimize F) (hs : Similar s1 s2)
    (h : ProducerConsistent s1 ∧ SingleReader s1 ∧ OrderedBottoms s1 ∧ ConsumerShape s1) :
    ProducerConsistent s2 ∧ SingleReader s2 ∧ OrderedBottoms s2 ∧ ConsumerShape s2 :=
  ⟨producerConsistent_of_similar s1 s2 hs h.1, singleReader_of_similar s1 s2 hs h.2.1,
    orderedBottoms_of_similar s1 s2 hs h.2.2.1, consumerShape_of_similar s1 s2 hs h.2.2.2⟩

/-- The reroute of a producer that has a top keeps the four properties of a
chain. -/
theorem chain_reroute (s : NetOptimize F) (p c : Nat) (hr : RerouteReady s p c)
    (hptop : (layerAt s.layers p).tops ≠ [])
    (h : ProducerConsistent s ∧ SingleReader s ∧ OrderedBottoms s ∧ ConsumerShape s) :
    ProducerConsistent (reroute s p c) ∧ SingleReader (reroute s p c) ∧
      OrderedBottoms (reroute s p c) ∧ ConsumerShape (reroute s p c) := by
  obtain ⟨hpc, hc, hlp, hkind, hread⟩ := hr
  obtain ⟨hA, hB, hC, hD⟩ := h
  have hp : p < s.layers.length := by omega
  have hne : p ≠ c := by omega
  have hlc := consumer_kind_live _ hkind
  have hshape := hD c hc hkind
  have hctop : (layerAt s.layers c).tops ≠ [] := by
    intro e; rw [e] at hshape; simp at hshape
  have hreads : (layerAt s.layers p).tops.getD 0 0 ∈ (layerAt s.layers c).bottoms := by
    rw [bottoms_eq_singleton _ hshape.1, hread]; simp
  exact ⟨reroute_producerConsistent_top s p c hne hp hc hA hlc hctop,
    reroute_singleReader s p c hne hp hc hB,
    reroute_orderedBottoms s p c hpc hc hC hB hlp hlc hptop hshape.2 hreads,
    reroute_consumerShape s p c hne hp hc hD⟩

/-- An iteration of a forward pass keeps the four properties of a chain and the
tops of the layers of the producer kind. -/
theorem fuse_step_chain (pass_name pt : String) (ic : String → Bool)
    (fold : Layer F → Layer F → Layer F)
    (hpt : pt ≠ "ncnnfused") (hic : ∀ ty, ic ty = true → is_consumer_kind ty = true)
    (hfold : FoldFrame fold) (s : NetOptimize F) (i : Nat) (hi : i < s.layers.length)
    (h : ProducerConsistent s ∧ SingleReader s ∧ OrderedBottoms s ∧ ConsumerShape s)
    (htop : ∀ k, k < s.layers.length → (layerAt s.layers k).type = pt →
      (layerAt s.layers k).tops ≠ []) :
    (ProducerConsistent (fuse_step pass_name pt ic fold s.layers.length s i) ∧
      SingleReader (fuse_step pass_name pt ic fold s.layers.length s i) ∧
      OrderedBottoms (fuse_step pass_name pt ic fold s.layers.length s i) ∧
      ConsumerShape (fuse_step pass_name pt ic fold s.layers.length s i)) ∧
    ∀ k, k < s.layers.length →
      (layerAt (fuse_step pass_name pt ic fold s.layers.length s i).layers k).type = pt →
      (layerAt (fuse_step pass_name pt ic fold s.layers.length s i).layers k).tops ≠ [] := by
  rw [fuse_step_eq]
  split_ifs with h1 h2
  · exact ⟨h, htop⟩
  · exact ⟨h, htop⟩
  · have htype : (layerAt s.layers i).type = pt := not_not.mp h1
    obtain ⟨hr, _⟩ := forward_match pt ic s i _ hpt hic hi htype rfl h2
    rw [fuse_pair_eq]
    have hsim := similar_set s i
      (fold (layerAt s.layers i) (layerAt s.layers
        (forward_scan s.layers ic ((layerAt s.layers i).tops.getD 0 0)
          (s.layers.length - (i + 1)) (i + 1))))
      (s.stderr ++ [diagnostic pass_name (layerAt s.layers i).name (layerAt s.layers
        (forward_scan s.layers ic ((layerAt s.layers i).tops.getD 0 0)
          (s.layers.length - (i + 1)) (i + 1))).name]) (hfold _ _)
    have hr2 := rerouteReady_of_similar _ _ hsim _ _ hr
    have hlen := hsim.1
    have hptop2 : ∀ k, (layerAt s.layers k).tops ≠ [] →
        (layerAt (s.layers.set i (fold (layerAt s.layers i) (layerAt s.layers
          (forward_scan s.layers ic ((layerAt s.layers i).tops.getD 0 0)
            (s.layers.length - (i + 1)) (i + 1))))) k).tops ≠ [] := by
      intro k hk
      have e := (hsim.2.2 k).2.1
      exact fun hh => hk (e.trans hh)
    refine ⟨chain_reroute _ i _ hr2 (hptop2 i (htop i hi htype)) (chain_similar _ _ hsim h), ?_⟩
    intro k hk hty
    obtain ⟨hpc, hc, _, _, _⟩ := hr2
    have hp2 : i < (s.layers.set i (fold (layerAt s.layers i) (layerAt s.layers
          (forward_scan s.layers ic ((layerAt s.layers i).tops.getD 0 0)
            (s.layers.length - (i + 1)) (i + 1))))).length := by
      rw [List.length_set]; exact hi
    rw [reroute_type _ i _ k (by omega) hp2 hc] at hty
    rw [reroute_tops _ i _ k (by omega) hp2 hc]
    by_cases hkc : k = forward_scan s.layers ic ((layerAt s.layers i).tops.getD 0 0)
        (s.layers.length - (i + 1)) (i + 1)
    · rw [if_pos hkc] at hty
      exact absurd hty.symm hpt
    · rw [if_neg hkc] at hty
      have hty2 : (layerAt s.layers k).type = pt := ((hsim.2.2 k).1).trans hty
      by_cases hki : k = i
      · rw [if_pos hki]
        intro e
        have hl := congrArg List.length e
        rw [List.length_set] at hl
        exact hptop2 i (htop i hi htype) (List.length_eq_zero.mp hl)
      · rw [if_neg hki]
        exact hptop2 k (htop k hk hty2)

theorem forward_pass_chain (pass_name pt : String) (ic : String → Bool)
    (fold : Layer F → Layer F → Layer F)
    (hpt : pt ≠ "ncnnfused") (hic : ∀ ty, ic ty = true → is_consumer_kind ty = true)
    (hfold : FoldFrame fold) (s : NetOptimize F)
    (h : ProducerConsistent s ∧ SingleReader s ∧ OrderedBottoms s ∧ ConsumerShape s)
    (htop : ∀ k, k < s.layers.length → (layerAt s.layers k).type = pt →
      (layerAt s.layers k).tops ≠ []) :
    ProducerConsistent (forward_pass pass_name pt ic fold s) ∧
      SingleReader (forward_pass pass_name pt ic fold s) ∧
      OrderedBottoms (forward_pass pass_name pt ic fold s) ∧
      ConsumerShape (forward_pass pass_name pt ic fold s) := by
  unfold forward_pass
  have := foldl_invariant_mem
    (fun s1 : NetOptimize F => s1.layers.length = s.layers.length ∧
      (ProducerConsistent s1 ∧ SingleReader s1 ∧ OrderedBottoms s1 ∧ ConsumerShape s1) ∧
      ∀ k, k < s.layers.length → (layerAt s1.layers k).type = pt →
        (layerAt s1.layers k).tops ≠ [])
    (fuse_step pass_name pt ic fold s.layers.length) (List.range s.layers.length)
    (fun s1 i hi hs => by
      obtain ⟨hlen, hc, ht⟩ := hs
      have hi1 : i < s1.layers.length := by rw [hlen]; exact List.mem_range.mp hi
      have hstep := fuse_step_chain pass_name pt ic fold hpt hic hfold s1 i hi1 hc
        (fun k hk => ht k (by rw [← hlen]; exact hk))
      rw [hlen] at hstep
      exact ⟨by rw [fuse_step_length]; exact hlen, hstep.1, hstep.2⟩)
    s ⟨rfl, h, htop⟩
  exact this.2.1

/-- An iteration of `eliminate_dropout` keeps the four properties of a chain:
the layer whose top is rewritten was found with exactly one top. -/
theorem eliminate_step_chain (s : NetOptimize F) (i : Nat) (hi : i < s.layers.length)
    (h : ProducerConsistent s ∧ SingleReader s ∧ OrderedBottoms s ∧ ConsumerShape s) :
    ProducerConsistent (eliminate_step s i) ∧ SingleReader (eliminate_step s i) ∧
      OrderedBottoms (eliminate_step s i) ∧ ConsumerShape (eliminate_step s i) := by
  rw [eliminate_step_eq]
  split_ifs with h1 h2 h3
  · exact h
  · exact h
  · exact h
  · have htype : (layerAt s.layers i).type = "Dropout" := not_not.mp h1
    obtain ⟨hr, hsrc⟩ := backward_match s i _ hi htype rfl h3
    rw [eliminate_pair_eq]
    have hsim := similar_refl_stderr s (s.stderr ++
      [diagnostic "eliminate_dropout" (layerAt s.layers (backward_scan s.layers
        ((layerAt s.layers i).bottoms.getD 0 0) i).toNat).name (layerAt s.layers i).name])
    refine chain_reroute _ _ i (rerouteReady_of_similar _ _ hsim _ _ hr) ?_
      (chain_similar _ _ hsim h)
    intro e
    have hl := hsrc.2.1
    have e2 : (layerAt s.layers (backward_scan s.layers
        ((layerAt s.layers i).bottoms.getD 0 0) i).toNat).tops = [] := e
    rw [e2] at hl
    simp at hl

theorem eliminate_dropout_chain (s : NetOptimize F)
    (h : ProducerConsistent s ∧ SingleReader s ∧ OrderedBottoms s ∧ ConsumerShape s) :
    ProducerConsistent (eliminate_dropout s) ∧ SingleReader (eliminate_dropout s) ∧
      OrderedBottoms (eliminate_dropout s) ∧ ConsumerShape (eliminate_dropout s) := by
  unfold eliminate_dropout
  have := foldl_invariant_mem
    (fun s1 : NetOptimize F => s1.layers.length = s.layers.length ∧
      (ProducerConsistent s1 ∧ SingleReader s1 ∧ OrderedBottoms s1 ∧ ConsumerShape s1))
    eliminate_step (List.range s.layers.length)
    (fun s1 i hi hs => by
      refine ⟨by rw [eliminate_step_length]; exact hs.1, ?_⟩
      exact eliminate_step_chain s1 i (by rw [hs.1]; exact List.mem_range.mp hi) hs.2)
    s ⟨rfl, h⟩
  exact this.2

/-- Every pass keeps the four properties of a chain on a net whose layers of
the producer kind have a top. -/
theorem run_pass_chain (sqrt : F → F) (p : Pass) (s : NetOptimize F)
    (h : ProducerConsistent s ∧ SingleReader s ∧ OrderedBottoms s ∧ ConsumerShape s)
    (htop : ProducerHasTop p s) :
    ProducerConsistent (run_pass sqrt p s) ∧ SingleReader (run_pass sqrt p s) ∧
      OrderedBottoms (run_pass sqrt p s) ∧ ConsumerShape (run_pass sqrt p s) := by
  by_cases hp : p = .eliminate_dropout
  · subst hp
    exact eliminate_dropout_chain s h
  · rw [run_pass_eq_forward sqrt p hp]
    exact forward_pass_chain p.pass_name p.producer_kind p.consumer_test (p.fold sqrt)
      (producer_kind_live p) (consumer_test_kind p) (foldFrame_pass sqrt p) s h htop

end ChainDefined

section DefinedRuns

set_option linter.unusedSectionVars false

variable {F : Type} [Field F] [DecidableEq F]

/-! ## What a successful checked run establishes -/

theorem read_at_some {α : Type} (xs : List α) (i : Nat) (d v : α)
    (h : read_at xs i = some v) : i < xs.length ∧ v = xs.getD i d := by
  unfold read_at at h
  by_cases hi : i < xs.length
  · refine ⟨hi, ?_⟩
    rw [List.getD_eq_getElem?_getD, h]
    rfl
  · rw [List.getElem?_eq_none (Nat.not_lt.mp hi)] at h
    exact absurd h (by simp)

theorem write_at_some {α : Type} (xs : List α) (i : Nat) (v : α) (r : List α)
    (h : write_at xs i v = some r) : i < xs.length ∧ r = xs.set i v := by
  unfold write_at at h
  by_cases hi : i < xs.length
  · rw [if_pos hi] at h
    exact ⟨hi, (Option.some.inj h).symm⟩
  · rw [if_neg hi] at h
    exact absurd h (by simp)

theorem for_checked_split {σ : Type} (l1 l2 : List Nat) (body : σ → Nat → Option σ)
    (init r : σ) (h : for_checked (l1 ++ l2) body init = some r) :
    ∃ m, for_checked l1 body init = some m ∧ for_checked l2 body m = some r := by
  rw [for_checked_append] at h
  exact Option.bind_eq_some.mp h

/-- A property kept by every successful iteration holds at the end of a
successful checked loop. -/
theorem for_checked_invariant {σ : Type} (J : σ → Prop) (l : List Nat)
    (body : σ → Nat → Option σ)
    (hstep : ∀ s i s1, i ∈ l → J s → body s i = some s1 → J s1) :
    ∀ init r, J init → for_checked l body init = some r → J r := by
  induction l with
  | nil =>
    intro init r h0 h
    have e : some init = some r := h
    rw [← Option.some.inj e]
    exact h0
  | cons a t ih =>
    intro init r h0 h
    rw [for_checked_cons] at h
    obtain ⟨m, hm, hr⟩ := Option.bind_eq_some.mp h
    exact ih (fun s i s1 hi => hstep s i s1 (List.mem_cons_of_mem _ hi)) m r
      (hstep init a m (List.mem_cons_self _ _) h0 hm) hr

/-- A successful checked reroute is the reroute. -/
theorem reroute_checked_sound (s : NetOptimize F) (p c : Nat) (r : NetOptimize F)
    (h : reroute_checked s p c = some r) : r = reroute s p c := by
  unfold reroute_checked at h
  obtain ⟨consumer, h1, h⟩ := Option.bind_eq_some.mp h
  obtain ⟨top, h2, h⟩ := Option.bind_eq_some.mp h
  obtain ⟨producer, h3, h⟩ := Option.bind_eq_some.mp h
  obtain ⟨tops, h4, h⟩ := Option.bind_eq_some.mp h
  obtain ⟨layers, h5, h⟩ := Option.bind_eq_some.mp h
  obtain ⟨blob, h6, h⟩ := Option.bind_eq_some.mp h
  obtain ⟨blobs, h7, h⟩ := Option.bind_eq_some.mp h
  obtain ⟨consumer2, h8, h⟩ := Option.bind_eq_some.mp h
  obtain ⟨layers2, h9, h⟩ := Option.bind_eq_some.mp h
  have e1 := (read_at_some _ _ Layer.blank _ h1).2
  subst e1
  have e2 := (read_at_some _ _ 0 _ h2).2
  subst e2
  have e3 := (read_at_some _ _ Layer.blank _ h3).2
  subst e3
  have e4 := (write_at_some _ _ _ _ h4).2
  subst e4
  have e5 := (write_at_some _ _ _ _ h5).2
  subst e5
  have e6 := (read_at_some _ _ Blob.blank _ h6).2
  subst e6
  have e7 := (write_at_some _ _ _ _ h7).2
  subst e7
  have e8 := (read_at_some _ _ Layer.blank _ h8).2
  subst e8
  have e9 := (write_at_some _ _ _ _ h9).2
  subst e9
  exact (Option.some.inj h).symm

/-- What a successful checked iteration of a forward pass establishes: the
layer at `i`, when it has the producer kind, has a top; the number of layers is
kept; and every other layer that fails the consumer test is left as it was. -/
theorem fuse_step_checked_shape (pass_name pt : String) (ic : String → Bool)
    (fold_checked : Layer F → Layer F → Option (Layer F))
    (s : NetOptimize F) (i : Nat) (hi : i < s.layers.length) (r : NetOptimize F)
    (h : fuse_step_checked pass_name pt ic fold_checked s.layers.length s i = some r) :
    ((layerAt s.layers i).type = pt → (layerAt s.layers i).tops ≠ []) ∧
    r.layers.length = s.layers.length ∧
    ∀ k, k ≠ i → ic (layerAt s.layers k).type = false →
      layerAt r.layers k = layerAt s.layers k := by
  unfold fuse_step_checked at h
  rw [read_layer _ i hi] at h
  simp only [Option.some_bind] at h
  by_cases h1 : (layerAt s.layers i).type ≠ pt
  · rw [if_pos h1] at h
    have e : r = s := (Option.some.inj h).symm
    subst e
    exact ⟨fun ht => absurd ht h1, rfl, fun _ _ _ => rfl⟩
  · rw [if_neg h1] at h
    obtain ⟨top, htop, h⟩ := Option.bind_eq_some.mp h
    obtain ⟨hpos, etop⟩ := read_at_some _ _ 0 _ htop
    subst etop
    have hne : (layerAt s.layers i).tops ≠ [] := List.length_pos.mp hpos
    rw [forward_scan_checked_eq _ _ _ _ _ (by omega)] at h
    simp only [Option.some_bind] at h
    by_cases h2 : forward_scan s.layers ic ((layerAt s.layers i).tops.getD 0 0)
        (s.layers.length - (i + 1)) (i + 1) = s.layers.length
    · rw [if_pos h2] at h
      have e : r = s := (Option.some.inj h).symm
      subst e
      exact ⟨fun _ => hne, rfl, fun _ _ _ => rfl⟩
    · rw [if_neg h2] at h
      have hge := forward_scan_ge s.layers ic ((layerAt s.layers i).tops.getD 0 0)
        (s.layers.length - (i + 1)) (i + 1)
      have hle := forward_scan_le s.layers ic ((layerAt s.layers i).tops.getD 0 0)
        (s.layers.length - (i + 1)) (i + 1)
      have hfound := forward_scan_found s.layers ic ((layerAt s.layers i).tops.getD 0 0)
        (s.layers.length - (i + 1)) (i + 1) (by omega)
      unfold fuse_pair_checked at h
      obtain ⟨producer, _, h⟩ := Option.bind_eq_some.mp h
      obtain ⟨consumer, _, h⟩ := Option.bind_eq_some.mp h
      obtain ⟨folded, _, h⟩ := Option.bind_eq_some.mp h
      obtain ⟨layers, hw, h⟩ := Option.bind_eq_some.mp h
      have ew := (write_at_some _ _ _ _ hw).2
      subst ew
      have er := reroute_checked_sound _ _ _ _ h
      subst er
      refine ⟨fun _ => hne, by rw [reroute_length]; simp, ?_⟩
      intro k hki hck
      have hkj : k ≠ forward_scan s.layers ic ((layerAt s.layers i).tops.getD 0 0)
          (s.layers.length - (i + 1)) (i + 1) := by
        intro e
        rw [← e] at hfound
        have := hfound.1
        rw [hck] at this
        exact absurd this (by decide)
      rw [reroute_layer_other _ _ _ k (Ne.symm hki) (Ne.symm hkj)]
      exact layerAt_set_other _ _ _ _ (Ne.symm hki)

theorem range_split (n k : Nat) (hk : k < n) :
    ∃ t, List.range n = List.range k ++ k :: t := by
  have e : n = k + ((n - k - 1) + 1) := by omega
  rw [e, List.range_add, List.range_succ_eq_map, List.map_cons]
  exact ⟨_, rfl⟩

theorem consumer_test_producer (p : Pass) : p.consumer_test p.producer_kind = false := by
  cases p <;> decide

/-- A forward pass whose checked run succeeds was run on a net whose layers of
the producer kind all have a top: the read `layers[i]->tops[0]` at the head of
the iteration on such a layer fails otherwise. -/
theorem forward_pass_checked_top (pass_name pt : String) (ic : String → Bool)
    (fold_checked : Layer F → Layer F → Option (Layer F)) (hicpt : ic pt = false)
    (g r : NetOptimize F)
    (h : forward_pass_checked pass_name pt ic fold_checked g = some r) :
    ∀ k, k < g.layers.length → (layerAt g.layers k).type = pt →
      (layerAt g.layers k).tops ≠ [] := by
  intro k hk hty htops
  unfold forward_pass_checked at h
  obtain ⟨t, ht⟩ := range_split g.layers.length k hk
  rw [ht] at h
  obtain ⟨m, hm1, hm2⟩ := for_checked_split _ _ _ _ _ h
  have hJ := for_checked_invariant
    (fun s : NetOptimize F => s.layers.length = g.layers.length ∧
      (layerAt s.layers k).type = pt ∧ (layerAt s.layers k).tops = [])
    (List.range k) (fuse_step_checked pass_name pt ic fold_checked g.layers.length)
    (fun s i s1 hi hs hstep => by
      obtain ⟨hlen, hty1, htop1⟩ := hs
      have hik : i < k := List.mem_range.mp hi
      rw [← hlen] at hstep
      obtain ⟨_, hl, hsame⟩ := fuse_step_checked_shape pass_name pt ic fold_checked s i
        (by omega) s1 hstep
      have e := hsame k (by omega) (by rw [hty1]; exact hicpt)
      exact ⟨by rw [hl]; exact hlen, by rw [e]; exact hty1, by rw [e]; exact htop1⟩)
    g m ⟨rfl, hty, htops⟩ hm1
  obtain ⟨hlen, hty1, htop1⟩ := hJ
  rw [for_checked_cons] at hm2
  obtain ⟨s1, hs1, _⟩ := Option.bind_eq_some.mp hm2
  rw [← hlen] at hs1
  exact (fuse_step_checked_shape pass_name pt ic fold_checked m k (by omega) s1 hs1).1
    hty1 htop1

/-- On a net whose consumer kinds have one top, a pass whose checked run
succeeds reads `layers[i]->tops[0]` in bounds on every layer of its producer
kind: `ProducerHasTop` holds of every net on which the run of the pass is
defined. -/
theorem defined_run_has_top (sqrt : F → F) (p : Pass) (s r : NetOptimize F)
    (hd : ConsumerShape s) (h : run_pass_checked sqrt p s = some r) :
    ProducerHasTop p s := by
  by_cases hp : p = .eliminate_dropout
  · subst hp
    intro i hi hty e
    have hshape := (hd i hi (by rw [hty]; decide)).2
    rw [e] at hshape
    simp at hshape
  · unfold run_pass_checked at h
    rw [if_neg hp] at h
    exact forward_pass_checked_top p.pass_name p.producer_kind p.consumer_test
      (p.fold_checked sqrt) (consumer_test_producer p) s r h

/-- The run of `fuse_convolution_batchnorm` on `topless_producer_net`, whose
Convolution has no top, is not defined: the read `layers[2]->tops[0]` is out of
bounds. -/
theorem topless_producer_undefined :
    run_pass_checked (fun x => x) Pass.fuse_convolution_batchnorm
      (topless_producer_net : NetOptimize ℚ) = none := by
  decide!

end DefinedRuns

section CheckedSound

set_option linter.unusedSectionVars false

variable {F : Type} [Field F] [DecidableEq F]

/-! ## A successful checked run is the run of the pass -/

/-- A checked loop that succeeds, each of whose successful iterations is the
unchecked iteration and keeps `J`, ends in the result of the unchecked loop. -/
theorem for_checked_sound {σ : Type} (J : σ → Prop) (step : σ → Nat → σ) (l : List Nat)
    (body : σ → Nat → Option σ)
    (hstep : ∀ s i s1, i ∈ l → J s → body s i = some s1 → s1 = step s i ∧ J s1) :
    ∀ init r, J init → for_checked l body init = some r → r = l.foldl step init := by
  induction l with
  | nil =>
    intro init r _ h
    exact (Option.some.inj h).symm
  | cons a t ih =>
    intro init r h0 h
    rw [for_checked_cons] at h
    obtain ⟨m, hm, hr⟩ := Option.bind_eq_some.mp h
    obtain ⟨e, hJ⟩ := hstep init a m (List.mem_cons_self _ _) h0 hm
    rw [List.foldl_cons, ← e]
    exact ih (fun s i s1 hi => hstep s i s1 (List.mem_cons_of_mem _ hi)) m r hJ hr

theorem fill_checked_sound {β : Type} (l : List Nat) (f : Nat → Option β) (g : Nat → β)
    (hf : ∀ i v, f i = some v → v = g i) :
    ∀ r, fill_checked l f = some r → r = l.map g := by
  induction l with
  | nil =>
    intro r h
    exact (Option.some.inj h).symm
  | cons a t ih =>
    intro r h
    unfold fill_checked at h
    cases hfa : f a with
    | none => rw [hfa] at h; exact absurd h (by simp)
    | some v =>
      rw [hfa] at h
      cases hft : fill_checked t f with
      | none => rw [hft] at h; exact absurd h (by simp)
      | some vs =>
        rw [hft] at h
        have e : v :: vs = r := Option.some.inj h
        rw [← e, List.map_cons, ← hf a v hfa, ← ih vs hft]

theorem float_div_some (x y q : F) (h : float_div x y = some q) : q = x / y := by
  unfold float_div at h
  by_cases hy : y = 0
  · rw [if_pos hy] at h; exact absurd h (by simp)
  · rw [if_neg hy] at h; exact (Option.some.inj h).symm

theorem int_div_some (a b q : Int) (h : int_div a b = some q) : q = Int.tdiv a b := by
  unfold int_div at h
  by_cases hb : b = 0
  · rw [if_pos hb] at h; exact absurd h (by simp)
  · rw [if_neg hb] at h; exact (Option.some.inj h).symm

theorem batchnorm_ab_checked_sound (sqrt : F → F) (bn : Layer F) (ab : List F × List F)
    (h : batchnorm_ab_checked sqrt bn = some ab) :
    ab = (batchnorm_a sqrt bn, batchnorm_b sqrt bn) := by
  unfold batchnorm_ab_checked at h
  cases ha : fill_checked (List.range bn.channels.toNat) (fun i =>
      (read_at bn.var_data i).bind fun var_i =>
      let sqrt_var := sqrt (var_i + bn.eps)
      (read_at bn.bias_data i).bind fun bias_i =>
      (read_at bn.slope_data i).bind fun slope_i =>
      (read_at bn.mean_data i).bind fun mean_i =>
      (float_div (slope_i * mean_i) sqrt_var).bind fun q =>
      some (bias_i - q)) with
  | none => rw [ha] at h; exact absurd h (by simp)
  | some a =>
    rw [ha] at h
    cases hb : fill_checked (List.range bn.channels.toNat) (fun i =>
        (read_at bn.var_data i).bind fun var_i =>
        let sqrt_var := sqrt (var_i + bn.eps)
        (read_at bn.slope_data i).bind fun slope_i =>
        float_div slope_i sqrt_var) with
    | none => rw [hb] at h; exact absurd h (by simp)
    | some b =>
      rw [hb] at h
      have e : (a, b) = ab := Option.some.inj h
      rw [← e]
      have ea := fill_checked_sound _ _ (fun i =>
        bn.bias_data.getD i 0
          - bn.slope_data.getD i 0 * bn.mean_data.getD i 0
            / sqrt (bn.var_data.getD i 0 + bn.eps)) (fun i v hv => by
          obtain ⟨var_i, h1, hv⟩ := Option.bind_eq_some.mp hv
          obtain ⟨bias_i, h2, hv⟩ := Option.bind_eq_some.mp hv
          obtain ⟨slope_i, h3, hv⟩ := Option.bind_eq_some.mp hv
          obtain ⟨mean_i, h4, hv⟩ := Option.bind_eq_some.mp hv
          obtain ⟨q, h5, hv⟩ := Option.bind_eq_some.mp hv
          have e1 := (read_at_some _ _ 0 _ h1).2
          subst e1
          have e2 := (read_at_some _ _ 0 _ h2).2
          subst e2
          have e3 := (read_at_some _ _ 0 _ h3).2
          subst e3
          have e4 := (read_at_some _ _ 0 _ h4).2
          subst e4
          have e5 := float_div_some _ _ _ h5
          subst e5
          exact (Option.some.inj hv).symm) a ha
      have eb := fill_checked_sound _ _ (fun i =>
        bn.slope_data.getD i 0 / sqrt (bn.var_data.getD i 0 + bn.eps)) (fun i v hv => by
          obtain ⟨var_i, h1, hv⟩ := Option.bind_eq_some.mp hv
          obtain ⟨slope_i, h3, hv⟩ := Option.bind_eq_some.mp hv
          have e1 := (read_at_some _ _ 0 _ h1).2
          subst e1
          have e3 := (read_at_some _ _ 0 _ h3).2
          subst e3
          exact float_div_some _ _ _ hv) b hb
      rw [ea, eb]
      rfl

theorem scale_outch_checked_sound (w : List F) (base n : Nat) (b : F) (r : List F)
    (h : scale_outch_checked w base n b = some r) : r = scale_outch w base n b := by
  unfold scale_outch_checked at h
  unfold scale_outch
  exact for_checked_sound (fun _ => True)
    (fun (w1 : List F) j => w1.set (base + j) (w1.getD (base + j) 0 * b)) _ _
    (fun s i s1 _ _ hs => by
      obtain ⟨v, h1, hs⟩ := Option.bind_eq_some.mp hs
      rw [(read_at_some _ _ 0 _ h1).2] at hs
      exact ⟨(write_at_some _ _ _ _ hs).2, trivial⟩) w r trivial h

theorem fold_channels_checked_sound (a b : List F) (wpo n : Nat) (w bias : List F)
    (r : List F × List F) (h : fold_channels_checked a b wpo n w bias = some r) :
    r = fold_channels a b wpo n w bias := by
  unfold fold_channels_checked at h
  unfold fold_channels
  exact for_checked_sound (fun _ => True)
    (fun (wb : List F × List F) i =>
      (scale_outch wb.1 (wpo * i) wpo (b.getD i 0), wb.2.set i (wb.2.getD i 0 + a.getD i 0)))
    _ _
    (fun s i s1 _ _ hs => by
      obtain ⟨b_i, h1, hs⟩ := Option.bind_eq_some.mp hs
      obtain ⟨w1, h2, hs⟩ := Option.bind_eq_some.mp hs
      obtain ⟨bias_i, h3, hs⟩ := Option.bind_eq_some.mp hs
      obtain ⟨a_i, h4, hs⟩ := Option.bind_eq_some.mp hs
      obtain ⟨bias1, h5, hs⟩ := Option.bind_eq_some.mp hs
      rw [(read_at_some _ _ 0 _ h1).2] at h2
      rw [(read_at_some _ _ 0 _ h3).2, (read_at_some _ _ 0 _ h4).2] at h5
      rw [scale_outch_checked_sound _ _ _ _ _ h2, (write_at_some _ _ _ _ h5).2] at hs
      exact ⟨(Option.some.inj hs).symm, trivial⟩) (w, bias) r trivial h

theorem fold_batchnorm_checked_sound (sqrt : F → F) (cv bn r : Layer F)
    (h : fold_batchnorm_checked sqrt cv bn = some r) : r = fold_batchnorm sqrt cv bn := by
  unfold fold_batchnorm_checked at h
  obtain ⟨ab, h1, h⟩ := Option.bind_eq_some.mp h
  obtain ⟨wpo, h2, h⟩ := Option.bind_eq_some.mp h
  obtain ⟨wb, h3, h⟩ := Option.bind_eq_some.mp h
  have e1 := batchnorm_ab_checked_sound sqrt bn ab h1
  subst e1
  have e2 := int_div_some _ _ _ h2
  subst e2
  have e3 := fold_channels_checked_sound _ _ _ _ _ _ _ h3
  subst e3
  exact (Option.some.inj h).symm

theorem scale_channels_checked_sound (scale : Layer F) (n : Nat) (slope bias : List F)
    (r : List F × List F) (h : scale_channels_checked scale n slope bias = some r) :
    r = scale_channels scale n slope bias := by
  unfold scale_channels_checked at h
  unfold scale_channels
  exact for_checked_sound (fun _ => True)
    (fun (sb : List F × List F) q =>
      (sb.1.set q (sb.1.getD q 0 * scale.scale_data.getD q 0),
       if scale.bias_term ≠ 0 then
         sb.2.set q (sb.2.getD q 0 * scale.scale_data.getD q 0 + scale.bias_data.getD q 0)
       else
         sb.2.set q (sb.2.getD q 0 * scale.scale_data.getD q 0)))
    _ _
    (fun s q s1 _ _ hs => by
      refine ⟨?_, trivial⟩
      obtain ⟨slope_q, h1, hs⟩ := Option.bind_eq_some.mp hs
      obtain ⟨scale_q, h2, hs⟩ := Option.bind_eq_some.mp hs
      obtain ⟨slope1, h3, hs⟩ := Option.bind_eq_some.mp hs
      obtain ⟨bias_q, h4, hs⟩ := Option.bind_eq_some.mp hs
      rw [(read_at_some _ _ 0 _ h1).2, (read_at_some _ _ 0 _ h2).2] at h3
      have e3 := (write_at_some _ _ _ _ h3).2
      have e2 := (read_at_some _ _ 0 _ h2).2
      have e4 := (read_at_some _ _ 0 _ h4).2
      by_cases hbt : scale.bias_term ≠ 0
      · rw [if_pos hbt] at hs
        obtain ⟨sbq, h5, hs⟩ := Option.bind_eq_some.mp hs
        obtain ⟨bias1, h6, hs⟩ := Option.bind_eq_some.mp hs
        rw [e4, e2, (read_at_some _ _ 0 _ h5).2] at h6
        have e6 := (write_at_some _ _ _ _ h6).2
        show s1 = (_, ite _ _ _)
        rw [if_pos hbt, ← e3, ← e6]
        exact (Option.some.inj hs).symm
      · rw [if_neg hbt] at hs
        obtain ⟨bias1, h6, hs⟩ := Option.bind_eq_some.mp hs
        rw [e4, e2] at h6
        have e6 := (write_at_some _ _ _ _ h6).2
        show s1 = (_, ite _ _ _)
        rw [if_neg hbt, ← e3, ← e6]
        exact (Option.some.inj hs).symm) (slope, bias) r trivial h

theorem fold_scale_checked_sound (bn sc r : Layer F)
    (h : fold_scale_checked bn sc = some r) : r = fold_scale bn sc := by
  unfold fold_scale_checked at h
  obtain ⟨sb, h1, h⟩ := Option.bind_eq_some.mp h
  have e := scale_channels_checked_sound _ _ _ _ _ h1
  subst e
  exact (Option.some.inj h).symm

theorem fold_activation_checked_sound (cv act r : Layer F)
    (h : fold_activation_checked cv act = some r) : r = fold_activation cv act := by
  rw [fold_activation_checked_eq] at h
  exact (Option.some.inj h).symm

/-- A checked numeric block that succeeds yields the result of the numeric
block. -/
theorem fold_checked_sound (sqrt : F → F) (p : Pass) (producer consumer r : Layer F)
    (h : p.fold_checked sqrt producer consumer = some r) :
    r = p.fold sqrt producer consumer := by
  cases p
  · exact fold_scale_checked_sound _ _ _ h
  · exact fold_batchnorm_checked_sound sqrt _ _ _ h
  · exact fold_batchnorm_checked_sound sqrt _ _ _ h
  · exact fold_batchnorm_checked_sound sqrt _ _ _ h
  · exact fold_batchnorm_checked_sound sqrt _ _ _ h
  · exact fold_batchnorm_checked_sound sqrt _ _ _ h
  · exact fold_activation_checked_sound _ _ _ h
  · exact fold_activation_checked_sound _ _ _ h
  · exact fold_activation_checked_sound _ _ _ h
  · exact fold_activation_checked_sound _ _ _ h
  · exact fold_activation_checked_sound _ _ _ h
  · exact (Option.some.inj h).symm

end CheckedSound

section CheckedSoundPasses

set_option linter.unusedSectionVars false

variable {F : Type} [Field F] [DecidableEq F]

theorem fuse_pair_checked_sound (pass_name : String)
    (fold_checked : Layer F → Layer F → Option (Layer F))
    (fold : Layer F → Layer F → Layer F)
    (hfold : ∀ a b x, fold_checked a b = some x → x = fold a b)
    (s : NetOptimize F) (i j : Nat) (r : NetOptimize F)
    (h : fuse_pair_checked pass_name fold_checked s i j = some r) :
    r = fuse_pair pass_name fold s i j := by
  unfold fuse_pair_checked at h
  obtain ⟨producer, h1, h⟩ := Option.bind_eq_some.mp h
  obtain ⟨consumer, h2, h⟩ := Option.bind_eq_some.mp h
  obtain ⟨folded, h3, h⟩ := Option.bind_eq_some.mp h
  obtain ⟨layers, h4, h⟩ := Option.bind_eq_some.mp h
  have e1 : producer = layerAt s.layers i := (read_at_some _ _ Layer.blank _ h1).2
  subst e1
  have e2 : consumer = layerAt s.layers j := (read_at_some _ _ Layer.blank _ h2).2
  subst e2
  have e3 := hfold _ _ _ h3
  subst e3
  have e4 := (write_at_some _ _ _ _ h4).2
  subst e4
  rw [fuse_pair_eq]
  exact reroute_checked_sound _ _ _ _ h

theorem fuse_step_checked_sound (pass_name pt : String) (ic : String → Bool)
    (fold_checked : Layer F → Layer F → Option (Layer F))
    (fold : Layer F → Layer F → Layer F)
    (hfold : ∀ a b x, fold_checked a b = some x → x = fold a b)
    (s : NetOptimize F) (i : Nat) (hi : i < s.layers.length) (r : NetOptimize F)
    (h : fuse_step_checked pass_name pt ic fold_checked s.layers.length s i = some r) :
    r = fuse_step pass_name pt ic fold s.layers.length s i := by
  unfold fuse_step_checked at h
  rw [read_layer _ i hi] at h
  simp only [Option.some_bind] at h
  rw [fuse_step_eq]
  by_cases h1 : (layerAt s.layers i).type ≠ pt
  · rw [if_pos h1] at h ⊢
    exact (Option.some.inj h).symm
  · rw [if_neg h1] at h ⊢
    obtain ⟨top, htop, h⟩ := Option.bind_eq_some.mp h
    have etop := (read_at_some _ _ 0 _ htop).2
    subst etop
    rw [forward_scan_checked_eq _ _ _ _ _ (by omega)] at h
    simp only [Option.some_bind] at h
    by_cases h2 : forward_scan s.layers ic ((layerAt s.layers i).tops.getD 0 0)
        (s.layers.length - (i + 1)) (i + 1) = s.layers.length
    · rw [if_pos h2] at h ⊢
      exact (Option.some.inj h).symm
    · rw [if_neg h2] at h ⊢
      exact fuse_pair_checked_sound pass_name fold_checked fold hfold s i _ r h

theorem forward_pass_checked_sound (pass_name pt : String) (ic : String → Bool)
    (fold_checked : Layer F → Layer F → Option (Layer F))
    (fold : Layer F → Layer F → Layer F)
    (hfold : ∀ a b x, fold_checked a b = some x → x = fold a b)
    (g r : NetOptimize F)
    (h : forward_pass_checked pass_name pt ic fold_checked g = some r) :
    r = forward_pass pass_name pt ic fold g := by
  unfold forward_pass_checked at h
  unfold forward_pass
  exact for_checked_sound (fun s : NetOptimize F => s.layers.length = g.layers.length)
    (fuse_step pass_name pt ic fold g.layers.length) _ _
    (fun s i s1 hi hlen hs => by
      have hlen1 : s.layers.length = g.layers.length := hlen
      have hi1 : i < s.layers.length := by rw [hlen1]; exact List.mem_range.mp hi
      rw [← hlen1] at hs
      have e := fuse_step_checked_sound pass_name pt ic fold_checked fold hfold s i hi1 s1 hs
      rw [hlen1] at e
      refine ⟨e, ?_⟩
      show s1.layers.length = g.layers.length
      rw [e, fuse_step_length]
      exact hlen1) g r rfl h

theorem eliminate_step_checked_sound (s : NetOptimize F) (i : Nat)
    (hi : i < s.layers.length) (r : NetOptimize F)
    (h : eliminate_step_checked s i = some r) : r = eliminate_step s i := by
  unfold eliminate_step_checked at h
  rw [read_layer _ i hi] at h
  simp only [Option.some_bind] at h
  rw [eliminate_step_eq]
  by_cases h1 : (layerAt s.layers i).type ≠ "Dropout"
  · rw [if_pos h1] at h ⊢
    exact (Option.some.inj h).symm
  · rw [if_neg h1] at h ⊢
    by_cases h2 : (layerAt s.layers i).scale ≠ 1
    · rw [if_pos h2] at h ⊢
      exact (Option.some.inj h).symm
    · rw [if_neg h2] at h ⊢
      obtain ⟨bottom, hbot, h⟩ := Option.bind_eq_some.mp h
      have ebot := (read_at_some _ _ 0 _ hbot).2
      subst ebot
      rw [backward_scan_checked_eq _ _ _ (le_of_lt hi)] at h
      simp only [Option.some_bind] at h
      by_cases h3 : backward_scan s.layers ((layerAt s.layers i).bottoms.getD 0 0) i = -1
      · rw [if_pos h3] at h ⊢
        exact (Option.some.inj h).symm
      · rw [if_neg h3] at h ⊢
        unfold eliminate_pair_checked at h
        obtain ⟨any, ha, h⟩ := Option.bind_eq_some.mp h
        obtain ⟨dropout, hd, h⟩ := Option.bind_eq_some.mp h
        have e1 : any = layerAt s.layers _ := (read_at_some _ _ Layer.blank _ ha).2
        subst e1
        have e2 : dropout = layerAt s.layers i := (read_at_some _ _ Layer.blank _ hd).2
        subst e2
        rw [eliminate_pair_eq]
        exact reroute_checked_sound _ _ _ _ h

theorem eliminate_dropout_checked_sound (g r : NetOptimize F)
    (h : eliminate_dropout_checked g = some r) : r = eliminate_dropout g := by
  unfold eliminate_dropout_checked at h
  unfold eliminate_dropout
  exact for_checked_sound (fun s : NetOptimize F => s.layers.length = g.layers.length)
    eliminate_step _ _
    (fun s i s1 hi hlen hs => by
      have hlen1 : s.layers.length = g.layers.length := hlen
      have hi1 : i < s.layers.length := by rw [hlen1]; exact List.mem_range.mp hi
      have e := eliminate_step_checked_sound s i hi1 s1 hs
      refine ⟨e, ?_⟩
      show s1.layers.length = g.layers.length
      rw [e, eliminate_step_length]
      exact hlen1) g r rfl h

/-- A pass whose checked run succeeds leaves the state the pass leaves: on
every net on which the run is defined the checked and the unchecked embedding
agree. -/
theorem run_pass_checked_sound (sqrt : F → F) (p : Pass) (s r : NetOptimize F)
    (h : run_pass_checked sqrt p s = some r) : r = run_pass sqrt p s := by
  unfold run_pass_checked at h
  by_cases hp : p = .eliminate_dropout
  · rw [if_pos hp] at h
    subst hp
    exact eliminate_dropout_checked_sound s r h
  · rw [if_neg hp] at h
    rw [run_pass_eq_forward sqrt p hp]
    exact forward_pass_checked_sound p.pass_name p.producer_kind p.consumer_test
      (p.fold_checked sqrt) (p.fold sqrt) (fold_checked_sound sqrt p) s r h

/-- Every defined run of a pass on a net with the four properties of a chain
ends in a net with the four properties. -/
theorem defined_run_chain (sqrt : F → F) (p : Pass) (s r : NetOptimize F)
    (h : ProducerConsistent s ∧ SingleReader s ∧ OrderedBottoms s ∧ ConsumerShape s)
    (hrun : run_pass_checked sqrt p s = some r) :
    r = run_pass sqrt p s ∧
      ProducerConsistent r ∧ SingleReader r ∧ OrderedBottoms r ∧ ConsumerShape r := by
  have e := run_pass_checked_sound sqrt p s r hrun
  refine ⟨e, ?_⟩
  rw [e]
  exact run_pass_chain sqrt p s h (defined_run_has_top sqrt p s r h.2.2.2 hrun)

end CheckedSoundPasses

section ChainConsistency

set_option linter.unusedSectionVars false

variable {F : Type} [Field F] [DecidableEq F]

/-- C34: consistency under the chain precondition.  If before a pass (a) every
top of a live layer has that layer as `blobs[.].producer`, (b) every blob is a
bottom of at most one live layer, (c) every bottom of a live layer is a top of a
live layer with a smaller index, and (d) every layer of a consumer kind (Scale,
BatchNorm, ReLU, Clip, Dropout) has exactly one bottom and one top, then (a),
(b), (c) and (d) hold again after each fusion pass and after
`eliminate_dropout`.  The parameter file written by `save` for the result is the
header followed by the lines of the live layers in load order, and every bottom
blob name of a live layer is a top blob name of a live layer with a smaller
index, whose line stands earlier in the file.  The hypothesis `ProducerHasTop`
says that the read `layers[i]->tops[0]` at the head of each iteration of the
pass is in bounds.  It follows from (d) for `fuse_batchnorm_scale` and
`eliminate_dropout`, and it holds of every net on which the run of the pass is
defined (`defined_run_has_top`), so that every defined run started from (a) to
(d) ends in (a) to (d) (`defined_run_chain`). -/
theorem chain_consistency (sqrt : F → F) (fmt_f : F → String) (int_bits : F → Int)
    (create_layer : Int → Layer F) (p : Pass) (s : NetOptimize F)
    (ha : ProducerConsistent s) (hb : SingleReader s) (hc : OrderedBottoms s)
    (hd : ConsumerShape s) (hdefined : ProducerHasTop p s) :
    ProducerConsistent (run_pass sqrt p s) ∧ SingleReader (run_pass sqrt p s) ∧
    OrderedBottoms (run_pass sqrt p s) ∧ ConsumerShape (run_pass sqrt p s) ∧
    (save fmt_f int_bits create_layer (run_pass sqrt p s)).pp =
      "7767517\n"
        ++ (toString (live_count (run_pass sqrt p s)) ++ " "
          ++ toString (referenced_names (run_pass sqrt p s)).toFinset.card ++ "\n")
        ++ String.join ((live_layers (run_pass sqrt p s)).map fun l =>
            spec_layer_line (run_pass sqrt p s) l
              (param_text fmt_f int_bits l (create_layer l.typeindex) (layer_branch l.type))) ∧
    ∀ k, k < (run_pass sqrt p s).layers.length →
      (layerAt (run_pass sqrt p s).layers k).type ≠ "ncnnfused" →
      ∀ b ∈ (layerAt (run_pass sqrt p s).layers k).bottoms,
        ∃ m, m < k ∧ (layerAt (run_pass sqrt p s).layers m).type ≠ "ncnnfused" ∧
          blob_name (run_pass sqrt p s) b
            ∈ (layerAt (run_pass sqrt p s).layers m).tops.map (blob_name (run_pass sqrt p s)) := by
  obtain ⟨h1, h2, h3, h4⟩ := run_pass_chain sqrt p s ⟨ha, hb, hc, hd⟩ hdefined
  refine ⟨h1, h2, h3, h4, save_pp fmt_f int_bits create_layer _, ?_⟩
  intro k hk hl b hbm
  obtain ⟨m, hm, hml, hmt⟩ := h3 k hk hl b hbm
  exact ⟨m, hm, hml, List.mem_map_of_mem _ hmt⟩

/-- C34 on the chain `Input -> Convolution -> BatchNorm -> ReLU -> Dropout` and
the pass `fuse_convolution_batchnorm`, which fuses the BatchNorm: the four
properties hold before the pass, its run is defined, and after the pass the
bottoms are still ordered. -/
theorem chain_consistency_witness :
    (ProducerConsistent (chain_net : NetOptimize ℚ) ∧ SingleReader (chain_net : NetOptimize ℚ) ∧
      OrderedBottoms (chain_net : NetOptimize ℚ) ∧ ConsumerShape (chain_net : NetOptimize ℚ) ∧
      ProducerHasTop Pass.fuse_convolution_batchnorm (chain_net : NetOptimize ℚ)) ∧
    (run_pass_checked (fun x => x) Pass.fuse_convolution_batchnorm
      (chain_net : NetOptimize ℚ)).isSome = true ∧
    (layerAt (run_pass (fun x => x) Pass.fuse_convolution_batchnorm
      (chain_net : NetOptimize ℚ)).layers 2).type = "ncnnfused" ∧
    OrderedBottoms (run_pass (fun x => x) Pass.fuse_convolution_batchnorm
      (chain_net : NetOptimize ℚ)) :=
  ⟨by decide, by decide!, by decide,
    (chain_consistency (fun x => x) fmt_f6 (fun _ => 0) unit_scale_defaults
      Pass.fuse_convolution_batchnorm (chain_net : NetOptimize ℚ) (by decide) (by decide)
      (by decide) (by decide) (by decide)).2.2.1⟩

end ChainConsistency

end NcnnOptimize
